import Mathlib

/-!
# bplib: the robin-hood hash index of `common/rh_hash.c`

A shallow embedding of `rh_hash.c`.  The slot array is a map from indices to
nodes; every C assignment `rh_hash->table[i].f = v` is one `upd` step, in the
order of the source.  Loops over the `next` links carry a fuel argument.
-/

namespace RhHash

/-! ## Types -/

/-- Modelled from the spec: the integer types of `bplib_os.h` and `rh_hash.h`,
which are not part of the sources at hand.  `BP_MAX_INDEX` is the bound on the
table size and the value of the `NULL_INDEX` sentinel (taken as the largest
value of `bp_index_t`, so that `num_entries` counts modulo `BP_MAX_INDEX + 1`);
`CHAIN_MOD` is the number of values of the unsigned type of `chain` and
`max_chain` (at least 2 for any unsigned type).  The general theorems below
hold for all values of both. -/
structure rh_types_t where
  BP_MAX_INDEX : Nat
  CHAIN_MOD : Nat
deriving DecidableEq, Repr

/-- Modelled from the spec: the return codes of `rh_hash.h` (absent), kept
as distinct symbolic values. -/
inductive rh_status_t where
  | RH_SUCCESS
  | RH_KEY_NOT_FOUND
  | RH_INSERT_DUPLICATE
  | RH_HASH_FULL
  | RH_INVALID_HASH_SIZE
  | RH_MEMORY_ERROR
deriving DecidableEq, Repr

/-- Modelled from the spec: `rh_hash_node_t` of `rh_hash.h` (absent), with the
per-slot fields that `rh_hash.c` reads and writes.  `data` is the opaque
pointer, kept as a number. -/
structure rh_hash_node_t where
  key : Nat
  data : Nat
  next : Nat
  prev : Nat
  after : Nat
  before : Nat
  hash : Nat
  chain : Nat
deriving DecidableEq, Repr

/-- Modelled from the spec: `rh_hash_t` of `rh_hash.h` (absent).  `table` is
the memory the `table` pointer addresses: the cells `0 .. size-1` are the
allocated slots, and the cell at `NULL_INDEX` stands for the memory an access
`table[NULL_INDEX]` of the source touches, which lies beyond the allocation. -/
structure rh_hash_t where
  table : Nat → rh_hash_node_t
  size : Nat
  num_entries : Nat
  oldest_entry : Nat
  newest_entry : Nat
  max_chain : Nat

/-- The `EMPTY_ENTRY` define of rh_hash.c. -/
def EMPTY_ENTRY : Nat := 0

/-- The `NULL_INDEX` define of rh_hash.c, which is `BP_MAX_INDEX`. -/
def NULL_INDEX (P : rh_types_t) : Nat := P.BP_MAX_INDEX

/-- One assignment to a field of `table[i]`: the node at `i` becomes `f` of
the node that was there, every other cell is kept. -/
def upd (t : Nat → rh_hash_node_t) (i : Nat) (f : rh_hash_node_t → rh_hash_node_t) :
    Nat → rh_hash_node_t :=
  fun j => if j = i then f (t j) else t j

/-! ## hash_key -/

/-- The body of the loop of `hash_key` for one byte, on 32-bit words. -/
def hash_mix (h byte : Nat) : Nat :=
  let h := (h + byte) % 4294967296
  let h := (h + (h <<< 10) % 4294967296) % 4294967296
  h ^^^ (h >>> 6)

/-- The loop of `hash_key` over the bytes of the key, lowest byte first
(the key is read through a byte pointer on a little-endian machine). -/
def hash_key_loop : Nat → Nat → Nat → Nat
  | 0, _, h => h
  | n + 1, key, h => hash_key_loop n (key / 256) (hash_mix h (key % 256))

/-- The function `hash_key` of rh_hash.c: a one-at-a-time hash over the
8 bytes of the key. -/
def hash_key (key : Nat) : Nat :=
  let h := hash_key_loop 8 key 0
  let h := (h + (h <<< 3) % 4294967296) % 4294967296
  let h := h ^^^ (h >>> 11)
  let h := (h + (h <<< 15) % 4294967296) % 4294967296
  h

/-! ## get_node -/

/-- The `while(index != NULL_INDEX)` loop of `get_node`: `none` when the fuel
runs out before the loop ends. -/
def get_node_loop (P : rh_types_t) (t : Nat → rh_hash_node_t) (key : Nat) :
    Nat → Nat → Option Nat
  | 0, index => if index = NULL_INDEX P then some (NULL_INDEX P) else none
  | fuel + 1, index =>
    if index = NULL_INDEX P then some (NULL_INDEX P)
    else if (t index).key ≠ key then get_node_loop P t key fuel (t index).next
    else some index

/-- The function `get_node` of rh_hash.c.  The walk gets `size` steps of fuel:
a walk over links that stay inside the table and has not ended after `size`
steps has come back to a slot it already visited. -/
def get_node (P : rh_types_t) (h : rh_hash_t) (key : Nat) : Option Nat :=
  let index := hash_key key % h.size
  if (h.table index).chain ≠ EMPTY_ENTRY then
    get_node_loop P h.table key h.size index
  else some (NULL_INDEX P)

/-! ## overwrite_node, write_node -/

/-- The function `overwrite_node` of rh_hash.c. -/
def overwrite_node (P : rh_types_t) (h : rh_hash_t) (index data : Nat) (overwrite : Bool) :
    rh_status_t × rh_hash_t :=
  if overwrite then
    let t := upd h.table index (fun n => { n with data := data })
    let before_index := (t index).before
    let after_index := (t index).after
    let t := if before_index ≠ NULL_INDEX P
      then upd t before_index (fun n => { n with after := after_index }) else t
    let oldest := if index = h.oldest_entry then (t index).after else h.oldest_entry
    let t := upd t index (fun n => { n with after := NULL_INDEX P })
    let t := upd t index (fun n => { n with before := h.newest_entry })
    (rh_status_t.RH_SUCCESS,
      { h with table := t, oldest_entry := oldest, newest_entry := index })
  else
    (rh_status_t.RH_INSERT_DUPLICATE, h)

/-- The function `write_node` of rh_hash.c.  The store of line 139,
`table[newest_entry].after = index`, is not guarded: on the first insertion
`newest_entry` is `NULL_INDEX`, an index beyond the allocated slots, and the
store is an access outside of the table (undefined behaviour of the C
program).  The flat memory of the model lets that store land in the cell
`NULL_INDEX`; `write_node_in_bounds` below tells whether the accesses of a call
stay within the table. -/
def write_node (P : rh_types_t) (h : rh_hash_t) (index key data hash : Nat) : rh_hash_t :=
  let t := h.table
  let t := upd t index (fun n => { n with key := key })
  let t := upd t index (fun n => { n with data := data })
  let t := upd t index (fun n => { n with hash := hash })
  let t := upd t index (fun n => { n with chain := (n.chain + 1) % P.CHAIN_MOD })
  let t := upd t index (fun n => { n with next := NULL_INDEX P })
  let t := upd t index (fun n => { n with prev := NULL_INDEX P })
  let t := upd t index (fun n => { n with after := NULL_INDEX P })
  let t := upd t index (fun n => { n with before := h.newest_entry })
  let oldest := if h.oldest_entry = NULL_INDEX P then index else h.oldest_entry
  let t := upd t h.newest_entry (fun n => { n with after := index })
  { h with table := t, oldest_entry := oldest, newest_entry := index }

/-- The indices at which `write_node` accesses `table` (lines 128-139): the
slot `index`, and `newest_entry` in the store of line 139, which no test
guards. -/
def write_node_indices (h : rh_hash_t) (index : Nat) : List Nat :=
  [index, h.newest_entry]

/-- Every access of a call of `write_node` lies within the `size` allocated
slots of the table. -/
def write_node_in_bounds (h : rh_hash_t) (index : Nat) : Prop :=
  ∀ i ∈ write_node_indices h index, i < h.size

instance (h : rh_hash_t) (index : Nat) : Decidable (write_node_in_bounds h index) :=
  inferInstanceAs (Decidable (∀ i ∈ write_node_indices h index, i < h.size))

/-! ## rh_hash_create -/

/-- The function `rh_hash_create` of rh_hash.c.  `malloc` is what the
allocation returns: `none` for a failed allocation, otherwise the (arbitrary)
content of the fresh memory.  The input structure is returned as it was on the
error paths. -/
def rh_hash_create (P : rh_types_t) (rh_hash : rh_hash_t) (hash_size : Int)
    (malloc : Option (Nat → rh_hash_node_t)) : rh_status_t × rh_hash_t :=
  if hash_size ≤ 0 ∨ hash_size > (P.BP_MAX_INDEX : Int) then
    (rh_status_t.RH_INVALID_HASH_SIZE, rh_hash)
  else
    match malloc with
    | none => (rh_status_t.RH_MEMORY_ERROR, rh_hash)
    | some mem =>
      (rh_status_t.RH_SUCCESS,
        { table := fun i => if i < hash_size.toNat
            then { mem i with chain := EMPTY_ENTRY } else mem i
          size := hash_size.toNat
          num_entries := 0
          oldest_entry := NULL_INDEX P
          newest_entry := NULL_INDEX P
          max_chain := 0 })

/-! ## rh_hash_add -/

/-- The loop of `rh_hash_add` that looks for the first open slot, from
`open_index` on, stopping at `curr_index`. -/
def find_open_loop (t : Nat → rh_hash_node_t) (size curr_index : Nat) : Nat → Nat → Option Nat
  | 0, open_index =>
    if (t open_index).chain ≠ EMPTY_ENTRY ∧ open_index ≠ curr_index then none
    else some open_index
  | fuel + 1, open_index =>
    if (t open_index).chain ≠ EMPTY_ENTRY ∧ open_index ≠ curr_index then
      find_open_loop t size curr_index fuel ((open_index + 1) % size)
    else some open_index

/-- The two loops of `rh_hash_add` that scan a chain for a duplicate of `key`
(lines 232-243 and 263-273): the result is `Sum.inl i` when slot `i` holds
`key`, and `Sum.inr prev_index` with the last slot visited when the chain
ends. -/
def scan_chain_loop (P : rh_types_t) (t : Nat → rh_hash_node_t) (key : Nat) :
    Nat → Nat → Nat → Option (Nat ⊕ Nat)
  | 0, prev_index, next_index =>
    if next_index = NULL_INDEX P then some (Sum.inr prev_index) else none
  | fuel + 1, prev_index, next_index =>
    if next_index = NULL_INDEX P then some (Sum.inr prev_index)
    else if (t next_index).key = key then some (Sum.inl next_index)
    else scan_chain_loop P t key fuel next_index (t next_index).next

/-- The loop of `rh_hash_add` that walks to the end of the chain and
decrements every `chain` on its way (lines 280-288); it returns the table and
the last `prev_index`. -/
def decrement_chain_loop (P : rh_types_t) :
    Nat → (Nat → rh_hash_node_t) → Nat → Nat → Option ((Nat → rh_hash_node_t) × Nat)
  | 0, t, prev_index, next_index =>
    if next_index = NULL_INDEX P then some (t, prev_index) else none
  | fuel + 1, t, prev_index, next_index =>
    if next_index = NULL_INDEX P then some (t, prev_index)
    else
      let t := upd t next_index
        (fun n => { n with chain := (n.chain + P.CHAIN_MOD - 1) % P.CHAIN_MOD })
      decrement_chain_loop P fuel t next_index (t next_index).next

/-- Lines 245-257 of `rh_hash_add`: the entry is written into the open slot
and linked behind `prev_index`, the end of the chain. -/
def add_at_end_of_chain (P : rh_types_t) (h : rh_hash_t) (key data hash : Nat)
    (open_index prev_index : Nat) : rh_hash_t :=
  let curr_index := open_index
  let h := write_node P h curr_index key data hash
  let t := upd h.table prev_index (fun n => { n with next := curr_index })
  let t := upd t curr_index (fun n => { n with prev := prev_index })
  let max_chain :=
    if (t curr_index).chain > h.max_chain then (t curr_index).chain else h.max_chain
  { h with table := t, max_chain := max_chain }

/-- Lines 275-277 of `rh_hash_add`: the current slot is bridged over. -/
def bridge_over_current (P : rh_types_t) (t : Nat → rh_hash_node_t)
    (prev_index next_index : Nat) : Nat → rh_hash_node_t :=
  let t := if next_index ≠ NULL_INDEX P
    then upd t next_index (fun n => { n with prev := prev_index }) else t
  upd t prev_index (fun n => { n with next := next_index })

/-- Lines 290-312 of `rh_hash_add`: the current slot is copied to the open
slot at the end of the chain (`t` and `prev_index` are what the decrementing
walk left), and the new entry is written. -/
def copy_current_to_open (P : rh_types_t) (h : rh_hash_t) (t : Nat → rh_hash_node_t)
    (key data hash : Nat) (curr_index open_index prev_index : Nat) : rh_hash_t :=
  let t := upd t prev_index (fun n => { n with next := open_index })
  let t := upd t open_index (fun n => { n with key := (t curr_index).key })
  let t := upd t open_index (fun n => { n with data := (t curr_index).data })
  let t := upd t open_index
    (fun n => { n with chain := ((t prev_index).chain + 1) % P.CHAIN_MOD })
  let t := upd t open_index (fun n => { n with hash := (t curr_index).hash })
  let t := upd t open_index (fun n => { n with next := NULL_INDEX P })
  let t := upd t open_index (fun n => { n with prev := prev_index })
  let t := upd t open_index (fun n => { n with after := (t curr_index).after })
  let t := upd t open_index (fun n => { n with before := (t curr_index).before })
  let oldest := if h.oldest_entry = curr_index then open_index else h.oldest_entry
  let max_chain :=
    if (t open_index).chain > h.max_chain then (t open_index).chain else h.max_chain
  let h := write_node P
    { h with table := t, oldest_entry := oldest, max_chain := max_chain }
    open_index key data hash
  let t := upd h.table curr_index (fun n => { n with chain := 1 })
  { h with table := t }

/-- Lines 223-313 of `rh_hash_add`: the insertion once an open slot is found. -/
def add_collision (P : rh_types_t) (h : rh_hash_t) (key data hash : Nat) (overwrite : Bool)
    (curr_index open_index : Nat) : Option (rh_status_t × rh_hash_t) :=
  let next_index := (h.table curr_index).next
  let prev_index := (h.table curr_index).prev
  if (h.table curr_index).chain = 1 then
    match scan_chain_loop P h.table key h.size curr_index next_index with
    | none => none
    | some (Sum.inl dup_index) => some (overwrite_node P h dup_index data overwrite)
    | some (Sum.inr prev_index) =>
      some (rh_status_t.RH_SUCCESS,
        add_at_end_of_chain P h key data hash open_index prev_index)
  else
    match scan_chain_loop P h.table key h.size prev_index next_index with
    | none => none
    | some (Sum.inl scan_index) => some (overwrite_node P h scan_index data overwrite)
    | some (Sum.inr _) =>
      match decrement_chain_loop P h.size
          (bridge_over_current P h.table prev_index next_index) prev_index next_index with
      | none => none
      | some (t, prev_index) =>
        some (rh_status_t.RH_SUCCESS,
          copy_current_to_open P h t key data hash curr_index open_index prev_index)

/-- The function `rh_hash_add` of rh_hash.c: the status and the table after
the call, `none` when one of the chain walks does not end. -/
def rh_hash_add (P : rh_types_t) (h : rh_hash_t) (key data : Nat) (overwrite : Bool) :
    Option (rh_status_t × rh_hash_t) :=
  let hash := hash_key key
  let curr_index := hash % h.size
  if (h.table curr_index).chain = EMPTY_ENTRY then
    some (rh_status_t.RH_SUCCESS, write_node P h curr_index key data hash)
  else if (h.table curr_index).key = key then
    some (overwrite_node P h curr_index data overwrite)
  else
    match find_open_loop h.table h.size curr_index h.size ((curr_index + 1) % h.size) with
    | none => none
    | some open_index =>
      if open_index = curr_index then some (rh_status_t.RH_HASH_FULL, h)
      else add_collision P h key data hash overwrite curr_index open_index

/-! ## rh_hash_get -/

/-- The function `rh_hash_get` of rh_hash.c: the status and the data written
through the `data` pointer (`none` when nothing is written). -/
def rh_hash_get (P : rh_types_t) (h : rh_hash_t) (key : Nat) :
    Option (rh_status_t × Option Nat) :=
  match get_node P h key with
  | none => none
  | some index =>
    if index ≠ NULL_INDEX P then some (rh_status_t.RH_SUCCESS, some (h.table index).data)
    else some (rh_status_t.RH_KEY_NOT_FOUND, none)

/-! ## rh_hash_remove -/

/-- The loop of `rh_hash_remove` that decrements `chain` down the rest of the
chain (lines 383-387). -/
def remove_chain_loop (P : rh_types_t) :
    Nat → (Nat → rh_hash_node_t) → Nat → Option (Nat → rh_hash_node_t)
  | 0, t, next_index => if next_index = NULL_INDEX P then some t else none
  | fuel + 1, t, next_index =>
    if next_index = NULL_INDEX P then some t
    else
      let t := upd t next_index
        (fun n => { n with chain := (n.chain + P.CHAIN_MOD - 1) % P.CHAIN_MOD })
      remove_chain_loop P fuel t (t next_index).next

/-- Lines 354-365 of `rh_hash_remove`: the next item of the chain is copied
into the slot of the removed entry; the result is the table and the
`next_index` for the later walk. -/
def remove_copy_next (P : rh_types_t) (t : Nat → rh_hash_node_t) (index next_index : Nat) :
    (Nat → rh_hash_node_t) × Nat :=
  let t := upd t next_index (fun n => { n with chain := EMPTY_ENTRY })
  let t := upd t index (fun n => { n with key := (t next_index).key })
  let t := upd t index (fun n => { n with data := (t next_index).data })
  let t := upd t index (fun n => { n with hash := (t next_index).hash })
  let t := upd t index (fun n => { n with next := (t next_index).next })
  let t := upd t index (fun n => { n with prev := NULL_INDEX P })
  let next_index := (t index).next
  let t := if next_index ≠ NULL_INDEX P
    then upd t next_index (fun n => { n with prev := index }) else t
  (t, next_index)

/-- Lines 369-379 of `rh_hash_remove`: the slot is marked empty and bridged
over in the chain and in the time order. -/
def remove_unlink (P : rh_types_t) (h : rh_hash_t) (index : Nat) : rh_hash_t :=
  let next_index := (h.table index).next
  let prev_index := (h.table index).prev
  let after_index := (h.table index).after
  let before_index := (h.table index).before
  let t := upd h.table index (fun n => { n with chain := EMPTY_ENTRY })
  let newest := if index = h.newest_entry then before_index else h.newest_entry
  let oldest := if index = h.oldest_entry then after_index else h.oldest_entry
  let t := if next_index ≠ NULL_INDEX P
    then upd t next_index (fun n => { n with prev := prev_index }) else t
  let t := if prev_index ≠ NULL_INDEX P
    then upd t prev_index (fun n => { n with next := next_index }) else t
  let t := if after_index ≠ NULL_INDEX P
    then upd t after_index (fun n => { n with before := before_index }) else t
  let t := if before_index ≠ NULL_INDEX P
    then upd t before_index (fun n => { n with after := after_index }) else t
  { h with table := t, oldest_entry := oldest, newest_entry := newest }

/-- Lines 346-390 of `rh_hash_remove`: the removal of the entry found at
`index`. -/
def remove_at (P : rh_types_t) (h : rh_hash_t) (index : Nat) : Option rh_hash_t :=
  let next_index := (h.table index).next
  let h1 : rh_hash_t × Nat :=
    if (h.table index).chain = 1 ∧ next_index ≠ NULL_INDEX P then
      let r := remove_copy_next P h.table index next_index
      ({ h with table := r.1 }, r.2)
    else (remove_unlink P h index, next_index)
  match remove_chain_loop P h.size h1.1.table h1.2 with
  | none => none
  | some t =>
    some { h1.1 with
      table := t
      num_entries := (h.num_entries + P.BP_MAX_INDEX) % (P.BP_MAX_INDEX + 1) }

/-- The function `rh_hash_remove` of rh_hash.c: the status and the table after
the call, `none` when a chain walk does not end. -/
def rh_hash_remove (P : rh_types_t) (h : rh_hash_t) (key : Nat) :
    Option (rh_status_t × rh_hash_t) :=
  match get_node P h key with
  | none => none
  | some index =>
    if index ≠ NULL_INDEX P then
      match remove_at P h index with
      | none => none
      | some h => some (rh_status_t.RH_SUCCESS, h)
    else some (rh_status_t.RH_KEY_NOT_FOUND, h)

/-! ## Definitions used by the statements -/

/-- The number of steps the open-slot search still has to take from `o`
before it is back at `curr`. -/
def open_dist (size curr o : Nat) : Nat :=
  if curr < o then (size - o) + curr else curr - o

/-- Slot `j` is reached from slot `i` along the `next` links. -/
inductive Reach (P : rh_types_t) (t : Nat → rh_hash_node_t) : Nat → Nat → Prop where
  | refl (i : Nat) : Reach P t i i
  | step (i j : Nat) : (t i).next ≠ NULL_INDEX P → Reach P t (t i).next j → Reach P t i j

/-- What holds of a table that was filled by insertions of distinct keys only:
`L` lists the occupied slots and `rank` decreases along the `next` links. -/
structure AddInv (P : rh_types_t) (h : rh_hash_t) (L : List Nat) (rank : Nat → Nat) : Prop where
  size_pos : 0 < h.size
  size_le : h.size ≤ P.BP_MAX_INDEX
  nodup : L.Nodup
  lt_size : ∀ s ∈ L, s < h.size
  empty : ∀ i, i < h.size → i ∉ L → (h.table i).chain = EMPTY_ENTRY
  chain_one : ∀ s ∈ L, (h.table s).chain = 1
  next_ok : ∀ s ∈ L, (h.table s).next = NULL_INDEX P ∨
    ((h.table s).next ∈ L ∧ rank (h.table s).next < rank s)
  rank_lt : ∀ s ∈ L, rank s < L.length
  nat_mem : ∀ s ∈ L, hash_key (h.table s).key % h.size ∈ L
  reach : ∀ s ∈ L, Reach P h.table (hash_key (h.table s).key % h.size) s
  key_inj : ∀ s ∈ L, ∀ s' ∈ L, (h.table s).key = (h.table s').key → s = s'

/-- The rank after an insertion into slot `o`: the new slot is last in every chain. -/
def rank_after (rank : Nat → Nat) (o : Nat) : Nat → Nat :=
  fun s => if s = o then 0 else rank s + 1

/-- A call of the hash index. -/
inductive rh_op_t where
  | add (key data : Nat) (overwrite : Bool)
  | remove (key : Nat)
deriving DecidableEq, Repr

/-- One call on a table. -/
def apply_op (P : rh_types_t) (h : rh_hash_t) : rh_op_t → Option (rh_status_t × rh_hash_t)
  | rh_op_t.add key data overwrite => rh_hash_add P h key data overwrite
  | rh_op_t.remove key => rh_hash_remove P h key

/-- A sequence of calls on a table: the status of every call and the table at the end,
`none` when one of the calls does not return. -/
def run_ops (P : rh_types_t) : rh_hash_t → List rh_op_t → Option (List rh_status_t × rh_hash_t)
  | h, [] => some ([], h)
  | h, op :: ops =>
    match apply_op P h op with
    | none => none
    | some r =>
      match run_ops P r.2 ops with
      | none => none
      | some rs => some (r.1 :: rs.1, rs.2)

/-- The insertions of a list of (key, data, overwrite) triples, in order. -/
def add_ops (kds : List (Nat × Nat × Bool)) : List rh_op_t :=
  kds.map (fun kd => rh_op_t.add kd.1 kd.2.1 kd.2.2)

/-- The table a sequence of calls leaves (the table it started from when a
call does not return). -/
def table_after (P : rh_types_t) (h : rh_hash_t) (ops : List rh_op_t) : rh_hash_t :=
  match run_ops P h ops with
  | some r => r.2
  | none => h

/-- The walk over the time order: the slots met from `index` along the `after`
links until `NULL_INDEX`, `none` when the fuel runs out first. -/
def time_order_walk (P : rh_types_t) (t : Nat → rh_hash_node_t) : Nat → Nat → Option (List Nat)
  | 0, index => if index = NULL_INDEX P then some [] else none
  | fuel + 1, index =>
    if index = NULL_INDEX P then some []
    else (time_order_walk P t fuel (t index).after).map (fun l => index :: l)

/-- The iteration in time order of a table: the walk from `oldest_entry`. -/
def time_order (P : rh_types_t) (h : rh_hash_t) : Option (List Nat) :=
  time_order_walk P h.table h.size h.oldest_entry

/-- The observed maximum of the chain values: the largest `chain` held by a
slot of the table (an empty slot holds 0). -/
def observed_max_chain (h : rh_hash_t) : Nat :=
  ((List.range h.size).map (fun i => (h.table i).chain)).foldl max 0

/-- The finite map the spec describes, as a list of (key, data) pairs in
insertion order: one call on it.  An insertion of a stored key replaces the
data when `overwrite` is set and changes nothing otherwise. -/
def map_apply (m : List (Nat × Nat)) : rh_op_t → List (Nat × Nat)
  | rh_op_t.add key data overwrite =>
    if (m.map Prod.fst).contains key then
      if overwrite then (m.filter (fun kd => kd.1 ≠ key)) ++ [(key, data)] else m
    else m ++ [(key, data)]
  | rh_op_t.remove key => m.filter (fun kd => kd.1 ≠ key)

/-- The finite map of the spec after each call of a sequence. -/
def map_run : List (Nat × Nat) → List rh_op_t → List (List (Nat × Nat))
  | _, [] => []
  | m, op :: ops => map_apply m op :: map_run (map_apply m op) ops

/-- The condition under which an insertion gets past the check for a full table: the key is in
its natural slot, or some slot is empty. -/
def add_not_full (h : rh_hash_t) (key : Nat) : Prop :=
  (h.table (hash_key key % h.size)).key = key ∨
    ∃ i, i < h.size ∧ (h.table i).chain = EMPTY_ENTRY

/-- The integer types of a platform with 16-bit indices and a 32-bit chain
counter, for the concrete runs. -/
def types16 : rh_types_t := ⟨65535, 4294967296⟩

/-- A node of all zeroes. -/
def zero_node : rh_hash_node_t := ⟨0, 0, 0, 0, 0, 0, 0, 0⟩

/-- Memory of all zeroes. -/
def zero_mem : Nat → rh_hash_node_t := fun _ => zero_node

/-- A table structure before `rh_hash_create`. -/
def blank : rh_hash_t := ⟨zero_mem, 0, 0, 0, 0, 0⟩

/-- The table `rh_hash_create` makes with `hash_size = S` on `types16`, from
zeroed memory. -/
def created (S : Int) : rh_hash_t := (rh_hash_create types16 blank S (some zero_mem)).2

/-! ## rh_hash_clear and the counters -/

/-- The loop of `rh_hash_clear` (lines 410-417) from `i` on: it runs while
`num_entries > 0` and `i < size`. -/
def clear_loop : Nat → Nat → rh_hash_t → rh_hash_t
  | 0, _, h => h
  | fuel + 1, i, h =>
    if h.num_entries > 0 ∧ i < h.size then
      if (h.table i).chain ≠ EMPTY_ENTRY then
        clear_loop fuel (i + 1)
          { h with
            table := upd h.table i (fun n => { n with chain := EMPTY_ENTRY })
            num_entries := h.num_entries - 1 }
      else clear_loop fuel (i + 1) h
    else h

/-- The function `rh_hash_clear` of rh_hash.c: the status and the table after
the call.  The loop takes at most `size` passes. -/
def rh_hash_clear (h : rh_hash_t) : rh_status_t × rh_hash_t :=
  (rh_status_t.RH_SUCCESS, { clear_loop h.size 0 h with max_chain := 0 })

/-- The number of non-empty slots of a table. -/
def count_entries (h : rh_hash_t) : Nat :=
  ((List.range h.size).filter (fun i => (h.table i).chain ≠ EMPTY_ENTRY)).length

/-- The slot the walk along the `next` links is at after `n` steps from
`index`. -/
def next_steps (t : Nat → rh_hash_node_t) : Nat → Nat → Nat
  | 0, index => index
  | n + 1, index => next_steps t n (t index).next

end RhHash

/-!
# bplib: the load path of `lib/bplib.c`

A shallow embedding of `bplib_load` on one channel control block.  The storage
service, the DACS module and `sdnv_write` are the environment; the two
`while` loops carry a fuel argument.
-/

namespace Bplib

/-! ## Types and constants -/

/-- Modelled from the spec: the return codes that `bplib_load` hands back, kept
as distinct symbolic values (`BP_OVERFLOW` is not in the `bplib.h` at hand). -/
inductive bp_status_t where
  | BP_SUCCESS
  | BP_TIMEOUT
  | BP_PARMERR
  | BP_OVERFLOW
  | BP_FAILEDSTORE
  | BP_FAILEDMEM
  | BP_BUNDLETOOLARGE
deriving DecidableEq, Repr

/-- Modelled from the spec: the three wrap responses `BP_WRAP_RESEND`,
`BP_WRAP_BLOCK` and `BP_WRAP_DROP` that `getset_opt` accepts for
`wrap_response`; their numbers are in a header that is not at hand. -/
inductive bp_wrap_t where
  | BP_WRAP_RESEND
  | BP_WRAP_BLOCK
  | BP_WRAP_DROP
deriving DecidableEq, Repr

/-- The define `BP_SID_VACANT` of bplib.h. -/
def BP_SID_VACANT : Nat := 0

/-- The define `BP_CHECK` of bplib.h. -/
def BP_CHECK : Int := 0

/-- The define `BP_FLAG_ROUTENEEDED` of bplib.h. -/
def BP_FLAG_ROUTENEEDED : Nat := 0x0040

/-- The define `BP_FLAG_STOREFAILURE` of bplib.h. -/
def BP_FLAG_STOREFAILURE : Nat := 0x0080

/-- The define `BP_FLAG_ACTIVETABLEWRAP` of bplib.h. -/
def BP_FLAG_ACTIVETABLEWRAP : Nat := 0x0800

/-- The number of values of `uint32_t`. -/
def UINT32_MOD : Nat := 4294967296

/-- The increment `x++` of a `uint32_t`. -/
def incr32 (x : Nat) : Nat := (x + 1) % UINT32_MOD

/-- The difference `a - b` of two `uint32_t`. -/
def sub32 (a b : Nat) : Nat := (a + UINT32_MOD - b % UINT32_MOD) % UINT32_MOD

/-- Modelled from the spec: `bp_field_t` of `sdnv.h` (absent), the descriptor
of an SDNV field with its value. -/
structure bp_field_t where
  value : Nat
  index : Nat
  width : Nat
deriving DecidableEq, Repr

/-- The structure `bp_bundle_data_t` of bundle.h; `header` holds the bytes of
the serialized bundle. -/
structure bp_bundle_data_t where
  exprtime : Nat
  cidsdnv : bp_field_t
  cteboffset : Int
  biboffset : Int
  payoffset : Int
  headersize : Int
  bundlesize : Int
  header : List Nat
deriving DecidableEq, Repr

/-- The structure `bp_active_table_t` of bplib.c; the arrays `sid` and `retx`
are maps from the index. -/
structure bp_active_table_t where
  sid : Nat → Nat
  retx : Nat → Nat
  oldest_cid : Nat
  current_cid : Nat

/-- The structure `bp_stats_t` of bplib.h. -/
structure bp_stats_t where
  lost : Nat
  expired : Nat
  acknowledged : Nat
  transmitted : Nat
  retransmitted : Nat
  received : Nat
  generated : Nat
  delivered : Nat
  bundles : Nat
  payloads : Nat
  records : Nat
  active : Nat
deriving DecidableEq, Repr

/-- The fields of `bp_channel_t` of bplib.c that `bplib_load` uses:
`active_table_size` is `attributes.active_table_size` and
`bundle_store_handle` is `bundle.bundle_store.handle`. -/
structure bp_channel_t where
  active_table_size : Int
  dacs_store_handle : Int
  bundle_store_handle : Int
  active_table : bp_active_table_t
  stats : bp_stats_t
  timeout : Int
  dacs_rate : Int
  wrap_response : bp_wrap_t
  cid_reuse : Int

/-- What a `dequeue` of the storage service answers: `BP_SUCCESS` with the
object and its storage id, `BP_TIMEOUT`, or any other status. -/
inductive bp_dequeue_t where
  | ok (data : bp_bundle_data_t) (sid : Nat)
  | timeout
  | failed
deriving DecidableEq, Repr

/-- The environment of `bplib_load`, over the state `σ` of the storage service
and of the DACS module: `dacs_check` of dacs.c (absent), the `dequeue`,
`retrieve` and `relinquish` call-backs of the channel's `bp_store_t`, and
`sdnv_write` of sdnv.c (absent), which gives the header bytes after the field
is written at the offset.  Modelled from the spec: `dacs_check` and
`sdnv_write` also give the flags they raise, which are OR-ed into the flags
word of the caller.  A `retrieve` that does not answer `BP_SUCCESS` is `none`;
a call-back that fails leaves `data` as it was.
`written` is the state of the storage service after the object of a storage id
was changed through the `data` pointer (a service that hands out copies keeps
its state). -/
structure bp_env_t (σ : Type) where
  dacs_check : σ → Int → Nat → Int → σ × Nat
  dequeue : σ → Int → Int → σ × bp_dequeue_t
  retrieve : σ → Int → Nat → Int → σ × Option bp_bundle_data_t
  relinquish : σ → Int → Nat → σ
  sdnv_write : List Nat → Int → Int → bp_field_t → List Nat × Nat
  written : σ → Int → Nat → bp_bundle_data_t → σ

/-- The inputs of one call of `bplib_load` on a channel: the caller's buffer
(`buffer_null` is `*bundle == NULL`, `size` is `*size`), `timeout`, the flags
word on entry, the time `bplib_os_systime` returns, whether `malloc` gives
memory, and the fuel of the loops. -/
structure bp_load_args_t where
  buffer_null : Bool
  size : Int
  timeout : Int
  loadflags : Nat
  sysnow : Nat
  malloc_ok : Bool
  fuel : Nat
deriving DecidableEq, Repr

/-- The local state of `bplib_load`: the channel, the environment and the
local variables `data`, `sid`, `ati`, `newcid`, `status` and `*loadflags`. -/
structure bp_load_state_t (σ : Type) where
  ch : bp_channel_t
  env : σ
  data : Option bp_bundle_data_t
  sid : Nat
  ati : Int
  newcid : Bool
  status : bp_status_t
  flags : Nat

/-- What a call of `bplib_load` leaves: the status, the channel, the
environment, the bundle copied to the caller (`none` when nothing is copied),
`*size` and `*loadflags`. -/
structure bp_load_result_t (σ : Type) where
  status : bp_status_t
  ch : bp_channel_t
  env : σ
  bundle : Option bp_bundle_data_t
  size : Int
  flags : Nat

/-! ## Assignments to the channel -/

/-- The assignment `ch->active_table.sid[ati] = sid`. -/
def set_sid (ch : bp_channel_t) (ati : Nat) (sid : Nat) : bp_channel_t :=
  { ch with active_table :=
      { ch.active_table with sid := fun i => if i = ati then sid else ch.active_table.sid i } }

/-- The assignment `ch->active_table.retx[ati] = t`. -/
def set_retx (ch : bp_channel_t) (ati : Nat) (t : Nat) : bp_channel_t :=
  { ch with active_table :=
      { ch.active_table with retx := fun i => if i = ati then t else ch.active_table.retx i } }

/-- The statement `ch->active_table.oldest_cid++`. -/
def incr_oldest (ch : bp_channel_t) : bp_channel_t :=
  { ch with active_table :=
      { ch.active_table with oldest_cid := incr32 ch.active_table.oldest_cid } }

/-- The statement `ch->active_table.current_cid++`. -/
def incr_current (ch : bp_channel_t) : bp_channel_t :=
  { ch with active_table :=
      { ch.active_table with current_cid := incr32 ch.active_table.current_cid } }

/-- The statement `ch->stats.lost++`. -/
def incr_lost (ch : bp_channel_t) : bp_channel_t :=
  { ch with stats := { ch.stats with lost := incr32 ch.stats.lost } }

/-- The statement `ch->stats.expired++`. -/
def incr_expired (ch : bp_channel_t) : bp_channel_t :=
  { ch with stats := { ch.stats with expired := incr32 ch.stats.expired } }

/-- The statement `ch->stats.retransmitted++`. -/
def incr_retransmitted (ch : bp_channel_t) : bp_channel_t :=
  { ch with stats := { ch.stats with retransmitted := incr32 ch.stats.retransmitted } }

/-- The statement `ch->stats.transmitted++`. -/
def incr_transmitted (ch : bp_channel_t) : bp_channel_t :=
  { ch with stats := { ch.stats with transmitted := incr32 ch.stats.transmitted } }

/-- The index `cid % ch->attributes.active_table_size`. -/
def slot_of (ch : bp_channel_t) (cid : Nat) : Nat :=
  cid % ch.active_table_size.toNat

/-! ## bplib_load -/

/-- The test of line 626 and line 736: the bundle is expired at `sysnow`. -/
def is_expired (data : bp_bundle_data_t) (sysnow : Nat) : Prop :=
  data.exprtime ≠ 0 ∧ sysnow ≥ data.exprtime

instance (data : bp_bundle_data_t) (sysnow : Nat) : Decidable (is_expired data sysnow) :=
  inferInstanceAs (Decidable (_ ∧ _))

/-- The test of line 635: the retransmit timer of slot `ati` has run out.  The
sum `retx[ati] + timeout` of a `uint32_t` and an `int` is a 32-bit unsigned
sum. -/
def is_timed_out (ch : bp_channel_t) (ati : Nat) (sysnow : Nat) : Prop :=
  ch.timeout ≠ 0 ∧
    sysnow ≥ (((ch.active_table.retx ati : Int) + ch.timeout) % (UINT32_MOD : Int)).toNat

instance (ch : bp_channel_t) (ati : Nat) (sysnow : Nat) : Decidable (is_timed_out ch ati sysnow) :=
  inferInstanceAs (Decidable (_ ∧ _))

/-- Lines 672-710 of `bplib_load`: the wrap response, when the slot of
`current_cid` is occupied by `sid` (`ati` is that slot).  The wait on the
active-table signal changes nothing in a sequential run. -/
def wrap_response {σ : Type} (E : bp_env_t σ) (store_handle : Int) (s : bp_load_state_t σ) :
    bp_load_state_t σ :=
  let s := { s with flags := s.flags ||| BP_FLAG_ACTIVETABLEWRAP }
  match s.ch.wrap_response with
  | bp_wrap_t.BP_WRAP_RESEND =>
    let s := { s with ch := incr_oldest s.ch }
    match E.retrieve s.env store_handle s.sid BP_CHECK with
    | (env, none) =>
      let env := E.relinquish env store_handle s.sid
      { s with
        env := env
        ch := incr_lost (set_sid s.ch s.ati.toNat BP_SID_VACANT)
        flags := s.flags ||| BP_FLAG_STOREFAILURE }
    | (env, some data) =>
      { s with env := env, data := some data, ch := incr_retransmitted s.ch }
  | bp_wrap_t.BP_WRAP_BLOCK =>
    { s with status := bp_status_t.BP_OVERFLOW }
  | bp_wrap_t.BP_WRAP_DROP =>
    let s := { s with ch := incr_oldest s.ch }
    let env := E.relinquish s.env store_handle s.sid
    { s with env := env, ch := incr_lost (set_sid s.ch s.ati.toNat BP_SID_VACANT) }

/-- Lines 654-715 of `bplib_load`: the oldest active bundle is still active;
the slot of `current_cid` is checked for room. -/
def still_active {σ : Type} (E : bp_env_t σ) (store_handle : Int) (s : bp_load_state_t σ) :
    bp_load_state_t σ :=
  let ati := slot_of s.ch s.ch.active_table.current_cid
  let sid := s.ch.active_table.sid ati
  let s := { s with data := none, ati := (ati : Int), sid := sid }
  if sid ≠ BP_SID_VACANT then wrap_response E store_handle s else s

/-- Lines 626-715 of `bplib_load`: the bundle of the oldest slot was retrieved
as `data`.  The result is the state and whether the loop is left by `break`. -/
def scan_retrieved {σ : Type} (E : bp_env_t σ) (sysnow : Nat) (store_handle : Int)
    (s : bp_load_state_t σ) (data : bp_bundle_data_t) : bp_load_state_t σ × Bool :=
  if is_expired data sysnow then
    let env := E.relinquish s.env store_handle s.sid
    ({ s with
       env := env
       ch := incr_expired (incr_oldest (set_sid s.ch s.ati.toNat BP_SID_VACANT))
       data := none }, false)
  else if is_timed_out s.ch s.ati.toNat sysnow then
    let ch := incr_retransmitted (incr_oldest s.ch)
    if s.ch.cid_reuse ≠ 0 then
      ({ s with ch := ch, data := some data, newcid := false }, false)
    else
      ({ s with ch := set_sid ch s.ati.toNat BP_SID_VACANT, data := some data }, false)
  else
    (still_active E store_handle s, true)

/-- Lines 618-724 of `bplib_load`: the body of the loop over the active
table.  The result is the state and whether the loop is left by `break`. -/
def scan_body {σ : Type} (E : bp_env_t σ) (sysnow : Nat) (store_handle : Int)
    (s : bp_load_state_t σ) : bp_load_state_t σ × Bool :=
  let ati := slot_of s.ch s.ch.active_table.oldest_cid
  let sid := s.ch.active_table.sid ati
  let s := { s with ati := (ati : Int), sid := sid }
  if sid = BP_SID_VACANT then
    ({ s with ch := incr_oldest s.ch }, false)
  else
    match E.retrieve s.env store_handle sid BP_CHECK with
    | (env, some data) => scan_retrieved E sysnow store_handle { s with env := env } data
    | (env, none) =>
      let env := E.relinquish env store_handle sid
      ({ s with
         env := env
         ch := incr_lost (set_sid s.ch ati BP_SID_VACANT)
         flags := s.flags ||| BP_FLAG_STOREFAILURE }, false)

/-- The loop of lines 616-725 of `bplib_load` over the active table: `none`
when the fuel runs out before the loop ends. -/
def scan_loop {σ : Type} (E : bp_env_t σ) (sysnow : Nat) (store_handle : Int) :
    Nat → bp_load_state_t σ → Option (bp_load_state_t σ)
  | 0, s =>
    if s.data = none ∧ s.ch.active_table.oldest_cid < s.ch.active_table.current_cid
    then none else some s
  | fuel + 1, s =>
    if s.data = none ∧ s.ch.active_table.oldest_cid < s.ch.active_table.current_cid then
      let r := scan_body E sysnow store_handle s
      if r.2 then some r.1 else scan_loop E sysnow store_handle fuel r.1
    else some s

/-- Lines 733-757 of `bplib_load`: the body of the loop that dequeues from the
bundle store.  The result is the state and whether the loop is left by
`break`. -/
def dequeue_body {σ : Type} (E : bp_env_t σ) (sysnow : Nat) (store_handle : Int) (timeout : Int)
    (s : bp_load_state_t σ) : bp_load_state_t σ × Bool :=
  match E.dequeue s.env store_handle timeout with
  | (env, bp_dequeue_t.ok data sid) =>
    if is_expired data sysnow then
      let env := E.relinquish env store_handle sid
      ({ s with env := env, ch := incr_expired s.ch, sid := BP_SID_VACANT, data := none }, false)
    else
      ({ s with env := env, data := some data, sid := sid }, false)
  | (env, bp_dequeue_t.timeout) =>
    ({ s with env := env, status := bp_status_t.BP_TIMEOUT }, true)
  | (env, bp_dequeue_t.failed) =>
    ({ s with
       env := env
       status := bp_status_t.BP_FAILEDSTORE
       flags := s.flags ||| BP_FLAG_STOREFAILURE }, true)

/-- The loop of lines 730-758 of `bplib_load`: `none` when the fuel runs out
before the loop ends. -/
def dequeue_loop {σ : Type} (E : bp_env_t σ) (sysnow : Nat) (store_handle : Int) (timeout : Int) :
    Nat → bp_load_state_t σ → Option (bp_load_state_t σ)
  | 0, s => if s.data = none then none else some s
  | fuel + 1, s =>
    if s.data = none then
      let r := dequeue_body E sysnow store_handle timeout s
      if r.2 then some r.1 else dequeue_loop E sysnow store_handle timeout fuel r.1
    else some s

/-- Lines 778-791 of `bplib_load`: the custody id and the active-table entry
of a bundle that requests custody.  The result is the state and the bundle
data after the custody id is written. -/
def assign_custody {σ : Type} (E : bp_env_t σ) (sysnow : Nat) (store_handle : Int)
    (s : bp_load_state_t σ) (data : bp_bundle_data_t) : bp_load_state_t σ × bp_bundle_data_t :=
  if s.newcid then
    let ati := slot_of s.ch s.ch.active_table.current_cid
    let ch := set_sid s.ch ati s.sid
    let data := { data with cidsdnv := { data.cidsdnv with value := ch.active_table.current_cid } }
    let ch := incr_current ch
    let w := E.sdnv_write data.header data.cteboffset (data.bundlesize - data.cteboffset)
      data.cidsdnv
    let data := { data with header := w.1 }
    ({ s with
       ch := set_retx ch ati sysnow
       env := E.written s.env store_handle s.sid data
       ati := (ati : Int)
       flags := s.flags ||| w.2 }, data)
  else
    ({ s with ch := set_retx s.ch s.ati.toNat sysnow }, data)

/-- Lines 766-818 of `bplib_load`: the bundle `data`, when there is one, is
handed to the caller. -/
def load_bundle {σ : Type} (E : bp_env_t σ) (a : bp_load_args_t) (store_handle : Int)
    (s : bp_load_state_t σ) : bp_load_result_t σ :=
  match s.data with
  | none =>
    { status := s.status, ch := s.ch, env := s.env, bundle := none, size := a.size,
      flags := s.flags }
  | some data =>
    if a.buffer_null = true ∨ a.size ≥ data.bundlesize then
      if a.buffer_null = false ∨ a.malloc_ok = true then
        let r := if data.cteboffset ≠ 0
          then assign_custody E a.sysnow store_handle s data else (s, data)
        let env := if data.cteboffset = 0
          then E.relinquish r.1.env store_handle r.1.sid else r.1.env
        { status := bp_status_t.BP_SUCCESS, ch := incr_transmitted r.1.ch, env := env,
          bundle := some r.2, size := data.bundlesize, flags := r.1.flags }
      else
        { status := bp_status_t.BP_FAILEDMEM, ch := incr_lost s.ch,
          env := E.relinquish s.env store_handle s.sid, bundle := none, size := a.size,
          flags := s.flags }
    else
      { status := bp_status_t.BP_BUNDLETOOLARGE, ch := incr_lost s.ch,
        env := E.relinquish s.env store_handle s.sid, bundle := none, size := a.size,
        flags := s.flags }

/-- Line 821 of `bplib_load`: the active statistic is updated. -/
def update_active {σ : Type} (r : bp_load_result_t σ) : bp_load_result_t σ :=
  { r with ch := { r.ch with stats := { r.ch.stats with
      active := sub32 r.ch.active_table.current_cid r.ch.active_table.oldest_cid } } }

/-- Lines 590-596 of `bplib_load`: the DACS period is checked and the DACS
store is polled.  The result is the environment, the flags and the answer of
the dequeue. -/
def check_dacs {σ : Type} (E : bp_env_t σ) (ch : bp_channel_t) (env : σ) (a : bp_load_args_t) :
    (σ × Nat) × bp_dequeue_t :=
  let c := E.dacs_check env ch.dacs_rate a.sysnow ch.dacs_store_handle
  let d := E.dequeue c.1 ch.dacs_store_handle BP_CHECK
  ((d.1, a.loadflags ||| c.2), d.2)

/-- Lines 607-760 of `bplib_load`: no DACS bundle is ready; the active table
is scanned and then the bundle store is dequeued. -/
def load_data_bundle {σ : Type} (E : bp_env_t σ) (a : bp_load_args_t)
    (s : bp_load_state_t σ) : Option (bp_load_state_t σ) :=
  match scan_loop E a.sysnow s.ch.bundle_store_handle a.fuel s with
  | none => none
  | some s1 => dequeue_loop E a.sysnow s.ch.bundle_store_handle a.timeout a.fuel s1

/-- The function `bplib_load` of bplib.c on the channel control block `ch`,
once the parameter checks of lines 570-573 have passed: `none` when a loop
does not end within the fuel of the call. -/
def bplib_load {σ : Type} (E : bp_env_t σ) (ch : bp_channel_t) (env : σ) (a : bp_load_args_t) :
    Option (bp_load_result_t σ) :=
  let d := check_dacs E ch env a
  let s0 : bp_load_state_t σ :=
    { ch := ch, env := d.1.1, data := none, sid := BP_SID_VACANT, ati := -1, newcid := true,
      status := bp_status_t.BP_SUCCESS, flags := d.1.2 }
  match d.2 with
  | bp_dequeue_t.ok data sid =>
    some (update_active (load_bundle E a ch.dacs_store_handle
      { s0 with data := some data, sid := sid, flags := s0.flags ||| BP_FLAG_ROUTENEEDED }))
  | _ =>
    match load_data_bundle E a s0 with
    | none => none
    | some s => some (update_active (load_bundle E a ch.bundle_store_handle s))

/-! ## Sequences of calls and the channel after `bplib_open` -/

/-- A sequence of `bplib_load` calls on a channel: before each call the rest
of the system may change the storage service (`between`, the work of the other
threads).  The result is the status of every call, the channel and the
environment at the end, `none` when a call does not return. -/
def run_loads {σ : Type} (E : bp_env_t σ) :
    bp_channel_t → σ → List ((σ → σ) × bp_load_args_t) →
      Option (List bp_status_t × bp_channel_t × σ)
  | ch, env, [] => some ([], ch, env)
  | ch, env, c :: cs =>
    match bplib_load E ch (c.1 env) c.2 with
    | none => none
    | some r =>
      match run_loads E r.ch r.env cs with
      | none => none
      | some rs => some (r.status :: rs.1, rs.2)

/-- The last call of a sequence: the calls `cs` are run and then the call `c`,
of which the whole result is kept. -/
def last_load {σ : Type} (E : bp_env_t σ) (ch : bp_channel_t) (env : σ)
    (cs : List ((σ → σ) × bp_load_args_t)) (c : (σ → σ) × bp_load_args_t) :
    Option (bp_load_result_t σ) :=
  match run_loads E ch env cs with
  | none => none
  | some r => bplib_load E r.2.1 (c.1 r.2.2) c.2

/-- The statistics after the `memset` of `bplib_open`. -/
def zero_stats : bp_stats_t := ⟨0, 0, 0, 0, 0, 0, 0, 0, 0, 0, 0, 0⟩

/-- What lines 416-426 of `bplib_open` leave of a channel with active table
size `N`: both arrays zeroed, `oldest_cid = current_cid = 0`; the statistics
are zero from the `memset` of line 344. -/
def Opened (ch : bp_channel_t) : Prop :=
  0 < ch.active_table_size ∧
  (∀ i, ch.active_table.sid i = BP_SID_VACANT) ∧
  ch.active_table.oldest_cid = 0 ∧ ch.active_table.current_cid = 0

/-- An opened channel with active table size `N` and the configuration
`timeout`, `wrap_response`, `cid_reuse` (the defaults of `bplib_open` or a
later `bplib_setopt`), with DACS store handle 1 and bundle store handle 2. -/
def opened_channel (N : Int) (timeout : Int) (wrap : bp_wrap_t) (cid_reuse : Int) :
    bp_channel_t :=
  { active_table_size := N
    dacs_store_handle := 1
    bundle_store_handle := 2
    active_table := { sid := fun _ => 0, retx := fun _ => 0, oldest_cid := 0, current_cid := 0 }
    stats := zero_stats
    timeout := timeout
    dacs_rate := 5
    wrap_response := wrap
    cid_reuse := cid_reuse }

/-! ## A storage service for the concrete runs -/

/-- The state of a simple storage service: the queue of the bundle store, the
queue of the DACS store, and the objects that were dequeued and are not yet
relinquished, each with its storage id. -/
structure ref_store_t where
  bundles : List (Nat × bp_bundle_data_t)
  records : List (Nat × bp_bundle_data_t)
  kept : List (Nat × bp_bundle_data_t)
deriving DecidableEq, Repr

/-- The dequeue of the simple storage service: handle 1 is the DACS store,
every other handle the bundle store; an empty queue answers `BP_TIMEOUT`. -/
def ref_dequeue (st : ref_store_t) (handle : Int) (_timeout : Int) :
    ref_store_t × bp_dequeue_t :=
  if handle = 1 then
    match st.records with
    | [] => (st, bp_dequeue_t.timeout)
    | x :: xs => ({ st with records := xs, kept := x :: st.kept }, bp_dequeue_t.ok x.2 x.1)
  else
    match st.bundles with
    | [] => (st, bp_dequeue_t.timeout)
    | x :: xs => ({ st with bundles := xs, kept := x :: st.kept }, bp_dequeue_t.ok x.2 x.1)

/-- The retrieve of the simple storage service: the kept object with the
storage id. -/
def ref_retrieve (st : ref_store_t) (_handle : Int) (sid : Nat) (_timeout : Int) :
    ref_store_t × Option bp_bundle_data_t :=
  (st, (st.kept.find? (fun x => x.1 = sid)).map Prod.snd)

/-- The relinquish of the simple storage service: the object is dropped. -/
def ref_relinquish (st : ref_store_t) (_handle : Int) (sid : Nat) : ref_store_t :=
  { st with kept := st.kept.filter (fun x => x.1 ≠ sid) }

/-- The simple storage service hands out its own objects: what is written
through the `data` pointer stays in the kept object. -/
def ref_written (st : ref_store_t) (_handle : Int) (sid : Nat) (data : bp_bundle_data_t) :
    ref_store_t :=
  { st with kept := st.kept.map (fun x => if x.1 = sid then (x.1, data) else x) }

/-- The environment of the concrete runs: the simple storage service, a DACS
module that has nothing to send, and an `sdnv_write` that leaves the header
as it is and raises no flag (the custody id is read from `cidsdnv`). -/
def ref_env : bp_env_t ref_store_t :=
  { dacs_check := fun st _ _ _ => (st, 0)
    dequeue := ref_dequeue
    retrieve := ref_retrieve
    relinquish := ref_relinquish
    sdnv_write := fun header _ _ _ => (header, 0)
    written := ref_written }

/-- A bundle of 20 bytes that requests custody (its CTEB is at offset 8) and
expires at `exprtime` (0: never). -/
def custody_bundle (exprtime : Nat) : bp_bundle_data_t :=
  { exprtime := exprtime, cidsdnv := ⟨0, 0, 4⟩, cteboffset := 8, biboffset := 0,
    payoffset := 12, headersize := 16, bundlesize := 20, header := [] }

/-- A call of `bplib_load` at time `sysnow` that lets the library allocate the
bundle, polls the store and starts with no flag set. -/
def load_at (sysnow : Nat) : (ref_store_t → ref_store_t) × bp_load_args_t :=
  (id, { buffer_null := true, size := 0, timeout := 0, loadflags := 0, sysnow := sysnow,
         malloc_ok := true, fuel := 8 })

/-! ## Predicates and concrete data of the theorems on `bplib_load` -/

/-- The caller's buffer can take a bundle of `bundlesize` bytes: it is null and
`malloc` gives memory, or it is at least as large. -/
def adequate_buffer (a : bp_load_args_t) (bundlesize : Int) : Prop :=
  (a.buffer_null = true ∧ a.malloc_ok = true) ∨ (a.buffer_null = false ∧ a.size ≥ bundlesize)

instance (a : bp_load_args_t) (bundlesize : Int) : Decidable (adequate_buffer a bundlesize) :=
  inferInstanceAs (Decidable (_ ∨ _))

/-- No DACS bundle is ready: the poll of the DACS store leaves the environment
`env1` and the flags `flags1` and does not answer `BP_SUCCESS`. -/
def no_dacs_ready {σ : Type} (E : bp_env_t σ) (ch : bp_channel_t) (env : σ) (a : bp_load_args_t)
    (env1 : σ) (flags1 : Nat) : Prop :=
  ∃ dq, check_dacs E ch env a = ((env1, flags1), dq) ∧ ∀ d sid, dq ≠ bp_dequeue_t.ok d sid

/-- Lines 781-783 of `bplib_load`: the bundle data after the custody id `cid`
is put into `cidsdnv` and written into the header. -/
def stamp_cid {σ : Type} (E : bp_env_t σ) (data : bp_bundle_data_t) (cid : Nat) :
    bp_bundle_data_t :=
  { data with
    cidsdnv := { data.cidsdnv with value := cid }
    header := (E.sdnv_write data.header data.cteboffset (data.bundlesize - data.cteboffset)
      { data.cidsdnv with value := cid }).1 }

/-- A channel in use, for the concrete runs: the channel of `opened_channel`
with the storage ids `sids` in the slots 0, 1, ... (the other slots vacant),
every retransmit timer at 0, and the two counters as given. -/
def active_channel (N : Int) (timeout : Int) (wrap : bp_wrap_t) (cid_reuse : Int)
    (sids : List Nat) (oldest current : Nat) : bp_channel_t :=
  { opened_channel N timeout wrap cid_reuse with
    active_table :=
      { sid := fun i => sids.getD i 0, retx := fun _ => 0, oldest_cid := oldest,
        current_cid := current } }

/-- A call of `bplib_load` at time `sysnow` with a caller buffer of `size`
bytes. -/
def load_into (size : Int) (sysnow : Nat) : (ref_store_t → ref_store_t) × bp_load_args_t :=
  (id, { buffer_null := false, size := size, timeout := 0, loadflags := 0, sysnow := sysnow,
         malloc_ok := true, fuel := 8 })

/-- The state in which `bplib_load` starts the scan of the active table. -/
def scan_start {σ : Type} (ch : bp_channel_t) (env1 : σ) (flags1 : Nat) : bp_load_state_t σ :=
  { ch := ch, env := env1, data := none, sid := BP_SID_VACANT, ati := -1, newcid := true,
    status := bp_status_t.BP_SUCCESS, flags := flags1 }

/-- The state after the scan when the oldest bundle has timed out. -/
def timed_out_state {σ : Type} (ch : bp_channel_t) (env2 : σ) (flags1 : Nat) (sid : Nat)
    (d : bp_bundle_data_t) : bp_load_state_t σ :=
  if ch.cid_reuse ≠ 0 then
    { ch := incr_retransmitted (incr_oldest ch), env := env2, data := some d, sid := sid,
      ati := (slot_of ch ch.active_table.oldest_cid : Int), newcid := false,
      status := bp_status_t.BP_SUCCESS, flags := flags1 }
  else
    { ch := set_sid (incr_retransmitted (incr_oldest ch))
        (slot_of ch ch.active_table.oldest_cid) BP_SID_VACANT,
      env := env2, data := some d, sid := sid,
      ati := (slot_of ch ch.active_table.oldest_cid : Int), newcid := true,
      status := bp_status_t.BP_SUCCESS, flags := flags1 }

/-- The state after the scan when the oldest bundle is still active, the slot
of `current_cid` is occupied by `sid2` and the wrap response is to resend. -/
def resend_state {σ : Type} (ch : bp_channel_t) (env3 : σ) (flags1 : Nat) (sid2 : Nat)
    (d2 : bp_bundle_data_t) : bp_load_state_t σ :=
  { ch := incr_retransmitted (incr_oldest ch), env := env3, data := some d2, sid := sid2,
    ati := (slot_of ch ch.active_table.current_cid : Int), newcid := true,
    status := bp_status_t.BP_SUCCESS, flags := flags1 ||| BP_FLAG_ACTIVETABLEWRAP }

/-- A storage service that always has one more custody bundle in the bundle
store and files it under the storage id 1, which is free again by then; its
DACS store (handle 1) is empty. -/
def endless_env : bp_env_t Unit :=
  { dacs_check := fun st _ _ _ => (st, 0)
    dequeue := fun st handle _ =>
      if handle = 1 then (st, bp_dequeue_t.timeout)
      else (st, bp_dequeue_t.ok (custody_bundle 0) 1)
    retrieve := fun st _ _ _ => (st, some (custody_bundle 0))
    relinquish := fun st _ _ => st
    sdnv_write := fun header _ _ _ => (header, 0)
    written := fun st _ _ _ => st }

/-- A call of `bplib_load` at time 0 on the endless storage service. -/
def endless_load : (Unit → Unit) × bp_load_args_t := (id, (load_at 0).2)

/-- The channel of the endless run after `k + 1` calls: table size 1, wrap
response DROP, no retransmit timer, slot 0 occupied, `oldest_cid = k` and
`current_cid = k + 1` as a `uint32_t`. -/
def endless_state (ch : bp_channel_t) (k : Nat) : Prop :=
  ch.active_table_size = 1 ∧ ch.dacs_store_handle = 1 ∧ ch.bundle_store_handle = 2 ∧
  ch.timeout = 0 ∧ ch.wrap_response = bp_wrap_t.BP_WRAP_DROP ∧
  ch.active_table.sid 0 = 1 ∧
  ch.active_table.oldest_cid = k ∧ ch.active_table.current_cid = (k + 1) % UINT32_MOD

/-- The active table is consistent: with `N` slots, the storage ids `sid` and
the counters `o = oldest_cid`, `c = current_cid`, at most `N` custody ids are
outstanding and the slot of every custody id from `c` up to `o + N` is
vacant. -/
def window_ok (N : Nat) (sid : Nat → Nat) (o c : Nat) : Prop :=
  o ≤ c ∧ c ≤ o + N ∧ ∀ x, c ≤ x → x < o + N → sid (x % N) = BP_SID_VACANT

/-- The active table of the channel is consistent. -/
def table_ok (ch : bp_channel_t) : Prop :=
  window_ok ch.active_table_size.toNat ch.active_table.sid ch.active_table.oldest_cid
    ch.active_table.current_cid

/-- The channel `ch1` has the configuration of the channel `ch`. -/
def same_config (ch ch1 : bp_channel_t) : Prop :=
  ch1.active_table_size = ch.active_table_size ∧
  ch1.dacs_store_handle = ch.dacs_store_handle ∧
  ch1.bundle_store_handle = ch.bundle_store_handle ∧
  ch1.timeout = ch.timeout ∧
  ch1.wrap_response = ch.wrap_response ∧
  ch1.cid_reuse = ch.cid_reuse

/-! ## The slot of a new custody id -/

/-- Lines 590-760 of `bplib_load`: the store handle and the local state with
which the load section of line 762 is entered, `none` when a loop does not end
within the fuel of the call. -/
def load_section {σ : Type} (E : bp_env_t σ) (ch : bp_channel_t) (env : σ) (a : bp_load_args_t) :
    Option (Int × bp_load_state_t σ) :=
  let d := check_dacs E ch env a
  let s0 : bp_load_state_t σ :=
    { ch := ch, env := d.1.1, data := none, sid := BP_SID_VACANT, ati := -1, newcid := true,
      status := bp_status_t.BP_SUCCESS, flags := d.1.2 }
  match d.2 with
  | bp_dequeue_t.ok data sid =>
    some (ch.dacs_store_handle,
      { s0 with data := some data, sid := sid, flags := s0.flags ||| BP_FLAG_ROUTENEEDED })
  | _ =>
    match load_data_bundle E a s0 with
    | none => none
    | some s => some (ch.bundle_store_handle, s)

/-- The load section of the last call of a sequence: the calls `cs` are run and
then the call `c` up to its load section. -/
def last_section {σ : Type} (E : bp_env_t σ) (ch : bp_channel_t) (env : σ)
    (cs : List ((σ → σ) × bp_load_args_t)) (c : (σ → σ) × bp_load_args_t) :
    Option (Int × bp_load_state_t σ) :=
  match run_loads E ch env cs with
  | none => none
  | some r => load_section E r.2.1 (c.1 r.2.2) c.2

/-! ## Endpoint id strings -/

/-- The define `BP_MAX_EID_STRING` of bplib.h. -/
def BP_MAX_EID_STRING : Int := 128

/-- The return code `BP_SUCCESS` of bplib.h, as the `int` the functions
return. -/
def BP_SUCCESS : Int := 1

/-- The return code `BP_INVALIDEID` of bplib.h. -/
def BP_INVALIDEID : Int := -19

/-- Modelled from the spec: `bplog` of bplib_os.c (absent) logs the message and
returns the code it is given ("errors are values"). -/
def bplog (status : Int) : Int := status

/-- The limits of the C platform: `ULONG_MAX` of limits.h, the largest
`unsigned long`. -/
structure c_limits_t where
  ULONG_MAX : Nat
deriving DecidableEq, Repr

/-- A platform with a 32-bit `unsigned long`. -/
def ilp32 : c_limits_t := ⟨4294967295⟩

/-- A platform with a 64-bit `unsigned long`. -/
def lp64 : c_limits_t := ⟨18446744073709551615⟩

/-- The function `isspace` of the C library in the "C" locale. -/
def isspace (c : Nat) : Bool := c = 32 || (9 ≤ c && c ≤ 13)

/-- The function `isdigit` of the C library. -/
def isdigit (c : Nat) : Bool := 48 ≤ c && c ≤ 57

/-- The function `strchr` of the C library on a NUL-terminated buffer, for a
character other than NUL: the offset of the first occurrence before the
terminator. -/
def strchr : List Nat → Nat → Option Nat
  | [], _ => none
  | x :: xs, c =>
    if x = c then some 0
    else if x = 0 then none
    else (strchr xs c).map (fun k => k + 1)

/-- The value of a run of decimal digits. -/
def digits_value (ds : List Nat) : Nat :=
  ds.foldl (fun acc d => acc * 10 + (d - 48)) 0

/-- The function `strtoul` of the C library with base 10, on the bytes from
`nptr` on: white space is skipped, a sign is taken, and the longest run of
digits is converted.  The result is the value, the offset of `endptr` from
`nptr`, and whether `errno` is set to `ERANGE`; without a digit the value is 0
and `endptr` is `nptr`, and a value beyond `ULONG_MAX` gives `ULONG_MAX` and
`ERANGE`. -/
def strtoul (L : c_limits_t) (s : List Nat) : Nat × Nat × Bool :=
  let ws := s.takeWhile isspace
  let s1 := s.drop ws.length
  let neg := s1.head? = some 45
  let sg := if s1.head? = some 45 ∨ s1.head? = some 43 then 1 else 0
  let ds := (s1.drop sg).takeWhile isdigit
  if ds = [] then (0, 0, false)
  else
    let v := digits_value ds
    if v > L.ULONG_MAX then (L.ULONG_MAX, ws.length + sg + ds.length, true)
    else if neg then ((L.ULONG_MAX + 1 - v) % (L.ULONG_MAX + 1), ws.length + sg + ds.length, false)
    else (v, ws.length + sg + ds.length, false)

/-- Lines 1040-1043 of `bplib_eid2ipn`: the temporary buffer after the `memcpy`
of `tmplen` bytes from `&eid[4]` and the terminator. -/
def eidtmp (eid : Nat → Nat) (tmplen : Nat) : List Nat :=
  (List.range tmplen).map (fun i => eid (4 + i)) ++ [0]

/-- No dot follows the prefix of the `len` bytes at `eid`: every `'.'` among the
bytes behind `ipn:` comes after a NUL. -/
def no_dot (eid : Nat → Nat) (len : Int) : Prop :=
  ∀ i, i < (len - 4).toNat → eid (4 + i) = 46 → ∃ j, j < i ∧ eid (4 + j) = 0

/-- Lines 1056-1074 of `bplib_eid2ipn`: the node string and the service string
are parsed. -/
def parse_ipn (L : c_limits_t) (node_str service_str : List Nat) : Int × Option (Nat × Nat) :=
  let n := strtoul L node_str
  if n.2.1 = 0 ∨ ((n.1 = L.ULONG_MAX ∨ n.1 = 0) ∧ n.2.2 = true) then
    (bplog BP_INVALIDEID, none)
  else
    let s := strtoul L service_str
    if s.2.1 = 0 ∨ ((s.1 = L.ULONG_MAX ∨ s.1 = 0) ∧ s.2.2 = true) then
      (bplog BP_INVALIDEID, none)
    else
      (BP_SUCCESS, some (n.1 % 4294967296, s.1 % 4294967296))

/-- The function `bplib_eid2ipn` of bplib.c: `eid` is the memory at the `eid`
pointer (`none` for a null pointer); the result is the status and the node and
service written through the output pointers (`none` when nothing is
written). -/
def bplib_eid2ipn (L : c_limits_t) (eid : Option (Nat → Nat)) (len : Int) :
    Int × Option (Nat × Nat) :=
  match eid with
  | none => (bplog BP_INVALIDEID, none)
  | some eid =>
    if len < 7 then (bplog BP_INVALIDEID, none)
    else if len > BP_MAX_EID_STRING then (bplog BP_INVALIDEID, none)
    else if eid 0 ≠ 105 ∨ eid 1 ≠ 112 ∨ eid 2 ≠ 110 ∨ eid 3 ≠ 58 then
      (bplog BP_INVALIDEID, none)
    else
      let tmplen := len - 4
      let tmp := eidtmp eid tmplen.toNat
      match strchr tmp 46 with
      | none => (bplog BP_INVALIDEID, none)
      | some k => parse_ipn L (tmp.take k ++ [0]) (tmp.drop (k + 1))

/-- The digits of the conversion `%lu`, most significant first. -/
def format_lu_loop : Nat → Nat → List Nat → List Nat
  | 0, _, acc => acc
  | fuel + 1, n, acc =>
    if n < 10 then (48 + n) :: acc
    else format_lu_loop fuel (n / 10) ((48 + n % 10) :: acc)

/-- The conversion `%lu` of the C library: the decimal digits of `n`. -/
def format_lu (n : Nat) : List Nat := format_lu_loop (n + 1) n []

/-- The string `ipn:N.S` of the format `"ipn:%lu.%lu"`. -/
def ipn_string (node service : Nat) : List Nat :=
  [105, 112, 110, 58] ++ format_lu node ++ [46] ++ format_lu service

/-- The memory that holds the NUL-terminated string `s`; the bytes behind the
terminator are 0. -/
def cstring (s : List Nat) : Nat → Nat := fun i => s.getD i 0

/-- Modelled from the spec: `bplib_os_format` of bplib_os.c (absent) formats
into a buffer of `len` bytes as `snprintf` does: the result holds at most
`len - 1` characters of the string and the terminator. -/
def bplib_os_format (len : Nat) (s : List Nat) : List Nat :=
  s.take (len - 1) ++ [0]

/-- The function `bplib_ipn2eid` of bplib.c: `eid_null` says that the `eid`
pointer is null; the result is the status and the bytes written to the buffer
(`none` when nothing is written). -/
def bplib_ipn2eid (eid_null : Bool) (len : Int) (node service : Nat) :
    Int × Option (List Nat) :=
  if eid_null then (bplog BP_INVALIDEID, none)
  else if len < 7 then (bplog BP_INVALIDEID, none)
  else if len > BP_MAX_EID_STRING then (bplog BP_INVALIDEID, none)
  else (BP_SUCCESS, some (bplib_os_format len.toNat (ipn_string node service)))

/-! ## Options -/

/-- The return code `BP_PARMERR` of bplib.h. -/
def BP_PARMERR : Int := -2

/-- Modelled from the spec: the options that `getset_opt` handles, whose
numbers are defines of the bplib.h that bplib.c was written for (the header at
hand is of another version); `other` is any number that is none of them. -/
inductive bp_opt_t where
  | BP_OPT_DSTNODE_D
  | BP_OPT_DSTSERV_D
  | BP_OPT_RPTNODE_D
  | BP_OPT_RPTSERV_D
  | BP_OPT_CSTNODE_D
  | BP_OPT_CSTSERV_D
  | BP_OPT_SETSEQUENCE_D
  | BP_OPT_LIFETIME_D
  | BP_OPT_CSTRQST_D
  | BP_OPT_ICHECK_D
  | BP_OPT_ALLOWFRAG_D
  | BP_OPT_PAYCRC_D
  | BP_OPT_TIMEOUT
  | BP_OPT_BUNDLELEN
  | BP_OPT_ORIGINATE
  | BP_OPT_PROCADMINONLY
  | BP_OPT_WRAPRSP
  | BP_OPT_CIDREUSE
  | BP_OPT_ACSRATE
  | other (opt : Int)
deriving DecidableEq, Repr

/-- Modelled from the spec: the fields of `bp_bundle_t` that bplib.c reads and
writes (`ch->bundle`; the bundle.h at hand is of another version).  `createseq`
is `blocks.primary_block.createseq.value` and `cipher_suite_id` is
`blocks.integrity_block.cipher_suite_id.value`, both unsigned 32-bit values;
`payload_store_handle` is `payload_store.handle`; the node and service numbers
are `bp_ipn_t`, an unsigned 32-bit type. -/
structure bp_bundle_t where
  destination_node : Nat
  destination_service : Nat
  report_node : Nat
  report_service : Nat
  local_node : Nat
  local_service : Nat
  createseq : Nat
  lifetime : Int
  request_custody : Int
  integrity_check : Int
  allow_fragmentation : Int
  cipher_suite_id : Nat
  maxlength : Int
  originate : Int
  proc_admin_only : Int
  payload_store_handle : Int
  prebuilt : Bool
deriving DecidableEq, Repr

/-- A channel control block: the fields that `bplib_load` uses and the bundle
structure `ch->bundle`. -/
structure bp_chan_t where
  ch : bp_channel_t
  bundle : bp_bundle_t

/-- Modelled from the spec: the numbers of the wrap responses, which are
defines of the bplib.h that bplib.c was written for; three distinct numbers. -/
def wrap_code : bp_wrap_t → Int
  | bp_wrap_t.BP_WRAP_RESEND => 0
  | bp_wrap_t.BP_WRAP_BLOCK => 1
  | bp_wrap_t.BP_WRAP_DROP => 2

/-- The wrap response that the `int` field `wrap_response` stands for when it
holds one of the three numbers. -/
def wrap_of_code (v : Int) : bp_wrap_t :=
  if v = wrap_code bp_wrap_t.BP_WRAP_RESEND then bp_wrap_t.BP_WRAP_RESEND
  else if v = wrap_code bp_wrap_t.BP_WRAP_BLOCK then bp_wrap_t.BP_WRAP_BLOCK
  else bp_wrap_t.BP_WRAP_DROP

/-- The size of an `int` and of a `bp_ipn_t`, both 32-bit types. -/
def SIZEOF_INT : Int := 4

/-- The conversion of an `int` to an unsigned 32-bit value. -/
def to_uint32 (v : Int) : Nat := (v % 4294967296).toNat

/-- The conversion of an unsigned 32-bit value to an `int`. -/
def to_int32 (n : Nat) : Int := if n < 2147483648 then (n : Int) else (n : Int) - 4294967296

/-- Modelled from the spec: `bundle_update` of bundle.c (absent), which
`getset_opt` calls after a write: the pre-built header is invalidated and is
built again from the options at the next `bundle_send`; the options are kept. -/
def bundle_update (b : bp_bundle_t) : bp_bundle_t := { b with prebuilt := false }

/-- What `getset_opt` leaves: the status, the channel, and the value behind
the `val` pointer. -/
structure bp_opt_result_t where
  status : Int
  st : bp_chan_t
  val : Int

/-- The end of `getset_opt` (lines 278-283) after an option was processed: a
write re-initializes the bundle. -/
def opt_done (st : bp_chan_t) (val : Int) (getset : Bool) : bp_opt_result_t :=
  { status := BP_SUCCESS
    st := if getset then { st with bundle := bundle_update st.bundle } else st
    val := val }

/-- An option of type `bp_ipn_t` or `uint32_t` in `getset_opt`: `field` is the
value of the field and `store` the assignment to it. -/
def opt_unsigned (st : bp_chan_t) (val len : Int) (getset : Bool) (field : Nat)
    (store : Nat → bp_chan_t) : bp_opt_result_t :=
  if len ≠ SIZEOF_INT then { status := BP_PARMERR, st := st, val := val }
  else if getset then opt_done (store val.toNat) val getset
  else opt_done st (field : Int) getset

/-- An option of type `int` in `getset_opt`, with the check `ok` of the value
on a write. -/
def opt_int (st : bp_chan_t) (val len : Int) (getset : Bool) (ok : Bool) (field : Int)
    (store : Int → bp_chan_t) : bp_opt_result_t :=
  if len ≠ SIZEOF_INT then { status := BP_PARMERR, st := st, val := val }
  else if getset && !ok then { status := BP_PARMERR, st := st, val := val }
  else if getset then opt_done (store val) val getset
  else opt_done st field getset

/-- The check `*enable != true && *enable != false` of the flag options. -/
def is_flag (val : Int) : Bool := val = 1 || val = 0

/-- The function `getset_opt` of bplib.c on the channel control block: `val`
is the value behind the `val` pointer, read through the pointer type of the
option. -/
def getset_opt (st : bp_chan_t) (opt : bp_opt_t) (val len : Int) (getset : Bool) :
    bp_opt_result_t :=
  match opt with
  | bp_opt_t.BP_OPT_DSTNODE_D =>
    opt_unsigned st val len getset st.bundle.destination_node
      (fun v => { st with bundle := { st.bundle with destination_node := v } })
  | bp_opt_t.BP_OPT_DSTSERV_D =>
    opt_unsigned st val len getset st.bundle.destination_service
      (fun v => { st with bundle := { st.bundle with destination_service := v } })
  | bp_opt_t.BP_OPT_RPTNODE_D =>
    opt_unsigned st val len getset st.bundle.report_node
      (fun v => { st with bundle := { st.bundle with report_node := v } })
  | bp_opt_t.BP_OPT_RPTSERV_D =>
    opt_unsigned st val len getset st.bundle.report_service
      (fun v => { st with bundle := { st.bundle with report_service := v } })
  | bp_opt_t.BP_OPT_CSTNODE_D =>
    opt_unsigned st val len getset st.bundle.local_node
      (fun v => { st with bundle := { st.bundle with local_node := v } })
  | bp_opt_t.BP_OPT_CSTSERV_D =>
    opt_unsigned st val len getset st.bundle.local_service
      (fun v => { st with bundle := { st.bundle with local_service := v } })
  | bp_opt_t.BP_OPT_SETSEQUENCE_D =>
    opt_unsigned st val len getset st.bundle.createseq
      (fun v => { st with bundle := { st.bundle with createseq := v } })
  | bp_opt_t.BP_OPT_LIFETIME_D =>
    opt_int st val len getset true st.bundle.lifetime
      (fun v => { st with bundle := { st.bundle with lifetime := v } })
  | bp_opt_t.BP_OPT_CSTRQST_D =>
    opt_int st val len getset (is_flag val) st.bundle.request_custody
      (fun v => { st with bundle := { st.bundle with request_custody := v } })
  | bp_opt_t.BP_OPT_ICHECK_D =>
    opt_int st val len getset (is_flag val) st.bundle.integrity_check
      (fun v => { st with bundle := { st.bundle with integrity_check := v } })
  | bp_opt_t.BP_OPT_ALLOWFRAG_D =>
    opt_int st val len getset (is_flag val) st.bundle.allow_fragmentation
      (fun v => { st with bundle := { st.bundle with allow_fragmentation := v } })
  | bp_opt_t.BP_OPT_PAYCRC_D =>
    opt_int st val len getset true (to_int32 st.bundle.cipher_suite_id)
      (fun v => { st with bundle := { st.bundle with cipher_suite_id := to_uint32 v } })
  | bp_opt_t.BP_OPT_TIMEOUT =>
    opt_int st val len getset true st.ch.timeout
      (fun v => { st with ch := { st.ch with timeout := v } })
  | bp_opt_t.BP_OPT_BUNDLELEN =>
    opt_int st val len getset true st.bundle.maxlength
      (fun v => { st with bundle := { st.bundle with maxlength := v } })
  | bp_opt_t.BP_OPT_ORIGINATE =>
    opt_int st val len getset (is_flag val) st.bundle.originate
      (fun v => { st with bundle := { st.bundle with originate := v } })
  | bp_opt_t.BP_OPT_PROCADMINONLY =>
    opt_int st val len getset (is_flag val) st.bundle.proc_admin_only
      (fun v => { st with bundle := { st.bundle with proc_admin_only := v } })
  | bp_opt_t.BP_OPT_WRAPRSP =>
    opt_int st val len getset
      (val = wrap_code bp_wrap_t.BP_WRAP_RESEND || val = wrap_code bp_wrap_t.BP_WRAP_BLOCK
        || val = wrap_code bp_wrap_t.BP_WRAP_DROP)
      (wrap_code st.ch.wrap_response)
      (fun v => { st with ch := { st.ch with wrap_response := wrap_of_code v } })
  | bp_opt_t.BP_OPT_CIDREUSE =>
    opt_int st val len getset (is_flag val) st.ch.cid_reuse
      (fun v => { st with ch := { st.ch with cid_reuse := v } })
  | bp_opt_t.BP_OPT_ACSRATE =>
    opt_int st val len getset true st.ch.dacs_rate
      (fun v => { st with ch := { st.ch with dacs_rate := v } })
  | bp_opt_t.other _ => { status := bplog BP_PARMERR, st := st, val := val }

/-- The function `bplib_getopt` of bplib.c on an open channel: `val` is the
value behind the `val` pointer, `none` for a null pointer. -/
def bplib_getopt (st : bp_chan_t) (opt : bp_opt_t) (val : Option Int) (len : Int) :
    Int × bp_chan_t × Option Int :=
  match val with
  | none => (BP_PARMERR, st, none)
  | some v =>
    let r := getset_opt st opt v len false
    (r.status, r.st, some r.val)

/-- The function `bplib_setopt` of bplib.c on an open channel. -/
def bplib_setopt (st : bp_chan_t) (opt : bp_opt_t) (val : Option Int) (len : Int) :
    Int × bp_chan_t × Option Int :=
  match val with
  | none => (BP_PARMERR, st, none)
  | some v =>
    let r := getset_opt st opt v len true
    (r.status, r.st, some r.val)

/-- The value that a read of the option gives: the field of the option, as the
type through which `getset_opt` writes it to `val`. -/
def opt_field (st : bp_chan_t) : bp_opt_t → Int
  | bp_opt_t.BP_OPT_DSTNODE_D => st.bundle.destination_node
  | bp_opt_t.BP_OPT_DSTSERV_D => st.bundle.destination_service
  | bp_opt_t.BP_OPT_RPTNODE_D => st.bundle.report_node
  | bp_opt_t.BP_OPT_RPTSERV_D => st.bundle.report_service
  | bp_opt_t.BP_OPT_CSTNODE_D => st.bundle.local_node
  | bp_opt_t.BP_OPT_CSTSERV_D => st.bundle.local_service
  | bp_opt_t.BP_OPT_SETSEQUENCE_D => st.bundle.createseq
  | bp_opt_t.BP_OPT_LIFETIME_D => st.bundle.lifetime
  | bp_opt_t.BP_OPT_CSTRQST_D => st.bundle.request_custody
  | bp_opt_t.BP_OPT_ICHECK_D => st.bundle.integrity_check
  | bp_opt_t.BP_OPT_ALLOWFRAG_D => st.bundle.allow_fragmentation
  | bp_opt_t.BP_OPT_PAYCRC_D => to_int32 st.bundle.cipher_suite_id
  | bp_opt_t.BP_OPT_TIMEOUT => st.ch.timeout
  | bp_opt_t.BP_OPT_BUNDLELEN => st.bundle.maxlength
  | bp_opt_t.BP_OPT_ORIGINATE => st.bundle.originate
  | bp_opt_t.BP_OPT_PROCADMINONLY => st.bundle.proc_admin_only
  | bp_opt_t.BP_OPT_WRAPRSP => wrap_code st.ch.wrap_response
  | bp_opt_t.BP_OPT_CIDREUSE => st.ch.cid_reuse
  | bp_opt_t.BP_OPT_ACSRATE => st.ch.dacs_rate
  | bp_opt_t.other _ => 0

/-- The option is one that `getset_opt` handles. -/
def opt_handled : bp_opt_t → Bool
  | bp_opt_t.other _ => false
  | _ => true

/-- The value `v` is a value of the type through which `getset_opt` reads the
option: `bp_ipn_t` and `uint32_t` for the node, service and sequence options,
`int` for the others. -/
def opt_value (opt : bp_opt_t) (v : Int) : Prop :=
  match opt with
  | bp_opt_t.BP_OPT_DSTNODE_D | bp_opt_t.BP_OPT_DSTSERV_D | bp_opt_t.BP_OPT_RPTNODE_D
  | bp_opt_t.BP_OPT_RPTSERV_D | bp_opt_t.BP_OPT_CSTNODE_D | bp_opt_t.BP_OPT_CSTSERV_D
  | bp_opt_t.BP_OPT_SETSEQUENCE_D => 0 ≤ v ∧ v < 4294967296
  | _ => -2147483648 ≤ v ∧ v < 2147483648

/-- A bundle structure for the concrete runs: destination ipn:2.1, local
endpoint ipn:1.1, lifetime 3600, custody requested, payload store handle 3. -/
def sample_bundle : bp_bundle_t :=
  { destination_node := 2, destination_service := 1, report_node := 0, report_service := 0,
    local_node := 1, local_service := 1, createseq := 0, lifetime := 3600,
    request_custody := 1, integrity_check := 1, allow_fragmentation := 0,
    cipher_suite_id := 6, maxlength := 4096, originate := 1, proc_admin_only := 0,
    payload_store_handle := 3, prebuilt := true }

/-- An opened channel for the concrete runs: active table of 2 slots, timeout
10, wrap response RESEND, no CID reuse. -/
def sample_chan : bp_chan_t :=
  { ch := opened_channel 2 10 bp_wrap_t.BP_WRAP_RESEND 0, bundle := sample_bundle }

/-! ## Store, process, accept and the statistics -/

/-- The return code `BP_EXPIRED` of bplib.h. -/
def BP_EXPIRED : Int := -4

/-- The return code `BP_FAILEDMEM` of bplib.h. -/
def BP_FAILEDMEM : Int := -17

/-- The return code `BP_PENDINGACKNOWLEDGMENT` of bplib.h. -/
def BP_PENDINGACKNOWLEDGMENT : Int := -25

/-- Modelled from the spec: the return codes that bplib.c uses and the bplib.h
at hand (of another version) does not define; any two numbers. -/
structure bp_codes_t where
  BP_PENDINGCUSTODYTRANSFER : Int
  BP_PAYLOADTOOLARGE : Int
deriving DecidableEq, Repr

/-- Modelled from the spec: an object of the payload store as `bplib_accept`
reads it, the header `bp_payload_data_t` (absent) with its `int` field
`payloadsize`, and the bytes that follow the header (`bytes i` is
`storebuf[sizeof(bp_payload_data_t) + i]`). -/
structure bp_payload_data_t where
  payloadsize : Int
  bytes : Nat → Nat

/-- What `bundle_send` of bundle.c (absent) leaves: the storage service, the
bundle structure, the flags it raises and its status. -/
structure bp_sent_t (σ : Type) where
  env : σ
  bundle : bp_bundle_t
  flags : Nat
  status : Int

/-- What `bundle_receive` of bundle.c (absent) leaves: the storage service,
the bundle structure, the block that `block` and `block_size` point to, the
flags it raises and its status. -/
structure bp_received_t (σ : Type) where
  env : σ
  bundle : bp_bundle_t
  block : List Nat
  block_size : Int
  flags : Nat
  status : Int

/-- What `dacs_process` of dacs.c (absent) leaves: the storage service, the
`sid` array of the active table, the flags it raises and the number of
acknowledgments behind the `acks` pointer. -/
structure bp_acked_t (σ : Type) where
  env : σ
  sid : Nat → Nat
  flags : Nat
  acknowledgment_count : Int

/-- The library around bplib.c, over the state `σ` of the storage service and
of the DACS module: the call-backs of `bplib_load`, the codes that the header
does not define, `bundle_send` and `bundle_receive` of bundle.c, `dacs_process`
and `dacs_acknowledge` of dacs.c, `cteb_read` of the block modules (it gives
its return value, the block it read and the flags it raises), the `dequeue`
call-back on the payload store (it gives its status, the object and the
storage id), and the `getcount` call-back. -/
structure bp_lib_t (σ : Type) where
  store : bp_env_t σ
  codes : bp_codes_t
  bundle_send : σ → bp_bundle_t → List Nat → Int → Int → bp_sent_t σ
  bundle_receive : σ → bp_bundle_t → List Nat → Int → Nat → Int → bp_received_t σ
  dacs_process : σ → List Nat → Int → (Nat → Nat) → Int → Int → bp_acked_t σ
  cteb_read : List Nat → Int → Int × List Nat × Nat
  dacs_acknowledge : σ → List Nat → Nat → Int → Int → σ × Nat × Int
  dequeue_payload : σ → Int → Int → σ × Int × bp_payload_data_t × Nat
  getcount : σ → Int → Int

/-- The statement `ch->stats.generated++`. -/
def incr_generated (ch : bp_channel_t) : bp_channel_t :=
  { ch with stats := { ch.stats with generated := incr32 ch.stats.generated } }

/-- The statement `ch->stats.received++`. -/
def incr_received (ch : bp_channel_t) : bp_channel_t :=
  { ch with stats := { ch.stats with received := incr32 ch.stats.received } }

/-- The statement `ch->stats.delivered++`. -/
def incr_delivered (ch : bp_channel_t) : bp_channel_t :=
  { ch with stats := { ch.stats with delivered := incr32 ch.stats.delivered } }

/-- The statement `ch->stats.acknowledged += acknowledgment_count`, the sum of
a `uint32_t` and a positive `int`. -/
def add_acknowledged (ch : bp_channel_t) (acknowledgment_count : Int) : bp_channel_t :=
  { ch with stats := { ch.stats with
      acknowledged := (ch.stats.acknowledged + acknowledgment_count.toNat) % UINT32_MOD } }

/-- What a call of `bplib_store` or `bplib_process` leaves: the status, the
channel, the environment and the flags word. -/
structure bp_api_t (σ : Type) where
  status : Int
  st : bp_chan_t
  env : σ
  flags : Nat

/-- The function `bplib_store` of bplib.c on the channel control block, once
the parameter checks have passed. -/
def bplib_store {σ : Type} (L : bp_lib_t σ) (st : bp_chan_t) (env : σ) (payload : List Nat)
    (size timeout : Int) (storflags : Nat) : bp_api_t σ :=
  let r := L.bundle_send env st.bundle payload size timeout
  let st1 : bp_chan_t := { st with bundle := r.bundle }
  let st2 : bp_chan_t :=
    if r.status = BP_SUCCESS then { st1 with ch := incr_generated st1.ch } else st1
  { status := r.status, st := st2, env := r.env, flags := storflags ||| r.flags }

/-- Lines 857-870 of `bplib_process`: the aggregate custody signal in `block`
is processed. -/
def process_dacs {σ : Type} (L : bp_lib_t σ) (st : bp_chan_t) (r : bp_received_t σ)
    (flags : Nat) : bp_api_t σ :=
  let d := L.dacs_process r.env r.block r.block_size st.ch.active_table.sid
    st.ch.active_table_size st.ch.bundle_store_handle
  let ch1 : bp_channel_t :=
    { st.ch with active_table := { st.ch.active_table with sid := d.sid } }
  let ch2 : bp_channel_t :=
    if d.acknowledgment_count > 0 then add_acknowledged ch1 d.acknowledgment_count else ch1
  { status := r.status, st := { st with ch := ch2 }, env := d.env, flags := flags ||| d.flags }

/-- Lines 872-885 of `bplib_process`: the custody transfer of the bundle in
`block` is acknowledged. -/
def process_cteb {σ : Type} (L : bp_lib_t σ) (st : bp_chan_t) (r : bp_received_t σ)
    (sysnow : Nat) (flags : Nat) : bp_api_t σ :=
  let c := L.cteb_read r.block r.block_size
  if c.1 > 0 then
    let k := L.dacs_acknowledge r.env c.2.1 sysnow BP_CHECK st.ch.dacs_store_handle
    { status := k.2.2, st := st, env := k.1, flags := flags ||| c.2.2 ||| k.2.1 }
  else
    { status := r.status, st := st, env := r.env, flags := flags ||| c.2.2 }

/-- The function `bplib_process` of bplib.c on the channel control block, once
the parameter checks have passed; `sysnow` is the time `bplib_os_systime`
returns. -/
def bplib_process {σ : Type} (L : bp_lib_t σ) (st : bp_chan_t) (env : σ) (bundle : List Nat)
    (size timeout : Int) (sysnow : Nat) (procflags : Nat) : bp_api_t σ :=
  let st1 : bp_chan_t := { st with ch := incr_received st.ch }
  let r := L.bundle_receive env st1.bundle bundle size sysnow timeout
  let st2 : bp_chan_t := { st1 with bundle := r.bundle }
  let flags := procflags ||| r.flags
  if r.status = BP_EXPIRED then
    { status := r.status, st := { st2 with ch := incr_expired st2.ch }, env := r.env,
      flags := flags }
  else if r.status = L.codes.BP_PENDINGCUSTODYTRANSFER then process_dacs L st2 r flags
  else if r.status = BP_PENDINGACKNOWLEDGMENT then process_cteb L st2 r sysnow flags
  else { status := r.status, st := st2, env := r.env, flags := flags }

/-- The inputs of one call of `bplib_accept`: whether the channel is open and
the pointers `payload` and `size` are not null (`valid`), the caller's buffer
(`payload_null` is `*payload == NULL`, `size` is `*size`), `timeout`, and
whether `malloc` gives memory. -/
structure bp_accept_args_t where
  valid : Bool
  payload_null : Bool
  size : Int
  timeout : Int
  malloc_ok : Bool
deriving DecidableEq, Repr

/-- What a call of `bplib_accept` leaves: the status, the channel, the
environment, the bytes copied to `*payload` (`none` when nothing is copied)
and `*size`. -/
structure bp_accept_t (σ : Type) where
  status : Int
  st : bp_chan_t
  env : σ
  payload : Option (List Nat)
  size : Int

/-- The bytes that `memcpy(*payload, payptr, paylen)` copies. -/
def payload_bytes (paystore : bp_payload_data_t) : List Nat :=
  (List.range paystore.payloadsize.toNat).map paystore.bytes

/-- Lines 919-952 of `bplib_accept`: the payload store gave the object
`paystore` with storage id `sid`. -/
def accept_payload {σ : Type} (L : bp_lib_t σ) (st : bp_chan_t) (env : σ)
    (a : bp_accept_args_t) (paystore : bp_payload_data_t) (sid : Nat) : bp_accept_t σ :=
  let paylen := paystore.payloadsize
  let env1 := L.store.relinquish env st.bundle.payload_store_handle sid
  if a.payload_null = true ∨ a.size ≥ paylen then
    if a.payload_null = false ∨ a.malloc_ok = true then
      { status := BP_SUCCESS, st := { st with ch := incr_delivered st.ch }, env := env1,
        payload := some (payload_bytes paystore), size := paylen }
    else
      { status := bplog BP_FAILEDMEM, st := { st with ch := incr_lost st.ch }, env := env1,
        payload := none, size := a.size }
  else
    { status := bplog L.codes.BP_PAYLOADTOOLARGE, st := { st with ch := incr_lost st.ch },
      env := env1, payload := none, size := a.size }

/-- The function `bplib_accept` of bplib.c on the channel control block. -/
def bplib_accept {σ : Type} (L : bp_lib_t σ) (st : bp_chan_t) (env : σ)
    (a : bp_accept_args_t) : bp_accept_t σ :=
  if a.valid = false then
    { status := BP_PARMERR, st := st, env := env, payload := none, size := a.size }
  else
    let d := L.dequeue_payload env st.bundle.payload_store_handle a.timeout
    if d.2.1 > 0 then accept_payload L st d.1 a d.2.2.1 d.2.2.2
    else { status := d.2.1, st := st, env := d.1, payload := none, size := a.size }

/-- The function `bplib_latchstats` of bplib.c on the channel control block,
once the parameter checks have passed: the status, the channel and the
statistics copied to `*stats`. -/
def bplib_latchstats {σ : Type} (L : bp_lib_t σ) (st : bp_chan_t) (env : σ) :
    Int × bp_chan_t × bp_stats_t :=
  let stats : bp_stats_t :=
    { st.ch.stats with
      bundles := to_uint32 (L.getcount env st.ch.bundle_store_handle)
      payloads := to_uint32 (L.getcount env st.bundle.payload_store_handle)
      records := to_uint32 (L.getcount env st.ch.dacs_store_handle) }
  (BP_SUCCESS, { st with ch := { st.ch with stats := stats } }, stats)

/-- A library for the concrete runs, over a storage service without state:
the call-backs of `endless_env`, a `bundle_send` that succeeds, a
`bundle_receive` that finds every bundle expired, and a payload store that
always holds the payload `hi!` with storage id 1. -/
def sample_lib : bp_lib_t Unit :=
  { store := endless_env
    codes := ⟨-28, -29⟩
    bundle_send := fun env b _ _ _ => ⟨env, b, 0, BP_SUCCESS⟩
    bundle_receive := fun env b block size _ _ => ⟨env, b, block, size, 0, BP_EXPIRED⟩
    dacs_process := fun env _ _ sid _ _ => ⟨env, sid, 0, 0⟩
    cteb_read := fun block _ => (1, block, 0)
    dacs_acknowledge := fun env _ _ _ _ => (env, 0, BP_SUCCESS)
    dequeue_payload := fun env _ _ => (env, BP_SUCCESS, ⟨3, cstring [104, 105, 33]⟩, 1)
    getcount := fun _ _ => 1 }

/-- The sample channel with `delivered` at the largest `uint32_t`. -/
def sample_chan_full : bp_chan_t :=
  { sample_chan with ch := { sample_chan.ch with stats :=
      { sample_chan.ch.stats with delivered := 4294967295 } } }

/-- A call of one of the five functions that touch the statistics, with its
arguments. -/
inductive bp_call_t where
  | store (payload : List Nat) (size timeout : Int) (storflags : Nat)
  | load (a : bp_load_args_t)
  | process (bundle : List Nat) (size timeout : Int) (sysnow : Nat) (procflags : Nat)
  | accept (a : bp_accept_args_t)
  | latchstats

/-- The channel and the environment after a call: `none` when a loop of
`bplib_load` does not end within the fuel of the call. -/
def api_call {σ : Type} (L : bp_lib_t σ) (st : bp_chan_t) (env : σ) :
    bp_call_t → Option (bp_chan_t × σ)
  | bp_call_t.store payload size timeout storflags =>
    some ((bplib_store L st env payload size timeout storflags).st,
      (bplib_store L st env payload size timeout storflags).env)
  | bp_call_t.load a =>
    (bplib_load L.store st.ch env a).map (fun r => ({ st with ch := r.ch }, r.env))
  | bp_call_t.process bundle size timeout sysnow procflags =>
    some ((bplib_process L st env bundle size timeout sysnow procflags).st,
      (bplib_process L st env bundle size timeout sysnow procflags).env)
  | bp_call_t.accept a => some ((bplib_accept L st env a).st, (bplib_accept L st env a).env)
  | bp_call_t.latchstats => some ((bplib_latchstats L st env).2.1, env)

/-- The number that `bplib_process` adds to `acknowledged`: the count that
`dacs_process` gives when the call reaches it, and 0 otherwise. -/
def process_acks {σ : Type} (L : bp_lib_t σ) (st : bp_chan_t) (env : σ) (bundle : List Nat)
    (size timeout : Int) (sysnow : Nat) : Nat :=
  let r := L.bundle_receive env st.bundle bundle size sysnow timeout
  if r.status ≠ BP_EXPIRED ∧ r.status = L.codes.BP_PENDINGCUSTODYTRANSFER then
    (L.dacs_process r.env r.block r.block_size st.ch.active_table.sid
      st.ch.active_table_size st.ch.bundle_store_handle).acknowledgment_count.toNat
  else 0

/-- The most that one call adds to a counter: a pass of a loop of `bplib_load`
adds at most 1 to a counter and the load section 1 more, `bplib_process` adds
the acknowledgment count or 1, the other functions at most 1. -/
def call_room {σ : Type} (L : bp_lib_t σ) (st : bp_chan_t) (env : σ) : bp_call_t → Nat
  | bp_call_t.store _ _ _ _ => 1
  | bp_call_t.load a => 2 * a.fuel + 1
  | bp_call_t.process bundle size timeout sysnow _ =>
    1 + process_acks L st env bundle size timeout sysnow
  | bp_call_t.accept _ => 1
  | bp_call_t.latchstats => 0

/-- No one of the eight counters wraps around when `k` is added to it. -/
def stats_room (k : Nat) (s : bp_stats_t) : Prop :=
  s.lost + k < UINT32_MOD ∧ s.expired + k < UINT32_MOD ∧ s.acknowledged + k < UINT32_MOD ∧
  s.transmitted + k < UINT32_MOD ∧ s.retransmitted + k < UINT32_MOD ∧
  s.received + k < UINT32_MOD ∧ s.generated + k < UINT32_MOD ∧ s.delivered + k < UINT32_MOD

/-- No one of the eight counters is smaller in `s1` than in `s`. -/
def stats_le (s s1 : bp_stats_t) : Prop :=
  s.lost ≤ s1.lost ∧ s.expired ≤ s1.expired ∧ s.acknowledged ≤ s1.acknowledged ∧
  s.transmitted ≤ s1.transmitted ∧ s.retransmitted ≤ s1.retransmitted ∧
  s.received ≤ s1.received ∧ s.generated ≤ s1.generated ∧ s.delivered ≤ s1.delivered

/-- Each of the eight counters of `s1` is the counter of `s` plus at most
`k`. -/
def stats_grow (k : Nat) (s s1 : bp_stats_t) : Prop :=
  stats_le s s1 ∧
  s1.lost ≤ s.lost + k ∧ s1.expired ≤ s.expired + k ∧ s1.acknowledged ≤ s.acknowledged + k ∧
  s1.transmitted ≤ s.transmitted + k ∧ s1.retransmitted ≤ s.retransmitted + k ∧
  s1.received ≤ s.received + k ∧ s1.generated ≤ s.generated + k ∧
  s1.delivered ≤ s.delivered + k

/-! ## The calls of one bplib_load in their order -/

/-- The two locks of a channel that `bplib_load` takes: `ch->dacs_bundle_lock`
and `ch->active_table_signal`. -/
inductive bp_lock_t where
  | dacs_bundle_lock
  | active_table_signal
deriving DecidableEq, Repr

/-- A call that `bplib_load` makes to the operating system layer, to the DACS
module or to the storage service, with the lock or the handle and the timeout
it passes. -/
inductive bp_event_t where
  | lock (l : bp_lock_t)
  | unlock (l : bp_lock_t)
  | waiton (l : bp_lock_t)
  | dacs_check (timeout : Int)
  | dequeue (handle timeout : Int)
  | retrieve (handle : Int) (sid : Nat) (timeout : Int)
  | relinquish (handle : Int) (sid : Nat)
  | sdnv_write
deriving DecidableEq, Repr

/-- The calls of lines 672-710 of `bplib_load` (see `wrap_response`). -/
def wrap_response_events {σ : Type} (E : bp_env_t σ) (store_handle : Int)
    (s : bp_load_state_t σ) : List bp_event_t :=
  match s.ch.wrap_response with
  | bp_wrap_t.BP_WRAP_RESEND =>
    bp_event_t.retrieve store_handle s.sid BP_CHECK ::
      (match E.retrieve s.env store_handle s.sid BP_CHECK with
       | (_, none) => [bp_event_t.relinquish store_handle s.sid]
       | (_, some _) => [bp_event_t.waiton bp_lock_t.active_table_signal])
  | bp_wrap_t.BP_WRAP_BLOCK => [bp_event_t.waiton bp_lock_t.active_table_signal]
  | bp_wrap_t.BP_WRAP_DROP => [bp_event_t.relinquish store_handle s.sid]

/-- The calls of lines 654-715 of `bplib_load` (see `still_active`). -/
def still_active_events {σ : Type} (E : bp_env_t σ) (store_handle : Int)
    (s : bp_load_state_t σ) : List bp_event_t :=
  let ati := slot_of s.ch s.ch.active_table.current_cid
  let sid := s.ch.active_table.sid ati
  let s := { s with data := none, ati := (ati : Int), sid := sid }
  if sid ≠ BP_SID_VACANT then wrap_response_events E store_handle s else []

/-- The calls of lines 626-715 of `bplib_load` (see `scan_retrieved`). -/
def scan_retrieved_events {σ : Type} (E : bp_env_t σ) (sysnow : Nat) (store_handle : Int)
    (s : bp_load_state_t σ) (data : bp_bundle_data_t) : List bp_event_t :=
  if is_expired data sysnow then [bp_event_t.relinquish store_handle s.sid]
  else if is_timed_out s.ch s.ati.toNat sysnow then []
  else still_active_events E store_handle s

/-- The calls of one pass of the loop over the active table, lines 618-724 of
`bplib_load` (see `scan_body`). -/
def scan_body_events {σ : Type} (E : bp_env_t σ) (sysnow : Nat) (store_handle : Int)
    (s : bp_load_state_t σ) : List bp_event_t :=
  let ati := slot_of s.ch s.ch.active_table.oldest_cid
  let sid := s.ch.active_table.sid ati
  let s := { s with ati := (ati : Int), sid := sid }
  if sid = BP_SID_VACANT then []
  else
    bp_event_t.retrieve store_handle sid BP_CHECK ::
      (match E.retrieve s.env store_handle sid BP_CHECK with
       | (env, some data) => scan_retrieved_events E sysnow store_handle { s with env := env } data
       | (_, none) => [bp_event_t.relinquish store_handle sid])

/-- The calls of the loop of lines 616-725 of `bplib_load`, as far as the fuel
goes (see `scan_loop`). -/
def scan_loop_events {σ : Type} (E : bp_env_t σ) (sysnow : Nat) (store_handle : Int) :
    Nat → bp_load_state_t σ → List bp_event_t
  | 0, _ => []
  | fuel + 1, s =>
    if s.data = none ∧ s.ch.active_table.oldest_cid < s.ch.active_table.current_cid then
      let r := scan_body E sysnow store_handle s
      scan_body_events E sysnow store_handle s ++
        (if r.2 then [] else scan_loop_events E sysnow store_handle fuel r.1)
    else []

/-- The calls of one pass of the loop that dequeues, lines 733-757 of
`bplib_load` (see `dequeue_body`). -/
def dequeue_body_events {σ : Type} (E : bp_env_t σ) (sysnow : Nat) (store_handle : Int)
    (timeout : Int) (s : bp_load_state_t σ) : List bp_event_t :=
  bp_event_t.dequeue store_handle timeout ::
    (match E.dequeue s.env store_handle timeout with
     | (_, bp_dequeue_t.ok data sid) =>
       if is_expired data sysnow then [bp_event_t.relinquish store_handle sid] else []
     | (_, bp_dequeue_t.timeout) => []
     | (_, bp_dequeue_t.failed) => [])

/-- The calls of the loop of lines 730-758 of `bplib_load`, as far as the fuel
goes (see `dequeue_loop`). -/
def dequeue_loop_events {σ : Type} (E : bp_env_t σ) (sysnow : Nat) (store_handle : Int)
    (timeout : Int) : Nat → bp_load_state_t σ → List bp_event_t
  | 0, _ => []
  | fuel + 1, s =>
    if s.data = none then
      let r := dequeue_body E sysnow store_handle timeout s
      dequeue_body_events E sysnow store_handle timeout s ++
        (if r.2 then [] else dequeue_loop_events E sysnow store_handle timeout fuel r.1)
    else []

/-- The calls of the load section, lines 763-823 of `bplib_load`, with the
lock around it (see `load_bundle`). -/
def load_bundle_events {σ : Type} (a : bp_load_args_t) (store_handle : Int)
    (s : bp_load_state_t σ) : List bp_event_t :=
  [bp_event_t.lock bp_lock_t.active_table_signal] ++
  (match s.data with
   | none => []
   | some data =>
     if a.buffer_null = true ∨ a.size ≥ data.bundlesize then
       if a.buffer_null = false ∨ a.malloc_ok = true then
         (if data.cteboffset ≠ 0 ∧ s.newcid = true then [bp_event_t.sdnv_write] else []) ++
         (if data.cteboffset = 0 then [bp_event_t.relinquish store_handle s.sid] else [])
       else [bp_event_t.relinquish store_handle s.sid]
     else [bp_event_t.relinquish store_handle s.sid]) ++
  [bp_event_t.unlock bp_lock_t.active_table_signal]

/-- The calls of lines 607-760 of `bplib_load` and of the load section after
them, when no DACS bundle is ready (see `load_data_bundle`); the calls stop
where the fuel of a loop runs out. -/
def load_data_events {σ : Type} (E : bp_env_t σ) (a : bp_load_args_t)
    (s : bp_load_state_t σ) : List bp_event_t :=
  [bp_event_t.lock bp_lock_t.active_table_signal] ++
  scan_loop_events E a.sysnow s.ch.bundle_store_handle a.fuel s ++
  (match scan_loop E a.sysnow s.ch.bundle_store_handle a.fuel s with
   | none => []
   | some s1 =>
     [bp_event_t.unlock bp_lock_t.active_table_signal] ++
     dequeue_loop_events E a.sysnow s.ch.bundle_store_handle a.timeout a.fuel s1 ++
     (match dequeue_loop E a.sysnow s.ch.bundle_store_handle a.timeout a.fuel s1 with
      | none => []
      | some s2 => load_bundle_events a s.ch.bundle_store_handle s2))

/-- The calls of lines 590-596 of `bplib_load`: the DACS period is checked and
the DACS store is polled, under the DACS lock (see `check_dacs`). -/
def check_dacs_events (ch : bp_channel_t) : List bp_event_t :=
  [bp_event_t.lock bp_lock_t.dacs_bundle_lock, bp_event_t.dacs_check BP_CHECK,
    bp_event_t.dequeue ch.dacs_store_handle BP_CHECK,
    bp_event_t.unlock bp_lock_t.dacs_bundle_lock]

/-- The calls of `bplib_load` after the DACS lock is released, lines 598-823
(see `bplib_load`), as far as the fuel of the call goes. -/
def load_rest_events {σ : Type} (E : bp_env_t σ) (ch : bp_channel_t) (env : σ)
    (a : bp_load_args_t) : List bp_event_t :=
  let d := check_dacs E ch env a
  let s0 : bp_load_state_t σ :=
    { ch := ch, env := d.1.1, data := none, sid := BP_SID_VACANT, ati := -1, newcid := true,
      status := bp_status_t.BP_SUCCESS, flags := d.1.2 }
  match d.2 with
  | bp_dequeue_t.ok data sid =>
    load_bundle_events a ch.dacs_store_handle
      { s0 with data := some data, sid := sid, flags := s0.flags ||| BP_FLAG_ROUTENEEDED }
  | _ => load_data_events E a s0

/-- The calls of one `bplib_load` in their order, as far as the fuel of the
call goes. -/
def load_events {σ : Type} (E : bp_env_t σ) (ch : bp_channel_t) (env : σ)
    (a : bp_load_args_t) : List bp_event_t :=
  check_dacs_events ch ++ load_rest_events E ch env a

/-- The calls of a sequence that are made while the lock `l` is held; `held`
says whether the lock is held at the start. -/
def under_lock (l : bp_lock_t) : Bool → List bp_event_t → List bp_event_t
  | _, [] => []
  | held, e :: es =>
    if e = bp_event_t.lock l then under_lock l true es
    else if e = bp_event_t.unlock l then under_lock l false es
    else if held then e :: under_lock l held es
    else under_lock l held es

/-- Whether the lock `l` is held after the sequence of calls. -/
def held_after (l : bp_lock_t) : Bool → List bp_event_t → Bool
  | held, [] => held
  | held, e :: es =>
    if e = bp_event_t.lock l then held_after l true es
    else if e = bp_event_t.unlock l then held_after l false es
    else held_after l held es

/-- The call waits: it is `bplib_os_waiton`, or a storage call or `dacs_check`
with a timeout other than `BP_CHECK`. -/
def may_block : bp_event_t → Bool
  | bp_event_t.waiton _ => true
  | bp_event_t.dacs_check timeout => timeout ≠ BP_CHECK
  | bp_event_t.dequeue _ timeout => timeout ≠ BP_CHECK
  | bp_event_t.retrieve _ _ timeout => timeout ≠ BP_CHECK
  | _ => false

/-! ## Well-formed endpoint ids -/

/-- The string begins with a number as `strtoul` reads one: after optional
white space and an optional sign comes a decimal digit. -/
def number_start (s : List Nat) : Bool :=
  match s.dropWhile isspace with
  | [] => false
  | c :: r =>
    if c = 43 ∨ c = 45 then
      match r with
      | [] => false
      | d :: _ => isdigit d
    else isdigit c

/-- The `n` bytes of the memory `eid` from the offset `from_index` on. -/
def eid_bytes (eid : Nat → Nat) (from_index n : Nat) : List Nat :=
  (List.range n).map (fun i => eid (from_index + i))

/-! ## The frame of a load -/

/-- What the scan and the dequeue loop of `bplib_load` leave alone in the
channel: `current_cid`, the `retx` array and the `transmitted` counter. -/
def load_frame (ch ch1 : bp_channel_t) : Prop :=
  ch1.active_table.current_cid = ch.active_table.current_cid ∧
  ch1.active_table.retx = ch.active_table.retx ∧
  ch1.stats.transmitted = ch.stats.transmitted

/-- A bundle of 20 bytes that does not request custody (no CTEB) and never
expires. -/
def plain_bundle : bp_bundle_data_t :=
  { exprtime := 0, cidsdnv := ⟨0, 0, 0⟩, cteboffset := 0, biboffset := 0,
    payoffset := 8, headersize := 12, bundlesize := 20, header := [] }

/-! ## The scan over vacant slots -/

/-- The channel with `oldest_cid` set to `o`. -/
def with_oldest (ch : bp_channel_t) (o : Nat) : bp_channel_t :=
  { ch with active_table := { ch.active_table with oldest_cid := o } }

/-- The state after the scan when the slots of the custody ids from
`oldest_cid` up to `k - 1` are vacant, the bundle of custody id `k` is still
active and the slot of `current_cid` is vacant. -/
def skipped_state {σ : Type} (ch : bp_channel_t) (env2 : σ) (flags1 : Nat) (k : Nat) :
    bp_load_state_t σ :=
  { ch := with_oldest ch k, env := env2, data := none, sid := BP_SID_VACANT,
    ati := (slot_of ch ch.active_table.current_cid : Int), newcid := true,
    status := bp_status_t.BP_SUCCESS, flags := flags1 }

/-- The state after the dequeue loop when the scan ended in `skipped_state` and
the first dequeue gave the bundle `d` with storage id `sid1`, not expired. -/
def dequeued_state {σ : Type} (ch : bp_channel_t) (env3 : σ) (flags1 : Nat) (k : Nat)
    (d : bp_bundle_data_t) (sid1 : Nat) : bp_load_state_t σ :=
  { ch := with_oldest ch k, env := env3, data := some d, sid := sid1,
    ati := (slot_of ch ch.active_table.current_cid : Int), newcid := true,
    status := bp_status_t.BP_SUCCESS, flags := flags1 }

/-! ## bplib_init, bplib_open and bplib_close -/

/-- The define `BP_EMPTY` of bplib.c: the `index` of a channel control block
that is not in use. -/
def BP_EMPTY : Int := -1

/-- The define `BP_INVALID_HANDLE` of bplib.h. -/
def BP_INVALID_HANDLE : Int := -1

/-- The define `BP_DEFAULT_ACTIVE_TABLE_SIZE` of bplib.h. -/
def BP_DEFAULT_ACTIVE_TABLE_SIZE : Int := 16384

/-- The define `BP_DEFAULT_TIMEOUT` of bplib.h. -/
def BP_DEFAULT_TIMEOUT : Int := 10

/-- The define `BP_DEFAULT_DACS_RATE` of bplib.h. -/
def BP_DEFAULT_DACS_RATE : Int := 5

/-- The define `BP_DEFAULT_CID_REUSE` of bplib.h (`false`). -/
def BP_DEFAULT_CID_REUSE : Int := 0

/-- Modelled from the spec: the defaults that bplib.c uses and the bplib.h at
hand (of another version) does not define. -/
structure bp_defaults_t where
  BP_DEFAULT_MAX_CHANNELS : Int
  BP_DEFAULT_WRAP_RESPONSE : bp_wrap_t

/-- The field of `bp_attr_t` that decides the size of the active table. -/
structure bp_attr_t where
  active_table_size : Int
deriving DecidableEq, Repr

/-- One element of the array `channels`: the `index`, the two locks, and the
fields of the channel control block that `bplib_load` uses. -/
structure bp_control_t where
  index : Int
  dacs_bundle_lock : Int
  active_table_signal : Int
  ch : bp_channel_t

/-- The file data of bplib.c: `channels_max` and the memory behind
`channels`. -/
structure bp_library_t where
  channels_max : Int
  channels : Nat → bp_control_t

/-- What the calls of `bplib_open` to the rest of the system answer: the two
`bplib_os_createlock` calls, `store.create`, `bundle_initialize` (its status
and the handle of the bundle store it creates), `dacs_initialize`, and the two
`malloc` calls for the active table (`none` for NULL, otherwise the content of
the fresh memory). -/
structure bp_open_env_t where
  dacs_bundle_lock : Int
  active_table_signal : Int
  dacs_store_handle : Int
  bundle_status : Int
  bundle_store_handle : Int
  dacs_status : Int
  sid_malloc : Option (Nat → Nat)
  retx_malloc : Option (Nat → Nat)

/-- Lock, store and memory creation succeed. -/
def open_succeeds (env : bp_open_env_t) : Prop :=
  0 ≤ env.dacs_bundle_lock ∧ 0 ≤ env.active_table_signal ∧ 0 ≤ env.dacs_store_handle ∧
  env.bundle_status = BP_SUCCESS ∧ env.dacs_status = BP_SUCCESS ∧
  env.sid_malloc ≠ none ∧ env.retx_malloc ≠ none

/-- The assignment of a whole element `channels[i]`. -/
def set_control (lib : bp_library_t) (i : Nat) (c : bp_control_t) : bp_library_t :=
  { lib with channels := fun j => if j = i then c else lib.channels j }

/-- The function `bplib_init` of bplib.c, when the allocation of the channel
memory succeeds; `mem` is the content of the fresh memory. -/
def bplib_init (D : bp_defaults_t) (max_channels : Int) (mem : Nat → bp_control_t) :
    bp_library_t :=
  let channels_max := if max_channels ≤ 0 then D.BP_DEFAULT_MAX_CHANNELS else max_channels
  { channels_max := channels_max
    channels := fun i =>
      if (i : Int) < channels_max then { mem i with index := BP_EMPTY } else mem i }

/-- The function `bplib_close` of bplib.c: the assets are released (calls to
the rest of the system, which leave the file data as it is) and the `index` is
set to `BP_EMPTY`. -/
def bplib_close (lib : bp_library_t) (channel : Int) : bp_library_t :=
  if channel ≥ 0 ∧ channel < lib.channels_max ∧
      (lib.channels channel.toNat).index ≠ BP_EMPTY then
    set_control lib channel.toNat { lib.channels channel.toNat with index := BP_EMPTY }
  else lib

/-- The channel control block after the `memset` of line 344 and the three
assignments of `BP_INVALID_HANDLE`. -/
def cleared_control : bp_control_t :=
  { index := 0
    dacs_bundle_lock := BP_INVALID_HANDLE
    active_table_signal := BP_INVALID_HANDLE
    ch :=
      { active_table_size := 0
        dacs_store_handle := BP_INVALID_HANDLE
        bundle_store_handle := 0
        active_table := { sid := fun _ => 0, retx := fun _ => 0, oldest_cid := 0, current_cid := 0 }
        stats := zero_stats
        timeout := 0
        dacs_rate := 0
        wrap_response := wrap_of_code 0
        cid_reuse := 0 } }

/-- Lines 350-367 of `bplib_open`: the attributes are set, with the default
for an active table size of 0, and the assets are created. -/
def control_with_assets (env : bp_open_env_t) (attr : bp_attr_t) : bp_control_t :=
  { cleared_control with
    dacs_bundle_lock := env.dacs_bundle_lock
    active_table_signal := env.active_table_signal
    ch :=
      { cleared_control.ch with
        active_table_size :=
          (if attr.active_table_size = 0 then BP_DEFAULT_ACTIVE_TABLE_SIZE
            else attr.active_table_size)
        dacs_store_handle := env.dacs_store_handle } }

/-- Lines 411-426 of `bplib_open`: the two arrays of the active table are
zeroed over the `active_table_size` elements (`sid_mem` and `retx_mem` are the
fresh memory) and the data of the channel is initialized.  The type `bp_sid_t`
has the size of a pointer (`void*` in bplib.h), so that the `memset` of
`sizeof(bp_sid_t*)` bytes for each element covers the `sid` array. -/
def control_opened (D : bp_defaults_t) (c : bp_control_t) (sid_mem retx_mem : Nat → Nat) :
    bp_control_t :=
  { c with
    ch :=
      { c.ch with
        active_table :=
          { sid := fun j => if (j : Int) < c.ch.active_table_size then 0 else sid_mem j
            retx := fun j => if (j : Int) < c.ch.active_table_size then 0 else retx_mem j
            oldest_cid := 0
            current_cid := 0 }
        dacs_rate := BP_DEFAULT_DACS_RATE
        timeout := BP_DEFAULT_TIMEOUT
        wrap_response := D.BP_DEFAULT_WRAP_RESPONSE
        cid_reuse := BP_DEFAULT_CID_REUSE } }

/-- Lines 369-405 of `bplib_open`, after the assets were created: the checks
of the assets, the registration of the channel, and the initialization of the
bundle and of the DACS module.  The result is the control block that goes on
to the allocation of the active table, or `none` when the channel is closed
again. -/
def control_registered (env : bp_open_env_t) (c : bp_control_t) (i : Nat) :
    Option bp_control_t :=
  if c.dacs_bundle_lock < 0 ∨ c.active_table_signal < 0 then none
  else if c.ch.dacs_store_handle < 0 then none
  else if env.bundle_status ≠ BP_SUCCESS then none
  else if env.dacs_status ≠ BP_SUCCESS then none
  else some { c with index := (i : Int), ch := { c.ch with
    bundle_store_handle := env.bundle_store_handle } }

/-- The body of the loop of `bplib_open` for the empty element `channels[i]`
(lines 343-431): `none` stands for the dereference of a null `attributes`
pointer in line 353; otherwise the result is the value returned and the file
data.  Every failure closes the channel (`bplib_close(i)`, which finds the
index 0 or `i` of the element and sets it to `BP_EMPTY`) and returns
`BP_INVALID_HANDLE`. -/
def open_slot (D : bp_defaults_t) (lib : bp_library_t) (env : bp_open_env_t)
    (attributes : Option bp_attr_t) (i : Nat) : Option (Int × bp_library_t) :=
  match attributes with
  | none => none
  | some attr =>
    let c1 := control_with_assets env attr
    match control_registered env c1 i with
    | none =>
      some (BP_INVALID_HANDLE, set_control lib i { c1 with index := BP_EMPTY })
    | some c2 =>
      match env.sid_malloc, env.retx_malloc with
      | some sid_mem, some retx_mem =>
        some ((i : Int), set_control lib i (control_opened D c2 sid_mem retx_mem))
      | _, _ => some (BP_INVALID_HANDLE, set_control lib i { c2 with index := BP_EMPTY })

/-- The loop of `bplib_open` over the channels from `i` on (lines 338-433);
`fuel` is the number of elements left, `channels_max - i`.  When no element is
empty the function returns `BP_INVALID_HANDLE`. -/
def open_loop (D : bp_defaults_t) (lib : bp_library_t) (env : bp_open_env_t)
    (attributes : Option bp_attr_t) : Nat → Nat → Option (Int × bp_library_t)
  | 0, _ => some (BP_INVALID_HANDLE, lib)
  | fuel + 1, i =>
    if (lib.channels i).index = BP_EMPTY then open_slot D lib env attributes i
    else open_loop D lib env attributes fuel (i + 1)

/-- The function `bplib_open` of bplib.c on the file data: the channel
returned and the file data after the call, `none` when the call dereferences a
null pointer. -/
def bplib_open (D : bp_defaults_t) (lib : bp_library_t) (env : bp_open_env_t)
    (attributes : Option bp_attr_t) : Option (Int × bp_library_t) :=
  open_loop D lib env attributes lib.channels_max.toNat 0

/-- Defaults for the concrete runs: 4 channels and the wrap response
RESEND. -/
def sample_defaults : bp_defaults_t := ⟨4, bp_wrap_t.BP_WRAP_RESEND⟩

/-- Channel memory of all zeroes. -/
def zero_controls : Nat → bp_control_t := fun _ => { cleared_control with
  dacs_bundle_lock := 0, active_table_signal := 0 }

/-- A system in which every creation succeeds: locks 5 and 6, the DACS store
1, the bundle store 2, zeroed memory. -/
def sample_open_env : bp_open_env_t :=
  { dacs_bundle_lock := 5, active_table_signal := 6, dacs_store_handle := 1,
    bundle_status := BP_SUCCESS, bundle_store_handle := 2, dacs_status := BP_SUCCESS,
    sid_malloc := some (fun _ => 0), retx_malloc := some (fun _ => 0) }

/-! ## The storage ids of the active table -/

/-- The slots of the custody ids from `o` on and below `c` hold storage ids of
bundles that carry their custody id: when the slot of such a custody id `x` is
not vacant, `look` has an object under its storage id, with a CTEB and with
`x` as the value of its custody id field. -/
def slots_hold (N : Nat) (sid : Nat → Nat) (o c : Nat)
    (look : Nat → Option bp_bundle_data_t) : Prop :=
  ∀ x, o ≤ x → x < c → sid (x % N) ≠ BP_SID_VACANT →
    ∃ d, look (sid (x % N)) = some d ∧ d.cidsdnv.value = x ∧ d.cteboffset ≠ 0

/-- No occupied slot of the custody ids from `o` on and below `c` holds the
storage id `v`. -/
def sid_unused (N : Nat) (sid : Nat → Nat) (o c : Nat) (v : Nat) : Prop :=
  ∀ x, o ≤ x → x < c → sid (x % N) ≠ BP_SID_VACANT → sid (x % N) ≠ v

/-- Modelled from the spec: the contract of the storage service (spec 4.2:
`dequeue` hands out the objects of a store, `retrieve(sid)` returns the object
stored under the storage id, `relinquish(sid)` removes it) as far as
`bplib_load` depends on it.  `ok` tells the states the service can be in and
`out env` is the map of the objects that are handed out and not relinquished,
by storage id.  A retrieve answers with the object handed out and changes
nothing; a relinquish leaves the objects of the other storage ids; a dequeue
hands out an object under a storage id that is not handed out at that time;
the DACS module leaves the objects that are handed out; what `bplib_load`
writes through the `data` pointer of an object is what the service has under
its storage id afterwards; and the records of the DACS store have no CTEB. -/
structure store_contract {σ : Type} (E : bp_env_t σ) (dacs_handle bundle_handle : Int)
    (ok : σ → Prop) (out : σ → Nat → Option bp_bundle_data_t) : Prop where
  retrieve_answers : ∀ env sid d, ok env → out env sid = some d →
    (E.retrieve env bundle_handle sid BP_CHECK).2 = some d
  retrieve_keeps : ∀ env sid, ok env →
    ok (E.retrieve env bundle_handle sid BP_CHECK).1 ∧
    ∀ s, out (E.retrieve env bundle_handle sid BP_CHECK).1 s = out env s
  relinquish_keeps : ∀ env handle sid, ok env →
    handle = dacs_handle ∨ handle = bundle_handle →
    ok (E.relinquish env handle sid) ∧
    ∀ s, s ≠ sid → out (E.relinquish env handle sid) s = out env s
  dequeue_hands_out : ∀ env handle timeout, ok env →
    handle = dacs_handle ∨ handle = bundle_handle →
    ok (E.dequeue env handle timeout).1 ∧
    (∀ d sid, (E.dequeue env handle timeout).2 = bp_dequeue_t.ok d sid →
      out env sid = none ∧ out (E.dequeue env handle timeout).1 sid = some d ∧
      ∀ s, s ≠ sid → out (E.dequeue env handle timeout).1 s = out env s) ∧
    ((∀ d sid, (E.dequeue env handle timeout).2 ≠ bp_dequeue_t.ok d sid) →
      ∀ s, out (E.dequeue env handle timeout).1 s = out env s)
  dacs_check_keeps : ∀ env rate sysnow, ok env →
    ok (E.dacs_check env rate sysnow dacs_handle).1 ∧
    ∀ s, out (E.dacs_check env rate sysnow dacs_handle).1 s = out env s
  written_stores : ∀ env sid d, ok env → out env sid ≠ none →
    ok (E.written env bundle_handle sid d) ∧
    out (E.written env bundle_handle sid d) sid = some d ∧
    ∀ s, s ≠ sid → out (E.written env bundle_handle sid d) s = out env s
  records_plain : ∀ env timeout d sid, ok env →
    (E.dequeue env dacs_handle timeout).2 = bp_dequeue_t.ok d sid → d.cteboffset = 0

/-- The objects that the simple storage service has handed out and not
relinquished, by storage id. -/
def ref_out (st : ref_store_t) (sid : Nat) : Option bp_bundle_data_t :=
  (st.kept.find? (fun x => x.1 = sid)).map Prod.snd

/-- A state of the simple storage service in which every object has a storage
id of its own and the records of the DACS store have no CTEB. -/
def ref_ok (st : ref_store_t) : Prop :=
  ((st.bundles ++ st.records ++ st.kept).map Prod.fst).Nodup ∧
  ∀ x ∈ st.records, x.2.cteboffset = 0

instance (st : ref_store_t) : Decidable (ref_ok st) :=
  inferInstanceAs (Decidable (_ ∧ _))

/-- What holds at the head of the scan loop of a call on the channel `ch0`,
with the storage service: the table is consistent, its occupied slots hold
storage ids of bundles with their custody ids, and a bundle that the scan has
picked for a retransmission is handed out under a storage id that no slot of
an outstanding custody id holds. -/
structure scan_held {σ : Type} (ok : σ → Prop) (out : σ → Nat → Option bp_bundle_data_t)
    (ch0 : bp_channel_t) (s : bp_load_state_t σ) : Prop where
  cfg : same_config ch0 s.ch
  cur : s.ch.active_table.current_cid = ch0.active_table.current_cid
  newcid : s.newcid = true
  tab : table_ok s.ch
  hold : slots_hold s.ch.active_table_size.toNat s.ch.active_table.sid
    s.ch.active_table.oldest_cid s.ch.active_table.current_cid (out s.env)
  okenv : ok s.env
  cand : ∀ d, s.data = some d →
    s.ch.active_table.current_cid
      < s.ch.active_table.oldest_cid + s.ch.active_table_size.toNat ∧
    out s.env s.sid = some d ∧
    sid_unused s.ch.active_table_size.toNat s.ch.active_table.sid
      s.ch.active_table.oldest_cid s.ch.active_table.current_cid s.sid

/-- What holds when the scan loop is left, and still holds when the dequeue
loop is left: the table has room for one more custody id, and the slot of
`current_cid` is vacant unless the wrap response is to resend its occupant,
which then is the bundle at hand. -/
structure load_held {σ : Type} (ok : σ → Prop) (out : σ → Nat → Option bp_bundle_data_t)
    (ch0 : bp_channel_t) (s : bp_load_state_t σ) : Prop where
  cfg : same_config ch0 s.ch
  cur : s.ch.active_table.current_cid = ch0.active_table.current_cid
  newcid : s.newcid = true
  le : s.ch.active_table.oldest_cid ≤ s.ch.active_table.current_cid
  room : s.ch.active_table.current_cid
    < s.ch.active_table.oldest_cid + s.ch.active_table_size.toNat
  vac : ∀ x, s.ch.active_table.current_cid < x →
    x < s.ch.active_table.oldest_cid + s.ch.active_table_size.toNat →
    s.ch.active_table.sid (x % s.ch.active_table_size.toNat) = BP_SID_VACANT
  hold : slots_hold s.ch.active_table_size.toNat s.ch.active_table.sid
    s.ch.active_table.oldest_cid s.ch.active_table.current_cid (out s.env)
  okenv : ok s.env
  cand : ∀ d, s.data = some d →
    out s.env s.sid = some d ∧
    sid_unused s.ch.active_table_size.toNat s.ch.active_table.sid
      s.ch.active_table.oldest_cid s.ch.active_table.current_cid s.sid
  slot : s.ch.active_table.sid
      (s.ch.active_table.current_cid % s.ch.active_table_size.toNat) = BP_SID_VACANT ∨
    (s.ch.wrap_response = bp_wrap_t.BP_WRAP_RESEND ∧
      s.ch.active_table.sid
        (s.ch.active_table.current_cid % s.ch.active_table_size.toNat) = s.sid ∧
      ∃ d, s.data = some d ∧ d.cteboffset ≠ 0)

/-- What holds of a channel and the storage service between the calls: the
table is consistent and its occupied slots hold storage ids of bundles that
are handed out and carry their custody ids. -/
def channel_held {σ : Type} (ok : σ → Prop) (out : σ → Nat → Option bp_bundle_data_t)
    (ch : bp_channel_t) (env : σ) : Prop :=
  table_ok ch ∧ ok env ∧
  slots_hold ch.active_table_size.toNat ch.active_table.sid ch.active_table.oldest_cid
    ch.active_table.current_cid (out env)

end Bplib

namespace RhHash

/-! ## Lemmas on the open-slot search -/

theorem succ_mod_size (o size : Nat) (ho : o < size) :
    (o + 1) % size = if o + 1 = size then 0 else o + 1 := by
  split_ifs with h
  · rw [h]; exact Nat.mod_self size
  · exact Nat.mod_eq_of_lt (by omega)

theorem find_open_loop_spec (t : Nat → rh_hash_node_t) (size curr : Nat) (hc : curr < size) :
    ∀ fuel o, o < size → open_dist size curr o ≤ fuel →
      (∀ i, i < size → i ≠ curr →
        ((curr < o → curr < i → i < o → (t i).chain ≠ EMPTY_ENTRY) ∧
         (o ≤ curr → (curr < i ∨ i < o) → (t i).chain ≠ EMPTY_ENTRY))) →
      ∃ r, find_open_loop t size curr fuel o = some r ∧ r < size ∧
        ((r = curr ∧ ∀ i, i < size → i ≠ curr → (t i).chain ≠ EMPTY_ENTRY) ∨
         (r ≠ curr ∧ (t r).chain = EMPTY_ENTRY)) := by
  intro fuel
  induction fuel with
  | zero =>
    intro o ho hd hchk
    have hoc : o = curr := by
      unfold open_dist at hd
      split_ifs at hd <;> omega
    subst hoc
    refine ⟨o, ?_, ho, Or.inl ⟨rfl, ?_⟩⟩
    · simp [find_open_loop]
    · intro i hi hne
      have := hchk i hi hne
      rcases Nat.lt_or_gt_of_ne hne with h1 | h1
      · exact this.2 (le_refl _) (Or.inr h1)
      · exact this.2 (le_refl _) (Or.inl h1)
  | succ f ih =>
    intro o ho hd hchk
    by_cases hstep : (t o).chain ≠ EMPTY_ENTRY ∧ o ≠ curr
    · have hrec : find_open_loop t size curr (f + 1) o
          = find_open_loop t size curr f ((o + 1) % size) := by
        simp only [find_open_loop, if_pos hstep]
      rw [hrec, succ_mod_size o size ho]
      have hlt : (if o + 1 = size then 0 else o + 1) < size := by
        split_ifs <;> omega
      apply ih _ hlt
      · unfold open_dist at hd ⊢
        split_ifs at hd ⊢ <;> omega
      · intro i hi hne
        have h0 := hchk i hi hne
        have hoc := hstep.2
        have hochain := hstep.1
        refine ⟨?_, ?_⟩
        · intro h1 h2 h3
          split_ifs at h1 h3 with hsz
          · omega
          · by_cases hio : i = o
            · rw [hio]; exact hochain
            · by_cases hco : curr < o
              · exact h0.1 hco h2 (by omega)
              · omega
        · intro h1 h2
          split_ifs at h1 h2 with hsz
          · by_cases hio : i = o
            · rw [hio]; exact hochain
            · by_cases hco : curr < o
              · exact h0.1 hco (by omega) (by omega)
              · exact h0.2 (by omega) (by omega)
          · by_cases hio : i = o
            · rw [hio]; exact hochain
            · exact h0.2 (by omega) (by omega)
    · have hret : find_open_loop t size curr (f + 1) o = some o := by
        simp only [find_open_loop, if_neg hstep]
      refine ⟨o, hret, ho, ?_⟩
      by_cases hoc : o = curr
      · left
        refine ⟨hoc, ?_⟩
        intro i hi hne
        have := hchk i hi hne
        subst hoc
        rcases Nat.lt_or_gt_of_ne hne with h1 | h1
        · exact this.2 (le_refl _) (Or.inr h1)
        · exact this.2 (le_refl _) (Or.inl h1)
      · right
        refine ⟨hoc, ?_⟩
        by_contra hne
        exact hstep ⟨hne, hoc⟩

/-- The open-slot search of `rh_hash_add` always ends. -/
theorem find_open_spec (t : Nat → rh_hash_node_t) (size curr : Nat) (hc : curr < size) :
    ∃ r, find_open_loop t size curr size ((curr + 1) % size) = some r ∧ r < size ∧
        ((r = curr ∧ ∀ i, i < size → i ≠ curr → (t i).chain ≠ EMPTY_ENTRY) ∨
         (r ≠ curr ∧ (t r).chain = EMPTY_ENTRY)) := by
  rw [succ_mod_size curr size hc]
  apply find_open_loop_spec t size curr hc
  · split_ifs <;> omega
  · unfold open_dist
    split_ifs <;> omega
  · intro i hi hne
    refine ⟨?_, ?_⟩
    · intro h1 h2 h3
      split_ifs at h1 h3 <;> omega
    · intro h1 h2
      split_ifs at h1 h2 <;> omega

/-! ## Lemmas on the table updates and the walks -/

theorem upd_same (t : Nat → rh_hash_node_t) (i : Nat) (f : rh_hash_node_t → rh_hash_node_t) :
    upd t i f i = f (t i) := by
  simp [upd]

theorem upd_other (t : Nat → rh_hash_node_t) (i j : Nat) (f : rh_hash_node_t → rh_hash_node_t)
    (hne : j ≠ i) : upd t i f j = t j := by
  simp [upd, hne]

theorem length_le_of_nodup_lt (L : List Nat) (n : Nat) (hnd : L.Nodup)
    (hlt : ∀ s ∈ L, s < n) : L.length ≤ n := by
  have hsub : L.toFinset ⊆ Finset.range n := by
    intro s hs
    exact Finset.mem_range.mpr (hlt s (List.mem_toFinset.mp hs))
  have := Finset.card_le_card hsub
  rwa [List.toFinset_card_of_nodup hnd, Finset.card_range] at this

theorem exists_not_mem_of_length_lt (L : List Nat) (n : Nat) (hlen : L.length < n) :
    ∃ i, i < n ∧ i ∉ L := by
  by_contra hcon
  push_neg at hcon
  have hsub : Finset.range n ⊆ L.toFinset := by
    intro s hs
    exact List.mem_toFinset.mpr (hcon s (Finset.mem_range.mp hs))
  have h1 := Finset.card_le_card hsub
  rw [Finset.card_range] at h1
  have h2 := List.toFinset_card_le L
  omega

theorem overwrite_node_duplicate (P : rh_types_t) (h h' : rh_hash_t) (index data : Nat)
    (overwrite : Bool)
    (hd : overwrite_node P h index data overwrite = (rh_status_t.RH_INSERT_DUPLICATE, h')) :
    h' = h := by
  unfold overwrite_node at hd
  cases overwrite with
  | true => simp at hd
  | false =>
    simp only [Bool.false_eq_true, if_false, Prod.mk.injEq, true_and] at hd
    exact hd.symm

theorem overwrite_node_false (P : rh_types_t) (h : rh_hash_t) (index data : Nat) :
    overwrite_node P h index data false = (rh_status_t.RH_INSERT_DUPLICATE, h) := by
  simp [overwrite_node]

theorem overwrite_node_not_full (P : rh_types_t) (h : rh_hash_t) (index data : Nat)
    (overwrite : Bool) :
    (overwrite_node P h index data overwrite).1 ≠ rh_status_t.RH_HASH_FULL := by
  unfold overwrite_node
  cases overwrite <;> simp

theorem add_collision_duplicate (P : rh_types_t) (h h' : rh_hash_t) (key data hash : Nat)
    (overwrite : Bool) (curr_index open_index : Nat)
    (hadd : add_collision P h key data hash overwrite curr_index open_index
      = some (rh_status_t.RH_INSERT_DUPLICATE, h')) :
    h' = h := by
  unfold add_collision at hadd
  dsimp only at hadd
  split_ifs at hadd with h3
  · split at hadd
    · simp at hadd
    · exact overwrite_node_duplicate P h h' _ data overwrite (Option.some.inj hadd)
    · simp at hadd
  · split at hadd
    · simp at hadd
    · exact overwrite_node_duplicate P h h' _ data overwrite (Option.some.inj hadd)
    · split at hadd
      · simp at hadd
      · simp at hadd

theorem add_collision_not_full (P : rh_types_t) (h h' : rh_hash_t) (key data hash : Nat)
    (overwrite : Bool) (curr_index open_index : Nat) :
    add_collision P h key data hash overwrite curr_index open_index
      ≠ some (rh_status_t.RH_HASH_FULL, h') := by
  intro hadd
  unfold add_collision at hadd
  dsimp only at hadd
  split_ifs at hadd with h3
  · split at hadd
    · simp at hadd
    · rename_i i _
      have := overwrite_node_not_full P h i data overwrite
      rw [Option.some.inj hadd] at this
      exact this rfl
    · simp at hadd
  · split at hadd
    · simp at hadd
    · rename_i i _
      have := overwrite_node_not_full P h i data overwrite
      rw [Option.some.inj hadd] at this
      exact this rfl
    · split at hadd
      · simp at hadd
      · simp at hadd

theorem scan_of_get_add (P : rh_types_t) (t : Nat → rh_hash_node_t) (key : Nat) :
    ∀ fuel index r, get_node_loop P t key fuel index = some r → r ≠ NULL_INDEX P →
      ∀ extra prev_index,
        scan_chain_loop P t key (fuel + extra) prev_index index = some (Sum.inl r) := by
  intro fuel
  induction fuel with
  | zero =>
    intro index r hg hr
    unfold get_node_loop at hg
    split_ifs at hg with h1
    exact absurd (Option.some.inj hg).symm hr
  | succ f ih =>
    intro index r hg hr extra prev_index
    unfold get_node_loop at hg
    have hfe : f + 1 + extra = (f + extra) + 1 := by omega
    rw [hfe]
    unfold scan_chain_loop
    split_ifs at hg with h1 h2
    · exact absurd (Option.some.inj hg).symm hr
    · rw [if_neg h1, if_neg h2]
      exact ih _ _ hg hr extra index
    · rw [if_neg h1, if_pos (not_not.mp h2)]
      rw [Option.some.inj hg]

theorem scan_of_get (P : rh_types_t) (t : Nat → rh_hash_node_t) (key : Nat)
    (fuel fuel' index r prev_index : Nat)
    (hg : get_node_loop P t key fuel index = some r) (hr : r ≠ NULL_INDEX P)
    (hle : fuel ≤ fuel') :
    scan_chain_loop P t key fuel' prev_index index = some (Sum.inl r) := by
  have := scan_of_get_add P t key fuel index r hg hr (fuel' - fuel) prev_index
  rwa [Nat.add_sub_cancel' hle] at this

theorem get_node_loop_found_step (P : rh_types_t) (t : Nat → rh_hash_node_t) (key : Nat)
    (fuel index r : Nat)
    (hg : get_node_loop P t key fuel index = some r) (hr : r ≠ NULL_INDEX P)
    (hk : (t index).key ≠ key) :
    get_node_loop P t key (fuel - 1) (t index).next = some r := by
  cases fuel with
  | zero =>
    unfold get_node_loop at hg
    split_ifs at hg with h1
    exact absurd (Option.some.inj hg).symm hr
  | succ f =>
    unfold get_node_loop at hg
    rw [if_pos hk] at hg
    split_ifs at hg with h1
    · exact absurd (Option.some.inj hg).symm hr
    · exact hg

/-- The insertion answers `RH_HASH_FULL` exactly on a table without an empty slot whose
natural slot holds another key, and then leaves the table as it was. -/
theorem add_full_iff (P : rh_types_t) (h h' : rh_hash_t) (key data : Nat) (overwrite : Bool)
    (hs : 0 < h.size) :
    rh_hash_add P h key data overwrite = some (rh_status_t.RH_HASH_FULL, h') ↔
      (((h.table (hash_key key % h.size)).chain ≠ EMPTY_ENTRY ∧
        (h.table (hash_key key % h.size)).key ≠ key ∧
        ∀ i, i < h.size → (h.table i).chain ≠ EMPTY_ENTRY) ∧ h' = h) := by
  have hc : hash_key key % h.size < h.size := Nat.mod_lt _ hs
  obtain ⟨r, hr, hrlt, hrcase⟩ := find_open_spec h.table h.size _ hc
  unfold rh_hash_add
  dsimp only
  rw [hr]
  dsimp only
  constructor
  · intro hadd
    split_ifs at hadd with h1 h2 h3
    · simp at hadd
    · have := overwrite_node_not_full P h (hash_key key % h.size) data overwrite
      rw [Option.some.inj hadd] at this
      exact absurd rfl this
    · rcases hrcase with ⟨_, hall⟩ | ⟨hne, _⟩
      · refine ⟨⟨h1, h2, ?_⟩, ?_⟩
        · intro i hi
          by_cases hic : i = hash_key key % h.size
          · rw [hic]; exact h1
          · exact hall i hi hic
        · simp only [Option.some.injEq, Prod.mk.injEq, true_and] at hadd
          exact hadd.symm
      · exact absurd h3 hne
    · exact absurd hadd (add_collision_not_full P h h' key data _ overwrite _ _)
  · rintro ⟨⟨h1, h2, hall⟩, rfl⟩
    rw [if_neg h1, if_neg h2]
    rcases hrcase with ⟨heq, _⟩ | ⟨_, hempty⟩
    · rw [if_pos heq]
    · exact absurd hempty (hall r hrlt)

/-! ## Insertion of a key that is stored -/

theorem get_node_of_get (P : rh_types_t) (h : rh_hash_t) (key : Nat) (x : Option Nat)
    (hget : rh_hash_get P h key = some (rh_status_t.RH_SUCCESS, x)) :
    ∃ index, get_node P h key = some index ∧ index ≠ NULL_INDEX P ∧
      x = some (h.table index).data := by
  unfold rh_hash_get at hget
  split at hget
  · simp at hget
  · rename_i index hnode
    split_ifs at hget with hidx
    · refine ⟨index, hnode, hidx, ?_⟩
      simp only [Option.some.injEq, Prod.mk.injEq, true_and] at hget
      exact hget.symm
    · simp at hget

theorem get_of_get_node (P : rh_types_t) (h : rh_hash_t) (key index : Nat)
    (hnode : get_node P h key = some index) (hidx : index ≠ NULL_INDEX P) :
    rh_hash_get P h key = some (rh_status_t.RH_SUCCESS, some (h.table index).data) := by
  unfold rh_hash_get
  rw [hnode]
  dsimp only
  rw [if_pos hidx]

theorem add_collision_of_get (P : rh_types_t) (h : rh_hash_t) (key data hash : Nat)
    (overwrite : Bool) (curr_index open_index r : Nat)
    (hg : get_node_loop P h.table key h.size curr_index = some r) (hr : r ≠ NULL_INDEX P)
    (hk : (h.table curr_index).key ≠ key) :
    add_collision P h key data hash overwrite curr_index open_index
      = some (overwrite_node P h r data overwrite) := by
  have hwalk := get_node_loop_found_step P h.table key h.size curr_index r hg hr hk
  have hscan := fun prev =>
    scan_of_get P h.table key (h.size - 1) h.size _ r prev hwalk hr (Nat.sub_le _ _)
  unfold add_collision
  dsimp only
  split_ifs
  · rw [hscan]
  · rw [hscan]

theorem get_node_loop_at_key (P : rh_types_t) (t : Nat → rh_hash_node_t) (key : Nat)
    (fuel index r : Nat)
    (hg : get_node_loop P t key fuel index = some r) (hr : r ≠ NULL_INDEX P)
    (hk : (t index).key = key) : r = index := by
  cases fuel with
  | zero =>
    unfold get_node_loop at hg
    split_ifs at hg with h1
    exact absurd (Option.some.inj hg).symm hr
  | succ f =>
    unfold get_node_loop at hg
    rw [if_neg (not_not.mpr hk)] at hg
    split_ifs at hg with h1
    · exact absurd (Option.some.inj hg).symm hr
    · exact (Option.some.inj hg).symm

/-- An insertion of a key that `get_node` finds, on a table that is not full for it, is the
call of `overwrite_node` on the slot found. -/
theorem add_of_get (P : rh_types_t) (h : rh_hash_t) (key data index : Nat) (overwrite : Bool)
    (hs : 0 < h.size) (hnode : get_node P h key = some index) (hidx : index ≠ NULL_INDEX P)
    (hcond : add_not_full h key) :
    rh_hash_add P h key data overwrite = some (overwrite_node P h index data overwrite) := by
  have hc : hash_key key % h.size < h.size := Nat.mod_lt _ hs
  unfold get_node at hnode
  dsimp only at hnode
  have hch : (h.table (hash_key key % h.size)).chain ≠ EMPTY_ENTRY := by
    intro hch
    rw [if_neg (not_not.mpr hch)] at hnode
    exact hidx (Option.some.inj hnode).symm
  rw [if_pos hch] at hnode
  unfold rh_hash_add
  dsimp only
  rw [if_neg hch]
  by_cases hk : (h.table (hash_key key % h.size)).key = key
  · rw [if_pos hk]
    rw [get_node_loop_at_key P h.table key h.size _ index hnode hidx hk]
  · rw [if_neg hk]
    obtain ⟨r, hr, hrlt, hrcase⟩ := find_open_spec h.table h.size _ hc
    rw [hr]
    dsimp only
    have hne : r ≠ hash_key key % h.size := by
      rcases hrcase with ⟨_, hall⟩ | ⟨hne, _⟩
      · rcases hcond with hk' | ⟨i, hi, hie⟩
        · exact absurd hk' hk
        · by_cases hic : i = hash_key key % h.size
          · rw [hic] at hie; exact absurd hie hch
          · exact absurd hie (hall i hi hic)
      · exact hne
    rw [if_neg hne]
    exact add_collision_of_get P h key data _ overwrite _ r index hnode hidx hk

theorem add_full_of_get (P : rh_types_t) (h : rh_hash_t) (key data index : Nat)
    (overwrite : Bool)
    (hs : 0 < h.size) (hnode : get_node P h key = some index) (hidx : index ≠ NULL_INDEX P)
    (hcond : ¬ add_not_full h key) :
    rh_hash_add P h key data overwrite = some (rh_status_t.RH_HASH_FULL, h) := by
  unfold add_not_full at hcond
  push_neg at hcond
  have hch : (h.table (hash_key key % h.size)).chain ≠ EMPTY_ENTRY := by
    intro hch
    unfold get_node at hnode
    dsimp only at hnode
    rw [if_neg (not_not.mpr hch)] at hnode
    exact hidx (Option.some.inj hnode).symm
  exact (add_full_iff P h h key data overwrite hs).mpr
    ⟨⟨hch, hcond.1, fun i hi => hcond.2 i hi⟩, rfl⟩

theorem get_node_loop_congr (P : rh_types_t) (t t' : Nat → rh_hash_node_t) (key : Nat)
    (hsame : ∀ j, (t' j).key = (t j).key ∧ (t' j).next = (t j).next) :
    ∀ fuel index, get_node_loop P t' key fuel index = get_node_loop P t key fuel index := by
  intro fuel
  induction fuel with
  | zero => intro index; rfl
  | succ f ih =>
    intro index
    unfold get_node_loop
    rw [(hsame index).1, (hsame index).2, ih]

theorem overwrite_node_true (P : rh_types_t) (h : rh_hash_t) (index data : Nat) :
    (overwrite_node P h index data true).1 = rh_status_t.RH_SUCCESS ∧
    (overwrite_node P h index data true).2.size = h.size ∧
    (overwrite_node P h index data true).2.newest_entry = index ∧
    ((overwrite_node P h index data true).2.table index).data = data ∧
    ∀ j, ((overwrite_node P h index data true).2.table j).key = (h.table j).key ∧
      ((overwrite_node P h index data true).2.table j).next = (h.table j).next ∧
      ((overwrite_node P h index data true).2.table j).chain = (h.table j).chain := by
  unfold overwrite_node
  rw [if_pos rfl]
  dsimp only
  refine ⟨rfl, rfl, rfl, ?_, ?_⟩
  · split_ifs <;> simp [upd]
  · intro j
    split_ifs <;> by_cases hj : j = index <;> simp [upd, hj]
    all_goals split_ifs <;> simp

theorem get_node_overwrite (P : rh_types_t) (h : rh_hash_t) (index data key : Nat) :
    get_node P (overwrite_node P h index data true).2 key = get_node P h key := by
  have ht := overwrite_node_true P h index data
  unfold get_node
  dsimp only
  rw [ht.2.1, (ht.2.2.2.2 _).2.2,
    get_node_loop_congr P h.table _ key (fun j => ⟨(ht.2.2.2.2 j).1, (ht.2.2.2.2 j).2.1⟩)]

/-! ## The invariant of insertions of distinct keys -/

theorem Reach.trans {P : rh_types_t} {t : Nat → rh_hash_node_t} {i j k : Nat}
    (h1 : Reach P t i j) (h2 : Reach P t j k) : Reach P t i k := by
  induction h1 with
  | refl i => exact h2
  | step i j hne _ ih => exact Reach.step i k hne (ih h2)

theorem reach_mono (P : rh_types_t) (t t' : Nat → rh_hash_node_t) (L : List Nat)
    (hnext : ∀ s ∈ L, (t s).next = NULL_INDEX P ∨ (t s).next ∈ L)
    (hsame : ∀ s ∈ L, (t s).next ≠ NULL_INDEX P → (t' s).next = (t s).next)
    (i j : Nat) (hr : Reach P t i j) (hi : i ∈ L) : Reach P t' i j := by
  induction hr with
  | refl i => exact Reach.refl i
  | step i j hne _ ih =>
    have hmem : (t i).next ∈ L := by
      rcases hnext i hi with h0 | h0
      · exact absurd h0 hne
      · exact h0
    have heq := hsame i hi hne
    refine Reach.step i j ?_ ?_
    · rw [heq]; exact hne
    · rw [heq]; exact ih hmem

theorem write_node_size (P : rh_types_t) (h : rh_hash_t) (index key data hash : Nat) :
    (write_node P h index key data hash).size = h.size := rfl

theorem write_node_self (P : rh_types_t) (h : rh_hash_t) (index key data hash : Nat) :
    ((write_node P h index key data hash).table index).key = key ∧
    ((write_node P h index key data hash).table index).data = data ∧
    ((write_node P h index key data hash).table index).next = NULL_INDEX P ∧
    ((write_node P h index key data hash).table index).chain
      = ((h.table index).chain + 1) % P.CHAIN_MOD := by
  unfold write_node
  dsimp only
  by_cases hn : index = h.newest_entry
  · simp [upd, hn]
  · simp [upd, hn]

theorem write_node_other (P : rh_types_t) (h : rh_hash_t) (index key data hash j : Nat)
    (hne : j ≠ index) :
    ((write_node P h index key data hash).table j).key = (h.table j).key ∧
    ((write_node P h index key data hash).table j).data = (h.table j).data ∧
    ((write_node P h index key data hash).table j).next = (h.table j).next ∧
    ((write_node P h index key data hash).table j).chain = (h.table j).chain := by
  unfold write_node
  dsimp only
  by_cases hn : j = h.newest_entry
  · simp [upd, hn, hne]
    subst hn
    simp [hne]
  · simp [upd, hn, hne]

theorem add_at_end_size (P : rh_types_t) (h : rh_hash_t) (key data hash o q : Nat) :
    (add_at_end_of_chain P h key data hash o q).size = h.size := rfl

theorem add_at_end_self (P : rh_types_t) (h : rh_hash_t) (key data hash o q : Nat)
    (hqo : q ≠ o) :
    ((add_at_end_of_chain P h key data hash o q).table o).key = key ∧
    ((add_at_end_of_chain P h key data hash o q).table o).data = data ∧
    ((add_at_end_of_chain P h key data hash o q).table o).next = NULL_INDEX P ∧
    ((add_at_end_of_chain P h key data hash o q).table o).chain
      = ((h.table o).chain + 1) % P.CHAIN_MOD := by
  have hw := write_node_self P h o key data hash
  unfold add_at_end_of_chain
  dsimp only
  rw [upd_same, upd_other _ _ _ _ hqo.symm]
  exact hw

theorem add_at_end_prev (P : rh_types_t) (h : rh_hash_t) (key data hash o q : Nat)
    (hqo : q ≠ o) :
    ((add_at_end_of_chain P h key data hash o q).table q).key = (h.table q).key ∧
    ((add_at_end_of_chain P h key data hash o q).table q).data = (h.table q).data ∧
    ((add_at_end_of_chain P h key data hash o q).table q).next = o ∧
    ((add_at_end_of_chain P h key data hash o q).table q).chain = (h.table q).chain := by
  have hw := write_node_other P h o key data hash q hqo
  unfold add_at_end_of_chain
  dsimp only
  rw [upd_other _ _ _ _ hqo, upd_same]
  exact ⟨hw.1, hw.2.1, rfl, hw.2.2.2⟩

theorem add_at_end_other (P : rh_types_t) (h : rh_hash_t) (key data hash o q j : Nat)
    (hjo : j ≠ o) (hjq : j ≠ q) :
    ((add_at_end_of_chain P h key data hash o q).table j).key = (h.table j).key ∧
    ((add_at_end_of_chain P h key data hash o q).table j).data = (h.table j).data ∧
    ((add_at_end_of_chain P h key data hash o q).table j).next = (h.table j).next ∧
    ((add_at_end_of_chain P h key data hash o q).table j).chain = (h.table j).chain := by
  have hw := write_node_other P h o key data hash j hjo
  unfold add_at_end_of_chain
  dsimp only
  rw [upd_other _ _ _ _ hjo, upd_other _ _ _ _ hjq]
  exact hw

theorem AddInv.ne_null {P : rh_types_t} {h : rh_hash_t} {L : List Nat} {rank : Nat → Nat}
    (inv : AddInv P h L rank) {s : Nat} (hs : s ∈ L) : s ≠ NULL_INDEX P := by
  have h1 := inv.lt_size s hs
  have h2 := inv.size_le
  unfold NULL_INDEX
  omega

theorem AddInv.length_le {P : rh_types_t} {h : rh_hash_t} {L : List Nat} {rank : Nat → Nat}
    (inv : AddInv P h L rank) : L.length ≤ h.size :=
  length_le_of_nodup_lt L h.size inv.nodup inv.lt_size

/-- Under the invariant the walk of `get_node` finds the slot of a stored key. -/
theorem walk_complete {P : rh_types_t} {h : rh_hash_t} {L : List Nat} {rank : Nat → Nat}
    (inv : AddInv P h L rank) (s : Nat) (hs : s ∈ L) :
    ∀ fuel i, i ∈ L → Reach P h.table i s → rank i < fuel →
      get_node_loop P h.table (h.table s).key fuel i = some s := by
  intro fuel
  induction fuel with
  | zero => intro i _ _ hr; omega
  | succ f ih =>
    intro i hi hreach hrank
    unfold get_node_loop
    rw [if_neg (inv.ne_null hi)]
    by_cases hk : (h.table i).key = (h.table s).key
    · rw [if_neg (not_not.mpr hk)]
      rw [inv.key_inj i hi s hs hk]
    · rw [if_pos hk]
      cases hreach with
      | refl => exact absurd rfl hk
      | step _ _ hne hr' =>
        rcases inv.next_ok i hi with h0 | ⟨hmem, hlt⟩
        · exact absurd h0 hne
        · exact ih _ hmem hr' (by omega)

theorem get_of_inv {P : rh_types_t} {h : rh_hash_t} {L : List Nat} {rank : Nat → Nat}
    (inv : AddInv P h L rank) (s : Nat) (hs : s ∈ L) :
    rh_hash_get P h (h.table s).key = some (rh_status_t.RH_SUCCESS, some (h.table s).data) := by
  have hnat := inv.nat_mem s hs
  have hwalk := walk_complete inv s hs h.size _ hnat (inv.reach s hs)
    (lt_of_lt_of_le (inv.rank_lt _ hnat) inv.length_le)
  have hch : (h.table (hash_key (h.table s).key % h.size)).chain ≠ EMPTY_ENTRY := by
    rw [inv.chain_one _ hnat]
    decide
  unfold rh_hash_get get_node
  dsimp only
  rw [if_pos hch, hwalk]
  dsimp only
  rw [if_pos (inv.ne_null hs)]

/-- Under the invariant the scan for a duplicate of a key that is not stored runs to the
end of the chain. -/
theorem scan_complete {P : rh_types_t} {h : rh_hash_t} {L : List Nat} {rank : Nat → Nat}
    (inv : AddInv P h L rank) (key : Nat) (hkey : ∀ s ∈ L, (h.table s).key ≠ key) :
    ∀ fuel p, p ∈ L → rank p ≤ fuel →
      ∃ q, q ∈ L ∧ scan_chain_loop P h.table key fuel p (h.table p).next = some (Sum.inr q) ∧
        Reach P h.table p q ∧ (h.table q).next = NULL_INDEX P := by
  intro fuel
  induction fuel with
  | zero =>
    intro p hp hrank
    rcases inv.next_ok p hp with h0 | ⟨_, hlt⟩
    · refine ⟨p, hp, ?_, Reach.refl p, h0⟩
      unfold scan_chain_loop
      rw [if_pos h0]
    · omega
  | succ f ih =>
    intro p hp hrank
    rcases inv.next_ok p hp with h0 | ⟨hmem, hlt⟩
    · refine ⟨p, hp, ?_, Reach.refl p, h0⟩
      unfold scan_chain_loop
      rw [if_pos h0]
    · obtain ⟨q, hq, hscan, hreach, hnull⟩ := ih _ hmem (by omega)
      refine ⟨q, hq, ?_, Reach.step p q (inv.ne_null hmem) hreach, hnull⟩
      unfold scan_chain_loop
      rw [if_neg (inv.ne_null hmem), if_neg (hkey _ hmem)]
      exact hscan

/-- The invariant is kept when a new key is put into an empty slot `o` and at most one `next`
link, which was `NULL_INDEX`, is pointed at `o`. -/
theorem inv_extend {P : rh_types_t} {h h' : rh_hash_t} {L : List Nat} {rank : Nat → Nat}
    (inv : AddInv P h L rank) (key o : Nat)
    (hsize : h'.size = h.size) (ho : o < h.size) (hoL : o ∉ L)
    (hkey : ∀ s ∈ L, (h.table s).key ≠ key)
    (hokey : (h'.table o).key = key) (hochain : (h'.table o).chain = 1)
    (honext : (h'.table o).next = NULL_INDEX P)
    (hkeys : ∀ s ∈ L, (h'.table s).key = (h.table s).key)
    (hchains : ∀ i, i ≠ o → (h'.table i).chain = (h.table i).chain)
    (hnext : ∀ s ∈ L, (h'.table s).next = (h.table s).next ∨
      ((h.table s).next = NULL_INDEX P ∧ (h'.table s).next = o))
    (hnat : hash_key key % h.size ∈ o :: L)
    (hreach : Reach P h'.table (hash_key key % h.size) o) :
    AddInv P h' (o :: L) (rank_after rank o) := by
  have hne : ∀ s ∈ L, s ≠ o := fun s hs hso => hoL (hso ▸ hs)
  have hmono : ∀ i j, Reach P h.table i j → i ∈ L → Reach P h'.table i j := by
    intro i j hr hi
    refine reach_mono P h.table h'.table L ?_ ?_ i j hr hi
    · intro s hs
      rcases inv.next_ok s hs with h0 | ⟨h1, _⟩
      · exact Or.inl h0
      · exact Or.inr h1
    · intro s hs hnn
      rcases hnext s hs with h0 | ⟨h1, _⟩
      · exact h0
      · exact absurd h1 hnn
  refine ⟨?_, ?_, ?_, ?_, ?_, ?_, ?_, ?_, ?_, ?_, ?_⟩
  · rw [hsize]; exact inv.size_pos
  · rw [hsize]; exact inv.size_le
  · exact List.nodup_cons.mpr ⟨hoL, inv.nodup⟩
  · intro s hs
    rw [hsize]
    rcases List.mem_cons.mp hs with h0 | h0
    · rw [h0]; exact ho
    · exact inv.lt_size s h0
  · intro i hi hiL
    rw [hsize] at hi
    have hio : i ≠ o := fun hio => hiL (hio ▸ List.mem_cons_self _ _)
    rw [hchains i hio]
    exact inv.empty i hi (fun hm => hiL (List.mem_cons_of_mem _ hm))
  · intro s hs
    rcases List.mem_cons.mp hs with h0 | h0
    · rw [h0]; exact hochain
    · rw [hchains s (hne s h0)]; exact inv.chain_one s h0
  · intro s hs
    rcases List.mem_cons.mp hs with h0 | h0
    · left; rw [h0]; exact honext
    · rcases hnext s h0 with h1 | ⟨_, h2⟩
      · rw [h1]
        rcases inv.next_ok s h0 with h3 | ⟨h3, h4⟩
        · exact Or.inl h3
        · right
          refine ⟨List.mem_cons_of_mem _ h3, ?_⟩
          unfold rank_after
          rw [if_neg (hne _ h3), if_neg (hne _ h0)]
          omega
      · right
        rw [h2]
        refine ⟨List.mem_cons_self _ _, ?_⟩
        unfold rank_after
        rw [if_pos rfl, if_neg (hne _ h0)]
        omega
  · intro s hs
    rw [List.length_cons]
    unfold rank_after
    rcases List.mem_cons.mp hs with h0 | h0
    · rw [if_pos h0]; omega
    · rw [if_neg (hne _ h0)]
      have := inv.rank_lt s h0
      omega
  · intro s hs
    rw [hsize]
    rcases List.mem_cons.mp hs with h0 | h0
    · rw [h0, hokey]; exact hnat
    · rw [hkeys s h0]; exact List.mem_cons_of_mem _ (inv.nat_mem s h0)
  · intro s hs
    rw [hsize]
    rcases List.mem_cons.mp hs with h0 | h0
    · rw [h0, hokey]; exact hreach
    · rw [hkeys s h0]
      exact hmono _ _ (inv.reach s h0) (inv.nat_mem s h0)
  · intro s hs s' hs' heq
    rcases List.mem_cons.mp hs with h0 | h0
    · rcases List.mem_cons.mp hs' with h1 | h1
      · rw [h0, h1]
      · rw [h0, hokey, hkeys s' h1] at heq
        exact absurd heq.symm (hkey s' h1)
    · rcases List.mem_cons.mp hs' with h1 | h1
      · rw [h1, hokey, hkeys s h0] at heq
        exact absurd heq (hkey s h0)
      · rw [hkeys s h0, hkeys s' h1] at heq
        exact inv.key_inj s h0 s' h1 heq

/-- One insertion of a key that is not stored, into a table with a free slot. -/
theorem add_step {P : rh_types_t} {h : rh_hash_t} {L : List Nat} {rank : Nat → Nat}
    (inv : AddInv P h L rank) (hM : 1 < P.CHAIN_MOD) (key data : Nat) (overwrite : Bool)
    (hkey : ∀ s ∈ L, (h.table s).key ≠ key) (hlen : L.length < h.size) :
    ∃ h' o, rh_hash_add P h key data overwrite = some (rh_status_t.RH_SUCCESS, h') ∧
      AddInv P h' (o :: L) (rank_after rank o) ∧
      h'.size = h.size ∧
      (h'.table o).key = key ∧ (h'.table o).data = data ∧
      ∀ s ∈ L, (h'.table s).key = (h.table s).key ∧ (h'.table s).data = (h.table s).data := by
  have hc : hash_key key % h.size < h.size := Nat.mod_lt _ inv.size_pos
  have hone : (0 + 1) % P.CHAIN_MOD = 1 := Nat.mod_eq_of_lt hM
  by_cases hch : (h.table (hash_key key % h.size)).chain = EMPTY_ENTRY
  · -- the natural slot is empty
    have hcL : hash_key key % h.size ∉ L := by
      intro hm
      have := inv.chain_one _ hm
      rw [hch] at this
      exact absurd this (by decide)
    have hself := write_node_self P h (hash_key key % h.size) key data (hash_key key)
    have hother := write_node_other P h (hash_key key % h.size) key data (hash_key key)
    have hne : ∀ s ∈ L, s ≠ hash_key key % h.size := fun s hs hso => hcL (hso ▸ hs)
    refine ⟨write_node P h (hash_key key % h.size) key data (hash_key key),
      hash_key key % h.size, ?_, ?_, rfl, hself.1, hself.2.1, ?_⟩
    · unfold rh_hash_add
      dsimp only
      rw [if_pos hch]
    · refine inv_extend inv key _ rfl hc hcL hkey hself.1 ?_ hself.2.2.1 ?_ ?_ ?_
        (List.mem_cons_self _ _) (Reach.refl _)
      · rw [hself.2.2.2, hch]; exact hone
      · intro s hs; exact (hother s (hne s hs)).1
      · intro i hi; exact (hother i hi).2.2.2
      · intro s hs; exact Or.inl (hother s (hne s hs)).2.2.1
    · intro s hs
      exact ⟨(hother s (hne s hs)).1, (hother s (hne s hs)).2.1⟩
  · -- collision: the natural slot holds another key
    have hcL : hash_key key % h.size ∈ L := by
      by_contra hm
      exact hch (inv.empty _ hc hm)
    have hk : (h.table (hash_key key % h.size)).key ≠ key := hkey _ hcL
    obtain ⟨e, he, heL⟩ := exists_not_mem_of_length_lt L h.size hlen
    obtain ⟨o, hfind, holt, hocase⟩ := find_open_spec h.table h.size _ hc
    have hoc : o ≠ hash_key key % h.size ∧ (h.table o).chain = EMPTY_ENTRY := by
      rcases hocase with ⟨_, hall⟩ | hoc
      · have hec : e ≠ hash_key key % h.size := fun hec => heL (hec ▸ hcL)
        exact absurd (inv.empty e he heL) (hall e he hec)
      · exact hoc
    have hoL : o ∉ L := by
      intro hm
      have := inv.chain_one _ hm
      rw [hoc.2] at this
      exact absurd this (by decide)
    obtain ⟨q, hq, hscan, hreach, hqnull⟩ := scan_complete inv key hkey h.size
      (hash_key key % h.size) hcL (by have := inv.rank_lt _ hcL; omega)
    have hqo : q ≠ o := fun hqo => hoL (hqo ▸ hq)
    have hne : ∀ s ∈ L, s ≠ o := fun s hs hso => hoL (hso ▸ hs)
    have hself := add_at_end_self P h key data (hash_key key) o q hqo
    have hprev := add_at_end_prev P h key data (hash_key key) o q hqo
    have hother := add_at_end_other P h key data (hash_key key) o q
    have hkeys : ∀ s ∈ L, ((add_at_end_of_chain P h key data (hash_key key) o q).table s).key
          = (h.table s).key ∧
        ((add_at_end_of_chain P h key data (hash_key key) o q).table s).data
          = (h.table s).data := by
      intro s hs
      by_cases hsq : s = q
      · rw [hsq]; exact ⟨hprev.1, hprev.2.1⟩
      · exact ⟨(hother s (hne s hs) hsq).1, (hother s (hne s hs) hsq).2.1⟩
    have hnext : ∀ s ∈ L,
        ((add_at_end_of_chain P h key data (hash_key key) o q).table s).next
          = (h.table s).next ∨
        ((h.table s).next = NULL_INDEX P ∧
          ((add_at_end_of_chain P h key data (hash_key key) o q).table s).next = o) := by
      intro s hs
      by_cases hsq : s = q
      · right; rw [hsq]; exact ⟨hqnull, hprev.2.2.1⟩
      · left; exact (hother s (hne s hs) hsq).2.2.1
    have honull : o ≠ NULL_INDEX P := by
      have := inv.size_le
      unfold NULL_INDEX
      omega
    refine ⟨add_at_end_of_chain P h key data (hash_key key) o q, o, ?_, ?_, rfl,
      hself.1, hself.2.1, hkeys⟩
    · unfold rh_hash_add
      dsimp only
      rw [if_neg hch, if_neg hk, hfind]
      dsimp only
      rw [if_neg hoc.1]
      unfold add_collision
      dsimp only
      rw [if_pos (inv.chain_one _ hcL), hscan]
    · refine inv_extend inv key o rfl holt hoL hkey hself.1 ?_ hself.2.2.1
        (fun s hs => (hkeys s hs).1) ?_ hnext (List.mem_cons_of_mem _ hcL) ?_
      · rw [hself.2.2.2, hoc.2]; exact hone
      · intro i hi
        by_cases hiq : i = q
        · rw [hiq]; exact hprev.2.2.2
        · exact (hother i hi hiq).2.2.2
      · -- the chain of the natural slot now ends in the new slot
        have h1 : Reach P (add_at_end_of_chain P h key data (hash_key key) o q).table
            (hash_key key % h.size) q := by
          refine reach_mono P h.table _ L ?_ ?_ _ _ hreach hcL
          · intro s hs
            rcases inv.next_ok s hs with h0 | ⟨h1, _⟩
            · exact Or.inl h0
            · exact Or.inr h1
          · intro s hs hnn
            rcases hnext s hs with h0 | ⟨h1, _⟩
            · exact h0
            · exact absurd h1 hnn
        have h2 : Reach P (add_at_end_of_chain P h key data (hash_key key) o q).table q o := by
          refine Reach.step q o ?_ ?_
          · rw [hprev.2.2.1]; exact honull
          · rw [hprev.2.2.1]; exact Reach.refl o
        exact h1.trans h2

theorem create_inv (P : rh_types_t) (rh h0 : rh_hash_t) (S : Int)
    (mem : Nat → rh_hash_node_t)
    (hc : rh_hash_create P rh S (some mem) = (rh_status_t.RH_SUCCESS, h0)) :
    AddInv P h0 [] (fun _ => 0) ∧ (h0.size : Int) = S := by
  unfold rh_hash_create at hc
  split_ifs at hc with hbad
  · simp at hc
  · push_neg at hbad
    simp only [Prod.mk.injEq, true_and] at hc
    subst hc
    have hS : (S.toNat : Int) = S := Int.toNat_of_nonneg (by omega)
    refine ⟨⟨?_, ?_, List.nodup_nil, ?_, ?_, ?_, ?_, ?_, ?_, ?_, ?_⟩, hS⟩
    · show 0 < S.toNat
      omega
    · show S.toNat ≤ P.BP_MAX_INDEX
      omega
    · intro s hs; simp at hs
    · intro i hi _
      show (if i < S.toNat then { mem i with chain := EMPTY_ENTRY } else mem i).chain
        = EMPTY_ENTRY
      rw [if_pos hi]
    · intro s hs; simp at hs
    · intro s hs; simp at hs
    · intro s hs; simp at hs
    · intro s hs; simp at hs
    · intro s hs; simp at hs
    · intro s hs; simp at hs

theorem add_all {P : rh_types_t} (hM : 1 < P.CHAIN_MOD) :
    ∀ (kds : List (Nat × Nat × Bool)) (h : rh_hash_t) (L : List Nat) (rank : Nat → Nat),
      AddInv P h L rank → (kds.map (fun kd => kd.1)).Nodup →
      (∀ s ∈ L, ∀ kd ∈ kds, (h.table s).key ≠ kd.1) →
      L.length + kds.length ≤ h.size →
      ∃ h' L' rank',
        run_ops P h (add_ops kds)
          = some (List.replicate kds.length rh_status_t.RH_SUCCESS, h') ∧
        AddInv P h' L' rank' ∧
        (∀ s ∈ L, s ∈ L' ∧ (h'.table s).key = (h.table s).key ∧
          (h'.table s).data = (h.table s).data) ∧
        (∀ kd ∈ kds, ∃ s ∈ L', (h'.table s).key = kd.1 ∧ (h'.table s).data = kd.2.1) := by
  intro kds
  induction kds with
  | nil =>
    intro h L rank inv _ _ _
    exact ⟨h, L, rank, rfl, inv, fun s hs => ⟨hs, rfl, rfl⟩, fun kd hkd => by simp at hkd⟩
  | cons kd rest ih =>
    intro h L rank inv hnd hdisj hlen
    rw [List.map_cons, List.nodup_cons] at hnd
    rw [List.length_cons] at hlen
    obtain ⟨h1, o, hadd, inv1, hsize1, hokey, hodata, hold⟩ :=
      add_step inv hM kd.1 kd.2.1 kd.2.2
        (fun s hs => hdisj s hs kd (List.mem_cons_self _ _)) (by omega)
    have hdisj1 : ∀ s ∈ o :: L, ∀ kd' ∈ rest, (h1.table s).key ≠ kd'.1 := by
      intro s hs kd' hkd'
      rcases List.mem_cons.mp hs with h0 | h0
      · rw [h0, hokey]
        intro heq
        exact hnd.1 (heq ▸ List.mem_map_of_mem (fun kd => kd.1) hkd')
      · rw [(hold s h0).1]
        exact hdisj s h0 kd' (List.mem_cons_of_mem _ hkd')
    obtain ⟨h2, L2, rank2, hrun, inv2, hold2, hnew2⟩ :=
      ih h1 (o :: L) (rank_after rank o) inv1 hnd.2 hdisj1
        (by rw [List.length_cons, hsize1]; omega)
    refine ⟨h2, L2, rank2, ?_, inv2, ?_, ?_⟩
    · unfold add_ops at hrun ⊢
      rw [List.map_cons]
      simp only [run_ops, apply_op, hadd, hrun, List.length_cons, List.replicate_succ]
    · intro s hs
      have h3 := hold2 s (List.mem_cons_of_mem _ hs)
      exact ⟨h3.1, h3.2.1.trans (hold s hs).1, h3.2.2.trans (hold s hs).2⟩
    · intro kd' hkd'
      rcases List.mem_cons.mp hkd' with h0 | h0
      · have h3 := hold2 o (List.mem_cons_self _ _)
        refine ⟨o, h3.1, ?_, ?_⟩
        · rw [h0, h3.2.1, hokey]
        · rw [h0, h3.2.2, hodata]
      · exact hnew2 kd' h0

/-! ## The claims -/

/-- C1, evaluated at its failing inputs: on every table that
`rh_hash_create` has made, the first `rh_hash_add` (any key, data and
`overwrite` flag) is the call of `write_node` on the natural slot of the key,
and that call accesses `table[newest_entry]` with `newest_entry = NULL_INDEX`,
an index that is not below `size`: the store of line 139 goes beyond the
allocated slots. -/
theorem C1_first_add_out_of_bounds (P : rh_types_t) (rh h0 : rh_hash_t) (S : Int)
    (mem : Nat → rh_hash_node_t)
    (hcreate : rh_hash_create P rh S (some mem) = (rh_status_t.RH_SUCCESS, h0))
    (key data : Nat) (overwrite : Bool) :
    rh_hash_add P h0 key data overwrite
      = some (rh_status_t.RH_SUCCESS,
          write_node P h0 (hash_key key % h0.size) key data (hash_key key)) ∧
    h0.newest_entry = NULL_INDEX P ∧ h0.size ≤ NULL_INDEX P ∧
    NULL_INDEX P ∈ write_node_indices h0 (hash_key key % h0.size) ∧
    ¬ write_node_in_bounds h0 (hash_key key % h0.size) ∧
    ((write_node P h0 (hash_key key % h0.size) key data (hash_key key)).table
      (NULL_INDEX P)).after = hash_key key % h0.size := by
  obtain ⟨inv, _⟩ := create_inv P rh h0 S mem hcreate
  have hnew : h0.newest_entry = NULL_INDEX P := by
    unfold rh_hash_create at hcreate
    split_ifs at hcreate with hbad
    · simp at hcreate
    · simp only [Prod.mk.injEq, true_and] at hcreate
      subst hcreate
      rfl
  have hlt : hash_key key % h0.size < h0.size := Nat.mod_lt _ inv.size_pos
  have hle : h0.size ≤ NULL_INDEX P := inv.size_le
  have hempty : (h0.table (hash_key key % h0.size)).chain = EMPTY_ENTRY :=
    inv.empty _ hlt (by simp)
  refine ⟨?_, hnew, hle, ?_, ?_, ?_⟩
  · unfold rh_hash_add
    dsimp only
    rw [if_pos hempty]
  · unfold write_node_indices
    rw [hnew]
    simp
  · intro hb
    have := hb h0.newest_entry (by simp [write_node_indices])
    rw [hnew] at this
    omega
  · unfold write_node
    dsimp only
    rw [hnew]
    simp [upd]

/-- C1 at the first insertion into a table of size 3: key 1 goes to slot 1,
and the call writes the `after` field of the cell at index 65535. -/
theorem C1_witness :
    rh_hash_add types16 (created 3) 1 102 false
      = some (rh_status_t.RH_SUCCESS,
          write_node types16 (created 3) (hash_key 1 % (created 3).size) 1 102 (hash_key 1)) ∧
    (created 3).newest_entry = NULL_INDEX types16 ∧ (created 3).size ≤ NULL_INDEX types16 ∧
    NULL_INDEX types16 ∈ write_node_indices (created 3) (hash_key 1 % (created 3).size) ∧
    ¬ write_node_in_bounds (created 3) (hash_key 1 % (created 3).size) ∧
    ((write_node types16 (created 3) (hash_key 1 % (created 3).size) 1 102 (hash_key 1)).table
      (NULL_INDEX types16)).after = hash_key 1 % (created 3).size :=
  C1_first_add_out_of_bounds types16 blank (created 3) 3 zero_mem rfl 1 102 false

/-- What `rh_hash_add` and `rh_hash_get` compute on the flat memory, in which
the store of the first insertion to `table[NULL_INDEX].after` lands in a cell
of its own and is harmless (in the C program it is an access outside of the
table, see `write_node_in_bounds`): for every list of distinct keys of length
K ≤ S added (any data, any `overwrite` flag) to a table freshly created with
size S, every add returns `RH_SUCCESS`, and afterwards `rh_hash_get` of each
key returns `RH_SUCCESS` with the data the key was added with. -/
theorem distinct_keys_added_are_found (P : rh_types_t) (hM : 1 < P.CHAIN_MOD)
    (rh h0 : rh_hash_t) (S : Int) (mem : Nat → rh_hash_node_t)
    (hcreate : rh_hash_create P rh S (some mem) = (rh_status_t.RH_SUCCESS, h0))
    (kds : List (Nat × Nat × Bool)) (hnd : (kds.map (fun kd => kd.1)).Nodup)
    (hlen : (kds.length : Int) ≤ S) :
    ∃ h, run_ops P h0 (add_ops kds)
        = some (List.replicate kds.length rh_status_t.RH_SUCCESS, h) ∧
      ∀ kd ∈ kds, rh_hash_get P h kd.1 = some (rh_status_t.RH_SUCCESS, some kd.2.1) := by
  obtain ⟨inv0, hsize⟩ := create_inv P rh h0 S mem hcreate
  obtain ⟨h, L, rank, hrun, inv, _, hnew⟩ :=
    add_all hM kds h0 [] (fun _ => 0) inv0 hnd (fun s hs => by simp at hs)
      (by rw [List.length_nil]; omega)
  refine ⟨h, hrun, ?_⟩
  intro kd hkd
  obtain ⟨s, hs, hk, hd⟩ := hnew kd hkd
  have := get_of_inv inv s hs
  rwa [hk, hd] at this

/-- Three distinct keys, two of them colliding, added to a table of size 3 on
the flat memory. -/
theorem distinct_keys_added_example :
    ∃ h, run_ops types16 (created 3) (add_ops [(0, 100, false), (7, 101, false), (1, 102, true)])
        = some (List.replicate 3 rh_status_t.RH_SUCCESS, h) ∧
      ∀ kd ∈ [(0, 100, false), (7, 101, false), (1, 102, true)],
        rh_hash_get types16 h kd.1 = some (rh_status_t.RH_SUCCESS, some kd.2.1) :=
  distinct_keys_added_are_found types16 (by decide) blank (created 3) 3 zero_mem rfl
    [(0, 100, false), (7, 101, false), (1, 102, true)] (by decide) (by decide)

/-- C2, evaluated at its failing input: on a table of size 3, after
add 0, add 7, add 8, remove 7, the call remove 8 returns `RH_SUCCESS`, and the
`rh_hash_get` of 8 right after it returns `RH_SUCCESS` with the data of 8
(not `RH_KEY_NOT_FOUND`): the emptied slot is still linked behind slot 0. -/
theorem C2_get_after_remove_finds_key :
    (run_ops types16 (created 3)
        [rh_op_t.add 0 100 false, rh_op_t.add 7 101 false, rh_op_t.add 8 102 false,
         rh_op_t.remove 7, rh_op_t.remove 8]).map
      (fun r => (r.1, rh_hash_get types16 r.2 8))
    = some ([rh_status_t.RH_SUCCESS, rh_status_t.RH_SUCCESS, rh_status_t.RH_SUCCESS,
        rh_status_t.RH_SUCCESS, rh_status_t.RH_SUCCESS],
      some (rh_status_t.RH_SUCCESS, some 102)) := by
  decide

/-- C3, evaluated at its failing input: on a table of size 3, after
add 0, add 7, add 1, remove 0 (all `RH_SUCCESS`, never more than 3 live keys),
the finite map of the spec holds 7 and 1, yet `rh_hash_get` of key 1 returns
`RH_KEY_NOT_FOUND`: removing key 0 made the live key 1 unreachable. -/
theorem C3_remove_loses_live_key :
    (run_ops types16 (created 3)
        [rh_op_t.add 0 100 false, rh_op_t.add 7 101 false, rh_op_t.add 1 102 false,
         rh_op_t.remove 0]).map
      (fun r => (r.1, rh_hash_get types16 r.2 1))
    = some ([rh_status_t.RH_SUCCESS, rh_status_t.RH_SUCCESS, rh_status_t.RH_SUCCESS,
        rh_status_t.RH_SUCCESS],
      some (rh_status_t.RH_KEY_NOT_FOUND, none)) ∧
    map_run []
        [rh_op_t.add 0 100 false, rh_op_t.add 7 101 false, rh_op_t.add 1 102 false,
         rh_op_t.remove 0]
      = [[(0, 100)], [(0, 100), (7, 101)], [(0, 100), (7, 101), (1, 102)],
         [(7, 101), (1, 102)]] := by
  decide

/-- C4, evaluated at its failing input: on a table of size 3, after
add 0, add 7, remove 0 the only live key is 7, in slot 0, but the walk from
`oldest_entry` along the `after` links visits slot 0 and then slot 1, which is
empty (chain 0), and `newest_entry` is that empty slot 1. -/
theorem C4_time_order_visits_empty_slot :
    (run_ops types16 (created 3)
        [rh_op_t.add 0 100 false, rh_op_t.add 7 101 false, rh_op_t.remove 0]).map
      (fun r => (r.1, time_order types16 r.2, r.2.newest_entry))
    = some ([rh_status_t.RH_SUCCESS, rh_status_t.RH_SUCCESS, rh_status_t.RH_SUCCESS],
      some [0, 1], 1) ∧
    (run_ops types16 (created 3)
        [rh_op_t.add 0 100 false, rh_op_t.add 7 101 false, rh_op_t.remove 0]).map
      (fun r => ((r.2.table 0).key, (r.2.table 0).chain, (r.2.table 1).chain))
    = some (7, 1, 0) ∧
    (run_ops types16 (created 3)
        [rh_op_t.add 0 100 false, rh_op_t.add 7 101 false, rh_op_t.remove 0]).map
      (fun r => rh_hash_get types16 r.2 0)
    = some (some (rh_status_t.RH_KEY_NOT_FOUND, none)) := by
  decide

/-- C5, evaluated at its failing input: on a table of size 3, after add 0 and
add 7 (slots 0 and 1, in this time order), the call add 0 with
`overwrite = true` returns `RH_SUCCESS`, `rh_hash_get` of key 0 returns the
new data and slot 0 is the `newest_entry`; but `overwrite_node` has not linked
slot 0 behind the entry that was the newest: the `after` link of slot 1 is
still `NULL_INDEX`, and the walk from `oldest_entry` along the `after` links
visits slot 1 only, where the time order of the keys is 7, 0. -/
theorem C5_overwrite_not_in_walk :
    (run_ops types16 (created 3)
        [rh_op_t.add 0 100 false, rh_op_t.add 7 101 false]).map
      (fun r => (r.1, time_order types16 r.2, r.2.oldest_entry, r.2.newest_entry))
    = some ([rh_status_t.RH_SUCCESS, rh_status_t.RH_SUCCESS], some [0, 1], 0, 1) ∧
    (run_ops types16 (created 3)
        [rh_op_t.add 0 100 false, rh_op_t.add 7 101 false, rh_op_t.add 0 200 true]).map
      (fun r => (r.1, rh_hash_get types16 r.2 0, get_node types16 r.2 0))
    = some ([rh_status_t.RH_SUCCESS, rh_status_t.RH_SUCCESS, rh_status_t.RH_SUCCESS],
      some (rh_status_t.RH_SUCCESS, some 200), some 0) ∧
    (run_ops types16 (created 3)
        [rh_op_t.add 0 100 false, rh_op_t.add 7 101 false, rh_op_t.add 0 200 true]).map
      (fun r => (r.2.newest_entry, r.2.oldest_entry, (r.2.table 1).after,
        (r.2.table 0).before, time_order types16 r.2))
    = some (0, 1, NULL_INDEX types16, 1, some [1]) ∧
    map_run []
        [rh_op_t.add 0 100 false, rh_op_t.add 7 101 false, rh_op_t.add 0 200 true]
      = [[(0, 100)], [(0, 100), (7, 101)], [(7, 101), (0, 200)]] := by
  refine ⟨by decide, by decide, by decide, by decide⟩

/-- The part of `rh_hash_add` with `overwrite = true` that is right: on every
table (of size > 0) and for every key for which `rh_hash_get` succeeds, the
call returns `RH_SUCCESS`, makes `rh_hash_get` of the key return the new data
and makes the slot of the key the `newest_entry`, when the key is in its
natural slot or the table has an empty slot; otherwise it returns
`RH_HASH_FULL` and leaves the table as it was. -/
theorem overwrite_updates_data (P : rh_types_t) (h : rh_hash_t) (key data : Nat)
    (x : Option Nat) (hs : 0 < h.size)
    (hget : rh_hash_get P h key = some (rh_status_t.RH_SUCCESS, x)) :
    (add_not_full h key →
      ∃ h', rh_hash_add P h key data true = some (rh_status_t.RH_SUCCESS, h') ∧
        rh_hash_get P h' key = some (rh_status_t.RH_SUCCESS, some data) ∧
        get_node P h' key = some h'.newest_entry) ∧
    (¬ add_not_full h key →
      rh_hash_add P h key data true = some (rh_status_t.RH_HASH_FULL, h)) := by
  obtain ⟨index, hnode, hidx, _⟩ := get_node_of_get P h key x hget
  constructor
  · intro hcond
    have ht := overwrite_node_true P h index data
    have hnode' := (get_node_overwrite P h index data key).trans hnode
    refine ⟨(overwrite_node P h index data true).2, ?_, ?_, ?_⟩
    · rw [add_of_get P h key data index true hs hnode hidx hcond, ← ht.1]
    · rw [get_of_get_node P _ key index hnode' hidx, ht.2.2.2.1]
    · rw [hnode', ht.2.2.1]
  · intro hcond
    exact add_full_of_get P h key data index true hs hnode hidx hcond

/-- Key 0 is overwritten in a table that holds keys 0 and 7. -/
theorem overwrite_updates_data_example :
    ∃ h', rh_hash_add types16
        (table_after types16 (created 3) [rh_op_t.add 0 100 false, rh_op_t.add 7 101 false])
        0 200 true = some (rh_status_t.RH_SUCCESS, h') ∧
      rh_hash_get types16 h' 0 = some (rh_status_t.RH_SUCCESS, some 200) ∧
      get_node types16 h' 0 = some h'.newest_entry :=
  (overwrite_updates_data types16
    (table_after types16 (created 3) [rh_op_t.add 0 100 false, rh_op_t.add 7 101 false])
    0 200 (some 100) (by decide) (by decide)).1 (Or.inl (by decide))

/-- C6 as stated fails: on a table of size 2 filled by add 0, add 2 (both
keys have natural slot 0, key 2 sits in slot 1), `rh_hash_get` of 2 succeeds
and `rh_hash_add` of key 2 with `overwrite = false` returns `RH_HASH_FULL`,
not `RH_INSERT_DUPLICATE`. -/
theorem C6_full_table_displaced_key_is_full :
    (run_ops types16 (created 2)
        [rh_op_t.add 0 100 false, rh_op_t.add 2 101 false]).map
      (fun r => (r.1, rh_hash_get types16 r.2 2,
        (rh_hash_add types16 r.2 2 55 false).map Prod.fst))
    = some ([rh_status_t.RH_SUCCESS, rh_status_t.RH_SUCCESS],
      some (rh_status_t.RH_SUCCESS, some 101), some rh_status_t.RH_HASH_FULL) ∧
    (run_ops types16 (created 2)
        [rh_op_t.add 0 100 false, rh_op_t.add 2 101 false]).map
      (fun r => (hash_key 2 % r.2.size, (r.2.table 1).key))
    = some (0, 2) := by
  decide

/-- C6, amended: on every table (of size > 0) and for every key for which
`rh_hash_get` succeeds, `rh_hash_add` with `overwrite = false` returns
`RH_INSERT_DUPLICATE` and leaves the table as it was when the key is in its
natural slot or the table has an empty slot; otherwise (no empty slot and the
key in a displaced slot) it returns `RH_HASH_FULL` and leaves the table as it
was. -/
theorem C6_duplicate_unless_full (P : rh_types_t) (h : rh_hash_t) (key data : Nat)
    (x : Option Nat) (hs : 0 < h.size)
    (hget : rh_hash_get P h key = some (rh_status_t.RH_SUCCESS, x)) :
    (add_not_full h key →
      rh_hash_add P h key data false = some (rh_status_t.RH_INSERT_DUPLICATE, h)) ∧
    (¬ add_not_full h key →
      rh_hash_add P h key data false = some (rh_status_t.RH_HASH_FULL, h)) := by
  obtain ⟨index, hnode, hidx, _⟩ := get_node_of_get P h key x hget
  constructor
  · intro hcond
    rw [add_of_get P h key data index false hs hnode hidx hcond, overwrite_node_false]
  · intro hcond
    exact add_full_of_get P h key data index false hs hnode hidx hcond

/-- The witness of the amended C6: key 7 sits in a displaced slot of a table
of size 3 with an empty slot, and adding it again is a duplicate. -/
theorem C6_witness :
    rh_hash_add types16
        (table_after types16 (created 3) [rh_op_t.add 0 100 false, rh_op_t.add 7 101 false])
        7 55 false
      = some (rh_status_t.RH_INSERT_DUPLICATE,
        table_after types16 (created 3) [rh_op_t.add 0 100 false, rh_op_t.add 7 101 false]) :=
  (C6_duplicate_unless_full types16
    (table_after types16 (created 3) [rh_op_t.add 0 100 false, rh_op_t.add 7 101 false])
    7 55 (some 101) (by decide) (by decide)).1 (Or.inr ⟨2, by decide, by decide⟩)

/-- C7: whenever `rh_hash_add` returns `RH_INSERT_DUPLICATE`, the table after
the call is the table before it: every slot (key, data, chain and links),
`oldest_entry`, `newest_entry` and `max_chain` are the same. -/
theorem C7_duplicate_leaves_table (P : rh_types_t) (h h' : rh_hash_t) (key data : Nat)
    (overwrite : Bool)
    (hadd : rh_hash_add P h key data overwrite = some (rh_status_t.RH_INSERT_DUPLICATE, h')) :
    h' = h := by
  unfold rh_hash_add at hadd
  dsimp only at hadd
  split_ifs at hadd with h1 h2
  · simp at hadd
  · exact overwrite_node_duplicate P h h' _ data overwrite (Option.some.inj hadd)
  · split at hadd
    · simp at hadd
    · split_ifs at hadd with h3
      · simp at hadd
      · exact add_collision_duplicate P h h' key data _ overwrite _ _ hadd

/-- The witness of C7: adding key 0 twice without `overwrite`. -/
theorem C7_witness :
    rh_hash_add types16 (table_after types16 (created 3) [rh_op_t.add 0 100 false]) 0 55 false
      = some (rh_status_t.RH_INSERT_DUPLICATE,
        table_after types16 (created 3) [rh_op_t.add 0 100 false]) ∧
    table_after types16 (created 3) [rh_op_t.add 0 100 false]
      = table_after types16 (created 3) [rh_op_t.add 0 100 false] :=
  ⟨rfl, C7_duplicate_leaves_table types16 _ _ 0 55 false rfl⟩

/-- C8: on a table of size > 0, `rh_hash_add` returns `RH_HASH_FULL` exactly
when the natural slot of the key (`hash_key key % size`) is occupied by a
different key and no slot of the table is empty; the table is then left as it
was. -/
theorem C8_full_iff (P : rh_types_t) (h h' : rh_hash_t) (key data : Nat) (overwrite : Bool)
    (hs : 0 < h.size) :
    rh_hash_add P h key data overwrite = some (rh_status_t.RH_HASH_FULL, h') ↔
      (((h.table (hash_key key % h.size)).chain ≠ EMPTY_ENTRY ∧
        (h.table (hash_key key % h.size)).key ≠ key ∧
        ∀ i, i < h.size → (h.table i).chain ≠ EMPTY_ENTRY) ∧ h' = h) :=
  add_full_iff P h h' key data overwrite hs

/-- The witness of C8: a table of size 2 holding keys 0 and 2 is full for
key 4, whose natural slot 0 holds key 0. -/
theorem C8_witness :
    rh_hash_add types16
        (table_after types16 (created 2) [rh_op_t.add 0 100 false, rh_op_t.add 2 101 false])
        4 55 true
      = some (rh_status_t.RH_HASH_FULL,
        table_after types16 (created 2) [rh_op_t.add 0 100 false, rh_op_t.add 2 101 false]) :=
  (C8_full_iff types16 _ _ 4 55 true (by decide)).mpr
    ⟨⟨by decide, by decide, by decide⟩, rfl⟩

/-- C9, evaluated at its failing input: on a table of size 3, after
add 0, add 7, add 1, remove 0, add 1, remove 7 (all `RH_SUCCESS`) the
non-empty slots 0 and 1 both hold key 1. -/
theorem C9_two_slots_hold_one_key :
    (run_ops types16 (created 3)
        [rh_op_t.add 0 100 false, rh_op_t.add 7 101 false, rh_op_t.add 1 102 false,
         rh_op_t.remove 0, rh_op_t.add 1 103 false, rh_op_t.remove 7]).map
      (fun r => (r.1, (r.2.table 0).key, (r.2.table 0).chain,
        (r.2.table 1).key, (r.2.table 1).chain))
    = some ([rh_status_t.RH_SUCCESS, rh_status_t.RH_SUCCESS, rh_status_t.RH_SUCCESS,
        rh_status_t.RH_SUCCESS, rh_status_t.RH_SUCCESS, rh_status_t.RH_SUCCESS],
      1, 1, 1, 1) := by
  decide

/-- C10, evaluated at its failing input: after the single insertion add 0
into a fresh table of size 3 the slot of key 0 holds chain 1, so the observed
maximum is 1, while the reported `max_chain` is 0. -/
theorem C10_max_chain_misses_first_entry :
    (run_ops types16 (created 3) [rh_op_t.add 0 100 false]).map
      (fun r => (r.1, r.2.max_chain, observed_max_chain r.2, (r.2.table 0).chain))
    = some ([rh_status_t.RH_SUCCESS], 0, 1, 1) := by
  decide

end RhHash

/-! # Theorems on `bplib_load` -/

namespace Bplib

/-- The call when no DACS record is ready: the bundle loops run and the load
section follows. -/
theorem load_no_dacs {σ : Type} (E : bp_env_t σ) (ch : bp_channel_t) (env : σ)
    (a : bp_load_args_t) (env1 : σ) (flags1 : Nat)
    (hd : no_dacs_ready E ch env a env1 flags1) :
    bplib_load E ch env a =
      match load_data_bundle E a
        { ch := ch, env := env1, data := none, sid := BP_SID_VACANT, ati := -1, newcid := true,
          status := bp_status_t.BP_SUCCESS, flags := flags1 } with
      | none => none
      | some s => some (update_active (load_bundle E a ch.bundle_store_handle s)) := by
  obtain ⟨dq, hdq, hne⟩ := hd
  unfold bplib_load
  rw [hdq]
  dsimp only
  cases dq with
  | ok d sid => exact absurd rfl (hne d sid)
  | timeout => rfl
  | failed => rfl

/-- The load section when there is a bundle and the buffer is adequate. -/
theorem load_bundle_ok {σ : Type} (E : bp_env_t σ) (a : bp_load_args_t) (store_handle : Int)
    (s : bp_load_state_t σ) (d : bp_bundle_data_t) (hdata : s.data = some d)
    (hbuf : adequate_buffer a d.bundlesize) :
    load_bundle E a store_handle s =
      { status := bp_status_t.BP_SUCCESS
        ch := incr_transmitted
          (if d.cteboffset ≠ 0 then assign_custody E a.sysnow store_handle s d else (s, d)).1.ch
        env := if d.cteboffset = 0
          then E.relinquish
            (if d.cteboffset ≠ 0 then assign_custody E a.sysnow store_handle s d else (s, d)).1.env
            store_handle
            (if d.cteboffset ≠ 0 then assign_custody E a.sysnow store_handle s d else (s, d)).1.sid
          else (if d.cteboffset ≠ 0
            then assign_custody E a.sysnow store_handle s d else (s, d)).1.env
        bundle := some
          (if d.cteboffset ≠ 0 then assign_custody E a.sysnow store_handle s d else (s, d)).2
        size := d.bundlesize
        flags :=
          (if d.cteboffset ≠ 0
            then assign_custody E a.sysnow store_handle s d else (s, d)).1.flags } := by
  unfold load_bundle
  rw [hdata]
  dsimp only
  have h1 : a.buffer_null = true ∨ a.size ≥ d.bundlesize := by
    rcases hbuf with ⟨h, _⟩ | ⟨_, h⟩
    · exact Or.inl h
    · exact Or.inr h
  have h2 : a.buffer_null = false ∨ a.malloc_ok = true := by
    rcases hbuf with ⟨_, h⟩ | ⟨h, _⟩
    · exact Or.inr h
    · exact Or.inl h
  rw [if_pos h1, if_pos h2]

/-- The scan loop is not entered when there is a bundle already. -/
theorem scan_loop_data {σ : Type} (E : bp_env_t σ) (sysnow : Nat) (store_handle : Int)
    (fuel : Nat) (s : bp_load_state_t σ) (d : bp_bundle_data_t) (hdata : s.data = some d) :
    scan_loop E sysnow store_handle fuel s = some s := by
  cases fuel <;> simp [scan_loop, hdata]

/-- The dequeue loop is not entered when there is a bundle already. -/
theorem dequeue_loop_data {σ : Type} (E : bp_env_t σ) (sysnow : Nat) (store_handle : Int)
    (timeout : Int) (fuel : Nat) (s : bp_load_state_t σ) (d : bp_bundle_data_t)
    (hdata : s.data = some d) :
    dequeue_loop E sysnow store_handle timeout fuel s = some s := by
  cases fuel <;> simp [dequeue_loop, hdata]

/-- One pass of the scan loop. -/
theorem scan_loop_step {σ : Type} (E : bp_env_t σ) (sysnow : Nat) (store_handle : Int)
    (fuel : Nat) (s : bp_load_state_t σ) (hdata : s.data = none)
    (hlt : s.ch.active_table.oldest_cid < s.ch.active_table.current_cid) :
    scan_loop E sysnow store_handle (fuel + 1) s =
      if (scan_body E sysnow store_handle s).2 then some (scan_body E sysnow store_handle s).1
      else scan_loop E sysnow store_handle fuel (scan_body E sysnow store_handle s).1 := by
  rw [scan_loop, if_pos ⟨hdata, hlt⟩]

/-- The body of the scan when the oldest slot holds `sid` and the retrieve
gives `d`. -/
theorem scan_body_retrieved {σ : Type} (E : bp_env_t σ) (sysnow : Nat) (store_handle : Int)
    (s : bp_load_state_t σ) (sid : Nat) (env2 : σ) (d : bp_bundle_data_t)
    (hsid : s.ch.active_table.sid (slot_of s.ch s.ch.active_table.oldest_cid) = sid)
    (hocc : sid ≠ BP_SID_VACANT)
    (hret : E.retrieve s.env store_handle sid BP_CHECK = (env2, some d)) :
    scan_body E sysnow store_handle s =
      scan_retrieved E sysnow store_handle
        { s with ati := (slot_of s.ch s.ch.active_table.oldest_cid : Int), sid := sid,
                 env := env2 } d := by
  unfold scan_body
  dsimp only
  rw [hsid, if_neg hocc, hret]

theorem timed_out_state_data {σ : Type} (ch : bp_channel_t) (env2 : σ) (flags1 : Nat)
    (sid : Nat) (d : bp_bundle_data_t) :
    (timed_out_state ch env2 flags1 sid d).data = some d := by
  unfold timed_out_state
  split <;> rfl

theorem timed_out_state_ch {σ : Type} (ch : bp_channel_t) (env2 : σ) (flags1 : Nat)
    (sid : Nat) (d : bp_bundle_data_t) :
    (timed_out_state ch env2 flags1 sid d).ch.bundle_store_handle = ch.bundle_store_handle := by
  unfold timed_out_state
  split <;> rfl

/-- The scan of a call in which the bundle of the oldest slot has timed out:
the loops end with that bundle as the candidate. -/
theorem load_data_timed_out {σ : Type} (E : bp_env_t σ) (ch : bp_channel_t)
    (a : bp_load_args_t) (env1 : σ) (flags1 : Nat) (sid : Nat) (env2 : σ) (d : bp_bundle_data_t)
    (hlt : ch.active_table.oldest_cid < ch.active_table.current_cid)
    (hsid : ch.active_table.sid (slot_of ch ch.active_table.oldest_cid) = sid)
    (hocc : sid ≠ BP_SID_VACANT)
    (hret : E.retrieve env1 ch.bundle_store_handle sid BP_CHECK = (env2, some d))
    (hexp : ¬ is_expired d a.sysnow)
    (hto : is_timed_out ch (slot_of ch ch.active_table.oldest_cid) a.sysnow)
    (hfuel : 1 ≤ a.fuel) :
    load_data_bundle E a (scan_start ch env1 flags1)
      = some (timed_out_state ch env2 flags1 sid d) := by
  obtain ⟨f, hf⟩ : ∃ f, a.fuel = f + 1 := ⟨a.fuel - 1, by omega⟩
  have hbody : scan_body E a.sysnow ch.bundle_store_handle (scan_start ch env1 flags1)
      = (timed_out_state ch env2 flags1 sid d, false) := by
    rw [scan_body_retrieved E a.sysnow ch.bundle_store_handle (scan_start ch env1 flags1)
      sid env2 d hsid hocc hret]
    unfold scan_retrieved
    rw [if_neg hexp]
    have hto2 : is_timed_out ch
        ((slot_of ch ch.active_table.oldest_cid : Int)).toNat a.sysnow := by
      rw [Int.toNat_natCast]; exact hto
    unfold timed_out_state
    by_cases hr : ch.cid_reuse ≠ 0
    · simp only [scan_start]
      rw [if_pos hto2, if_pos hr, if_pos hr]
    · simp only [scan_start]
      rw [if_pos hto2, if_neg hr, if_neg hr, Int.toNat_natCast]
  unfold load_data_bundle
  have hscan : scan_loop E a.sysnow (scan_start ch env1 flags1).ch.bundle_store_handle a.fuel
      (scan_start ch env1 flags1) = some (timed_out_state ch env2 flags1 sid d) := by
    rw [hf]
    show scan_loop E a.sysnow ch.bundle_store_handle (f + 1) (scan_start ch env1 flags1) = _
    rw [scan_loop_step E a.sysnow ch.bundle_store_handle f _ rfl hlt, hbody]
    exact scan_loop_data E a.sysnow ch.bundle_store_handle f _ d
      (timed_out_state_data ch env2 flags1 sid d)
  rw [hscan]
  exact dequeue_loop_data E a.sysnow _ a.timeout a.fuel _ d
    (timed_out_state_data ch env2 flags1 sid d)

/-- The whole call in which the bundle of the oldest slot has timed out. -/
theorem load_timed_out {σ : Type} (E : bp_env_t σ) (ch : bp_channel_t) (env : σ)
    (a : bp_load_args_t) (env1 : σ) (flags1 : Nat) (sid : Nat) (env2 : σ) (d : bp_bundle_data_t)
    (hd : no_dacs_ready E ch env a env1 flags1)
    (hlt : ch.active_table.oldest_cid < ch.active_table.current_cid)
    (hsid : ch.active_table.sid (slot_of ch ch.active_table.oldest_cid) = sid)
    (hocc : sid ≠ BP_SID_VACANT)
    (hret : E.retrieve env1 ch.bundle_store_handle sid BP_CHECK = (env2, some d))
    (hexp : ¬ is_expired d a.sysnow)
    (hto : is_timed_out ch (slot_of ch ch.active_table.oldest_cid) a.sysnow)
    (hfuel : 1 ≤ a.fuel) :
    bplib_load E ch env a = some (update_active
      (load_bundle E a ch.bundle_store_handle (timed_out_state ch env2 flags1 sid d))) := by
  rw [load_no_dacs E ch env a env1 flags1 hd]
  have h := load_data_timed_out E ch a env1 flags1 sid env2 d hlt hsid hocc hret hexp hto hfuel
  unfold scan_start at h
  rw [h]

/-- C17: when no DACS record is ready, the bundle of the oldest slot is
retrieved, is not expired and has timed out, `cid_reuse = 0`, the bundle has a
CTEB and the caller's buffer is adequate, `bplib_load` returns `BP_SUCCESS`
with the bundle stamped with the pre-call `current_cid`, which is greater than
the pre-call `oldest_cid`; `current_cid` is incremented (by one, when that does
not wrap), the slot of `oldest_cid` is vacated and the storage id is entered
in the slot of the pre-call `current_cid`, and `retransmitted` is
incremented. -/
theorem C17_retransmit_new_cid {σ : Type} (E : bp_env_t σ) (ch : bp_channel_t) (env : σ)
    (a : bp_load_args_t) (env1 : σ) (flags1 : Nat) (sid : Nat) (env2 : σ) (d : bp_bundle_data_t)
    (hd : no_dacs_ready E ch env a env1 flags1)
    (hlt : ch.active_table.oldest_cid < ch.active_table.current_cid)
    (hsid : ch.active_table.sid (slot_of ch ch.active_table.oldest_cid) = sid)
    (hocc : sid ≠ BP_SID_VACANT)
    (hret : E.retrieve env1 ch.bundle_store_handle sid BP_CHECK = (env2, some d))
    (hexp : ¬ is_expired d a.sysnow)
    (hto : is_timed_out ch (slot_of ch ch.active_table.oldest_cid) a.sysnow)
    (hreuse : ch.cid_reuse = 0)
    (hcteb : d.cteboffset ≠ 0)
    (hbuf : adequate_buffer a d.bundlesize)
    (hfuel : 1 ≤ a.fuel) :
    ∃ r, bplib_load E ch env a = some r ∧
      r.status = bp_status_t.BP_SUCCESS ∧
      r.bundle = some (stamp_cid E d ch.active_table.current_cid) ∧
      (stamp_cid E d ch.active_table.current_cid).cidsdnv.value = ch.active_table.current_cid ∧
      ch.active_table.oldest_cid < (stamp_cid E d ch.active_table.current_cid).cidsdnv.value ∧
      r.ch.active_table.current_cid = incr32 ch.active_table.current_cid ∧
      (ch.active_table.current_cid + 1 < UINT32_MOD →
        r.ch.active_table.current_cid = ch.active_table.current_cid + 1) ∧
      r.ch.active_table.sid = (fun i =>
        if i = slot_of ch ch.active_table.current_cid then sid
        else if i = slot_of ch ch.active_table.oldest_cid then BP_SID_VACANT
        else ch.active_table.sid i) ∧
      r.ch.stats.retransmitted = incr32 ch.stats.retransmitted := by
  refine ⟨_,
    load_timed_out E ch env a env1 flags1 sid env2 d hd hlt hsid hocc hret hexp hto hfuel, ?_⟩
  rw [load_bundle_ok E a ch.bundle_store_handle _ d (timed_out_state_data ch env2 flags1 sid d)
    hbuf]
  have hr : ¬ ch.cid_reuse ≠ 0 := by simp [hreuse]
  simp only [timed_out_state, if_neg hr, if_pos hcteb, assign_custody, update_active,
    incr_transmitted, incr_current, set_retx, set_sid, incr_retransmitted, incr_oldest,
    slot_of, if_true, stamp_cid]
  exact ⟨trivial, trivial, trivial, hlt, trivial, fun h => Nat.mod_eq_of_lt h, trivial, trivial⟩

/-- C18: when no DACS record is ready, the bundle of the oldest slot is
retrieved, is not expired and has timed out, `cid_reuse` is set, the bundle has
a CTEB and the caller's buffer is adequate, `bplib_load` returns `BP_SUCCESS`
with the bundle as it was retrieved (no custody id is written, the storage
service is not written to), every slot keeps its storage id, `retx` of the
slot of `oldest_cid` is the time of the call, `current_cid` is unchanged and
`retransmitted` is incremented. -/
theorem C18_retransmit_same_cid {σ : Type} (E : bp_env_t σ) (ch : bp_channel_t) (env : σ)
    (a : bp_load_args_t) (env1 : σ) (flags1 : Nat) (sid : Nat) (env2 : σ) (d : bp_bundle_data_t)
    (hd : no_dacs_ready E ch env a env1 flags1)
    (hlt : ch.active_table.oldest_cid < ch.active_table.current_cid)
    (hsid : ch.active_table.sid (slot_of ch ch.active_table.oldest_cid) = sid)
    (hocc : sid ≠ BP_SID_VACANT)
    (hret : E.retrieve env1 ch.bundle_store_handle sid BP_CHECK = (env2, some d))
    (hexp : ¬ is_expired d a.sysnow)
    (hto : is_timed_out ch (slot_of ch ch.active_table.oldest_cid) a.sysnow)
    (hreuse : ch.cid_reuse ≠ 0)
    (hcteb : d.cteboffset ≠ 0)
    (hbuf : adequate_buffer a d.bundlesize)
    (hfuel : 1 ≤ a.fuel) :
    ∃ r, bplib_load E ch env a = some r ∧
      r.status = bp_status_t.BP_SUCCESS ∧
      r.bundle = some d ∧
      r.env = env2 ∧
      r.ch.active_table.sid = ch.active_table.sid ∧
      r.ch.active_table.sid (slot_of ch ch.active_table.oldest_cid) = sid ∧
      r.ch.active_table.retx (slot_of ch ch.active_table.oldest_cid) = a.sysnow ∧
      r.ch.active_table.current_cid = ch.active_table.current_cid ∧
      r.ch.stats.retransmitted = incr32 ch.stats.retransmitted := by
  refine ⟨_, load_timed_out E ch env a env1 flags1 sid env2 d hd hlt hsid hocc hret hexp hto
    hfuel, ?_⟩
  rw [load_bundle_ok E a ch.bundle_store_handle _ d (timed_out_state_data ch env2 flags1 sid d)
    hbuf]
  have hc : ¬ d.cteboffset = 0 := hcteb
  simp only [timed_out_state, if_pos hreuse, if_pos hcteb, if_neg hc, assign_custody,
    update_active, incr_transmitted, set_retx, incr_retransmitted, incr_oldest,
    Int.toNat_natCast, Bool.false_eq_true, if_false, if_true]
  exact ⟨trivial, trivial, trivial, trivial, hsid, trivial, trivial, trivial⟩

/-- The scan of a call in which the oldest bundle is still active and the slot
of `current_cid` is occupied, under the wrap response RESEND. -/
theorem load_data_resend {σ : Type} (E : bp_env_t σ) (ch : bp_channel_t)
    (a : bp_load_args_t) (env1 : σ) (flags1 : Nat) (sid1 sid2 : Nat) (env2 env3 : σ)
    (d1 d2 : bp_bundle_data_t)
    (hwrap : ch.wrap_response = bp_wrap_t.BP_WRAP_RESEND)
    (hlt : ch.active_table.oldest_cid < ch.active_table.current_cid)
    (hsid1 : ch.active_table.sid (slot_of ch ch.active_table.oldest_cid) = sid1)
    (hocc1 : sid1 ≠ BP_SID_VACANT)
    (hret1 : E.retrieve env1 ch.bundle_store_handle sid1 BP_CHECK = (env2, some d1))
    (hexp : ¬ is_expired d1 a.sysnow)
    (hto : ¬ is_timed_out ch (slot_of ch ch.active_table.oldest_cid) a.sysnow)
    (hsid2 : ch.active_table.sid (slot_of ch ch.active_table.current_cid) = sid2)
    (hocc2 : sid2 ≠ BP_SID_VACANT)
    (hret2 : E.retrieve env2 ch.bundle_store_handle sid2 BP_CHECK = (env3, some d2))
    (hfuel : 1 ≤ a.fuel) :
    load_data_bundle E a (scan_start ch env1 flags1)
      = some (resend_state ch env3 flags1 sid2 d2) := by
  obtain ⟨f, hf⟩ : ∃ f, a.fuel = f + 1 := ⟨a.fuel - 1, by omega⟩
  have hbody : scan_body E a.sysnow ch.bundle_store_handle (scan_start ch env1 flags1)
      = (resend_state ch env3 flags1 sid2 d2, true) := by
    rw [scan_body_retrieved E a.sysnow ch.bundle_store_handle (scan_start ch env1 flags1)
      sid1 env2 d1 hsid1 hocc1 hret1]
    unfold scan_retrieved
    rw [if_neg hexp]
    have hto2 : ¬ is_timed_out ch
        ((slot_of ch ch.active_table.oldest_cid : Int)).toNat a.sysnow := by
      rw [Int.toNat_natCast]; exact hto
    simp only [scan_start]
    rw [if_neg hto2]
    unfold still_active
    simp only [hsid2]
    rw [if_pos hocc2]
    unfold wrap_response
    simp only [hwrap, incr_oldest, slot_of]
    rw [hret2]
    simp [resend_state, incr_retransmitted, incr_oldest, slot_of, hwrap]
  unfold load_data_bundle
  have hscan : scan_loop E a.sysnow (scan_start ch env1 flags1).ch.bundle_store_handle a.fuel
      (scan_start ch env1 flags1) = some (resend_state ch env3 flags1 sid2 d2) := by
    rw [hf]
    show scan_loop E a.sysnow ch.bundle_store_handle (f + 1) (scan_start ch env1 flags1) = _
    rw [scan_loop_step E a.sysnow ch.bundle_store_handle f _ rfl hlt, hbody]
    rfl
  rw [hscan]
  exact dequeue_loop_data E a.sysnow _ a.timeout a.fuel _ d2 rfl

theorem flag_set_of_or (x f : Nat) : (x ||| f) &&& f = f := by
  apply Nat.eq_of_testBit_eq
  intro i
  rw [Nat.testBit_and, Nat.testBit_or]
  cases x.testBit i <;> cases f.testBit i <;> rfl

theorem flag_set_of_or_or (x f y : Nat) : (x ||| f ||| y) &&& f = f := by
  apply Nat.eq_of_testBit_eq
  intro i
  rw [Nat.testBit_and, Nat.testBit_or, Nat.testBit_or]
  cases x.testBit i <;> cases f.testBit i <;> cases y.testBit i <;> rfl

theorem slot_of_full (ch : bp_channel_t)
    (hfull : ch.active_table.current_cid
      = ch.active_table.oldest_cid + ch.active_table_size.toNat) :
    slot_of ch ch.active_table.current_cid = slot_of ch ch.active_table.oldest_cid := by
  unfold slot_of
  rw [hfull, Nat.add_mod_right]

/-- C20, with an adequate buffer: with the wrap response RESEND, when no DACS
record is ready, the table is full (`current_cid = oldest_cid + N`, every slot
occupied), the bundle of the oldest slot is retrieved and is neither expired
nor timed out, the second retrieve gives a bundle with a CTEB and the caller's
buffer is adequate, `bplib_load` returns `BP_SUCCESS`, sets
`BP_FLAG_ACTIVETABLEWRAP`, increments `retransmitted`, returns the retrieved
bundle stamped with the pre-call `current_cid`, increments `oldest_cid` and
`current_cid`, keeps the storage id in the slot, and calls the storage service
only for the two retrieves and the write of the stamped bundle (nothing is
dequeued). -/
theorem C20_resend_full_table {σ : Type} (E : bp_env_t σ) (ch : bp_channel_t) (env : σ)
    (a : bp_load_args_t) (env1 : σ) (flags1 : Nat) (sid : Nat) (env2 env3 : σ)
    (d1 d2 : bp_bundle_data_t)
    (hN : 0 < ch.active_table_size)
    (hwrap : ch.wrap_response = bp_wrap_t.BP_WRAP_RESEND)
    (hd : no_dacs_ready E ch env a env1 flags1)
    (hfull : ch.active_table.current_cid
      = ch.active_table.oldest_cid + ch.active_table_size.toNat)
    (hall : ∀ i, i < ch.active_table_size.toNat → ch.active_table.sid i ≠ BP_SID_VACANT)
    (hsid : ch.active_table.sid (slot_of ch ch.active_table.current_cid) = sid)
    (hret1 : E.retrieve env1 ch.bundle_store_handle sid BP_CHECK = (env2, some d1))
    (hexp : ¬ is_expired d1 a.sysnow)
    (hto : ¬ is_timed_out ch (slot_of ch ch.active_table.oldest_cid) a.sysnow)
    (hret2 : E.retrieve env2 ch.bundle_store_handle sid BP_CHECK = (env3, some d2))
    (hcteb : d2.cteboffset ≠ 0)
    (hbuf : adequate_buffer a d2.bundlesize)
    (hfuel : 1 ≤ a.fuel) :
    ∃ r, bplib_load E ch env a = some r ∧
      r.status = bp_status_t.BP_SUCCESS ∧
      r.flags &&& BP_FLAG_ACTIVETABLEWRAP = BP_FLAG_ACTIVETABLEWRAP ∧
      r.ch.stats.retransmitted = incr32 ch.stats.retransmitted ∧
      r.bundle = some (stamp_cid E d2 ch.active_table.current_cid) ∧
      (stamp_cid E d2 ch.active_table.current_cid).cidsdnv.value = ch.active_table.current_cid ∧
      r.ch.active_table.oldest_cid = incr32 ch.active_table.oldest_cid ∧
      r.ch.active_table.current_cid = incr32 ch.active_table.current_cid ∧
      r.ch.active_table.sid (slot_of ch ch.active_table.current_cid) = sid ∧
      r.env = E.written env3 ch.bundle_store_handle sid
        (stamp_cid E d2 ch.active_table.current_cid) := by
  have hNpos : 0 < ch.active_table_size.toNat := by omega
  have hlt : ch.active_table.oldest_cid < ch.active_table.current_cid := by omega
  have hslot := slot_of_full ch hfull
  have hocc : sid ≠ BP_SID_VACANT := by
    rw [← hsid]
    exact hall _ (Nat.mod_lt _ hNpos)
  have hsid1 : ch.active_table.sid (slot_of ch ch.active_table.oldest_cid) = sid := by
    rw [← hslot]; exact hsid
  have hdata := load_data_resend E ch a env1 flags1 sid sid env2 env3 d1 d2 hwrap hlt hsid1 hocc
    hret1 hexp hto hsid hocc hret2 hfuel
  have hload : bplib_load E ch env a = some (update_active
      (load_bundle E a ch.bundle_store_handle (resend_state ch env3 flags1 sid d2))) := by
    rw [load_no_dacs E ch env a env1 flags1 hd]
    unfold scan_start at hdata
    rw [hdata]
  refine ⟨_, hload, ?_⟩
  rw [load_bundle_ok E a ch.bundle_store_handle _ d2 rfl hbuf]
  have hc : ¬ d2.cteboffset = 0 := hcteb
  simp only [resend_state, if_pos hcteb, if_neg hc, assign_custody, update_active,
    incr_transmitted, incr_current, set_retx, set_sid, incr_retransmitted, incr_oldest,
    slot_of, if_true, stamp_cid]
  exact ⟨trivial, flag_set_of_or_or _ _ _, trivial, trivial, trivial, trivial, trivial,
    trivial, trivial⟩

/-- The simple storage service has no DACS record ready when its DACS queue is
empty. -/
theorem no_dacs_ready_ref (ch : bp_channel_t) (st : ref_store_t) (a : bp_load_args_t)
    (hrec : st.records = []) (hh : ch.dacs_store_handle = 1) :
    no_dacs_ready ref_env ch st a st a.loadflags := by
  refine ⟨bp_dequeue_t.timeout, ?_, fun d sid h => by cases h⟩
  simp [check_dacs, ref_env, ref_dequeue, hrec, hh]

/-- C17 at a channel with two slots and timeout 10, whose bundle with custody
id 0 is loaded again at time 10. -/
theorem C17_witness :
    ∃ r, bplib_load ref_env (active_channel 2 10 bp_wrap_t.BP_WRAP_RESEND 0 [1, 0] 0 1)
        ⟨[], [], [(1, custody_bundle 0)]⟩ (load_at 10).2 = some r ∧
      r.status = bp_status_t.BP_SUCCESS ∧
      r.bundle = some (stamp_cid ref_env (custody_bundle 0) 1) ∧
      (stamp_cid ref_env (custody_bundle 0) 1).cidsdnv.value = 1 ∧
      0 < (stamp_cid ref_env (custody_bundle 0) 1).cidsdnv.value ∧
      r.ch.active_table.current_cid = incr32 1 ∧
      (1 + 1 < UINT32_MOD → r.ch.active_table.current_cid = 1 + 1) ∧
      r.ch.active_table.sid = (fun i =>
        if i = 1 then 1 else if i = 0 then BP_SID_VACANT else [1, 0].getD i 0) ∧
      r.ch.stats.retransmitted = incr32 0 :=
  C17_retransmit_new_cid ref_env (active_channel 2 10 bp_wrap_t.BP_WRAP_RESEND 0 [1, 0] 0 1)
    ⟨[], [], [(1, custody_bundle 0)]⟩ (load_at 10).2 ⟨[], [], [(1, custody_bundle 0)]⟩ 0 1
    ⟨[], [], [(1, custody_bundle 0)]⟩ (custody_bundle 0)
    (no_dacs_ready_ref _ _ _ rfl rfl) (by decide) (by decide) (by decide) (by decide)
    (by decide) (by decide) (by decide) (by decide) (by decide) (by decide)

/-- C18 at a channel with two slots, timeout 10 and `cid_reuse = 1`, whose
bundle with custody id 0 is loaded again at time 10. -/
theorem C18_witness :
    ∃ r, bplib_load ref_env (active_channel 2 10 bp_wrap_t.BP_WRAP_RESEND 1 [1, 0] 0 1)
        ⟨[], [], [(1, custody_bundle 0)]⟩ (load_at 10).2 = some r ∧
      r.status = bp_status_t.BP_SUCCESS ∧
      r.bundle = some (custody_bundle 0) ∧
      r.env = ⟨[], [], [(1, custody_bundle 0)]⟩ ∧
      r.ch.active_table.sid = (fun i => [1, 0].getD i 0) ∧
      r.ch.active_table.sid 0 = 1 ∧
      r.ch.active_table.retx 0 = 10 ∧
      r.ch.active_table.current_cid = 1 ∧
      r.ch.stats.retransmitted = incr32 0 :=
  C18_retransmit_same_cid ref_env (active_channel 2 10 bp_wrap_t.BP_WRAP_RESEND 1 [1, 0] 0 1)
    ⟨[], [], [(1, custody_bundle 0)]⟩ (load_at 10).2 ⟨[], [], [(1, custody_bundle 0)]⟩ 0 1
    ⟨[], [], [(1, custody_bundle 0)]⟩ (custody_bundle 0)
    (no_dacs_ready_ref _ _ _ rfl rfl) (by decide) (by decide) (by decide) (by decide)
    (by decide) (by decide) (by decide) (by decide) (by decide) (by decide)

/-- C20 as stated fails: on a full table with one slot and the wrap response
RESEND, a load into a buffer of 10 bytes (the bundle has 20) returns
`BP_BUNDLETOOLARGE` with no bundle; `oldest_cid` has advanced to 1 and
`current_cid` is still 1. -/
theorem C20_resend_small_buffer :
    (last_load ref_env (opened_channel 1 0 bp_wrap_t.BP_WRAP_RESEND 0)
        ⟨[(1, custody_bundle 0)], [], []⟩ [load_at 0] (load_into 10 0)).map
      (fun r => (r.status, r.bundle, r.ch.active_table.oldest_cid,
        r.ch.active_table.current_cid))
    = some (bp_status_t.BP_BUNDLETOOLARGE, none, 1, 1) := by
  decide

/-- C20 at a full table with one slot and a second bundle waiting in the bundle
store, which stays there. -/
theorem C20_witness :
    ∃ r, bplib_load ref_env (active_channel 1 0 bp_wrap_t.BP_WRAP_RESEND 0 [1] 0 1)
        ⟨[(2, custody_bundle 0)], [], [(1, custody_bundle 0)]⟩ (load_at 5).2 = some r ∧
      r.status = bp_status_t.BP_SUCCESS ∧
      r.flags &&& BP_FLAG_ACTIVETABLEWRAP = BP_FLAG_ACTIVETABLEWRAP ∧
      r.ch.stats.retransmitted = incr32 0 ∧
      r.bundle = some (stamp_cid ref_env (custody_bundle 0) 1) ∧
      (stamp_cid ref_env (custody_bundle 0) 1).cidsdnv.value = 1 ∧
      r.ch.active_table.oldest_cid = incr32 0 ∧
      r.ch.active_table.current_cid = incr32 1 ∧
      r.ch.active_table.sid (slot_of (active_channel 1 0 bp_wrap_t.BP_WRAP_RESEND 0 [1] 0 1) 1)
        = 1 ∧
      r.env = ref_written ⟨[(2, custody_bundle 0)], [], [(1, custody_bundle 0)]⟩ 2 1
        (stamp_cid ref_env (custody_bundle 0) 1) :=
  C20_resend_full_table ref_env (active_channel 1 0 bp_wrap_t.BP_WRAP_RESEND 0 [1] 0 1)
    ⟨[(2, custody_bundle 0)], [], [(1, custody_bundle 0)]⟩ (load_at 5).2
    ⟨[(2, custody_bundle 0)], [], [(1, custody_bundle 0)]⟩ 0 1
    ⟨[(2, custody_bundle 0)], [], [(1, custody_bundle 0)]⟩
    ⟨[(2, custody_bundle 0)], [], [(1, custody_bundle 0)]⟩
    (custody_bundle 0) (custody_bundle 0)
    (by decide) (by decide) (no_dacs_ready_ref _ _ _ rfl rfl) (by decide) (by decide)
    (by decide) (by decide) (by decide) (by decide) (by decide) (by decide) (by decide)
    (by decide)

/-- The call in which the poll of the DACS store gives a record. -/
theorem load_dacs_ready {σ : Type} (E : bp_env_t σ) (ch : bp_channel_t) (env : σ)
    (a : bp_load_args_t) (env1 : σ) (flags1 : Nat) (d : bp_bundle_data_t) (sid : Nat)
    (hdq : check_dacs E ch env a = ((env1, flags1), bp_dequeue_t.ok d sid)) :
    bplib_load E ch env a = some (update_active (load_bundle E a ch.dacs_store_handle
      { ch := ch, env := env1, data := some d, sid := sid, ati := -1, newcid := true,
        status := bp_status_t.BP_SUCCESS, flags := flags1 ||| BP_FLAG_ROUTENEEDED })) := by
  unfold bplib_load
  rw [hdq]

/-- C15, for records without CTEB: whenever the poll of the DACS store gives
a record that has no CTEB (`cteboffset = 0`) and the caller's buffer is
adequate, `bplib_load` returns `BP_SUCCESS` with that record and its size,
sets `BP_FLAG_ROUTENEEDED`, relinquishes the record in the DACS store and calls
the storage service no further (nothing is dequeued from the bundle store),
and leaves `oldest_cid`, `current_cid` and every slot of the active table as
they were. -/
theorem C15_dacs_record_first {σ : Type} (E : bp_env_t σ) (ch : bp_channel_t) (env : σ)
    (a : bp_load_args_t) (env1 : σ) (flags1 : Nat) (d : bp_bundle_data_t) (sid : Nat)
    (hdq : check_dacs E ch env a = ((env1, flags1), bp_dequeue_t.ok d sid))
    (hcteb : d.cteboffset = 0)
    (hbuf : adequate_buffer a d.bundlesize) :
    ∃ r, bplib_load E ch env a = some r ∧
      r.status = bp_status_t.BP_SUCCESS ∧
      r.bundle = some d ∧
      r.size = d.bundlesize ∧
      r.flags &&& BP_FLAG_ROUTENEEDED = BP_FLAG_ROUTENEEDED ∧
      r.env = E.relinquish env1 ch.dacs_store_handle sid ∧
      r.ch.active_table.oldest_cid = ch.active_table.oldest_cid ∧
      r.ch.active_table.current_cid = ch.active_table.current_cid ∧
      r.ch.active_table.sid = ch.active_table.sid := by
  refine ⟨_, load_dacs_ready E ch env a env1 flags1 d sid hdq, ?_⟩
  rw [load_bundle_ok E a ch.dacs_store_handle _ d rfl hbuf]
  have hc : ¬ d.cteboffset ≠ 0 := by simp [hcteb]
  simp only [if_neg hc, if_pos hcteb, update_active, incr_transmitted]
  exact ⟨trivial, trivial, trivial, flag_set_of_or _ _, trivial, trivial, trivial, trivial⟩

/-- C15 as stated fails: when the DACS store gives a record that has a CTEB
(`cteboffset = 8`), the load on an opened channel returns `BP_SUCCESS` with the
flag `BP_FLAG_ROUTENEEDED` (64), but slot 0, vacant before, now holds the
storage id 7 of the record and `current_cid` is 1. -/
theorem C15_dacs_record_takes_slot :
    (bplib_load ref_env (opened_channel 2 10 bp_wrap_t.BP_WRAP_RESEND 0)
        ⟨[], [(7, custody_bundle 0)], []⟩ (load_at 0).2).map
      (fun r => (r.status, r.flags, r.ch.active_table.sid 0, r.ch.active_table.current_cid))
    = some (bp_status_t.BP_SUCCESS, 64, 7, 1) ∧
    (opened_channel 2 10 bp_wrap_t.BP_WRAP_RESEND 0).active_table.sid 0 = BP_SID_VACANT := by
  decide

/-- C15 at a channel with one outstanding bundle, a bundle in the bundle store
and a record without CTEB in the DACS store. -/
theorem C15_witness :
    ∃ r, bplib_load ref_env (active_channel 2 10 bp_wrap_t.BP_WRAP_RESEND 0 [1, 0] 0 1)
        ⟨[(2, custody_bundle 0)], [(7, { custody_bundle 0 with cteboffset := 0 })],
          [(1, custody_bundle 0)]⟩ (load_at 3).2 = some r ∧
      r.status = bp_status_t.BP_SUCCESS ∧
      r.bundle = some { custody_bundle 0 with cteboffset := 0 } ∧
      r.size = 20 ∧
      r.flags &&& BP_FLAG_ROUTENEEDED = BP_FLAG_ROUTENEEDED ∧
      r.env = ref_relinquish ⟨[(2, custody_bundle 0)], [],
          [(7, { custody_bundle 0 with cteboffset := 0 }), (1, custody_bundle 0)]⟩ 1 7 ∧
      r.ch.active_table.oldest_cid = 0 ∧
      r.ch.active_table.current_cid = 1 ∧
      r.ch.active_table.sid = (fun i => [1, 0].getD i 0) :=
  C15_dacs_record_first ref_env (active_channel 2 10 bp_wrap_t.BP_WRAP_RESEND 0 [1, 0] 0 1)
    ⟨[(2, custody_bundle 0)], [(7, { custody_bundle 0 with cteboffset := 0 })],
      [(1, custody_bundle 0)]⟩ (load_at 3).2
    ⟨[(2, custody_bundle 0)], [],
      [(7, { custody_bundle 0 with cteboffset := 0 }), (1, custody_bundle 0)]⟩ 0
    { custody_bundle 0 with cteboffset := 0 } 7 (by decide) (by decide) (by decide)

theorem update_active_active {σ : Type} (x : bp_load_result_t σ) :
    (update_active x).ch.stats.active
      = sub32 (update_active x).ch.active_table.current_cid
          (update_active x).ch.active_table.oldest_cid := rfl

/-- Every result of `bplib_load` is a result of `update_active`. -/
theorem load_is_update_active {σ : Type} (E : bp_env_t σ) (ch : bp_channel_t) (env : σ)
    (a : bp_load_args_t) (r : bp_load_result_t σ) (h : bplib_load E ch env a = some r) :
    ∃ x, r = update_active x := by
  unfold bplib_load at h
  dsimp only at h
  split at h
  · exact ⟨_, (Option.some.inj h).symm⟩
  · split at h
    · simp at h
    · exact ⟨_, (Option.some.inj h).symm⟩

/-- The `uint32_t` difference is the difference of the numbers when nothing
wraps. -/
theorem sub32_of_le (a b : Nat) (hab : b ≤ a) (ha : a < UINT32_MOD) : sub32 a b = a - b := by
  unfold sub32
  have hb : b % UINT32_MOD = b := Nat.mod_eq_of_lt (lt_of_le_of_lt hab ha)
  rw [hb]
  have : a + UINT32_MOD - b = (a - b) + UINT32_MOD := by omega
  rw [this, Nat.add_mod_right]
  exact Nat.mod_eq_of_lt (by omega)

/-- C13: after every call of `bplib_load` that passes its parameter checks
and returns, whatever its status, `stats.active` is the `uint32_t` difference
`current_cid - oldest_cid`; it is the difference of the two numbers when
`oldest_cid <= current_cid`. -/
theorem C13_active_is_difference {σ : Type} (E : bp_env_t σ) (ch : bp_channel_t) (env : σ)
    (a : bp_load_args_t) (r : bp_load_result_t σ) (h : bplib_load E ch env a = some r) :
    r.ch.stats.active = sub32 r.ch.active_table.current_cid r.ch.active_table.oldest_cid ∧
    (r.ch.active_table.oldest_cid ≤ r.ch.active_table.current_cid →
      r.ch.active_table.current_cid < UINT32_MOD →
      r.ch.stats.active = r.ch.active_table.current_cid - r.ch.active_table.oldest_cid) := by
  obtain ⟨x, rfl⟩ := load_is_update_active E ch env a r h
  refine ⟨update_active_active x, ?_⟩
  intro h1 h2
  rw [update_active_active x]
  exact sub32_of_le _ _ h1 h2

/-- C12, evaluated at its failing input: on an opened channel with one slot
and the wrap response BLOCK, two calls of `bplib_load` with two custody
bundles in the store both return `BP_SUCCESS` and leave `oldest_cid = 0`,
`current_cid = 2`: two custody ids are outstanding in a table of size 1. -/
theorem C12_block_overruns_table :
    (run_loads ref_env (opened_channel 1 10 bp_wrap_t.BP_WRAP_BLOCK 0)
        ⟨[(1, custody_bundle 0), (2, custody_bundle 0)], [], []⟩ [load_at 0, load_at 0]).map
      (fun r => (r.1, r.2.1.active_table.oldest_cid, r.2.1.active_table.current_cid,
        r.2.1.active_table_size))
    = some ([bp_status_t.BP_SUCCESS, bp_status_t.BP_SUCCESS], 0, 2, 1) := by
  decide

/-- C13 at a call that dequeues a second custody bundle on a channel with one
outstanding bundle. -/
theorem C13_witness :
    ∃ r, bplib_load ref_env (active_channel 2 10 bp_wrap_t.BP_WRAP_RESEND 0 [1, 0] 0 1)
        ⟨[(2, custody_bundle 0)], [], [(1, custody_bundle 0)]⟩ (load_at 3).2 = some r ∧
      r.ch.stats.active = sub32 r.ch.active_table.current_cid r.ch.active_table.oldest_cid ∧
      (r.ch.active_table.oldest_cid ≤ r.ch.active_table.current_cid →
        r.ch.active_table.current_cid < UINT32_MOD →
        r.ch.stats.active = r.ch.active_table.current_cid - r.ch.active_table.oldest_cid) :=
  match h : bplib_load ref_env (active_channel 2 10 bp_wrap_t.BP_WRAP_RESEND 0 [1, 0] 0 1)
      ⟨[(2, custody_bundle 0)], [], [(1, custody_bundle 0)]⟩ (load_at 3).2 with
  | some r => ⟨r, rfl, C13_active_is_difference ref_env _ _ _ r h⟩
  | none => absurd (show (bplib_load ref_env
        (active_channel 2 10 bp_wrap_t.BP_WRAP_RESEND 0 [1, 0] 0 1)
        ⟨[(2, custody_bundle 0)], [], [(1, custody_bundle 0)]⟩ (load_at 3).2).isSome = true
      by decide) (by rw [h]; decide)

/-- C16, evaluated at its failing input: with two slots, retransmit timeout 10,
wrap response RESEND and `cid_reuse = 1`, the bundles 1 (never expires),
2 (expires at 15) and 3 are loaded at the times 0, 0, 10, 10 and 12; the load
at time 16 finds slot 1 occupied, resends bundle 2 and returns `BP_SUCCESS`
with it although it is expired, and `stats.expired` stays 0. -/
theorem C16_resend_emits_expired_bundle :
    (last_load ref_env (opened_channel 2 10 bp_wrap_t.BP_WRAP_RESEND 1)
        ⟨[(1, custody_bundle 0), (2, custody_bundle 15), (3, custody_bundle 0)], [], []⟩
        [load_at 0, load_at 0, load_at 10, load_at 10, load_at 12] (load_at 16)).map
      (fun r => (r.status, r.bundle.map (fun b => b.exprtime), r.ch.stats.expired))
    = some (bp_status_t.BP_SUCCESS, some 15, 0) ∧
    is_expired (custody_bundle 15) (load_at 16).2.sysnow := by
  decide

/-- C19, evaluated at its failing input: on a channel with one slot and the
wrap response BLOCK, after one load (slot 0 holds storage id 1, custody id 0 is
outstanding and not timed out), a second load with another bundle in the store
returns `BP_SUCCESS`, not the overflow status, emits that bundle with custody
id 1, sets `current_cid = 2` and overwrites slot 0 with storage id 2. -/
theorem C19_block_emits_bundle :
    (last_load ref_env (opened_channel 1 10 bp_wrap_t.BP_WRAP_BLOCK 0)
        ⟨[(1, custody_bundle 0), (2, custody_bundle 0)], [], []⟩ [load_at 0] (load_at 0)).map
      (fun r => (r.status, r.bundle.map (fun b => b.cidsdnv.value),
        r.ch.active_table.current_cid, r.ch.active_table.sid 0))
    = some (bp_status_t.BP_SUCCESS, some 1, 2, 2) ∧
    (last_load ref_env (opened_channel 1 10 bp_wrap_t.BP_WRAP_BLOCK 0)
        ⟨[(1, custody_bundle 0), (2, custody_bundle 0)], [], []⟩ [] (load_at 0)).map
      (fun r => (r.status, r.ch.active_table.oldest_cid, r.ch.active_table.current_cid,
        r.ch.active_table.sid 0))
    = some (bp_status_t.BP_SUCCESS, 0, 1, 1) := by
  decide

/-- C14 as stated fails: with `cid_reuse = 1`, two slots and a retransmit
timeout of 10, a load at time 0 and a load at time 10 (the retransmission of
the bundle with custody id 0) leave slot 0 occupied by storage id 1 while
`oldest_cid = current_cid = 1`: no custody id `c` has
`oldest_cid <= c < current_cid`. -/
theorem C14_reuse_keeps_slot_below_oldest :
    (run_loads ref_env (opened_channel 2 10 bp_wrap_t.BP_WRAP_RESEND 1)
        ⟨[(1, custody_bundle 0)], [], []⟩ [load_at 0, load_at 10]).map
      (fun r => (r.1, r.2.1.active_table.sid 0, r.2.1.active_table.oldest_cid,
        r.2.1.active_table.current_cid))
    = some ([bp_status_t.BP_SUCCESS, bp_status_t.BP_SUCCESS], 1, 1, 1) := by
  decide

/-- What a loop of `bplib_load` that ends leaves: `Post` holds at the exit,
when `Inv` holds at the start, the body keeps `Inv` or leaves by `break` with
`Post`, and `Inv` with a false loop condition gives `Post`. -/
theorem scan_loop_post {σ : Type} (E : bp_env_t σ) (sysnow : Nat) (store_handle : Int)
    (Inv Post : bp_load_state_t σ → Prop)
    (hbody : ∀ s, Inv s → s.data = none →
      s.ch.active_table.oldest_cid < s.ch.active_table.current_cid →
      (((scan_body E sysnow store_handle s).2 = true →
          Post (scan_body E sysnow store_handle s).1) ∧
        ((scan_body E sysnow store_handle s).2 = false →
          Inv (scan_body E sysnow store_handle s).1)))
    (hexit : ∀ s, Inv s →
      ¬ (s.data = none ∧ s.ch.active_table.oldest_cid < s.ch.active_table.current_cid) →
      Post s) :
    ∀ (fuel : Nat) (s s' : bp_load_state_t σ), Inv s →
      scan_loop E sysnow store_handle fuel s = some s' → Post s' := by
  intro fuel
  induction fuel with
  | zero =>
    intro s s' hi h
    unfold scan_loop at h
    split at h
    · simp at h
    · rename_i hc
      cases Option.some.inj h
      exact hexit s hi hc
  | succ f ih =>
    intro s s' hi h
    unfold scan_loop at h
    split at h
    · rename_i hc
      have hb := hbody s hi hc.1 hc.2
      dsimp only at h
      split at h
      · rename_i hbr
        cases Option.some.inj h
        exact hb.1 hbr
      · rename_i hbr
        exact ih _ _ (hb.2 (by simpa using hbr)) h
    · rename_i hc
      cases Option.some.inj h
      exact hexit s hi hc

/-- The counters after the wrap response: `current_cid` is kept and
`oldest_cid` is kept or incremented. -/
theorem wrap_response_counters {σ : Type} (E : bp_env_t σ) (store_handle : Int)
    (s : bp_load_state_t σ) :
    (wrap_response E store_handle s).ch.active_table.current_cid
        = s.ch.active_table.current_cid ∧
    ((wrap_response E store_handle s).ch.active_table.oldest_cid
        = s.ch.active_table.oldest_cid ∨
      (wrap_response E store_handle s).ch.active_table.oldest_cid
        = incr32 s.ch.active_table.oldest_cid) := by
  unfold wrap_response
  dsimp only
  split
  · split
    · exact ⟨rfl, Or.inr rfl⟩
    · exact ⟨rfl, Or.inr rfl⟩
  · exact ⟨rfl, Or.inl rfl⟩
  · exact ⟨rfl, Or.inr rfl⟩

/-- The counters after one pass of the scan. -/
theorem scan_body_counters {σ : Type} (E : bp_env_t σ) (sysnow : Nat) (store_handle : Int)
    (s : bp_load_state_t σ) :
    (scan_body E sysnow store_handle s).1.ch.active_table.current_cid
        = s.ch.active_table.current_cid ∧
    ((scan_body E sysnow store_handle s).1.ch.active_table.oldest_cid
        = s.ch.active_table.oldest_cid ∨
      (scan_body E sysnow store_handle s).1.ch.active_table.oldest_cid
        = incr32 s.ch.active_table.oldest_cid) := by
  unfold scan_body
  dsimp only
  split
  · exact ⟨rfl, Or.inr rfl⟩
  · split
    · unfold scan_retrieved
      split
      · exact ⟨rfl, Or.inr rfl⟩
      · split
        · split
          · exact ⟨rfl, Or.inr rfl⟩
          · exact ⟨rfl, Or.inr rfl⟩
        · unfold still_active
          dsimp only
          split
          · exact wrap_response_counters E store_handle _
          · exact ⟨rfl, Or.inl rfl⟩
    · exact ⟨rfl, Or.inl rfl⟩

theorem incr32_of_lt (x y : Nat) (hxy : x < y) (hy : y < UINT32_MOD) : incr32 x = x + 1 := by
  unfold incr32
  exact Nat.mod_eq_of_lt (by omega)

/-- The scan of the active table keeps `current_cid` and keeps `oldest_cid`
at or below it, as long as `current_cid` is a `uint32_t`. -/
theorem scan_loop_counters {σ : Type} (E : bp_env_t σ) (sysnow : Nat) (store_handle : Int)
    (fuel : Nat) (s s' : bp_load_state_t σ)
    (hle : s.ch.active_table.oldest_cid ≤ s.ch.active_table.current_cid)
    (hc : s.ch.active_table.current_cid < UINT32_MOD)
    (h : scan_loop E sysnow store_handle fuel s = some s') :
    s'.ch.active_table.oldest_cid ≤ s'.ch.active_table.current_cid ∧
    s'.ch.active_table.current_cid = s.ch.active_table.current_cid := by
  have key : ∀ t : bp_load_state_t σ,
      (t.ch.active_table.oldest_cid ≤ t.ch.active_table.current_cid ∧
        t.ch.active_table.current_cid = s.ch.active_table.current_cid) →
      t.data = none → t.ch.active_table.oldest_cid < t.ch.active_table.current_cid →
      ((scan_body E sysnow store_handle t).1.ch.active_table.oldest_cid
          ≤ (scan_body E sysnow store_handle t).1.ch.active_table.current_cid ∧
        (scan_body E sysnow store_handle t).1.ch.active_table.current_cid
          = s.ch.active_table.current_cid) := by
    intro t hi _ hlt
    obtain ⟨h1, h2⟩ := scan_body_counters E sysnow store_handle t
    rw [h1]
    refine ⟨?_, hi.2⟩
    rcases h2 with h2 | h2
    · rw [h2]; exact hi.1
    · rw [h2, incr32_of_lt _ _ hlt (by rw [hi.2]; exact hc)]
      exact hlt
  exact scan_loop_post E sysnow store_handle
    (fun t => t.ch.active_table.oldest_cid ≤ t.ch.active_table.current_cid ∧
      t.ch.active_table.current_cid = s.ch.active_table.current_cid)
    (fun t => t.ch.active_table.oldest_cid ≤ t.ch.active_table.current_cid ∧
      t.ch.active_table.current_cid = s.ch.active_table.current_cid)
    (fun t hi hd hlt => ⟨fun _ => key t hi hd hlt, fun _ => key t hi hd hlt⟩)
    (fun t hi _ => hi) fuel s s' ⟨hle, rfl⟩ h

/-- The loop that dequeues from the bundle store leaves the active table and
the configuration of the channel as they are. -/
theorem dequeue_loop_table {σ : Type} (E : bp_env_t σ) (sysnow : Nat) (store_handle : Int)
    (timeout : Int) :
    ∀ (fuel : Nat) (s s' : bp_load_state_t σ),
      dequeue_loop E sysnow store_handle timeout fuel s = some s' →
      s'.ch.active_table = s.ch.active_table ∧
      s'.ch.active_table_size = s.ch.active_table_size ∧
      s'.newcid = s.newcid := by
  have hbody : ∀ s : bp_load_state_t σ,
      (dequeue_body E sysnow store_handle timeout s).1.ch.active_table = s.ch.active_table ∧
      (dequeue_body E sysnow store_handle timeout s).1.ch.active_table_size
        = s.ch.active_table_size ∧
      (dequeue_body E sysnow store_handle timeout s).1.newcid = s.newcid := by
    intro s
    unfold dequeue_body
    split
    · split
      · exact ⟨rfl, rfl, rfl⟩
      · exact ⟨rfl, rfl, rfl⟩
    · exact ⟨rfl, rfl, rfl⟩
    · exact ⟨rfl, rfl, rfl⟩
  intro fuel
  induction fuel with
  | zero =>
    intro s s' h
    unfold dequeue_loop at h
    split at h
    · simp at h
    · cases Option.some.inj h
      exact ⟨rfl, rfl, rfl⟩
  | succ f ih =>
    intro s s' h
    unfold dequeue_loop at h
    split at h
    · dsimp only at h
      split at h
      · cases Option.some.inj h
        exact hbody s
      · obtain ⟨h1, h2, h3⟩ := ih _ _ h
        obtain ⟨b1, b2, b3⟩ := hbody s
        exact ⟨h1.trans b1, h2.trans b2, h3.trans b3⟩
    · cases Option.some.inj h
      exact ⟨rfl, rfl, rfl⟩

/-- The load section keeps `oldest_cid` and keeps or increments
`current_cid`. -/
theorem load_bundle_counters {σ : Type} (E : bp_env_t σ) (a : bp_load_args_t)
    (store_handle : Int) (s : bp_load_state_t σ) :
    (load_bundle E a store_handle s).ch.active_table.oldest_cid
        = s.ch.active_table.oldest_cid ∧
    ((load_bundle E a store_handle s).ch.active_table.current_cid
        = s.ch.active_table.current_cid ∨
      (load_bundle E a store_handle s).ch.active_table.current_cid
        = incr32 s.ch.active_table.current_cid) := by
  unfold load_bundle
  split
  · exact ⟨rfl, Or.inl rfl⟩
  · split
    · split
      · dsimp only
        split
        · unfold assign_custody
          split
          · exact ⟨rfl, Or.inr rfl⟩
          · exact ⟨rfl, Or.inl rfl⟩
        · exact ⟨rfl, Or.inl rfl⟩
      · exact ⟨rfl, Or.inl rfl⟩
    · exact ⟨rfl, Or.inl rfl⟩

/-- One call of `bplib_load` keeps `oldest_cid` at or below `current_cid`, as
long as `current_cid` can be incremented without wrapping. -/
theorem load_counters {σ : Type} (E : bp_env_t σ) (ch : bp_channel_t) (env : σ)
    (a : bp_load_args_t) (r : bp_load_result_t σ)
    (hle : ch.active_table.oldest_cid ≤ ch.active_table.current_cid)
    (hc : ch.active_table.current_cid + 1 < UINT32_MOD)
    (h : bplib_load E ch env a = some r) :
    r.ch.active_table.oldest_cid ≤ r.ch.active_table.current_cid ∧
    r.ch.active_table.current_cid ≤ ch.active_table.current_cid + 1 := by
  have hfin : ∀ (hdl : Int) (s : bp_load_state_t σ),
      s.ch.active_table.oldest_cid ≤ s.ch.active_table.current_cid →
      s.ch.active_table.current_cid = ch.active_table.current_cid →
      (update_active (load_bundle E a hdl s)).ch.active_table.oldest_cid
        ≤ (update_active (load_bundle E a hdl s)).ch.active_table.current_cid ∧
      (update_active (load_bundle E a hdl s)).ch.active_table.current_cid
        ≤ ch.active_table.current_cid + 1 := by
    intro hdl s h1 h2
    obtain ⟨l1, l2⟩ := load_bundle_counters E a hdl s
    show (load_bundle E a hdl s).ch.active_table.oldest_cid
        ≤ (load_bundle E a hdl s).ch.active_table.current_cid ∧
      (load_bundle E a hdl s).ch.active_table.current_cid ≤ ch.active_table.current_cid + 1
    rw [l1]
    rcases l2 with l2 | l2
    · rw [l2]; omega
    · have : incr32 s.ch.active_table.current_cid = s.ch.active_table.current_cid + 1 :=
        Nat.mod_eq_of_lt (by omega)
      rw [l2, this]; omega
  unfold bplib_load at h
  dsimp only at h
  split at h
  · cases Option.some.inj h
    exact hfin _ _ hle rfl
  · unfold load_data_bundle at h
    dsimp only at h
    split at h
    · simp at h
    · rename_i s2 hs2
      split at hs2
      · simp at hs2
      · rename_i s1 hs1
        cases Option.some.inj h
        obtain ⟨c1, c2⟩ := scan_loop_counters E a.sysnow _ a.fuel _ s1 hle (by
          show ch.active_table.current_cid < UINT32_MOD
          omega) hs1
        obtain ⟨d1, _, _⟩ := dequeue_loop_table E a.sysnow _ a.timeout a.fuel s1 s2 hs2
        exact hfin _ s2 (by rw [d1]; exact c1) (by rw [d1]; exact c2)

/-- Every sequence of calls keeps `oldest_cid` at or below `current_cid`, as
long as `current_cid` cannot wrap. -/
theorem run_loads_counters {σ : Type} (E : bp_env_t σ) :
    ∀ (cs : List ((σ → σ) × bp_load_args_t)) (ch : bp_channel_t) (env : σ)
      (r : List bp_status_t × bp_channel_t × σ),
      ch.active_table.oldest_cid ≤ ch.active_table.current_cid →
      ch.active_table.current_cid + cs.length < UINT32_MOD →
      run_loads E ch env cs = some r →
      r.2.1.active_table.oldest_cid ≤ r.2.1.active_table.current_cid ∧
      r.2.1.active_table.current_cid ≤ ch.active_table.current_cid + cs.length := by
  intro cs
  induction cs with
  | nil =>
    intro ch env r hle _ h
    unfold run_loads at h
    cases Option.some.inj h
    exact ⟨hle, Nat.le_refl _⟩
  | cons c cs ih =>
    intro ch env r hle hlen h
    rw [List.length_cons] at hlen
    unfold run_loads at h
    split at h
    · simp at h
    · rename_i r1 hr1
      split at h
      · simp at h
      · rename_i rs hrs
        cases Option.some.inj h
        obtain ⟨k1, k2⟩ := load_counters E ch (c.1 env) c.2 r1 hle (by omega) hr1
        obtain ⟨i1, i2⟩ := ih r1.ch r1.env rs k1 (by omega) hrs
        refine ⟨i1, ?_⟩
        rw [List.length_cons]
        show rs.2.1.active_table.current_cid ≤ _
        omega

/-- C11, for fewer than 2^32 calls: after every sequence of fewer than
4294967296 calls of `bplib_load` on an opened channel, whatever the
configuration, the storage service and the work of the other threads between
the calls, `oldest_cid <= current_cid`. -/
theorem C11_oldest_le_current {σ : Type} (E : bp_env_t σ) (ch : bp_channel_t) (env : σ)
    (cs : List ((σ → σ) × bp_load_args_t)) (r : List bp_status_t × bp_channel_t × σ)
    (hopen : Opened ch)
    (hlen : cs.length < UINT32_MOD)
    (h : run_loads E ch env cs = some r) :
    r.2.1.active_table.oldest_cid ≤ r.2.1.active_table.current_cid := by
  obtain ⟨_, _, ho, hc⟩ := hopen
  exact (run_loads_counters E cs ch env r (by rw [ho, hc]) (by rw [hc]; omega) h).1

/-- C11 at two calls on an opened channel with one slot and the wrap response
BLOCK. -/
theorem C11_witness :
    ∃ r, run_loads ref_env (opened_channel 1 10 bp_wrap_t.BP_WRAP_BLOCK 0)
        ⟨[(1, custody_bundle 0), (2, custody_bundle 0)], [], []⟩ [load_at 0, load_at 0]
        = some r ∧
      r.2.1.active_table.oldest_cid ≤ r.2.1.active_table.current_cid :=
  match h : run_loads ref_env (opened_channel 1 10 bp_wrap_t.BP_WRAP_BLOCK 0)
      ⟨[(1, custody_bundle 0), (2, custody_bundle 0)], [], []⟩ [load_at 0, load_at 0] with
  | some r => ⟨r, rfl, C11_oldest_le_current ref_env
      (opened_channel 1 10 bp_wrap_t.BP_WRAP_BLOCK 0)
      ⟨[(1, custody_bundle 0), (2, custody_bundle 0)], [], []⟩ [load_at 0, load_at 0] r
      ⟨by decide, fun _ => rfl, rfl, rfl⟩ (by decide) h⟩
  | none => absurd (show (run_loads ref_env (opened_channel 1 10 bp_wrap_t.BP_WRAP_BLOCK 0)
        ⟨[(1, custody_bundle 0), (2, custody_bundle 0)], [], []⟩
        [load_at 0, load_at 0]).isSome = true
      by decide) (by rw [h]; decide)

/-- One pass of the dequeue loop. -/
theorem dequeue_loop_step {σ : Type} (E : bp_env_t σ) (sysnow : Nat) (store_handle : Int)
    (timeout : Int) (fuel : Nat) (s : bp_load_state_t σ) (hdata : s.data = none) :
    dequeue_loop E sysnow store_handle timeout (fuel + 1) s =
      if (dequeue_body E sysnow store_handle timeout s).2
      then some (dequeue_body E sysnow store_handle timeout s).1
      else dequeue_loop E sysnow store_handle timeout fuel
        (dequeue_body E sysnow store_handle timeout s).1 := by
  rw [dequeue_loop, if_pos hdata]

theorem load_data_bundle_eq {σ : Type} (E : bp_env_t σ) (a : bp_load_args_t)
    (s s1 s2 : bp_load_state_t σ)
    (h1 : scan_loop E a.sysnow s.ch.bundle_store_handle a.fuel s = some s1)
    (h2 : dequeue_loop E a.sysnow s.ch.bundle_store_handle a.timeout a.fuel s1 = some s2) :
    load_data_bundle E a s = some s2 := by
  unfold load_data_bundle
  rw [h1]
  exact h2

/-- One call of the endless run, from the second call on: the occupant of
slot 0 is dropped and the next bundle takes the slot. -/
theorem endless_step (ch : bp_channel_t) (k : Nat) (hQ : endless_state ch k)
    (hk : k + 1 < UINT32_MOD) :
    ∃ r, bplib_load endless_env ch () endless_load.2 = some r ∧ endless_state r.ch (k + 1) := by
  obtain ⟨hN, hdh, hbh, hto, hwrap, hsid, hold, hcur⟩ := hQ
  have hcur2 : ch.active_table.current_cid = k + 1 := by
    rw [hcur]; exact Nat.mod_eq_of_lt hk
  have hslot : ∀ c, slot_of ch c = 0 := by
    intro c
    unfold slot_of
    rw [hN]
    exact Nat.mod_one c
  have hnd : no_dacs_ready endless_env ch () endless_load.2 () 0 := by
    refine ⟨bp_dequeue_t.timeout, ?_, fun d sid h => by cases h⟩
    simp [check_dacs, endless_env, hdh, endless_load, load_at]
  rw [load_no_dacs endless_env ch () endless_load.2 () 0 hnd]
  have hlt : ch.active_table.oldest_cid < ch.active_table.current_cid := by omega
  have hnto : ¬ is_timed_out ch 0 0 := by
    unfold is_timed_out
    simp [hto]
  have hbody : scan_body endless_env 0 ch.bundle_store_handle
      (scan_start ch () 0) =
      ({ ch := incr_lost (set_sid (incr_oldest ch) 0 BP_SID_VACANT), env := (), data := none,
         sid := 1, ati := 0, newcid := true, status := bp_status_t.BP_SUCCESS,
         flags := 0 ||| BP_FLAG_ACTIVETABLEWRAP }, true) := by
    rw [scan_body_retrieved endless_env 0 ch.bundle_store_handle (scan_start ch () 0) 1 ()
      (custody_bundle 0) (by show ch.active_table.sid (slot_of ch _) = 1; rw [hslot]; exact hsid)
      (by decide) rfl]
    unfold scan_retrieved
    rw [if_neg (by decide)]
    simp only [scan_start, hslot]
    rw [if_neg (by simpa using hnto)]
    unfold still_active
    simp only [hslot, hsid]
    rw [if_pos (by decide)]
    unfold wrap_response
    simp [hwrap, endless_env, incr_lost, set_sid, incr_oldest]
  have hdeq : dequeue_body endless_env 0 ch.bundle_store_handle 0
      { ch := incr_lost (set_sid (incr_oldest ch) 0 BP_SID_VACANT), env := (), data := none,
        sid := 1, ati := 0, newcid := true, status := bp_status_t.BP_SUCCESS,
        flags := 0 ||| BP_FLAG_ACTIVETABLEWRAP } =
      ({ ch := incr_lost (set_sid (incr_oldest ch) 0 BP_SID_VACANT), env := (),
         data := some (custody_bundle 0), sid := 1, ati := 0, newcid := true,
         status := bp_status_t.BP_SUCCESS, flags := 0 ||| BP_FLAG_ACTIVETABLEWRAP }, false) := by
    unfold dequeue_body
    simp [endless_env, hbh, is_expired, custody_bundle]
  have hdata : load_data_bundle endless_env endless_load.2 (scan_start ch () 0) =
      some { ch := incr_lost (set_sid (incr_oldest ch) 0 BP_SID_VACANT), env := (),
             data := some (custody_bundle 0), sid := 1, ati := 0, newcid := true,
             status := bp_status_t.BP_SUCCESS, flags := 0 ||| BP_FLAG_ACTIVETABLEWRAP } := by
    refine load_data_bundle_eq endless_env endless_load.2 _
      { ch := incr_lost (set_sid (incr_oldest ch) 0 BP_SID_VACANT), env := (), data := none,
        sid := 1, ati := 0, newcid := true, status := bp_status_t.BP_SUCCESS,
        flags := 0 ||| BP_FLAG_ACTIVETABLEWRAP } _ ?_ ?_
    · show scan_loop endless_env 0 ch.bundle_store_handle (7 + 1) (scan_start ch () 0) = _
      rw [scan_loop_step endless_env 0 ch.bundle_store_handle 7 _ rfl hlt, hbody]
      rfl
    · show dequeue_loop endless_env 0 ch.bundle_store_handle 0 (7 + 1) _ = _
      rw [dequeue_loop_step endless_env 0 ch.bundle_store_handle 0 7 _ rfl, hdeq]
      simp only [Bool.false_eq_true, if_false]
      exact dequeue_loop_data endless_env 0 _ 0 7 _ (custody_bundle 0) rfl
  unfold scan_start at hdata
  rw [hdata]
  refine ⟨_, rfl, ?_⟩
  rw [load_bundle_ok endless_env endless_load.2 ch.bundle_store_handle _ (custody_bundle 0) rfl
    (by decide)]
  have hc : (custody_bundle 0).cteboffset ≠ 0 := by decide
  simp only [if_pos hc, assign_custody, update_active, incr_transmitted, incr_current, set_retx,
    set_sid, incr_lost, incr_oldest, slot_of, if_true, endless_state]
  refine ⟨hN, hdh, hbh, hto, hwrap, ?_, ?_, ?_⟩
  · rw [if_pos]
    rw [hN]
    exact (Nat.mod_one _).symm
  · rw [hold]; exact Nat.mod_eq_of_lt (by omega)
  · rw [hcur]
    unfold incr32 UINT32_MOD
    omega

/-- A sequence of calls is its first call and the rest. -/
theorem run_loads_cons {σ : Type} (E : bp_env_t σ) (ch : bp_channel_t) (env : σ)
    (c : (σ → σ) × bp_load_args_t) (cs : List ((σ → σ) × bp_load_args_t))
    (r1 : bp_load_result_t σ) (rs : List bp_status_t × bp_channel_t × σ)
    (h1 : bplib_load E ch (c.1 env) c.2 = some r1)
    (h2 : run_loads E r1.ch r1.env cs = some rs) :
    run_loads E ch env (c :: cs) = some (r1.status :: rs.1, rs.2) := by
  unfold run_loads
  rw [h1]
  dsimp only
  rw [h2]

/-- The endless run from its second call on, as long as `oldest_cid` does not
wrap. -/
theorem endless_run (n : Nat) :
    ∀ (ch : bp_channel_t) (k : Nat), endless_state ch k → k + n < UINT32_MOD →
      ∃ r, run_loads endless_env ch () (List.replicate n endless_load) = some r ∧
        endless_state r.2.1 (k + n) := by
  induction n with
  | zero =>
    intro ch k hQ _
    exact ⟨([], ch, ()), rfl, hQ⟩
  | succ n ih =>
    intro ch k hQ hk
    obtain ⟨r1, hr1, hQ1⟩ := endless_step ch k hQ (by omega)
    obtain ⟨rs, hrs, hQs⟩ := ih r1.ch (k + 1) hQ1 (by omega)
    refine ⟨(r1.status :: rs.1, rs.2), ?_, ?_⟩
    · rw [List.replicate_succ]
      exact run_loads_cons endless_env ch () endless_load _ r1 rs hr1 hrs
    · have : k + (n + 1) = k + 1 + n := by omega
      rw [this]
      exact hQs

/-- The first call of the endless run, on the opened channel. -/
theorem endless_first :
    ∃ r, bplib_load endless_env (opened_channel 1 0 bp_wrap_t.BP_WRAP_DROP 0) ()
        endless_load.2 = some r ∧ endless_state r.ch 0 :=
  match h : bplib_load endless_env (opened_channel 1 0 bp_wrap_t.BP_WRAP_DROP 0) ()
      endless_load.2 with
  | some r => ⟨r, rfl, by
      have h1 : (bplib_load endless_env (opened_channel 1 0 bp_wrap_t.BP_WRAP_DROP 0) ()
          endless_load.2).map (fun r => (r.ch.active_table_size, r.ch.dacs_store_handle,
            r.ch.bundle_store_handle, r.ch.timeout))
          = some (1, 1, 2, 0) := by decide
      have h2 : (bplib_load endless_env (opened_channel 1 0 bp_wrap_t.BP_WRAP_DROP 0) ()
          endless_load.2).map (fun r => (r.ch.wrap_response, r.ch.active_table.sid 0,
            r.ch.active_table.oldest_cid, r.ch.active_table.current_cid))
          = some (bp_wrap_t.BP_WRAP_DROP, 1, 0, 1) := by decide
      rw [h] at h1 h2
      simp only [Option.map_some', Option.some.injEq, Prod.mk.injEq] at h1 h2
      obtain ⟨a1, a2, a3, a4⟩ := h1
      obtain ⟨a5, a6, a7, a8⟩ := h2
      exact ⟨a1, a2, a3, a4, a5, a6, a7, by rw [a8]; decide⟩⟩
  | none => absurd (show (bplib_load endless_env
        (opened_channel 1 0 bp_wrap_t.BP_WRAP_DROP 0) () endless_load.2).isSome = true
      by decide) (by rw [h]; decide)

/-- C11 as stated fails: on a channel with one slot and the wrap response
DROP, served by a storage service that always has one more custody bundle,
4294967296 calls of `bplib_load` on the opened channel leave
`oldest_cid = 4294967295` and `current_cid = 0`; the `uint32_t` `current_cid`
has wrapped and `oldest_cid` has not. -/
theorem C11_current_cid_wraps :
    (run_loads endless_env (opened_channel 1 0 bp_wrap_t.BP_WRAP_DROP 0) ()
        (List.replicate 4294967296 endless_load)).map
      (fun r => (r.2.1.active_table.oldest_cid, r.2.1.active_table.current_cid))
    = some (4294967295, 0) := by
  obtain ⟨r1, hr1, hQ1⟩ := endless_first
  obtain ⟨rs, hrs, hQs⟩ := endless_run 4294967295 r1.ch 0 hQ1 (by decide)
  have h : (4294967296 : Nat) = 4294967295 + 1 := rfl
  rw [h, List.replicate_succ,
    run_loads_cons endless_env _ () endless_load _ r1 rs hr1 hrs]
  obtain ⟨_, _, _, _, _, _, ho, hc⟩ := hQs
  show some (rs.2.1.active_table.oldest_cid, rs.2.1.active_table.current_cid) = _
  rw [ho, hc]
  rfl

theorem mod_ne_of_lt_add (N c x : Nat) (h1 : c < x) (h2 : x < c + N) : x % N ≠ c % N := by
  intro h
  have h3 : (x - c) % N = 0 := Nat.sub_mod_eq_zero_of_mod_eq h
  have h4 : N ∣ x - c := Nat.dvd_of_mod_eq_zero h3
  have h5 : N ≤ x - c := Nat.le_of_dvd (by omega) h4
  omega

/-- The oldest slot is vacant (or is vacated) and `oldest_cid` advances. -/
theorem window_advance (N : Nat) (sid sid' : Nat → Nat) (o c : Nat)
    (hw : window_ok N sid o c) (hlt : o < c)
    (hvac : sid' (o % N) = BP_SID_VACANT)
    (hsub : ∀ i, sid' i = sid i ∨ sid' i = BP_SID_VACANT) :
    window_ok N sid' (o + 1) c := by
  obtain ⟨_, h2, h3⟩ := hw
  refine ⟨hlt, by omega, ?_⟩
  intro x hx1 hx2
  by_cases hx : x < o + N
  · rcases hsub (x % N) with h | h
    · rw [h]; exact h3 x hx1 hx
    · exact h
  · have : x = o + N := by omega
    rw [this, Nat.add_mod_right]
    exact hvac

/-- Slots are vacated, the counters stay. -/
theorem window_vacate (N : Nat) (sid sid' : Nat → Nat) (o c : Nat)
    (hw : window_ok N sid o c)
    (hsub : ∀ i, sid' i = sid i ∨ sid' i = BP_SID_VACANT) :
    window_ok N sid' o c := by
  obtain ⟨h1, h2, h3⟩ := hw
  refine ⟨h1, h2, ?_⟩
  intro x hx1 hx2
  rcases hsub (x % N) with h | h
  · rw [h]; exact h3 x hx1 hx2
  · exact h

/-- The slot of `current_cid` is assigned and `current_cid` advances. -/
theorem window_assign (N : Nat) (sid : Nat → Nat) (o c v : Nat)
    (h1 : o ≤ c) (h2 : c < o + N)
    (h3 : ∀ x, c < x → x < o + N → sid (x % N) = BP_SID_VACANT) :
    window_ok N (fun i => if i = c % N then v else sid i) o (c + 1) := by
  refine ⟨by omega, by omega, ?_⟩
  intro x hx1 hx2
  have hne : x % N ≠ c % N := mod_ne_of_lt_add N c x (by omega) (by omega)
  show (if x % N = c % N then v else sid (x % N)) = BP_SID_VACANT
  rw [if_neg hne]
  exact h3 x (by omega) hx2

/-- An occupied slot of `current_cid` means that the table is full. -/
theorem window_full_of_occupied (N : Nat) (sid : Nat → Nat) (o c : Nat)
    (hw : window_ok N sid o c) (hocc : sid (c % N) ≠ BP_SID_VACANT) : c = o + N := by
  obtain ⟨_, h2, h3⟩ := hw
  by_contra hne
  exact hocc (h3 c (Nat.le_refl c) (by omega))

/-- A vacant slot of `current_cid` beside an occupied oldest slot means that
the table has room. -/
theorem window_room_of_vacant (N : Nat) (sid : Nat → Nat) (o c : Nat)
    (hw : window_ok N sid o c) (hocc : sid (o % N) ≠ BP_SID_VACANT)
    (hvac : sid (c % N) = BP_SID_VACANT) : c < o + N := by
  obtain ⟨_, h2, _⟩ := hw
  by_contra hne
  have : c = o + N := by omega
  rw [this, Nat.add_mod_right] at hvac
  exact hocc hvac

/-- In a consistent table every occupied slot is the slot of exactly one
outstanding custody id. -/
theorem window_unique (N : Nat) (sid : Nat → Nat) (o c : Nat) (hN : 0 < N)
    (hw : window_ok N sid o c) (i : Nat) (hi : i < N) (hocc : sid i ≠ BP_SID_VACANT) :
    ∃! x, (o ≤ x ∧ x < c) ∧ x % N = i := by
  obtain ⟨h1, h2, h3⟩ := hw
  -- the custody id of the window [o, o + N) with slot i
  let x := o + (i + N - o % N) % N
  have hx1 : o ≤ x := Nat.le_add_right _ _
  have hx2 : x < o + N := Nat.add_lt_add_left (Nat.mod_lt _ hN) _
  have hx3 : x % N = i := by
    show (o + (i + N - o % N) % N) % N = i
    have ho : o % N < N := Nat.mod_lt _ hN
    rw [Nat.add_mod_mod]
    have hd := Nat.div_add_mod o N
    have : o + (i + N - o % N) = i + N + N * (o / N) := by
      generalize N * (o / N) = q at hd ⊢
      omega
    rw [this, Nat.add_mul_mod_self_left, Nat.add_mod_right]
    exact Nat.mod_eq_of_lt hi
  have hx4 : x < c := by
    by_contra hge
    exact hocc (hx3 ▸ h3 x (by omega) hx2)
  refine ⟨x, ⟨⟨hx1, hx4⟩, hx3⟩, ?_⟩
  rintro y ⟨⟨hy1, hy2⟩, hy3⟩
  by_contra hne
  rcases Nat.lt_or_gt_of_ne hne with hlt | hgt
  · exact mod_ne_of_lt_add N y x hlt (by omega) (by rw [hx3, hy3])
  · exact mod_ne_of_lt_add N x y hgt (by omega) (by rw [hx3, hy3])

theorem vacate_sub (sid : Nat → Nat) (ati : Nat) :
    ∀ i, (fun j => if j = ati then BP_SID_VACANT else sid j) i = sid i ∨
      (fun j => if j = ati then BP_SID_VACANT else sid j) i = BP_SID_VACANT := by
  intro i
  by_cases h : i = ati
  · right; simp [h]
  · left; simp [h]

theorem same_config_refl (ch : bp_channel_t) : same_config ch ch :=
  ⟨rfl, rfl, rfl, rfl, rfl, rfl⟩

theorem table_ok_congr (ch ch1 : bp_channel_t)
    (h1 : ch1.active_table = ch.active_table)
    (h2 : ch1.active_table_size = ch.active_table_size) (h : table_ok ch) : table_ok ch1 := by
  unfold table_ok
  rw [h1, h2]
  exact h

/-- The load section of a bundle without CTEB leaves the active table and the
configuration as they are. -/
theorem load_bundle_no_custody {σ : Type} (E : bp_env_t σ) (a : bp_load_args_t)
    (store_handle : Int) (s : bp_load_state_t σ) (d : bp_bundle_data_t)
    (hd : s.data = some d) (hc : d.cteboffset = 0) :
    (load_bundle E a store_handle s).ch.active_table = s.ch.active_table ∧
    same_config s.ch (load_bundle E a store_handle s).ch := by
  have hc2 : ¬ d.cteboffset ≠ 0 := fun h => h hc
  unfold load_bundle
  simp only [hd]
  split
  · split
    · simp only [if_neg hc2]
      exact ⟨rfl, same_config_refl _⟩
    · exact ⟨rfl, same_config_refl _⟩
  · exact ⟨rfl, same_config_refl _⟩

end Bplib

namespace RhHash

/-! ## Chain values after removals -/

/-- C28, evaluated at its failing input: on a table of size 4, after
add 0, add 7, add 8, add 26 (all four keys have natural slot 0) and
remove 0, remove 7 (all `RH_SUCCESS`), slot 3 is non-empty with
`chain = 4294967295`, and it holds key 26, whose natural slot is 0; after a
further add of key 6 (natural slot 3, `RH_SUCCESS`) slot 1 holds key 6 with
`chain = 3`. -/
theorem C28_chain_above_one_off_natural_slot :
    (run_ops types16 (created 4)
        [rh_op_t.add 0 100 false, rh_op_t.add 7 101 false, rh_op_t.add 8 102 false,
         rh_op_t.add 26 103 false, rh_op_t.remove 0, rh_op_t.remove 7]).map
      (fun r => (r.1, (r.2.table 3).chain, (r.2.table 3).key,
        hash_key (r.2.table 3).key % r.2.size))
    = some (List.replicate 6 rh_status_t.RH_SUCCESS, 4294967295, 26, 0) ∧
    (run_ops types16 (created 4)
        [rh_op_t.add 0 100 false, rh_op_t.add 7 101 false, rh_op_t.add 8 102 false,
         rh_op_t.add 26 103 false, rh_op_t.remove 0, rh_op_t.remove 7,
         rh_op_t.add 6 104 false]).map
      (fun r => (r.1, (r.2.table 1).chain, (r.2.table 1).key,
        hash_key (r.2.table 1).key % r.2.size))
    = some (List.replicate 7 rh_status_t.RH_SUCCESS, 3, 6, 3) := by
  refine ⟨by decide, by decide⟩

/-- C29, evaluated at its failing input: on the table of size 4 left by
add 0, add 7, add 8, add 26, remove 0, remove 7, the natural slot 3 of key 6
holds key 26 with `chain = 4294967295`, key 6 is not stored and slot 1 is
empty; `rh_hash_add` of key 6 returns `RH_SUCCESS`, but afterwards slot 3
still holds key 26 (now with chain 1), the new key sits in the open slot 1,
and `rh_hash_get` finds neither key 6 nor key 26 (which it found before). -/
theorem C29_eviction_writes_open_slot :
    (hash_key 6 % 4 = 3 ∧
     ((table_after types16 (created 4)
        [rh_op_t.add 0 100 false, rh_op_t.add 7 101 false, rh_op_t.add 8 102 false,
         rh_op_t.add 26 103 false, rh_op_t.remove 0, rh_op_t.remove 7]).table 3).key = 26 ∧
     ((table_after types16 (created 4)
        [rh_op_t.add 0 100 false, rh_op_t.add 7 101 false, rh_op_t.add 8 102 false,
         rh_op_t.add 26 103 false, rh_op_t.remove 0, rh_op_t.remove 7]).table 3).chain
       = 4294967295 ∧
     ((table_after types16 (created 4)
        [rh_op_t.add 0 100 false, rh_op_t.add 7 101 false, rh_op_t.add 8 102 false,
         rh_op_t.add 26 103 false, rh_op_t.remove 0, rh_op_t.remove 7]).table 1).chain = 0 ∧
     rh_hash_get types16 (table_after types16 (created 4)
        [rh_op_t.add 0 100 false, rh_op_t.add 7 101 false, rh_op_t.add 8 102 false,
         rh_op_t.add 26 103 false, rh_op_t.remove 0, rh_op_t.remove 7]) 26
       = some (rh_status_t.RH_SUCCESS, some 103)) ∧
    (rh_hash_add types16 (table_after types16 (created 4)
        [rh_op_t.add 0 100 false, rh_op_t.add 7 101 false, rh_op_t.add 8 102 false,
         rh_op_t.add 26 103 false, rh_op_t.remove 0, rh_op_t.remove 7]) 6 104 false).map
      (fun r => (r.1, (r.2.table 3).key, (r.2.table 3).chain, (r.2.table 1).key))
    = some (rh_status_t.RH_SUCCESS, 26, 1, 6) ∧
    (rh_hash_add types16 (table_after types16 (created 4)
        [rh_op_t.add 0 100 false, rh_op_t.add 7 101 false, rh_op_t.add 8 102 false,
         rh_op_t.add 26 103 false, rh_op_t.remove 0, rh_op_t.remove 7]) 6 104 false).map
      (fun r => rh_hash_get types16 r.2 6)
    = some (some (rh_status_t.RH_KEY_NOT_FOUND, none)) ∧
    (rh_hash_add types16 (table_after types16 (created 4)
        [rh_op_t.add 0 100 false, rh_op_t.add 7 101 false, rh_op_t.add 8 102 false,
         rh_op_t.add 26 103 false, rh_op_t.remove 0, rh_op_t.remove 7]) 6 104 false).map
      (fun r => rh_hash_get types16 r.2 26)
    = some (some (rh_status_t.RH_KEY_NOT_FOUND, none)) := by
  refine ⟨⟨by decide, by decide, by decide, by decide, by decide⟩, by decide, by decide,
    by decide⟩

end RhHash

namespace Bplib

/-! ## The slot of a new custody id -/

/-- The call `bplib_load` is its load section run on the state of
`load_section`. -/
theorem load_of_section {σ : Type} (E : bp_env_t σ) (ch : bp_channel_t) (env : σ)
    (a : bp_load_args_t) :
    bplib_load E ch env a =
      (load_section E ch env a).map (fun p => update_active (load_bundle E a p.1 p.2)) := by
  unfold bplib_load load_section
  dsimp only
  cases (check_dacs E ch env a).2 with
  | ok data sid => rfl
  | timeout =>
    dsimp only
    cases load_data_bundle E a _ <;> rfl
  | failed =>
    dsimp only
    cases load_data_bundle E a _ <;> rfl

/-- C30, evaluated at its failing input: with `cid_reuse = 1`, two slots and
a retransmit timeout of 10, the bundles 1 and 2 are loaded at time 0 and both
loaded again at time 10 with their custody ids 0 and 1 reused; the load at
time 12 dequeues bundle 3 and assigns it custody id 2 while slot 0 still holds
the storage id 1 of the unacknowledged bundle 1 (not the storage id 3 of the
bundle at hand), and slot 0 is overwritten with storage id 3. -/
theorem C30_reuse_overwrites_slot :
    (last_section ref_env (opened_channel 2 10 bp_wrap_t.BP_WRAP_RESEND 1)
        ⟨[(1, custody_bundle 0), (2, custody_bundle 0), (3, custody_bundle 0)], [], []⟩
        [load_at 0, load_at 0, load_at 10, load_at 10] (load_at 12)).map
      (fun p => (p.2.data.map (fun d => d.cteboffset), p.2.newcid,
        p.2.ch.active_table.current_cid,
        p.2.ch.active_table.sid (slot_of p.2.ch p.2.ch.active_table.current_cid), p.2.sid))
    = some (some 8, true, 2, 1, 3) ∧
    (last_load ref_env (opened_channel 2 10 bp_wrap_t.BP_WRAP_RESEND 1)
        ⟨[(1, custody_bundle 0), (2, custody_bundle 0), (3, custody_bundle 0)], [], []⟩
        [load_at 0, load_at 0, load_at 10, load_at 10] (load_at 12)).map
      (fun r => (r.status, r.bundle.map (fun b => b.cidsdnv.value), r.ch.active_table.sid 0))
    = some (bp_status_t.BP_SUCCESS, some 2, 3) := by
  refine ⟨by decide, by decide⟩

end Bplib

namespace Bplib

/-! ## Endpoint id strings -/

theorem format_lu_loop_append (fuel : Nat) :
    ∀ (n : Nat) (acc : List Nat),
      format_lu_loop fuel n acc = format_lu_loop fuel n [] ++ acc := by
  induction fuel with
  | zero => intro n acc; rfl
  | succ f ih =>
    intro n acc
    unfold format_lu_loop
    by_cases h : n < 10
    · rw [if_pos h, if_pos h]; rfl
    · rw [if_neg h, if_neg h, ih (n / 10) ((48 + n % 10) :: acc), ih (n / 10) [48 + n % 10]]
      simp

/-- One more digit: the digits of `n >= 10` are the digits of `n / 10` and the
last digit. -/
theorem format_lu_loop_step (fuel n : Nat) (h : ¬ n < 10) :
    format_lu_loop (fuel + 1) n [] = format_lu_loop fuel (n / 10) [] ++ [48 + n % 10] := by
  rw [format_lu_loop, if_neg h, format_lu_loop_append]

theorem digits_value_append (l : List Nat) (d : Nat) :
    digits_value (l ++ [d]) = digits_value l * 10 + (d - 48) := by
  unfold digits_value
  rw [List.foldl_append]
  rfl

/-- What holds of the digits of `n`: they are digits, there is at least one,
at most `k` when `n < 10 ^ k`, and their value is `n`. -/
theorem format_lu_loop_spec (fuel : Nat) :
    ∀ (n : Nat), n < fuel →
      (∀ c ∈ format_lu_loop fuel n [], isdigit c = true) ∧
      format_lu_loop fuel n [] ≠ [] ∧
      digits_value (format_lu_loop fuel n []) = n ∧
      (∀ k, 0 < k → n < 10 ^ k → (format_lu_loop fuel n []).length ≤ k) := by
  induction fuel with
  | zero => intro n h; omega
  | succ f ih =>
    intro n hn
    by_cases h : n < 10
    · have he : format_lu_loop (f + 1) n [] = [48 + n] := by
        rw [format_lu_loop, if_pos h]
      rw [he]
      refine ⟨?_, by simp, ?_, ?_⟩
      · intro c hc
        rw [List.mem_singleton] at hc
        subst hc
        simp only [isdigit, Bool.and_eq_true, decide_eq_true_eq]
        omega
      · simp [digits_value]
      · intro k hk _
        simpa using hk
    · rw [format_lu_loop_step f n h]
      obtain ⟨i1, i2, i3, i4⟩ := ih (n / 10) (by omega)
      refine ⟨?_, by simp, ?_, ?_⟩
      · intro c hc
        rw [List.mem_append, List.mem_singleton] at hc
        rcases hc with hc | hc
        · exact i1 c hc
        · subst hc
          simp only [isdigit, Bool.and_eq_true, decide_eq_true_eq]
          omega
      · rw [digits_value_append, i3]
        omega
      · intro k hk hlt
        rw [List.length_append, List.length_singleton]
        have hk2 : 2 ≤ k := by
          by_contra hc
          have : k = 1 := by omega
          rw [this] at hlt
          omega
        have := i4 (k - 1) (by omega) (by
          have h10 : 10 ^ k = 10 ^ (k - 1) * 10 := by
            rw [← pow_succ]; congr 1; omega
          rw [h10] at hlt
          exact Nat.div_lt_of_lt_mul (by rw [Nat.mul_comm]; exact hlt))
        omega

theorem format_lu_spec (n : Nat) :
    (∀ c ∈ format_lu n, isdigit c = true) ∧
    format_lu n ≠ [] ∧
    digits_value (format_lu n) = n ∧
    (∀ k, 0 < k → n < 10 ^ k → (format_lu n).length ≤ k) :=
  format_lu_loop_spec (n + 1) n (Nat.lt_succ_self n)

theorem takeWhile_digits (X : List Nat) (hX : ∀ c ∈ X, isdigit c = true) :
    (X ++ [0]).takeWhile isdigit = X := by
  induction X with
  | nil => rfl
  | cons x xs ih =>
    have hx : isdigit x = true := hX x (List.mem_cons_self _ _)
    rw [List.cons_append, List.takeWhile_cons, hx]
    simp only [if_true]
    rw [ih (fun c hc => hX c (List.mem_cons_of_mem _ hc))]

/-- The function `strtoul` on a run of digits that ends at the terminator. -/
theorem strtoul_digits (L : c_limits_t) (X : List Nat)
    (hX : ∀ c ∈ X, isdigit c = true) (hne : X ≠ [])
    (hv : digits_value X ≤ L.ULONG_MAX) :
    strtoul L (X ++ [0]) = (digits_value X, X.length, false) := by
  obtain ⟨x, xs, rfl⟩ : ∃ x xs, X = x :: xs := by
    cases X with
    | nil => exact absurd rfl hne
    | cons x xs => exact ⟨x, xs, rfl⟩
  have hx : isdigit x = true := hX x (List.mem_cons_self _ _)
  have hx2 : 48 ≤ x ∧ x ≤ 57 := by
    simpa [isdigit] using hx
  have hsp : isspace x = false := by
    simp only [isspace, Bool.or_eq_false_iff, decide_eq_false_iff_not, Bool.and_eq_false_iff]
    omega
  have hws : (x :: xs ++ [0]).takeWhile isspace = [] := by
    rw [List.cons_append, List.takeWhile_cons, hsp]
    rfl
  have h45 : ¬ ((x :: xs ++ [0]).head? = some 45 ∨ (x :: xs ++ [0]).head? = some 43) := by
    simp only [List.cons_append, List.head?_cons, Option.some.injEq]
    omega
  have h45b : ¬ (x :: xs ++ [0]).head? = some 45 := fun h => h45 (Or.inl h)
  unfold strtoul
  simp only [hws, List.length_nil, List.drop_zero, if_neg h45, if_neg h45b, decide_False,
    takeWhile_digits (x :: xs) hX, Nat.zero_add]
  rw [if_neg (by simp), if_neg (by omega)]

theorem strchr_digits (X rest : List Nat) (hX : ∀ c ∈ X, isdigit c = true) :
    strchr (X ++ 46 :: rest) 46 = some X.length := by
  induction X with
  | nil => simp [strchr]
  | cons x xs ih =>
    have hx : isdigit x = true := hX x (List.mem_cons_self _ _)
    have hx2 : 48 ≤ x ∧ x ≤ 57 := by
      simpa [isdigit] using hx
    rw [List.cons_append, strchr, if_neg (by omega), if_neg (by omega),
      ih (fun c hc => hX c (List.mem_cons_of_mem _ hc))]
    rfl

/-- The temporary buffer of `bplib_eid2ipn` when the memory at `eid` starts with
the four bytes `pre` and the bytes `body`. -/
theorem eidtmp_of_string (eid : Nat → Nat) (pre body : List Nat) (hpre : pre.length = 4)
    (hmem : ∀ i, i < (pre ++ body).length → eid i = (pre ++ body).getD i 0) :
    eidtmp eid body.length = body ++ [0] := by
  unfold eidtmp
  congr 1
  apply List.ext_getElem
  · simp
  · intro i h1 h2
    simp only [List.getElem_map, List.getElem_range]
    rw [hmem (4 + i) (by simp [hpre]; omega)]
    rw [List.getD_eq_getElem?_getD, List.getElem?_append_right (by omega)]
    simp [hpre, h2]

/-- The node string and the service string made of the digits of `N` and `S`
are parsed to `N` and `S`, cut to 32 bits. -/
theorem parse_ipn_digits (L : c_limits_t) (N S : Nat)
    (hN : N ≤ L.ULONG_MAX) (hS : S ≤ L.ULONG_MAX) :
    parse_ipn L (format_lu N ++ [0]) (format_lu S ++ [0])
      = (BP_SUCCESS, some (N % 4294967296, S % 4294967296)) := by
  obtain ⟨n1, n2, n3, _⟩ := format_lu_spec N
  obtain ⟨s1, s2, s3, _⟩ := format_lu_spec S
  unfold parse_ipn
  rw [strtoul_digits L (format_lu N) n1 n2 (by rw [n3]; exact hN),
    strtoul_digits L (format_lu S) s1 s2 (by rw [s3]; exact hS)]
  have hn : (format_lu N).length ≠ 0 := fun h => n2 (List.length_eq_zero.mp h)
  have hs : (format_lu S).length ≠ 0 := fun h => s2 (List.length_eq_zero.mp h)
  simp only [n3, s3, hn, hs, false_or, Bool.false_eq_true, and_false, if_false]

/-- The function `bplib_eid2ipn` on memory that starts with the string
`ipn:N.S`, with `len` the length of the string. -/
theorem eid2ipn_ipn_string (L : c_limits_t) (eid : Nat → Nat) (N S : Nat)
    (hmem : ∀ i, i < (ipn_string N S).length → eid i = (ipn_string N S).getD i 0)
    (hN : N ≤ L.ULONG_MAX) (hS : S ≤ L.ULONG_MAX)
    (hlen : (ipn_string N S).length ≤ 128) :
    bplib_eid2ipn L (some eid) (ipn_string N S).length
      = (BP_SUCCESS, some (N % 4294967296, S % 4294967296)) := by
  obtain ⟨n1, n2, n3, _⟩ := format_lu_spec N
  obtain ⟨s1, s2, s3, _⟩ := format_lu_spec S
  have hn : 1 ≤ (format_lu N).length := List.length_pos.mpr n2
  have hs : 1 ≤ (format_lu S).length := List.length_pos.mpr s2
  have hl : (ipn_string N S).length = 4 + ((format_lu N).length + 1 + (format_lu S).length) := by
    simp [ipn_string]; omega
  have hstr : ipn_string N S
      = [105, 112, 110, 58] ++ (format_lu N ++ 46 :: format_lu S) := by
    simp [ipn_string]
  have h0 : eid 0 = 105 := by rw [hmem 0 (by omega), hstr]; rfl
  have h1 : eid 1 = 112 := by rw [hmem 1 (by omega), hstr]; rfl
  have h2 : eid 2 = 110 := by rw [hmem 2 (by omega), hstr]; rfl
  have h3 : eid 3 = 58 := by rw [hmem 3 (by omega), hstr]; rfl
  have htmp : eidtmp eid (((ipn_string N S).length : Int) - 4).toNat
      = format_lu N ++ 46 :: (format_lu S ++ [0]) := by
    have hb : (((ipn_string N S).length : Int) - 4).toNat
        = (format_lu N ++ 46 :: format_lu S).length := by
      rw [hl]; simp; omega
    rw [hb, eidtmp_of_string eid [105, 112, 110, 58] (format_lu N ++ 46 :: format_lu S) rfl
      (by rw [← hstr]; exact hmem)]
    simp
  unfold bplib_eid2ipn
  dsimp only
  rw [if_neg (by rw [hl]; push_cast; omega),
    if_neg (by unfold BP_MAX_EID_STRING; omega),
    if_neg (by rw [h0, h1, h2, h3]; simp), htmp,
    strchr_digits (format_lu N) (format_lu S ++ [0]) n1]
  dsimp only
  rw [List.take_left' rfl]
  have hd : (format_lu N ++ 46 :: (format_lu S ++ [0])).drop ((format_lu N).length + 1)
      = format_lu S ++ [0] := by
    rw [← List.drop_drop, List.drop_left' rfl]
    rfl
  rw [hd]
  exact parse_ipn_digits L N S hN hS

theorem strchr_none (l : List Nat) (c : Nat)
    (h : ∀ i, i < l.length → l.getD i 0 = c → ∃ j, j < i ∧ l.getD j 1 = 0) :
    strchr l c = none := by
  induction l with
  | nil => rfl
  | cons x xs ih =>
    have hx : x ≠ c := by
      intro hxc
      obtain ⟨j, hj, _⟩ := h 0 (by simp) (by simpa using hxc)
      omega
    rw [strchr, if_neg hx]
    by_cases h0 : x = 0
    · rw [if_pos h0]
    · rw [if_neg h0, ih ?_]
      · rfl
      · intro i hi hc
        obtain ⟨j, hj, hj0⟩ := h (i + 1) (by simpa using hi) (by simpa using hc)
        cases j with
        | zero => simp at hj0; exact absurd hj0 h0
        | succ j => exact ⟨j, by omega, by simpa using hj0⟩

theorem strchr_eidtmp_none (eid : Nat → Nat) (len : Int) (h : no_dot eid len) :
    strchr (eidtmp eid (len - 4).toNat) 46 = none := by
  apply strchr_none
  intro i hi hc
  unfold eidtmp at hi hc ⊢
  simp only [List.length_append, List.length_map, List.length_range, List.length_singleton]
    at hi
  by_cases hlt : i < (len - 4).toNat
  · have hget : ∀ k, k < (len - 4).toNat → ∀ d,
        ((List.range (len - 4).toNat).map (fun i => eid (4 + i)) ++ [0]).getD k d
          = eid (4 + k) := by
      intro k hk d
      rw [List.getD_eq_getElem?_getD, List.getElem?_append_left (by simpa using hk)]
      simp [hk]
    rw [hget i hlt] at hc
    obtain ⟨j, hj, hj0⟩ := h i hlt hc
    exact ⟨j, hj, by rw [hget j (by omega)]; exact hj0⟩
  · have hi2 : i = (len - 4).toNat := by omega
    rw [List.getD_eq_getElem?_getD, List.getElem?_append_right (by simp; omega)] at hc
    simp [hi2] at hc

/-- C22, for nodes and services below 2^32: for every platform and every node
`N` and service `S` with `0 < N, S < ULONG_MAX` and `N, S < 4294967296`,
`bplib_eid2ipn` applied to memory that starts with the base-10 string
`ipn:N.S`, with `len` the length of the string, returns `BP_SUCCESS` and
outputs node `N` and service `S`. -/
theorem C22_eid2ipn_parses_ipn_string (L : c_limits_t) (eid : Nat → Nat) (N S : Nat)
    (hN0 : 0 < N) (hS0 : 0 < S)
    (hN : N < L.ULONG_MAX) (hS : S < L.ULONG_MAX)
    (hN32 : N < 4294967296) (hS32 : S < 4294967296)
    (hmem : ∀ i, i < (ipn_string N S).length → eid i = (ipn_string N S).getD i 0) :
    bplib_eid2ipn L (some eid) (ipn_string N S).length = (BP_SUCCESS, some (N, S)) := by
  have hn := (format_lu_spec N).2.2.2 10 (by omega) (by omega)
  have hs := (format_lu_spec S).2.2.2 10 (by omega) (by omega)
  have hl : (ipn_string N S).length ≤ 128 := by
    simp [ipn_string]; omega
  rw [eid2ipn_ipn_string L eid N S hmem (Nat.le_of_lt hN) (Nat.le_of_lt hS) hl,
    Nat.mod_eq_of_lt hN32, Nat.mod_eq_of_lt hS32]

/-- C22 at the string `ipn:42.7` with `len = 8`, on a platform with a 64-bit
`unsigned long`. -/
theorem C22_witness :
    ipn_string 42 7 = [105, 112, 110, 58, 52, 50, 46, 55] ∧
    bplib_eid2ipn lp64 (some (cstring (ipn_string 42 7))) 8 = (BP_SUCCESS, some (42, 7)) :=
  ⟨by decide, C22_eid2ipn_parses_ipn_string lp64 (cstring (ipn_string 42 7)) 42 7 (by decide)
    (by decide) (by decide) (by decide) (by decide) (by decide) (fun _ _ => rfl)⟩

/-- C22 as stated fails: on a platform with a 64-bit `unsigned long`, the node
4294967296 is below `ULONG_MAX`, and `bplib_eid2ipn` of `ipn:4294967296.1`
(16 characters) returns `BP_SUCCESS` with node 0, the value cut to 32 bits. -/
theorem C22_node_cut_to_32_bits :
    4294967296 < lp64.ULONG_MAX ∧
    (ipn_string 4294967296 1).length = 16 ∧
    bplib_eid2ipn lp64 (some (cstring (ipn_string 4294967296 1))) 16
      = (BP_SUCCESS, some (0, 1)) := by
  refine ⟨by decide, by decide, by decide⟩

/-- C23: `bplib_eid2ipn` returns `BP_INVALIDEID` and writes neither output when
the `eid` pointer is null, when `len < 7` or `len > 128`, when the memory does
not start with `ipn:`, or when no dot follows the prefix among the `len`
bytes. -/
theorem C23_eid2ipn_rejects (L : c_limits_t) (eid : Option (Nat → Nat)) (len : Int)
    (h : eid = none ∨ len < 7 ∨ len > BP_MAX_EID_STRING ∨
      (∃ m, eid = some m ∧ ¬ (m 0 = 105 ∧ m 1 = 112 ∧ m 2 = 110 ∧ m 3 = 58)) ∨
      (∃ m, eid = some m ∧ no_dot m len)) :
    bplib_eid2ipn L eid len = (BP_INVALIDEID, none) := by
  unfold bplib_eid2ipn
  cases eid with
  | none => rfl
  | some m =>
    dsimp only
    by_cases h1 : len < 7
    · rw [if_pos h1]; rfl
    · rw [if_neg h1]
      by_cases h2 : len > BP_MAX_EID_STRING
      · rw [if_pos h2]; rfl
      · rw [if_neg h2]
        by_cases h3 : m 0 ≠ 105 ∨ m 1 ≠ 112 ∨ m 2 ≠ 110 ∨ m 3 ≠ 58
        · rw [if_pos h3]; rfl
        · rw [if_neg h3]
          rcases h with h | h | h | ⟨m2, hm, h⟩ | ⟨m2, hm, h⟩
          · cases h
          · exact absurd h h1
          · exact absurd h h2
          · cases hm
            exfalso
            apply h
            by_contra hc
            apply h3
            by_cases a0 : m 0 = 105
            · by_cases a1 : m 1 = 112
              · by_cases a2 : m 2 = 110
                · by_cases a3 : m 3 = 58
                  · exact absurd ⟨a0, a1, a2, a3⟩ hc
                  · exact Or.inr (Or.inr (Or.inr a3))
                · exact Or.inr (Or.inr (Or.inl a2))
              · exact Or.inr (Or.inl a1)
            · exact Or.inl a0
          · cases hm
            rw [strchr_eidtmp_none m len h]
            rfl

/-- C23 at the string `ipn:42` with `len = 6`. -/
theorem C23_witness :
    bplib_eid2ipn lp64 (some (cstring [105, 112, 110, 58, 52, 50])) 6 = (BP_INVALIDEID, none) :=
  C23_eid2ipn_rejects lp64 (some (cstring [105, 112, 110, 58, 52, 50])) 6
    (Or.inr (Or.inl (by decide)))

/-- C24, with room for the terminator: for every node `N` and service `S` below
4294967296 and every buffer length `len` with `7 <= len <= 128` that exceeds
the length of `ipn:N.S`, `bplib_ipn2eid` returns `BP_SUCCESS` and leaves in the
buffer exactly the NUL-terminated string `ipn:N.S`, of which `bplib_eid2ipn`
gives back `(N, S)` (on every platform whose `unsigned long` has 32 bits or
more); for every `len` outside `7 .. 128` it returns `BP_INVALIDEID` and writes
nothing. -/
theorem C24_ipn2eid_round_trip (L : c_limits_t) (N S : Nat) (len : Int)
    (hL : 4294967295 ≤ L.ULONG_MAX)
    (hN32 : N < 4294967296) (hS32 : S < 4294967296) :
    (7 ≤ len → len ≤ 128 → ((ipn_string N S).length : Int) < len →
      bplib_ipn2eid false len N S = (BP_SUCCESS, some (ipn_string N S ++ [0])) ∧
      bplib_eid2ipn L (some (cstring (ipn_string N S ++ [0]))) (ipn_string N S).length
        = (BP_SUCCESS, some (N, S))) ∧
    (len < 7 ∨ len > 128 → ∀ eid_null,
      bplib_ipn2eid eid_null len N S = (BP_INVALIDEID, none)) := by
  constructor
  · intro h7 h128 hroom
    constructor
    · unfold bplib_ipn2eid bplib_os_format
      rw [if_neg (by simp), if_neg (by omega),
        if_neg (by unfold BP_MAX_EID_STRING; omega)]
      rw [List.take_of_length_le (by omega)]
    · have hn := (format_lu_spec N).2.2.2 10 (by omega) (by omega)
      have hs := (format_lu_spec S).2.2.2 10 (by omega) (by omega)
      have hl : (ipn_string N S).length ≤ 128 := by
        simp [ipn_string]; omega
      rw [eid2ipn_ipn_string L _ N S ?_ (by omega) (by omega) hl,
        Nat.mod_eq_of_lt hN32, Nat.mod_eq_of_lt hS32]
      intro i hi
      unfold cstring
      rw [List.getD_eq_getElem?_getD, List.getD_eq_getElem?_getD,
        List.getElem?_append_left hi]
  · intro h eid_null
    unfold bplib_ipn2eid
    cases eid_null with
    | true => rfl
    | false =>
      rw [if_neg (by simp)]
      rcases h with h | h
      · rw [if_pos h]; rfl
      · rw [if_neg (by omega), if_pos (by unfold BP_MAX_EID_STRING; omega)]; rfl

/-- C24 at node 42, service 7 and a buffer of 9 bytes. -/
theorem C24_witness :
    (bplib_ipn2eid false 9 42 7
        = (BP_SUCCESS, some ([105, 112, 110, 58, 52, 50, 46, 55] ++ [0])) ∧
      bplib_eid2ipn lp64 (some (cstring ([105, 112, 110, 58, 52, 50, 46, 55] ++ [0]))) 8
        = (BP_SUCCESS, some (42, 7))) :=
  (C24_ipn2eid_round_trip lp64 42 7 9 (by decide) (by decide) (by decide)).1
    (by decide) (by decide) (by decide)

/-- C24 as stated fails: with a buffer of `len = 7` bytes `bplib_ipn2eid` of
node 42 and service 7 returns `BP_SUCCESS`, but the buffer holds `ipn:42` and
the terminator, not `ipn:42.7`, and `bplib_eid2ipn` of the written string
returns `BP_INVALIDEID`. -/
theorem C24_short_buffer_cuts_string :
    bplib_ipn2eid false 7 42 7 = (BP_SUCCESS, some [105, 112, 110, 58, 52, 50, 0]) ∧
    ipn_string 42 7 = [105, 112, 110, 58, 52, 50, 46, 55] ∧
    bplib_eid2ipn lp64 (some (cstring [105, 112, 110, 58, 52, 50, 0])) 6
      = (BP_INVALIDEID, none) := by
  refine ⟨by decide, by decide, by decide⟩

end Bplib

namespace Bplib

/-! ## Options -/

theorem to_int32_to_uint32 (v : Int) (h1 : -2147483648 ≤ v) (h2 : v < 2147483648) :
    to_int32 (to_uint32 v) = v := by
  unfold to_int32 to_uint32
  split <;> omega

theorem wrap_code_of_code (v : Int)
    (h : v = wrap_code bp_wrap_t.BP_WRAP_RESEND ∨ v = wrap_code bp_wrap_t.BP_WRAP_BLOCK ∨
      v = wrap_code bp_wrap_t.BP_WRAP_DROP) :
    wrap_code (wrap_of_code v) = v := by
  rcases h with h | h | h <;> subst h <;> rfl

/-- A read of an unsigned option. -/
theorem opt_unsigned_get (st : bp_chan_t) (val len : Int) (field : Nat)
    (store : Nat → bp_chan_t) :
    opt_unsigned st val len false field store =
      if len ≠ SIZEOF_INT then { status := BP_PARMERR, st := st, val := val }
      else { status := BP_SUCCESS, st := st, val := (field : Int) } := by
  unfold opt_unsigned opt_done
  split <;> simp

/-- A read of an `int` option. -/
theorem opt_int_get (st : bp_chan_t) (val len : Int) (ok : Bool) (field : Int)
    (store : Int → bp_chan_t) :
    opt_int st val len false ok field store =
      if len ≠ SIZEOF_INT then { status := BP_PARMERR, st := st, val := val }
      else { status := BP_SUCCESS, st := st, val := field } := by
  unfold opt_int opt_done
  split <;> simp

/-- A write of an unsigned option. -/
theorem opt_unsigned_set (st : bp_chan_t) (val len : Int) (field : Nat)
    (store : Nat → bp_chan_t) :
    opt_unsigned st val len true field store =
      if len ≠ SIZEOF_INT then { status := BP_PARMERR, st := st, val := val }
      else { status := BP_SUCCESS,
             st := { store val.toNat with bundle := bundle_update (store val.toNat).bundle },
             val := val } := by
  unfold opt_unsigned opt_done
  split <;> simp

/-- A write of an `int` option. -/
theorem opt_int_set (st : bp_chan_t) (val len : Int) (ok : Bool) (field : Int)
    (store : Int → bp_chan_t) :
    opt_int st val len true ok field store =
      if len ≠ SIZEOF_INT then { status := BP_PARMERR, st := st, val := val }
      else if ok = false then { status := BP_PARMERR, st := st, val := val }
      else { status := BP_SUCCESS,
             st := { store val with bundle := bundle_update (store val).bundle },
             val := val } := by
  unfold opt_int opt_done
  split
  · rfl
  · cases ok <;> simp

theorem parmerr_ne_success : BP_PARMERR ≠ BP_SUCCESS := by decide

/-- A read leaves the channel as it is. -/
theorem getopt_state (st : bp_chan_t) (opt : bp_opt_t) (val : Option Int) (len : Int) :
    (bplib_getopt st opt val len).2.1 = st := by
  cases val with
  | none => rfl
  | some v =>
    unfold bplib_getopt getset_opt
    cases opt <;> simp only [opt_unsigned_get, opt_int_get] <;> first | rfl | (split <;> rfl)

/-- What a read gives: the field of the option, when the option is handled and
`len` is the size of its type. -/
theorem getopt_eq (st : bp_chan_t) (opt : bp_opt_t) (u len : Int) :
    bplib_getopt st opt (some u) len =
      if opt_handled opt = true ∧ len = SIZEOF_INT
      then (BP_SUCCESS, st, some (opt_field st opt))
      else (BP_PARMERR, st, some u) := by
  unfold bplib_getopt getset_opt
  by_cases hl : len = SIZEOF_INT
  · cases opt <;>
      simp only [opt_unsigned_get, opt_int_get, opt_handled, opt_field, hl, ne_eq,
        not_true_eq_false, if_false, and_self, if_true, Bool.false_eq_true, false_and, bplog]
  · cases opt <;>
      simp only [opt_unsigned_get, opt_int_get, opt_handled, opt_field, hl, ne_eq,
        not_false_eq_true, if_true, and_false, if_false, Bool.false_eq_true, false_and, bplog]

/-- A write of an unsigned option that succeeds. -/
theorem unsigned_set_inv (st : bp_chan_t) (v len : Int) (field : Nat)
    (store : Nat → bp_chan_t) (st1 : bp_chan_t) (w : Option Int)
    (h : ((opt_unsigned st v len true field store).status,
        (opt_unsigned st v len true field store).st,
        some (opt_unsigned st v len true field store).val) = (BP_SUCCESS, st1, w)) :
    len = SIZEOF_INT ∧
    st1 = { store v.toNat with bundle := bundle_update (store v.toNat).bundle } := by
  rw [opt_unsigned_set] at h
  by_cases hl : len = SIZEOF_INT
  · rw [if_neg (by simp [hl])] at h
    simp only [Prod.mk.injEq] at h
    exact ⟨hl, h.2.1.symm⟩
  · rw [if_pos hl] at h
    simp only [Prod.mk.injEq] at h
    exact absurd h.1 parmerr_ne_success

/-- A write of an `int` option that succeeds. -/
theorem int_set_inv (st : bp_chan_t) (v len : Int) (ok : Bool) (field : Int)
    (store : Int → bp_chan_t) (st1 : bp_chan_t) (w : Option Int)
    (h : ((opt_int st v len true ok field store).status,
        (opt_int st v len true ok field store).st,
        some (opt_int st v len true ok field store).val) = (BP_SUCCESS, st1, w)) :
    len = SIZEOF_INT ∧ ok = true ∧
    st1 = { store v with bundle := bundle_update (store v).bundle } := by
  rw [opt_int_set] at h
  by_cases hl : len = SIZEOF_INT
  · rw [if_neg (by simp [hl])] at h
    cases ok with
    | false =>
      rw [if_pos rfl] at h
      simp only [Prod.mk.injEq] at h
      exact absurd h.1 parmerr_ne_success
    | true =>
      rw [if_neg (by simp)] at h
      simp only [Prod.mk.injEq] at h
      exact ⟨hl, rfl, h.2.1.symm⟩
  · rw [if_pos hl] at h
    simp only [Prod.mk.injEq] at h
    exact absurd h.1 parmerr_ne_success

/-- A write that succeeds: the field of the option holds the value and the
fields of the other options are kept. -/
theorem setopt_fields (st : bp_chan_t) (opt : bp_opt_t) (v len : Int) (st1 : bp_chan_t)
    (w : Option Int) (hv : opt_value opt v)
    (hset : bplib_setopt st opt (some v) len = (BP_SUCCESS, st1, w)) :
    len = SIZEOF_INT ∧ opt_handled opt = true ∧ opt_field st1 opt = v ∧
    ∀ opt1, opt1 ≠ opt → opt_field st1 opt1 = opt_field st opt1 := by
  unfold bplib_setopt getset_opt at hset
  cases opt with
  | other n =>
    simp only [Prod.mk.injEq, bplog] at hset
    exact absurd hset.1 parmerr_ne_success
  | BP_OPT_PAYCRC_D =>
    obtain ⟨hl, _, rfl⟩ := int_set_inv _ _ _ _ _ _ _ _ hset
    refine ⟨hl, rfl, to_int32_to_uint32 v hv.1 hv.2, ?_⟩
    intro opt1 hne
    cases opt1 <;> first | rfl | exact absurd rfl hne
  | BP_OPT_WRAPRSP =>
    obtain ⟨hl, hok, rfl⟩ := int_set_inv _ _ _ _ _ _ _ _ hset
    refine ⟨hl, rfl, wrap_code_of_code v (by
      have h := hok
      simp only [Bool.or_eq_true, decide_eq_true_eq] at h
      rcases h with (h | h) | h
      · exact Or.inl h
      · exact Or.inr (Or.inl h)
      · exact Or.inr (Or.inr h)), ?_⟩
    intro opt1 hne
    cases opt1 <;> first | rfl | exact absurd rfl hne
  | BP_OPT_DSTNODE_D | BP_OPT_DSTSERV_D | BP_OPT_RPTNODE_D | BP_OPT_RPTSERV_D
  | BP_OPT_CSTNODE_D | BP_OPT_CSTSERV_D | BP_OPT_SETSEQUENCE_D =>
    obtain ⟨hl, rfl⟩ := unsigned_set_inv _ _ _ _ _ _ _ hset
    refine ⟨hl, rfl, Int.toNat_of_nonneg hv.1, ?_⟩
    intro opt1 hne
    cases opt1 <;> first | rfl | exact absurd rfl hne
  | BP_OPT_LIFETIME_D | BP_OPT_CSTRQST_D | BP_OPT_ICHECK_D | BP_OPT_ALLOWFRAG_D
  | BP_OPT_TIMEOUT | BP_OPT_BUNDLELEN | BP_OPT_ORIGINATE | BP_OPT_PROCADMINONLY
  | BP_OPT_CIDREUSE | BP_OPT_ACSRATE =>
    obtain ⟨hl, _, rfl⟩ := int_set_inv _ _ _ _ _ _ _ _ hset
    refine ⟨hl, rfl, rfl, ?_⟩
    intro opt1 hne
    cases opt1 <;> first | rfl | exact absurd rfl hne

/-- C25: on an open channel, for every option that `getset_opt` handles and
every value `v` of the type of the option that `bplib_setopt` accepts (it
returns `BP_SUCCESS`), a following `bplib_getopt` of the option returns
`BP_SUCCESS` and `v`, a `bplib_getopt` of any other option returns the status
and the value it returned before the write, and `bplib_getopt` leaves the
channel as it is. -/
theorem C25_option_round_trip (st : bp_chan_t) (opt : bp_opt_t) (v len : Int)
    (st1 : bp_chan_t) (w : Option Int) (hv : opt_value opt v)
    (hset : bplib_setopt st opt (some v) len = (BP_SUCCESS, st1, w)) :
    (∀ u, bplib_getopt st1 opt (some u) len = (BP_SUCCESS, st1, some v)) ∧
    (∀ opt1 len1 u, opt1 ≠ opt →
      (bplib_getopt st1 opt1 (some u) len1).1 = (bplib_getopt st opt1 (some u) len1).1 ∧
      (bplib_getopt st1 opt1 (some u) len1).2.2 = (bplib_getopt st opt1 (some u) len1).2.2) ∧
    (∀ st0 opt0 u0 len0, (bplib_getopt st0 opt0 u0 len0).2.1 = st0) := by
  obtain ⟨hl, hh, hf, hframe⟩ := setopt_fields st opt v len st1 w hv hset
  refine ⟨?_, ?_, getopt_state⟩
  · intro u
    rw [getopt_eq, if_pos ⟨hh, hl⟩, hf]
  · intro opt1 len1 u hne
    rw [getopt_eq, getopt_eq, hframe opt1 hne]
    split <;> exact ⟨rfl, rfl⟩

/-- The round trip on the sample channel: the timeout option is set to 30,
read back, and the lifetime option reads as before. -/
theorem C25_witness :
    opt_value bp_opt_t.BP_OPT_TIMEOUT 30 ∧
    bplib_setopt sample_chan bp_opt_t.BP_OPT_TIMEOUT (some 30) 4 =
      (BP_SUCCESS, (bplib_setopt sample_chan bp_opt_t.BP_OPT_TIMEOUT (some 30) 4).2.1,
        some 30) ∧
    (bplib_getopt (bplib_setopt sample_chan bp_opt_t.BP_OPT_TIMEOUT (some 30) 4).2.1
      bp_opt_t.BP_OPT_TIMEOUT (some 0) 4).1 = BP_SUCCESS ∧
    (bplib_getopt (bplib_setopt sample_chan bp_opt_t.BP_OPT_TIMEOUT (some 30) 4).2.1
      bp_opt_t.BP_OPT_TIMEOUT (some 0) 4).2.2 = some 30 ∧
    (bplib_getopt (bplib_setopt sample_chan bp_opt_t.BP_OPT_TIMEOUT (some 30) 4).2.1
      bp_opt_t.BP_OPT_LIFETIME_D (some 0) 4).2.2 = some 3600 :=
  have hv : opt_value bp_opt_t.BP_OPT_TIMEOUT 30 := ⟨by decide, by decide⟩
  have h := C25_option_round_trip sample_chan bp_opt_t.BP_OPT_TIMEOUT 30 4 _ (some 30) hv rfl
  ⟨hv, rfl, congrArg Prod.fst (h.1 0), congrArg (fun r => r.2.2) (h.1 0),
    (h.2.1 bp_opt_t.BP_OPT_LIFETIME_D 4 0 (by decide)).2.trans rfl⟩

end Bplib

namespace Bplib

/-! ## Store, process, accept and the statistics -/

/-- The paths of `bplib_accept`. -/
theorem accept_cases {σ : Type} (L : bp_lib_t σ) (st : bp_chan_t) (env : σ)
    (a : bp_accept_args_t) :
    ((a.valid = true ∧ (L.dequeue_payload env st.bundle.payload_store_handle a.timeout).2.1 > 0 ∧
        (a.payload_null = true ∨ a.size ≥
          (L.dequeue_payload env st.bundle.payload_store_handle a.timeout).2.2.1.payloadsize) ∧
        (a.payload_null = true → a.malloc_ok = true)) ∧
      (bplib_accept L st env a).status = BP_SUCCESS ∧
      (bplib_accept L st env a).payload = some (payload_bytes
        (L.dequeue_payload env st.bundle.payload_store_handle a.timeout).2.2.1) ∧
      (bplib_accept L st env a).size =
        (L.dequeue_payload env st.bundle.payload_store_handle a.timeout).2.2.1.payloadsize ∧
      (bplib_accept L st env a).st = { st with ch := incr_delivered st.ch }) ∨
    (¬ (a.valid = true ∧
        (L.dequeue_payload env st.bundle.payload_store_handle a.timeout).2.1 > 0 ∧
        (a.payload_null = true ∨ a.size ≥
          (L.dequeue_payload env st.bundle.payload_store_handle a.timeout).2.2.1.payloadsize) ∧
        (a.payload_null = true → a.malloc_ok = true)) ∧
      ((bplib_accept L st env a).st = st ∨
        (bplib_accept L st env a).st = { st with ch := incr_lost st.ch })) := by
  unfold bplib_accept
  by_cases hv : a.valid = false
  · rw [if_pos hv]
    exact Or.inr ⟨fun h => by rw [hv] at h; exact absurd h.1 (by decide), Or.inl rfl⟩
  · rw [if_neg hv]
    have hv1 : a.valid = true := by cases h : a.valid <;> simp_all
    dsimp only
    by_cases hd : (L.dequeue_payload env st.bundle.payload_store_handle a.timeout).2.1 > 0
    · rw [if_pos hd]
      unfold accept_payload
      dsimp only
      by_cases hb : a.payload_null = true ∨ a.size ≥
          (L.dequeue_payload env st.bundle.payload_store_handle a.timeout).2.2.1.payloadsize
      · rw [if_pos hb]
        by_cases hm : a.payload_null = false ∨ a.malloc_ok = true
        · rw [if_pos hm]
          refine Or.inl ⟨⟨hv1, hd, hb, ?_⟩, rfl, rfl, rfl, rfl⟩
          intro hn
          rcases hm with hm | hm
          · rw [hn] at hm; exact absurd hm (by decide)
          · exact hm
        · rw [if_neg hm]
          refine Or.inr ⟨?_, Or.inr rfl⟩
          intro h
          apply hm
          cases hn : a.payload_null with
          | false => exact Or.inl rfl
          | true => exact Or.inr (h.2.2.2 hn)
      · rw [if_neg hb]
        exact Or.inr ⟨fun h => hb h.2.2.1, Or.inr rfl⟩
    · rw [if_neg hd]
      exact Or.inr ⟨fun h => hd h.2.1, Or.inl rfl⟩

/-- C26: when the channel is open and the pointers are valid, the inbound
payload store yields an entry (the dequeue returns a positive status) and the
caller's buffer is at least `payloadsize` bytes, or is null and the allocation
succeeds, `bplib_accept` returns `BP_SUCCESS`, copies exactly the
`payloadsize` bytes that follow the stored payload header, sets `*size` to
`payloadsize` and increments the `uint32_t` counter `delivered`, which
increases by exactly one unless it holds 2^32 - 1; on every other path
`delivered` is unchanged. -/
theorem C26_accept_delivers_payload {σ : Type} (L : bp_lib_t σ) (st : bp_chan_t) (env : σ)
    (a : bp_accept_args_t) :
    (a.valid = true ∧ (L.dequeue_payload env st.bundle.payload_store_handle a.timeout).2.1 > 0 ∧
      (a.payload_null = true ∨ a.size ≥
        (L.dequeue_payload env st.bundle.payload_store_handle a.timeout).2.2.1.payloadsize) ∧
      (a.payload_null = true → a.malloc_ok = true) →
      (bplib_accept L st env a).status = BP_SUCCESS ∧
      (bplib_accept L st env a).payload = some ((List.range
        (L.dequeue_payload env st.bundle.payload_store_handle a.timeout).2.2.1.payloadsize.toNat).map
        (L.dequeue_payload env st.bundle.payload_store_handle a.timeout).2.2.1.bytes) ∧
      (bplib_accept L st env a).size =
        (L.dequeue_payload env st.bundle.payload_store_handle a.timeout).2.2.1.payloadsize ∧
      (bplib_accept L st env a).st.ch.stats.delivered
        = (st.ch.stats.delivered + 1) % 4294967296 ∧
      (st.ch.stats.delivered < 4294967295 →
        (bplib_accept L st env a).st.ch.stats.delivered = st.ch.stats.delivered + 1)) ∧
    (¬ (a.valid = true ∧
        (L.dequeue_payload env st.bundle.payload_store_handle a.timeout).2.1 > 0 ∧
        (a.payload_null = true ∨ a.size ≥
          (L.dequeue_payload env st.bundle.payload_store_handle a.timeout).2.2.1.payloadsize) ∧
        (a.payload_null = true → a.malloc_ok = true)) →
      (bplib_accept L st env a).st.ch.stats.delivered = st.ch.stats.delivered) := by
  rcases accept_cases L st env a with ⟨_, h1, h2, h3, h4⟩ | ⟨hn, h⟩
  · refine ⟨fun _ => ⟨h1, h2, h3, ?_, ?_⟩, fun hneg => absurd ‹_› hneg⟩
    · rw [h4]; rfl
    · intro hlt
      rw [h4]
      show (st.ch.stats.delivered + 1) % 4294967296 = st.ch.stats.delivered + 1
      exact Nat.mod_eq_of_lt (by omega)
  · refine ⟨fun hpos => absurd hpos hn, fun _ => ?_⟩
    rcases h with h | h
    · rw [h]
    · rw [h]; rfl

/-- The success path on the sample channel: the payload of 3 bytes is copied
into a buffer of 16 bytes. -/
theorem C26_witness :
    (bplib_accept sample_lib sample_chan () ⟨true, false, 16, 0, true⟩).status = BP_SUCCESS ∧
    (bplib_accept sample_lib sample_chan () ⟨true, false, 16, 0, true⟩).payload
      = some [104, 105, 33] ∧
    (bplib_accept sample_lib sample_chan () ⟨true, false, 16, 0, true⟩).size = 3 ∧
    (bplib_accept sample_lib sample_chan () ⟨true, false, 16, 0, true⟩).st.ch.stats.delivered
      = 1 :=
  have h := (C26_accept_delivers_payload sample_lib sample_chan () ⟨true, false, 16, 0, true⟩).1
    ⟨rfl, by decide, Or.inr (by decide), fun h => absurd h (by decide)⟩
  ⟨h.1, h.2.1, h.2.2.1, h.2.2.2.2 (by decide)⟩

/-- C26 fails on the code: with a null buffer and no memory from `malloc` the
payload store yields an entry and `bplib_accept` returns `BP_FAILEDMEM`, copies
nothing and counts the payload as lost; and from `delivered` = 2^32 - 1 the
success path leaves `delivered` at 0. -/
theorem C26_failed_allocation :
    (sample_lib.dequeue_payload () sample_chan.bundle.payload_store_handle 0).2.1 = BP_SUCCESS ∧
    (bplib_accept sample_lib sample_chan () ⟨true, true, 0, 0, false⟩).status = BP_FAILEDMEM ∧
    (bplib_accept sample_lib sample_chan () ⟨true, true, 0, 0, false⟩).payload = none ∧
    (bplib_accept sample_lib sample_chan () ⟨true, true, 0, 0, false⟩).st.ch.stats.delivered
      = 0 ∧
    (bplib_accept sample_lib sample_chan () ⟨true, true, 0, 0, false⟩).st.ch.stats.lost = 1 ∧
    sample_chan_full.ch.stats.delivered = 4294967295 ∧
    (bplib_accept sample_lib sample_chan_full () ⟨true, false, 16, 0, true⟩).status
      = BP_SUCCESS ∧
    (bplib_accept sample_lib sample_chan_full ()
      ⟨true, false, 16, 0, true⟩).st.ch.stats.delivered = 0 := by
  refine ⟨rfl, ?_, ?_, ?_, ?_, rfl, ?_, ?_⟩ <;> decide

theorem stats_grow_refl (s : bp_stats_t) : stats_grow 0 s s := by
  unfold stats_grow stats_le
  omega

theorem stats_grow_trans (a b : Nat) (s s1 s2 : bp_stats_t) (h1 : stats_grow a s s1)
    (h2 : stats_grow b s1 s2) : stats_grow (a + b) s s2 := by
  unfold stats_grow stats_le at *
  omega

theorem stats_grow_mono (a b : Nat) (s s1 : bp_stats_t) (hab : a ≤ b)
    (h1 : stats_grow a s s1) : stats_grow b s s1 := by
  unfold stats_grow stats_le at *
  omega

theorem stats_room_grow (a b : Nat) (s s1 : bp_stats_t) (hr : stats_room (a + b) s)
    (h1 : stats_grow a s s1) : stats_room b s1 := by
  unfold stats_grow stats_le at h1
  unfold stats_room at *
  omega

theorem stats_room_mono (a b : Nat) (s : bp_stats_t) (hab : a ≤ b) (hr : stats_room b s) :
    stats_room a s := by
  unfold stats_room at *
  omega

/-- The statistics after the wrap response. -/
theorem wrap_response_stats {σ : Type} (E : bp_env_t σ) (store_handle : Int)
    (s : bp_load_state_t σ) (s0 : bp_stats_t) (he : s.ch.stats = s0)
    (hr : stats_room 1 s0) :
    stats_grow 1 s0 (wrap_response E store_handle s).ch.stats := by
  subst he
  unfold stats_room at hr
  unfold wrap_response
  dsimp only
  split
  · split <;>
      simp only [stats_grow, stats_le, incr_lost, set_sid, incr_oldest, incr_retransmitted,
        incr32, UINT32_MOD] at * <;> omega
  · simp only [stats_grow, stats_le] at *
    omega
  · simp only [stats_grow, stats_le, incr_lost, set_sid, incr_oldest, incr32, UINT32_MOD] at *
    omega

/-- The statistics after one pass of the scan. -/
theorem scan_body_stats {σ : Type} (E : bp_env_t σ) (sysnow : Nat) (store_handle : Int)
    (s : bp_load_state_t σ) (hr : stats_room 1 s.ch.stats) :
    stats_grow 1 s.ch.stats (scan_body E sysnow store_handle s).1.ch.stats := by
  have hw := fun t : bp_load_state_t σ => wrap_response_stats E store_handle t
  have hr0 := hr
  unfold stats_room at hr
  unfold scan_body
  dsimp only
  split
  · simp only [stats_grow, stats_le, incr_oldest] at *
    omega
  · split
    · unfold scan_retrieved
      split
      · simp only [stats_grow, stats_le, incr_expired, incr_oldest, set_sid, incr32,
          UINT32_MOD] at *
        omega
      · split
        · split <;>
            simp only [stats_grow, stats_le, incr_retransmitted, incr_oldest, set_sid, incr32,
              UINT32_MOD] at * <;> omega
        · unfold still_active
          dsimp only
          split
          · exact hw _ _ rfl hr0
          · simp only [stats_grow, stats_le] at *
            omega
    · simp only [stats_grow, stats_le, incr_lost, set_sid, incr32, UINT32_MOD] at *
      omega

/-- The statistics after the scan of the active table. -/
theorem scan_loop_stats {σ : Type} (E : bp_env_t σ) (sysnow : Nat) (store_handle : Int) :
    ∀ (fuel : Nat) (s s1 : bp_load_state_t σ),
      scan_loop E sysnow store_handle fuel s = some s1 →
      stats_room fuel s.ch.stats → stats_grow fuel s.ch.stats s1.ch.stats := by
  intro fuel
  induction fuel with
  | zero =>
    intro s s1 h _
    unfold scan_loop at h
    split at h
    · simp at h
    · cases Option.some.inj h
      exact stats_grow_refl _
  | succ f ih =>
    intro s s1 h hr
    have hb := scan_body_stats E sysnow store_handle s
      (stats_room_mono 1 (f + 1) _ (by omega) hr)
    unfold scan_loop at h
    split at h
    · dsimp only at h
      split at h
      · cases Option.some.inj h
        exact stats_grow_mono 1 (f + 1) _ _ (by omega) hb
      · have hr1 := stats_room_grow 1 f _ _ (by rw [Nat.add_comm]; exact hr) hb
        have := stats_grow_trans 1 f _ _ _ hb (ih _ _ h hr1)
        rw [Nat.add_comm] at this
        exact this
    · cases Option.some.inj h
      exact stats_grow_mono 0 (f + 1) _ _ (by omega) (stats_grow_refl _)

/-- The statistics after one pass of the loop that dequeues. -/
theorem dequeue_body_stats {σ : Type} (E : bp_env_t σ) (sysnow : Nat) (store_handle : Int)
    (timeout : Int) (s : bp_load_state_t σ) (hr : stats_room 1 s.ch.stats) :
    stats_grow 1 s.ch.stats (dequeue_body E sysnow store_handle timeout s).1.ch.stats := by
  unfold stats_room at hr
  unfold dequeue_body
  split
  · split <;> simp only [stats_grow, stats_le, incr_expired, incr32, UINT32_MOD] at * <;> omega
  · simp only [stats_grow, stats_le] at *
    omega
  · simp only [stats_grow, stats_le] at *
    omega

/-- The statistics after the loop that dequeues from the bundle store. -/
theorem dequeue_loop_stats {σ : Type} (E : bp_env_t σ) (sysnow : Nat) (store_handle : Int)
    (timeout : Int) :
    ∀ (fuel : Nat) (s s1 : bp_load_state_t σ),
      dequeue_loop E sysnow store_handle timeout fuel s = some s1 →
      stats_room fuel s.ch.stats → stats_grow fuel s.ch.stats s1.ch.stats := by
  intro fuel
  induction fuel with
  | zero =>
    intro s s1 h _
    unfold dequeue_loop at h
    split at h
    · simp at h
    · cases Option.some.inj h
      exact stats_grow_refl _
  | succ f ih =>
    intro s s1 h hr
    have hb := dequeue_body_stats E sysnow store_handle timeout s
      (stats_room_mono 1 (f + 1) _ (by omega) hr)
    unfold dequeue_loop at h
    split at h
    · dsimp only at h
      split at h
      · cases Option.some.inj h
        exact stats_grow_mono 1 (f + 1) _ _ (by omega) hb
      · have hr1 := stats_room_grow 1 f _ _ (by rw [Nat.add_comm]; exact hr) hb
        have := stats_grow_trans 1 f _ _ _ hb (ih _ _ h hr1)
        rw [Nat.add_comm] at this
        exact this
    · cases Option.some.inj h
      exact stats_grow_mono 0 (f + 1) _ _ (by omega) (stats_grow_refl _)

/-- The statistics after the load section and the update of `active`. -/
theorem load_bundle_stats {σ : Type} (E : bp_env_t σ) (a : bp_load_args_t)
    (store_handle : Int) (s : bp_load_state_t σ) (s0 : bp_stats_t) (he : s.ch.stats = s0)
    (hr : stats_room 1 s0) :
    stats_grow 1 s0 (update_active (load_bundle E a store_handle s)).ch.stats := by
  subst he
  unfold stats_room at hr
  unfold update_active load_bundle
  split
  · simp only [stats_grow, stats_le] at *
    omega
  · split
    · split
      · dsimp only
        split
        · unfold assign_custody
          split <;>
            simp only [stats_grow, stats_le, incr_transmitted, set_retx, incr_current, set_sid,
              incr32, UINT32_MOD] at * <;> omega
        · simp only [stats_grow, stats_le, incr_transmitted, incr32, UINT32_MOD] at *
          omega
      · simp only [stats_grow, stats_le, incr_lost, incr32, UINT32_MOD] at *
        omega
    · simp only [stats_grow, stats_le, incr_lost, incr32, UINT32_MOD] at *
      omega

/-- The statistics after one call of `bplib_load`. -/
theorem load_stats {σ : Type} (E : bp_env_t σ) (ch : bp_channel_t) (env : σ)
    (a : bp_load_args_t) (r : bp_load_result_t σ) (h : bplib_load E ch env a = some r)
    (hr : stats_room (2 * a.fuel + 1) ch.stats) :
    stats_grow (2 * a.fuel + 1) ch.stats r.ch.stats := by
  unfold bplib_load at h
  dsimp only at h
  split at h
  · cases Option.some.inj h
    exact stats_grow_mono 1 _ _ _ (by omega)
      (load_bundle_stats E a _ _ _ rfl (stats_room_mono 1 _ _ (by omega) hr))
  · unfold load_data_bundle at h
    dsimp only at h
    split at h
    · simp at h
    · rename_i s hs
      cases Option.some.inj h
      split at hs
      · simp at hs
      · rename_i s1 hs1
        have g1 := scan_loop_stats E a.sysnow _ a.fuel _ _ hs1
          (stats_room_mono a.fuel _ _ (by omega) hr)
        have r1 : stats_room (a.fuel + 1) s1.ch.stats :=
          stats_room_grow a.fuel (a.fuel + 1) _ _ (by
            have : a.fuel + (a.fuel + 1) = 2 * a.fuel + 1 := by omega
            rw [this]; exact hr) g1
        have g2 := dequeue_loop_stats E a.sysnow _ a.timeout a.fuel _ _ hs
          (stats_room_mono a.fuel _ _ (by omega) r1)
        have r2 : stats_room 1 s.ch.stats :=
          stats_room_grow a.fuel 1 _ _ r1 g2
        have g3 := load_bundle_stats E a ch.bundle_store_handle s _ rfl r2
        have g := stats_grow_trans _ _ _ _ _ (stats_grow_trans _ _ _ _ _ g1 g2) g3
        have e : a.fuel + a.fuel + 1 = 2 * a.fuel + 1 := by omega
        rw [e] at g
        exact g

/-- The statistics after one call of `bplib_store`. -/
theorem store_stats {σ : Type} (L : bp_lib_t σ) (st : bp_chan_t) (env : σ) (payload : List Nat)
    (size timeout : Int) (storflags : Nat) (hr : stats_room 1 st.ch.stats) :
    stats_le st.ch.stats (bplib_store L st env payload size timeout storflags).st.ch.stats := by
  unfold stats_room at hr
  unfold bplib_store
  dsimp only
  split <;> simp only [stats_le, incr_generated, incr32, UINT32_MOD] at * <;> omega

/-- The statistics after one call of `bplib_process`. -/
theorem process_stats {σ : Type} (L : bp_lib_t σ) (st : bp_chan_t) (env : σ)
    (bundle : List Nat) (size timeout : Int) (sysnow : Nat) (procflags : Nat)
    (hr : stats_room (1 + process_acks L st env bundle size timeout sysnow) st.ch.stats) :
    stats_le st.ch.stats
      (bplib_process L st env bundle size timeout sysnow procflags).st.ch.stats := by
  unfold stats_room process_acks at hr
  unfold bplib_process
  dsimp only at hr ⊢
  by_cases h1 : (L.bundle_receive env st.bundle bundle size sysnow timeout).status = BP_EXPIRED
  · rw [if_pos h1]
    simp only [stats_le, incr_expired, incr_received, incr32, UINT32_MOD] at *
    omega
  · rw [if_neg h1]
    by_cases h2 : (L.bundle_receive env st.bundle bundle size sysnow timeout).status
        = L.codes.BP_PENDINGCUSTODYTRANSFER
    · rw [if_pos h2]
      rw [if_pos ⟨h1, h2⟩] at hr
      unfold process_dacs
      dsimp only
      split
      · simp only [stats_le, add_acknowledged, incr_received, incr32, UINT32_MOD] at *
        omega
      · simp only [stats_le, incr_received, incr32, UINT32_MOD] at *
        omega
    · rw [if_neg h2]
      rw [if_neg (fun h => h2 h.2)] at hr
      split
      · unfold process_cteb
        dsimp only
        split <;> simp only [stats_le, incr_received, incr32, UINT32_MOD] at * <;> omega
      · simp only [stats_le, incr_received, incr32, UINT32_MOD] at *
        omega

/-- The statistics after one call of `bplib_accept`. -/
theorem accept_stats {σ : Type} (L : bp_lib_t σ) (st : bp_chan_t) (env : σ)
    (a : bp_accept_args_t) (hr : stats_room 1 st.ch.stats) :
    stats_le st.ch.stats (bplib_accept L st env a).st.ch.stats := by
  unfold stats_room at hr
  rcases accept_cases L st env a with ⟨_, _, _, _, h⟩ | ⟨_, h | h⟩ <;> rw [h] <;>
    simp only [stats_le, incr_delivered, incr_lost, incr32, UINT32_MOD] at * <;> omega

/-- C21: no call of `bplib_store`, `bplib_load`, `bplib_process`,
`bplib_accept` or `bplib_latchstats` that returns decreases one of the
counters lost, expired, acknowledged, transmitted, retransmitted, received,
generated and delivered, when no one of them is so near 2^32 that what the
call can add to it makes it wrap around. -/
theorem C21_counters_monotonic {σ : Type} (L : bp_lib_t σ) (st : bp_chan_t) (env : σ)
    (c : bp_call_t) (r : bp_chan_t × σ) (hcall : api_call L st env c = some r)
    (hroom : stats_room (call_room L st env c) st.ch.stats) :
    stats_le st.ch.stats r.1.ch.stats := by
  cases c with
  | store payload size timeout storflags =>
    cases Option.some.inj hcall
    exact store_stats L st env payload size timeout storflags hroom
  | load a =>
    have hcall1 : (bplib_load L.store st.ch env a).map
        (fun r => (({ st with ch := r.ch } : bp_chan_t), r.env)) = some r := hcall
    cases hx : bplib_load L.store st.ch env a with
    | none =>
      rw [hx] at hcall1
      simp at hcall1
    | some x =>
      rw [hx] at hcall1
      cases Option.some.inj hcall1
      exact (load_stats L.store st.ch env a x hx hroom).1
  | process bundle size timeout sysnow procflags =>
    cases Option.some.inj hcall
    exact process_stats L st env bundle size timeout sysnow procflags hroom
  | accept a =>
    cases Option.some.inj hcall
    exact accept_stats L st env a hroom
  | latchstats =>
    cases Option.some.inj hcall
    unfold bplib_latchstats
    simp only [stats_le]
    omega

/-- A call of `bplib_load` on the sample channel, with fuel 8: the channel has
room and `transmitted` goes from 0 to 1. -/
theorem C21_witness :
    ∃ r, api_call sample_lib sample_chan () (bp_call_t.load (load_at 0).2) = some r ∧
      stats_room (call_room sample_lib sample_chan () (bp_call_t.load (load_at 0).2))
        sample_chan.ch.stats ∧
      stats_le sample_chan.ch.stats r.1.ch.stats :=
  have hroom : stats_room (call_room sample_lib sample_chan () (bp_call_t.load (load_at 0).2))
      sample_chan.ch.stats := by
    unfold stats_room
    decide
  match h : api_call sample_lib sample_chan () (bp_call_t.load (load_at 0).2) with
  | some r => ⟨r, rfl, hroom, C21_counters_monotonic sample_lib sample_chan () _ r h hroom⟩
  | none => absurd
      (show (api_call sample_lib sample_chan () (bp_call_t.load (load_at 0).2)).isSome = true
        by decide)
      (by rw [h]; decide)

end Bplib

namespace Bplib

/-! ## The calls of one bplib_load in their order -/

/-- A sequence of calls that does not take the lock, started without the lock:
no call is made under the lock and the lock is not held at the end. -/
theorem under_lock_free (l : bp_lock_t) :
    ∀ es : List bp_event_t, (∀ e ∈ es, e ≠ bp_event_t.lock l) →
      under_lock l false es = [] ∧ held_after l false es = false := by
  intro es
  induction es with
  | nil => intro _; exact ⟨rfl, rfl⟩
  | cons e es ih =>
    intro h
    have he : e ≠ bp_event_t.lock l := h e (List.mem_cons_self _ _)
    have ht := ih (fun x hx => h x (List.mem_cons_of_mem _ hx))
    unfold under_lock held_after
    rw [if_neg he, if_neg he]
    by_cases hu : e = bp_event_t.unlock l
    · rw [if_pos hu, if_pos hu]
      exact ht
    · rw [if_neg hu, if_neg hu]
      simp only [Bool.false_eq_true, if_false]
      exact ht

/-- The wrap response does not take the DACS lock. -/
theorem wrap_response_events_free {σ : Type} (E : bp_env_t σ) (store_handle : Int)
    (s : bp_load_state_t σ) :
    ∀ e ∈ wrap_response_events E store_handle s,
      e ≠ bp_event_t.lock bp_lock_t.dacs_bundle_lock := by
  intro e he
  unfold wrap_response_events at he
  split at he
  · split at he <;> simp at he <;> rcases he with he | he <;> subst he <;> simp
  · simp at he
    subst he
    simp
  · simp at he
    subst he
    simp

/-- One pass of the scan does not take the DACS lock. -/
theorem scan_body_events_free {σ : Type} (E : bp_env_t σ) (sysnow : Nat) (store_handle : Int)
    (s : bp_load_state_t σ) :
    ∀ e ∈ scan_body_events E sysnow store_handle s,
      e ≠ bp_event_t.lock bp_lock_t.dacs_bundle_lock := by
  intro e he
  unfold scan_body_events at he
  dsimp only at he
  split at he
  · simp at he
  · rcases List.mem_cons.mp he with he | he
    · subst he
      simp
    · split at he
      · unfold scan_retrieved_events at he
        split at he
        · simp at he
          subst he
          simp
        · split at he
          · simp at he
          · unfold still_active_events at he
            dsimp only at he
            split at he
            · exact wrap_response_events_free E store_handle _ e he
            · simp at he
      · simp at he
        subst he
        simp

/-- The scan of the active table does not take the DACS lock. -/
theorem scan_loop_events_free {σ : Type} (E : bp_env_t σ) (sysnow : Nat) (store_handle : Int) :
    ∀ (fuel : Nat) (s : bp_load_state_t σ),
      ∀ e ∈ scan_loop_events E sysnow store_handle fuel s,
        e ≠ bp_event_t.lock bp_lock_t.dacs_bundle_lock := by
  intro fuel
  induction fuel with
  | zero =>
    intro s e he
    simp [scan_loop_events] at he
  | succ f ih =>
    intro s e he
    unfold scan_loop_events at he
    split at he
    · dsimp only at he
      rcases List.mem_append.mp he with he | he
      · exact scan_body_events_free E sysnow store_handle s e he
      · split at he
        · simp at he
        · exact ih _ e he
    · simp at he

/-- The loop that dequeues does not take the DACS lock. -/
theorem dequeue_loop_events_free {σ : Type} (E : bp_env_t σ) (sysnow : Nat)
    (store_handle : Int) (timeout : Int) :
    ∀ (fuel : Nat) (s : bp_load_state_t σ),
      ∀ e ∈ dequeue_loop_events E sysnow store_handle timeout fuel s,
        e ≠ bp_event_t.lock bp_lock_t.dacs_bundle_lock := by
  intro fuel
  induction fuel with
  | zero =>
    intro s e he
    simp [dequeue_loop_events] at he
  | succ f ih =>
    intro s e he
    unfold dequeue_loop_events at he
    split at he
    · dsimp only at he
      rcases List.mem_append.mp he with he | he
      · unfold dequeue_body_events at he
        rcases List.mem_cons.mp he with he | he
        · subst he
          simp
        · split at he
          · split at he
            · simp at he
              subst he
              simp
            · simp at he
          · simp at he
          · simp at he
      · split at he
        · simp at he
        · exact ih _ e he
    · simp at he

/-- The load section does not take the DACS lock. -/
theorem load_bundle_events_free {σ : Type} (a : bp_load_args_t) (store_handle : Int)
    (s : bp_load_state_t σ) :
    ∀ e ∈ load_bundle_events a store_handle s,
      e ≠ bp_event_t.lock bp_lock_t.dacs_bundle_lock := by
  intro e he
  unfold load_bundle_events at he
  rcases List.mem_append.mp he with he | he
  · rcases List.mem_append.mp he with he | he
    · simp at he
      subst he
      simp
    · split at he
      · simp at he
      · split at he
        · split at he
          · rcases List.mem_append.mp he with he | he
            · split at he
              · simp at he
                subst he
                simp
              · simp at he
            · split at he
              · simp at he
                subst he
                simp
              · simp at he
          · simp at he
            subst he
            simp
        · simp at he
          subst he
          simp
  · simp at he
    subst he
    simp

/-- After the DACS lock is released `bplib_load` does not take it again. -/
theorem load_rest_events_free {σ : Type} (E : bp_env_t σ) (ch : bp_channel_t) (env : σ)
    (a : bp_load_args_t) :
    ∀ e ∈ load_rest_events E ch env a, e ≠ bp_event_t.lock bp_lock_t.dacs_bundle_lock := by
  intro e he
  unfold load_rest_events at he
  dsimp only at he
  split at he
  · exact load_bundle_events_free a _ _ e he
  · unfold load_data_events at he
    rcases List.mem_append.mp he with he | he
    · rcases List.mem_append.mp he with he | he
      · simp at he
        subst he
        simp
      · exact scan_loop_events_free E _ _ _ _ e he
    · split at he
      · simp at he
      · rcases List.mem_append.mp he with he | he
        · rcases List.mem_append.mp he with he | he
          · simp at he
            subst he
            simp
          · exact dequeue_loop_events_free E _ _ _ _ _ e he
        · split at he
          · simp at he
          · exact load_bundle_events_free a _ _ e he

/-- C27: on every path of `bplib_load` the calls are: the DACS lock is taken,
`dacs_check` and the `dequeue` of the DACS store are called with `BP_CHECK`,
the DACS lock is released, and the rest of the calls (the scan with its
`bplib_os_waiton`, the `dequeue` with the caller's timeout, the load section)
follows without taking the DACS lock again.  So the only calls under the DACS
lock are the two polls, none of them waits, and the lock is not held at the
end. -/
theorem C27_no_wait_under_dacs_lock {σ : Type} (E : bp_env_t σ) (ch : bp_channel_t) (env : σ)
    (a : bp_load_args_t) :
    load_events E ch env a =
      bp_event_t.lock bp_lock_t.dacs_bundle_lock :: bp_event_t.dacs_check BP_CHECK ::
        bp_event_t.dequeue ch.dacs_store_handle BP_CHECK ::
        bp_event_t.unlock bp_lock_t.dacs_bundle_lock :: load_rest_events E ch env a ∧
    (∀ e ∈ load_rest_events E ch env a, e ≠ bp_event_t.lock bp_lock_t.dacs_bundle_lock) ∧
    under_lock bp_lock_t.dacs_bundle_lock false (load_events E ch env a) =
      [bp_event_t.dacs_check BP_CHECK, bp_event_t.dequeue ch.dacs_store_handle BP_CHECK] ∧
    (∀ e ∈ under_lock bp_lock_t.dacs_bundle_lock false (load_events E ch env a),
      may_block e = false) ∧
    held_after bp_lock_t.dacs_bundle_lock false (load_events E ch env a) = false := by
  have hfree := load_rest_events_free E ch env a
  obtain ⟨h1, h2⟩ := under_lock_free bp_lock_t.dacs_bundle_lock _ hfree
  have hu : under_lock bp_lock_t.dacs_bundle_lock false (load_events E ch env a) =
      [bp_event_t.dacs_check BP_CHECK, bp_event_t.dequeue ch.dacs_store_handle BP_CHECK] := by
    unfold load_events check_dacs_events
    simp [under_lock, h1]
  refine ⟨rfl, hfree, hu, ?_, ?_⟩
  · intro e he
    rw [hu] at he
    simp at he
    rcases he with he | he <;> subst he <;> simp [may_block]
  · unfold load_events check_dacs_events
    simp [held_after, h2]

/-- The calls of a load on a full table of 2 slots with the wrap response
RESEND: the wait on the active-table signal comes after the DACS lock is
released, under the lock of the active table. -/
theorem load_events_full_table :
    load_events endless_env
      (active_channel 2 10 bp_wrap_t.BP_WRAP_RESEND 0 [1, 1] 0 2) () (load_at 0).2 =
    [bp_event_t.lock bp_lock_t.dacs_bundle_lock, bp_event_t.dacs_check 0,
      bp_event_t.dequeue 1 0, bp_event_t.unlock bp_lock_t.dacs_bundle_lock,
      bp_event_t.lock bp_lock_t.active_table_signal, bp_event_t.retrieve 2 1 0,
      bp_event_t.retrieve 2 1 0, bp_event_t.waiton bp_lock_t.active_table_signal,
      bp_event_t.unlock bp_lock_t.active_table_signal,
      bp_event_t.lock bp_lock_t.active_table_signal, bp_event_t.sdnv_write,
      bp_event_t.unlock bp_lock_t.active_table_signal] := by
  decide

end Bplib

namespace RhHash

/-! ## rh_hash_clear and the counters -/

/-- A slot whose `next` link is the slot itself: the walk stays there. -/
theorem next_steps_loop (t : Nat → rh_hash_node_t) (i : Nat) (h : (t i).next = i) :
    ∀ n, next_steps t n i = i := by
  intro n
  induction n with
  | zero => rfl
  | succ n ih =>
    show next_steps t n (t i).next = i
    rw [h]
    exact ih

/-- C33, evaluated at its failing input: the first `rh_hash_add` on a table of
size 4 (key 1, natural slot 1) writes `table[NULL_INDEX].after`: the cell at
index `NULL_INDEX` = 65535, far beyond the 4 allocated slots, held 0 in its
`after` field before the call and holds the slot number 1 after it. -/
theorem C33_first_add_writes_null_index :
    (created 4).size = 4 ∧ NULL_INDEX types16 = 65535 ∧
    (created 4).newest_entry = NULL_INDEX types16 ∧
    ((created 4).table (NULL_INDEX types16)).after = 0 ∧
    (rh_hash_add types16 (created 4) 1 100 false).map
      (fun r => (r.1, (r.2.table (NULL_INDEX types16)).after, r.2.newest_entry))
    = some (rh_status_t.RH_SUCCESS, 1, 1) := by
  refine ⟨by decide, by decide, by decide, by decide, by decide⟩

/-- C34, evaluated at its failing input: on a table of size 4, after add of
key 1 (`RH_SUCCESS`), `num_entries` is still 0; `rh_hash_clear` returns
`RH_SUCCESS` and leaves slot 1 non-empty, and `rh_hash_get` of key 1 still
returns `RH_SUCCESS` with the data 100. -/
theorem C34_clear_leaves_entries :
    (rh_hash_add types16 (created 4) 1 100 false).map
      (fun r => (r.1, r.2.num_entries, (r.2.table 1).chain))
    = some (rh_status_t.RH_SUCCESS, 0, 1) ∧
    (rh_hash_add types16 (created 4) 1 100 false).map
      (fun r => ((rh_hash_clear r.2).1, ((rh_hash_clear r.2).2.table 1).chain))
    = some (rh_status_t.RH_SUCCESS, 1) ∧
    (rh_hash_add types16 (created 4) 1 100 false).map
      (fun r => rh_hash_get types16 (rh_hash_clear r.2).2 1)
    = some (some (rh_status_t.RH_SUCCESS, some 100)) := by
  refine ⟨by decide, by decide, by decide⟩

/-- C35, evaluated at its failing input: on a table of size 4, after add of
key 1 one slot is non-empty and `num_entries` is 0; after the further remove
of key 1 no slot is non-empty and `num_entries` is 65535, the decrement of 0
in the index type, which exceeds the size 4. -/
theorem C35_num_entries_not_counted :
    (run_ops types16 (created 4) [rh_op_t.add 1 100 false]).map
      (fun r => (r.1, count_entries r.2, r.2.num_entries))
    = some ([rh_status_t.RH_SUCCESS], 1, 0) ∧
    (run_ops types16 (created 4) [rh_op_t.add 1 100 false, rh_op_t.remove 1]).map
      (fun r => (r.1, count_entries r.2, r.2.num_entries, r.2.size))
    = some ([rh_status_t.RH_SUCCESS, rh_status_t.RH_SUCCESS], 0, 65535, 4) := by
  refine ⟨by decide, by decide⟩

/-- C37, evaluated at its failing input: on a table of size 3, after add 0,
add 7, add 8 (natural slot 0 for all three), remove 0, add 1, add 0 (all
`RH_SUCCESS`), the `next` link of slot 2 is slot 2 itself and the non-empty
slot 0 links to slot 2, so the walk from slot 0 is at slot 2 after every
number of steps from 1 on and never at `NULL_INDEX`; `get_node` of key 15 (natural slot 0, not
stored in slots 0 and 2) does not end, and neither do `rh_hash_get` and
`rh_hash_remove` of that key. -/
theorem C37_next_links_cycle :
    (run_ops types16 (created 3)
        [rh_op_t.add 0 100 false, rh_op_t.add 7 101 false, rh_op_t.add 8 102 false,
         rh_op_t.remove 0, rh_op_t.add 1 103 false, rh_op_t.add 0 104 false]).map
      (fun r => (r.1, (r.2.table 0).chain, (r.2.table 0).next, (r.2.table 2).next))
    = some (List.replicate 6 rh_status_t.RH_SUCCESS, 1, 2, 2) ∧
    (∀ n, next_steps (table_after types16 (created 3)
        [rh_op_t.add 0 100 false, rh_op_t.add 7 101 false, rh_op_t.add 8 102 false,
         rh_op_t.remove 0, rh_op_t.add 1 103 false, rh_op_t.add 0 104 false]).table (n + 1) 0
      = 2 ∧ 2 ≠ NULL_INDEX types16) ∧
    (run_ops types16 (created 3)
        [rh_op_t.add 0 100 false, rh_op_t.add 7 101 false, rh_op_t.add 8 102 false,
         rh_op_t.remove 0, rh_op_t.add 1 103 false, rh_op_t.add 0 104 false]).map
      (fun r => (hash_key 15 % r.2.size, (r.2.table 0).key, (r.2.table 2).key))
    = some (0, 7, 0) ∧
    (run_ops types16 (created 3)
        [rh_op_t.add 0 100 false, rh_op_t.add 7 101 false, rh_op_t.add 8 102 false,
         rh_op_t.remove 0, rh_op_t.add 1 103 false, rh_op_t.add 0 104 false]).map
      (fun r => (get_node types16 r.2 15, rh_hash_get types16 r.2 15,
        (rh_hash_remove types16 r.2 15).map (fun x => x.1)))
    = some (none, none, none) := by
  refine ⟨by decide, ?_, by decide, by decide⟩
  intro n
  refine ⟨?_, by decide⟩
  have h0 : ((table_after types16 (created 3)
      [rh_op_t.add 0 100 false, rh_op_t.add 7 101 false, rh_op_t.add 8 102 false,
       rh_op_t.remove 0, rh_op_t.add 1 103 false, rh_op_t.add 0 104 false]).table 0).next
      = 2 := by decide
  have h2 : ((table_after types16 (created 3)
      [rh_op_t.add 0 100 false, rh_op_t.add 7 101 false, rh_op_t.add 8 102 false,
       rh_op_t.remove 0, rh_op_t.add 1 103 false, rh_op_t.add 0 104 false]).table 2).next
      = 2 := by decide
  show next_steps _ n _ = 2
  rw [h0]
  exact next_steps_loop _ 2 h2 n

/-- C38: when `rh_hash_get` of a key returns `RH_KEY_NOT_FOUND`,
`rh_hash_remove` of the key returns `RH_KEY_NOT_FOUND` and the table after the
call is the table before it, in every slot, link and attribute. -/
theorem C38_remove_absent_key (P : rh_types_t) (h : rh_hash_t) (key : Nat)
    (hget : rh_hash_get P h key = some (rh_status_t.RH_KEY_NOT_FOUND, none)) :
    rh_hash_remove P h key = some (rh_status_t.RH_KEY_NOT_FOUND, h) := by
  unfold rh_hash_get at hget
  unfold rh_hash_remove
  cases hg : get_node P h key with
  | none =>
    rw [hg] at hget
    simp at hget
  | some index =>
    rw [hg] at hget
    dsimp only at hget ⊢
    by_cases hi : index ≠ NULL_INDEX P
    · rw [if_pos hi] at hget
      simp at hget
    · rw [if_neg hi]

/-- C38 on the table of size 3 that holds the keys 0 and 7 in the chain of
slot 0: key 8 has natural slot 0 and is not stored. -/
theorem C38_witness :
    rh_hash_get types16
      (table_after types16 (created 3) [rh_op_t.add 0 100 false, rh_op_t.add 7 101 false]) 8
      = some (rh_status_t.RH_KEY_NOT_FOUND, none) ∧
    rh_hash_remove types16
      (table_after types16 (created 3) [rh_op_t.add 0 100 false, rh_op_t.add 7 101 false]) 8
      = some (rh_status_t.RH_KEY_NOT_FOUND,
        table_after types16 (created 3) [rh_op_t.add 0 100 false, rh_op_t.add 7 101 false]) :=
  ⟨by decide, C38_remove_absent_key types16 _ 8 (by decide)⟩

end RhHash

namespace Bplib

/-! ## Well-formed endpoint ids -/

theorem drop_takeWhile_length (p : Nat → Bool) (s : List Nat) :
    s.drop (s.takeWhile p).length = s.dropWhile p := by
  induction s with
  | nil => rfl
  | cons a s ih =>
    by_cases h : p a = true
    · simp [List.takeWhile, List.dropWhile, h, ih]
    · simp [List.takeWhile, List.dropWhile, h]

/-- When `strtoul` moves `endptr`, the string begins with a number. -/
theorem strtoul_number_start (L : c_limits_t) (s : List Nat) (h : (strtoul L s).2.1 ≠ 0) :
    number_start s = true := by
  unfold strtoul at h
  simp only [drop_takeWhile_length] at h
  unfold number_start
  cases hs : s.dropWhile isspace with
  | nil =>
    rw [hs] at h
    simp at h
  | cons c r =>
    rw [hs] at h
    dsimp only
    by_cases hc : c = 43 ∨ c = 45
    · rw [if_pos hc]
      have hsg : (some c = some 45 ∨ some c = some 43) := by
        rcases hc with hc | hc
        · exact Or.inr (by rw [hc])
        · exact Or.inl (by rw [hc])
      simp only [List.head?_cons, if_pos hsg, List.drop_succ_cons, List.drop_zero] at h
      cases r with
      | nil => simp at h
      | cons d r2 =>
        dsimp only
        by_cases hd : isdigit d = true
        · exact hd
        · simp [List.takeWhile, hd] at h
    · rw [if_neg hc]
      have hsg : ¬ (some c = some 45 ∨ some c = some 43) := by
        intro h1
        apply hc
        rcases h1 with h1 | h1
        · exact Or.inr (Option.some.inj h1)
        · exact Or.inl (Option.some.inj h1)
      simp only [List.head?_cons, if_neg hsg, List.drop_zero] at h
      by_cases hd : isdigit c = true
      · exact hd
      · simp [List.takeWhile, hd] at h

/-- A string that begins with a number before its terminator begins with a
number. -/
theorem number_start_terminated (l : List Nat) (h : number_start (l ++ [0]) = true) :
    number_start l = true := by
  induction l with
  | nil => exact absurd h (by decide)
  | cons a l ih =>
    by_cases ha : isspace a = true
    · have e1 : number_start (a :: l ++ [0]) = number_start (l ++ [0]) := by
        unfold number_start
        simp [List.dropWhile, ha]
      have e2 : number_start (a :: l) = number_start l := by
        unfold number_start
        simp [List.dropWhile, ha]
      rw [e2]
      apply ih
      rw [← e1]
      exact h
    · unfold number_start at h ⊢
      simp only [List.cons_append, List.dropWhile, ha] at h ⊢
      by_cases hc : a = 43 ∨ a = 45
      · rw [if_pos hc] at h ⊢
        cases l with
        | nil => exact absurd h (by decide)
        | cons d l2 => exact h
      · rw [if_neg hc] at h ⊢
        exact h

theorem eid_bytes_length (eid : Nat → Nat) (a n : Nat) : (eid_bytes eid a n).length = n := by
  simp [eid_bytes]

theorem eid_bytes_add (eid : Nat → Nat) (a k m : Nat) :
    eid_bytes eid a (k + m) = eid_bytes eid a k ++ eid_bytes eid (a + k) m := by
  unfold eid_bytes
  rw [List.range_add, List.map_append, List.map_map]
  congr 1
  apply List.map_congr_left
  intro i _
  simp [Nat.add_assoc]

theorem eid_bytes_succ (eid : Nat → Nat) (a m : Nat) :
    eid_bytes eid a (m + 1) = eid a :: eid_bytes eid (a + 1) m := by
  have h := eid_bytes_add eid a 1 m
  rw [Nat.add_comm 1 m] at h
  rw [h]
  simp [eid_bytes, List.range_succ]

/-- The temporary buffer split at the offset `k` of a character of the
string. -/
theorem eidtmp_split (eid : Nat → Nat) (n k : Nat) (hk : k < n) :
    eidtmp eid n =
      eid_bytes eid 4 k ++ eid (4 + k) :: (eid_bytes eid (4 + k + 1) (n - k - 1) ++ [0]) := by
  have e : n = k + ((n - k - 1) + 1) := by omega
  have h1 : eidtmp eid n = eid_bytes eid 4 n ++ [0] := rfl
  rw [h1]
  conv_lhs => rw [e]
  rw [eid_bytes_add, eid_bytes_succ]
  simp

/-- What `strchr` finds: the first occurrence of the character, with no
terminator before it. -/
theorem strchr_some (c : Nat) :
    ∀ (l : List Nat) (k : Nat), strchr l c = some k →
      k < l.length ∧ l.getD k 0 = c ∧ ∀ j, j < k → l.getD j 0 ≠ c ∧ l.getD j 0 ≠ 0 := by
  intro l
  induction l with
  | nil =>
    intro k h
    simp [strchr] at h
  | cons x xs ih =>
    intro k h
    unfold strchr at h
    by_cases hx : x = c
    · rw [if_pos hx] at h
      cases Option.some.inj h
      exact ⟨by simp, by simp [hx], fun j hj => absurd hj (by omega)⟩
    · rw [if_neg hx] at h
      by_cases h0 : x = 0
      · rw [if_pos h0] at h
        simp at h
      · rw [if_neg h0] at h
        cases hr : strchr xs c with
        | none =>
          rw [hr] at h
          simp at h
        | some k1 =>
          rw [hr] at h
          have hk : k = k1 + 1 := (Option.some.inj h).symm
          subst hk
          obtain ⟨a1, a2, a3⟩ := ih k1 hr
          refine ⟨by simp; omega, by simpa using a2, ?_⟩
          intro j hj
          cases j with
          | zero => exact ⟨by simpa using hx, by simpa using h0⟩
          | succ j1 =>
            have := a3 j1 (by omega)
            simpa using this

theorem invalideid_ne_success : bplog BP_INVALIDEID ≠ BP_SUCCESS := by decide

/-- What a successful parse means for the two strings. -/
theorem parse_ipn_success (L : c_limits_t) (node_str service_str : List Nat)
    (out : Option (Nat × Nat)) (h : parse_ipn L node_str service_str = (BP_SUCCESS, out)) :
    number_start node_str = true ∧ number_start service_str = true := by
  unfold parse_ipn at h
  dsimp only at h
  split at h
  · exact absurd (congrArg Prod.fst h) invalideid_ne_success
  · rename_i hn
    split at h
    · exact absurd (congrArg Prod.fst h) invalideid_ne_success
    · rename_i hs
      exact ⟨strtoul_number_start L _ (fun e => hn (Or.inl e)),
        strtoul_number_start L _ (fun e => hs (Or.inl e))⟩

/-- C39, as far as `strtoul` checks a number: whenever `bplib_eid2ipn`
returns `BP_SUCCESS`, `len` is between 7 and 128, the input starts with `ipn:`,
a dot follows the prefix among the `len` characters with no NUL and no other
dot before it, and the characters between the prefix and that dot, as well as
the characters after the dot, begin with a decimal digit after optional white
space and an optional sign (any characters may follow the digits). -/
theorem C39_success_means_prefix_dot_numbers (L : c_limits_t) (eid : Option (Nat → Nat))
    (len : Int) (out : Option (Nat × Nat)) (h : bplib_eid2ipn L eid len = (BP_SUCCESS, out)) :
    ∃ m, eid = some m ∧ 7 ≤ len ∧ len ≤ 128 ∧
      m 0 = 105 ∧ m 1 = 112 ∧ m 2 = 110 ∧ m 3 = 58 ∧
      ∃ k, k < (len - 4).toNat ∧ m (4 + k) = 46 ∧
        (∀ j, j < k → m (4 + j) ≠ 46 ∧ m (4 + j) ≠ 0) ∧
        number_start (eid_bytes m 4 k) = true ∧
        number_start (eid_bytes m (4 + k + 1) ((len - 4).toNat - k - 1)) = true := by
  cases eid with
  | none => exact absurd (congrArg Prod.fst h) invalideid_ne_success
  | some m =>
    unfold bplib_eid2ipn at h
    dsimp only at h
    split at h
    · exact absurd (congrArg Prod.fst h) invalideid_ne_success
    · rename_i h7
      split at h
      · exact absurd (congrArg Prod.fst h) invalideid_ne_success
      · rename_i h128
        split at h
        · exact absurd (congrArg Prod.fst h) invalideid_ne_success
        · rename_i hpre
          split at h
          · exact absurd (congrArg Prod.fst h) invalideid_ne_success
          · rename_i k hk
            obtain ⟨k1, k2, k3⟩ := strchr_some 46 _ k hk
            have hall : eidtmp m (len - 4).toNat = eid_bytes m 4 (len - 4).toNat ++ [0] := rfl
            have hkn : k < (len - 4).toNat := by
              rcases Nat.lt_or_ge k (len - 4).toNat with hlt | hge
              · exact hlt
              · have hlen : (eidtmp m (len - 4).toNat).length = (len - 4).toNat + 1 := by
                  simp [eidtmp]
                have hk_eq : k = (len - 4).toNat := by omega
                rw [hall, hk_eq, List.getD_append_right _ _ _ _
                  (by rw [eid_bytes_length])] at k2
                simp [eid_bytes_length] at k2
            have hsplit := eidtmp_split m (len - 4).toNat k hkn
            have hget : ∀ j, j ≤ k → (eidtmp m (len - 4).toNat).getD j 0 = m (4 + j) := by
              intro j hj
              rw [hall, List.getD_append _ _ _ _ (by rw [eid_bytes_length]; omega)]
              have hjn : j < (len - 4).toNat := by omega
              simp [eid_bytes, List.getD_eq_getElem?_getD, List.getElem?_range hjn]
            have htake : (eidtmp m (len - 4).toNat).take k = eid_bytes m 4 k := by
              rw [hsplit, List.take_left' (eid_bytes_length m 4 k)]
            have hdrop : (eidtmp m (len - 4).toNat).drop (k + 1)
                = eid_bytes m (4 + k + 1) ((len - 4).toNat - k - 1) ++ [0] := by
              rw [hsplit]
              have e : eid_bytes m 4 k ++ m (4 + k) ::
                  (eid_bytes m (4 + k + 1) ((len - 4).toNat - k - 1) ++ [0])
                  = (eid_bytes m 4 k ++ [m (4 + k)]) ++
                    (eid_bytes m (4 + k + 1) ((len - 4).toNat - k - 1) ++ [0]) := by simp
              rw [e, List.drop_left' (by simp [eid_bytes_length])]
            rw [htake, hdrop] at h
            obtain ⟨p1, p2⟩ := parse_ipn_success L _ _ out h
            have hp : m 0 = 105 ∧ m 1 = 112 ∧ m 2 = 110 ∧ m 3 = 58 := by
              refine ⟨?_, ?_, ?_, ?_⟩ <;> · by_contra hne; exact hpre (by simp [hne])
            refine ⟨m, rfl, by omega, by simpa [BP_MAX_EID_STRING] using h128, hp.1, hp.2.1,
              hp.2.2.1, hp.2.2.2, k, hkn, ?_, ?_, number_start_terminated _ p1,
              number_start_terminated _ p2⟩
            · rw [← hget k (Nat.le_refl k)]
              exact k2
            · intro j hj
              rw [← hget j (by omega)]
              exact k3 j hj

/-- C39 at the string `ipn:42.7` with `len = 8`. -/
theorem C39_witness :
    ∃ m, some (cstring [105, 112, 110, 58, 52, 50, 46, 55]) = some m ∧ (7 : Int) ≤ 8 ∧
      (8 : Int) ≤ 128 ∧ m 0 = 105 ∧ m 1 = 112 ∧ m 2 = 110 ∧ m 3 = 58 ∧
      ∃ k, k < ((8 : Int) - 4).toNat ∧ m (4 + k) = 46 ∧
        (∀ j, j < k → m (4 + j) ≠ 46 ∧ m (4 + j) ≠ 0) ∧
        number_start (eid_bytes m 4 k) = true ∧
        number_start (eid_bytes m (4 + k + 1) (((8 : Int) - 4).toNat - k - 1)) = true :=
  C39_success_means_prefix_dot_numbers lp64 (some (cstring [105, 112, 110, 58, 52, 50, 46, 55]))
    8 (some (42, 7)) (by decide)

/-- C39 as stated fails: `bplib_eid2ipn` returns `BP_SUCCESS` with node 42 and
service 7 for the 9 characters `ipn:42.7x`, which end in a letter, and for the
11 characters `ipn: +42.-7`, which hold a blank and signs; the service of the
second is the negation of 7 in `unsigned long`, cut to 32 bits. -/
theorem C39_trailing_characters_accepted :
    bplib_eid2ipn lp64 (some (cstring [105, 112, 110, 58, 52, 50, 46, 55, 120])) 9
      = (BP_SUCCESS, some (42, 7)) ∧
    bplib_eid2ipn lp64 (some (cstring [105, 112, 110, 58, 32, 43, 52, 50, 46, 45, 55])) 11
      = (BP_SUCCESS, some (42, 4294967289)) := by
  refine ⟨by decide, by decide⟩

end Bplib

namespace Bplib

/-! ## The frame of a load -/

theorem wrap_response_frame {σ : Type} (E : bp_env_t σ) (store_handle : Int)
    (s : bp_load_state_t σ) (ch0 : bp_channel_t) (h : load_frame ch0 s.ch) :
    load_frame ch0 (wrap_response E store_handle s).ch := by
  unfold wrap_response
  dsimp only
  split
  · split <;> exact h
  · exact h
  · exact h

theorem scan_body_frame {σ : Type} (E : bp_env_t σ) (sysnow : Nat) (store_handle : Int)
    (s : bp_load_state_t σ) (ch0 : bp_channel_t) (h : load_frame ch0 s.ch) :
    load_frame ch0 (scan_body E sysnow store_handle s).1.ch := by
  unfold scan_body
  dsimp only
  split
  · exact h
  · split
    · unfold scan_retrieved
      split
      · exact h
      · split
        · split <;> exact h
        · unfold still_active
          dsimp only
          split
          · exact wrap_response_frame E store_handle _ ch0 h
          · exact h
    · exact h

theorem scan_loop_frame {σ : Type} (E : bp_env_t σ) (sysnow : Nat) (store_handle : Int)
    (ch0 : bp_channel_t) (fuel : Nat) (s s1 : bp_load_state_t σ) (h : load_frame ch0 s.ch)
    (hs : scan_loop E sysnow store_handle fuel s = some s1) :
    load_frame ch0 s1.ch :=
  scan_loop_post E sysnow store_handle (fun t => load_frame ch0 t.ch)
    (fun t => load_frame ch0 t.ch)
    (fun t hi _ _ => ⟨fun _ => scan_body_frame E sysnow store_handle t ch0 hi,
      fun _ => scan_body_frame E sysnow store_handle t ch0 hi⟩)
    (fun _ hi _ => hi) fuel s s1 h hs

/-- The loop that dequeues keeps the frame, the active table and `newcid`,
and ends with a bundle or with a status other than `BP_SUCCESS`. -/
theorem dequeue_loop_frame {σ : Type} (E : bp_env_t σ) (sysnow : Nat) (store_handle : Int)
    (timeout : Int) (ch0 : bp_channel_t) :
    ∀ (fuel : Nat) (s s1 : bp_load_state_t σ), load_frame ch0 s.ch →
      dequeue_loop E sysnow store_handle timeout fuel s = some s1 →
      load_frame ch0 s1.ch ∧
      (s1.data = none → s1.status ≠ bp_status_t.BP_SUCCESS) := by
  have hbody : ∀ s : bp_load_state_t σ, load_frame ch0 s.ch →
      load_frame ch0 (dequeue_body E sysnow store_handle timeout s).1.ch ∧
      ((dequeue_body E sysnow store_handle timeout s).2 = true →
        (dequeue_body E sysnow store_handle timeout s).1.status ≠ bp_status_t.BP_SUCCESS) := by
    intro s h
    unfold dequeue_body
    split
    · split
      · exact ⟨h, fun hb => absurd hb Bool.false_ne_true⟩
      · exact ⟨h, fun hb => absurd hb Bool.false_ne_true⟩
    · exact ⟨h, fun _ hne => bp_status_t.noConfusion hne⟩
    · exact ⟨h, fun _ hne => bp_status_t.noConfusion hne⟩
  intro fuel
  induction fuel with
  | zero =>
    intro s s1 h hs
    unfold dequeue_loop at hs
    split at hs
    · simp at hs
    · rename_i hd
      cases Option.some.inj hs
      exact ⟨h, fun hn => absurd hn hd⟩
  | succ f ih =>
    intro s s1 h hs
    unfold dequeue_loop at hs
    split at hs
    · dsimp only at hs
      split at hs
      · rename_i hbr
        cases Option.some.inj hs
        exact ⟨(hbody s h).1, fun _ => (hbody s h).2 hbr⟩
      · exact ih _ _ (hbody s h).1 hs
    · rename_i hd
      cases Option.some.inj hs
      exact ⟨h, fun hn => absurd hn hd⟩

/-- The state at the load section: the frame is kept since the start of the
call, and without a bundle the status is not `BP_SUCCESS`. -/
theorem load_section_frame {σ : Type} (E : bp_env_t σ) (ch : bp_channel_t) (env : σ)
    (a : bp_load_args_t) (p : Int × bp_load_state_t σ)
    (h : load_section E ch env a = some p) :
    load_frame ch p.2.ch ∧ (p.2.data = none → p.2.status ≠ bp_status_t.BP_SUCCESS) := by
  have h0 : load_frame ch ch := ⟨rfl, rfl, rfl⟩
  unfold load_section at h
  dsimp only at h
  split at h
  · cases Option.some.inj h
    exact ⟨h0, fun hn => by simp at hn⟩
  · split at h
    · simp at h
    · rename_i s hs
      cases Option.some.inj h
      unfold load_data_bundle at hs
      dsimp only at hs
      split at hs
      · simp at hs
      · rename_i s1 hs1
        exact dequeue_loop_frame E a.sysnow _ a.timeout ch a.fuel s1 s
          (scan_loop_frame E a.sysnow _ ch a.fuel _ s1 h0 hs1) hs

/-- The paths of the load section: no bundle; a bundle without CTEB is
emitted; a bundle with CTEB is emitted; the buffer cannot take the bundle. -/
theorem load_bundle_cases {σ : Type} (E : bp_env_t σ) (a : bp_load_args_t) (store_handle : Int)
    (s : bp_load_state_t σ) :
    (s.data = none ∧ (load_bundle E a store_handle s).status = s.status ∧
      (load_bundle E a store_handle s).ch = s.ch ∧
      (load_bundle E a store_handle s).bundle = none) ∨
    (∃ d, s.data = some d ∧ d.cteboffset = 0 ∧
      (load_bundle E a store_handle s).status = bp_status_t.BP_SUCCESS ∧
      (load_bundle E a store_handle s).ch = incr_transmitted s.ch ∧
      (load_bundle E a store_handle s).bundle = some d ∧
      (load_bundle E a store_handle s).env = E.relinquish s.env store_handle s.sid) ∨
    (∃ d d1, s.data = some d ∧ d.cteboffset ≠ 0 ∧ d1.cteboffset ≠ 0 ∧
      (load_bundle E a store_handle s).status = bp_status_t.BP_SUCCESS ∧
      (load_bundle E a store_handle s).ch.stats.transmitted
        = incr32 s.ch.stats.transmitted ∧
      (load_bundle E a store_handle s).bundle = some d1) ∨
    (s.data ≠ none ∧ (load_bundle E a store_handle s).status ≠ bp_status_t.BP_SUCCESS ∧
      (load_bundle E a store_handle s).ch = incr_lost s.ch ∧
      (load_bundle E a store_handle s).bundle = none) := by
  unfold load_bundle
  cases hd : s.data with
  | none => exact Or.inl ⟨rfl, rfl, rfl, rfl⟩
  | some d =>
    dsimp only
    split
    · split
      · by_cases hc : d.cteboffset = 0
        · refine Or.inr (Or.inl ⟨d, rfl, hc, rfl, ?_, ?_, ?_⟩)
          · simp only [hc, ne_eq, not_true_eq_false, if_false]
          · simp only [hc, ne_eq, not_true_eq_false, if_false]
          · simp only [hc, ne_eq, not_true_eq_false, if_false, if_true]
        · refine Or.inr (Or.inr (Or.inl ⟨d, _, rfl, hc, ?_, rfl, ?_, rfl⟩))
          · rw [if_pos hc]
            unfold assign_custody
            split
            · exact hc
            · exact hc
          · rw [if_pos hc]
            unfold assign_custody
            split <;> rfl
      · exact Or.inr (Or.inr (Or.inr ⟨by simp, fun h => bp_status_t.noConfusion h, rfl, rfl⟩))
    · exact Or.inr (Or.inr (Or.inr ⟨by simp, fun h => bp_status_t.noConfusion h, rfl, rfl⟩))

/-- C32, with the scan set apart: for every call of `bplib_load` that
returns, (1) when it emits a bundle that does not request custody
(`cteboffset = 0`), it returns `BP_SUCCESS`, the whole call changes neither
`current_cid` nor any `retx` entry, its load section changes no slot of the
active table and not `oldest_cid` (the scan of the same call may have vacated
slots before), the bundle is relinquished from storage, and the `uint32_t`
counter `transmitted` is incremented; (2) `transmitted` is incremented when the
call returns `BP_SUCCESS` and is unchanged otherwise, so that, below
2^32 - 1, it increases by exactly one if and only if the call returns
`BP_SUCCESS`. -/
theorem C32_plain_bundle_frame {σ : Type} (E : bp_env_t σ) (ch : bp_channel_t) (env : σ)
    (a : bp_load_args_t) (r : bp_load_result_t σ) (hr : bplib_load E ch env a = some r) :
    (∀ d, r.bundle = some d → d.cteboffset = 0 →
      r.status = bp_status_t.BP_SUCCESS ∧
      r.ch.active_table.current_cid = ch.active_table.current_cid ∧
      r.ch.active_table.retx = ch.active_table.retx ∧
      r.ch.stats.transmitted = incr32 ch.stats.transmitted ∧
      ∃ p, load_section E ch env a = some p ∧ p.2.data = some d ∧
        r.ch.active_table.sid = p.2.ch.active_table.sid ∧
        r.ch.active_table.oldest_cid = p.2.ch.active_table.oldest_cid ∧
        r.env = E.relinquish p.2.env p.1 p.2.sid) ∧
    (r.status = bp_status_t.BP_SUCCESS →
      r.ch.stats.transmitted = incr32 ch.stats.transmitted) ∧
    (r.status ≠ bp_status_t.BP_SUCCESS → r.ch.stats.transmitted = ch.stats.transmitted) ∧
    (ch.stats.transmitted + 1 < UINT32_MOD →
      (r.ch.stats.transmitted = ch.stats.transmitted + 1 ↔
        r.status = bp_status_t.BP_SUCCESS)) := by
  rw [load_of_section] at hr
  cases hp : load_section E ch env a with
  | none =>
    rw [hp] at hr
    simp at hr
  | some p =>
    rw [hp] at hr
    have hr1 : r = update_active (load_bundle E a p.1 p.2) := (Option.some.inj hr).symm
    obtain ⟨⟨f1, f2, f3⟩, fst⟩ := load_section_frame E ch env a p hp
    have hst : r.status = (load_bundle E a p.1 p.2).status := by rw [hr1]; rfl
    have hbd : r.bundle = (load_bundle E a p.1 p.2).bundle := by rw [hr1]; rfl
    have htr : r.ch.stats.transmitted = (load_bundle E a p.1 p.2).ch.stats.transmitted := by
      rw [hr1]; rfl
    have hat : r.ch.active_table = (load_bundle E a p.1 p.2).ch.active_table := by
      rw [hr1]; rfl
    have henv : r.env = (load_bundle E a p.1 p.2).env := by rw [hr1]; rfl
    have key : (r.status = bp_status_t.BP_SUCCESS →
          r.ch.stats.transmitted = incr32 ch.stats.transmitted) ∧
        (r.status ≠ bp_status_t.BP_SUCCESS →
          r.ch.stats.transmitted = ch.stats.transmitted) := by
      rw [hst, htr]
      rcases load_bundle_cases E a p.1 p.2 with
        ⟨c1, c2, c3, _⟩ | ⟨d, _, _, c2, c3, _⟩ | ⟨d, d1, _, _, _, c2, c3, _⟩ | ⟨_, c2, c3, _⟩
      · rw [c2, c3]
        exact ⟨fun h => absurd h (fst c1), fun _ => f3⟩
      · rw [c2, c3]
        exact ⟨fun _ => by rw [← f3]; rfl, fun h => absurd rfl h⟩
      · rw [c2, c3]
        exact ⟨fun _ => by rw [f3], fun h => absurd rfl h⟩
      · rw [c3]
        exact ⟨fun h => absurd h c2, fun _ => f3⟩
    refine ⟨?_, key.1, key.2, ?_⟩
    · intro d hb hc
      rw [hbd] at hb
      rcases load_bundle_cases E a p.1 p.2 with
        ⟨_, _, _, c4⟩ | ⟨d0, c1, _, c2, c3, c4, c5⟩ | ⟨d0, d1, _, _, c1, _, _, c4⟩ |
        ⟨_, _, _, c4⟩
      · rw [c4] at hb
        simp at hb
      · rw [c4] at hb
        cases Option.some.inj hb
        refine ⟨by rw [hst, c2], ?_, ?_, key.1 (by rw [hst, c2]), p, rfl, c1, ?_, ?_, ?_⟩
        · rw [hat, c3]
          exact f1
        · rw [hat, c3]
          exact f2
        · rw [hat, c3]
          rfl
        · rw [hat, c3]
          rfl
        · rw [henv, c5]
      · rw [c4] at hb
        cases Option.some.inj hb
        exact absurd hc c1
      · rw [c4] at hb
        simp at hb
    · intro hroom
      have hinc : incr32 ch.stats.transmitted = ch.stats.transmitted + 1 :=
        Nat.mod_eq_of_lt hroom
      constructor
      · intro h1
        by_contra hne
        have := key.2 hne
        omega
      · intro h1
        rw [key.1 h1, hinc]

/-- C32 as stated fails: slot 0 of a table of 2 slots holds the storage id 1
of a custody bundle that expired at time 5, and a bundle without CTEB waits in
the bundle store; the load at time 6 returns `BP_SUCCESS` with the bundle
without CTEB, `current_cid` is still 1, and slot 0 is vacant.  And from
`transmitted` = 2^32 - 1 a successful load leaves `transmitted` at 0. -/
theorem C32_scan_vacates_slot :
    (active_channel 2 10 bp_wrap_t.BP_WRAP_RESEND 0 [1] 0 1).active_table.sid 0 = 1 ∧
    (bplib_load ref_env (active_channel 2 10 bp_wrap_t.BP_WRAP_RESEND 0 [1] 0 1)
        ⟨[(2, plain_bundle)], [], [(1, custody_bundle 5)]⟩ (load_at 6).2).map
      (fun r => (r.status, r.bundle.map (fun d => d.cteboffset),
        r.ch.active_table.current_cid, r.ch.active_table.sid 0))
    = some (bp_status_t.BP_SUCCESS, some 0, 1, 0) ∧
    (bplib_load ref_env
        { opened_channel 2 10 bp_wrap_t.BP_WRAP_RESEND 0 with
          stats := { zero_stats with transmitted := 4294967295 } }
        ⟨[(2, plain_bundle)], [], []⟩ (load_at 6).2).map
      (fun r => (r.status, r.ch.stats.transmitted))
    = some (bp_status_t.BP_SUCCESS, 0) := by
  refine ⟨by decide, by decide, by decide⟩

/-- C32 at a load that emits a bundle without CTEB from the bundle store of an
opened channel. -/
theorem C32_witness :
    ∃ r, bplib_load ref_env (opened_channel 2 10 bp_wrap_t.BP_WRAP_RESEND 0)
        ⟨[(2, plain_bundle)], [], []⟩ (load_at 6).2 = some r ∧
      r.bundle = some plain_bundle ∧
      r.status = bp_status_t.BP_SUCCESS ∧
      r.ch.active_table.current_cid = 0 ∧
      r.ch.stats.transmitted = incr32 0 :=
  match h : bplib_load ref_env (opened_channel 2 10 bp_wrap_t.BP_WRAP_RESEND 0)
      ⟨[(2, plain_bundle)], [], []⟩ (load_at 6).2 with
  | some r =>
    have hb0 : (bplib_load ref_env (opened_channel 2 10 bp_wrap_t.BP_WRAP_RESEND 0)
        ⟨[(2, plain_bundle)], [], []⟩ (load_at 6).2).map (fun x => x.bundle)
        = some (some plain_bundle) := by decide
    have hb : r.bundle = some plain_bundle := by
      rw [h] at hb0
      exact Option.some.inj hb0
    have hc := (C32_plain_bundle_frame ref_env _ _ _ r h).1 plain_bundle hb rfl
    ⟨r, rfl, hb, hc.1, hc.2.1, hc.2.2.2.1⟩
  | none => absurd
      (show (bplib_load ref_env (opened_channel 2 10 bp_wrap_t.BP_WRAP_RESEND 0)
        ⟨[(2, plain_bundle)], [], []⟩ (load_at 6).2).isSome = true by decide)
      (by rw [h]; decide)

/-- C36, evaluated at its failing input: on a table of one slot with the wrap
response RESEND, the first load puts the storage id 1 into slot 0; the second
load, into a buffer of 10 bytes (the bundle has 20), retrieves that bundle for
a resend, calls `relinquish` of the bundle store (handle 2) for storage id 1
and returns `BP_BUNDLETOOLARGE`; afterwards slot 0 still holds the storage id
1, which the storage service no longer has. -/
theorem C36_relinquished_sid_stays_in_slot :
    (run_loads ref_env (opened_channel 1 0 bp_wrap_t.BP_WRAP_RESEND 0)
        ⟨[(1, custody_bundle 0)], [], []⟩ [load_at 0]).map
      (fun r => (r.1, r.2.1.active_table.sid 0, r.2.2.kept.map Prod.fst))
    = some ([bp_status_t.BP_SUCCESS], 1, [1]) ∧
    (run_loads ref_env (opened_channel 1 0 bp_wrap_t.BP_WRAP_RESEND 0)
        ⟨[(1, custody_bundle 0)], [], []⟩ [load_at 0]).map
      (fun r => load_events ref_env r.2.1 r.2.2 (load_into 10 0).2)
    = some [bp_event_t.lock bp_lock_t.dacs_bundle_lock, bp_event_t.dacs_check 0,
      bp_event_t.dequeue 1 0, bp_event_t.unlock bp_lock_t.dacs_bundle_lock,
      bp_event_t.lock bp_lock_t.active_table_signal, bp_event_t.retrieve 2 1 0,
      bp_event_t.retrieve 2 1 0, bp_event_t.waiton bp_lock_t.active_table_signal,
      bp_event_t.unlock bp_lock_t.active_table_signal,
      bp_event_t.lock bp_lock_t.active_table_signal, bp_event_t.relinquish 2 1,
      bp_event_t.unlock bp_lock_t.active_table_signal] ∧
    (last_load ref_env (opened_channel 1 0 bp_wrap_t.BP_WRAP_RESEND 0)
        ⟨[(1, custody_bundle 0)], [], []⟩ [load_at 0] (load_into 10 0)).map
      (fun r => (r.status, r.ch.active_table.sid 0, r.env.kept.map Prod.fst,
        (ref_retrieve r.env 2 1 0).2))
    = some (bp_status_t.BP_BUNDLETOOLARGE, 1, [], none) := by
  refine ⟨by decide, by decide, by decide⟩

end Bplib

namespace Bplib

/-! ## The scan over vacant slots -/

theorem with_oldest_twice (ch : bp_channel_t) (o1 o2 : Nat) :
    with_oldest (with_oldest ch o1) o2 = with_oldest ch o2 := rfl

/-- The scan passes over `n` vacant slots: `oldest_cid` advances by `n` and
nothing else of the channel, the environment, the status and the flags
changes. -/
theorem scan_vacant_run {σ : Type} (E : bp_env_t σ) (sysnow : Nat) (store_handle : Int) :
    ∀ (n fuel : Nat) (s : bp_load_state_t σ), s.data = none →
      (∀ c, s.ch.active_table.oldest_cid ≤ c → c < s.ch.active_table.oldest_cid + n →
        s.ch.active_table.sid (slot_of s.ch c) = BP_SID_VACANT) →
      s.ch.active_table.oldest_cid + n ≤ s.ch.active_table.current_cid →
      s.ch.active_table.current_cid < UINT32_MOD →
      ∃ s1, scan_loop E sysnow store_handle (n + fuel) s
          = scan_loop E sysnow store_handle fuel s1 ∧
        s1.ch = with_oldest s.ch (s.ch.active_table.oldest_cid + n) ∧
        s1.env = s.env ∧ s1.data = none ∧ s1.newcid = s.newcid ∧ s1.status = s.status ∧
        s1.flags = s.flags := by
  intro n
  induction n with
  | zero =>
    intro fuel s hd _ _ _
    exact ⟨s, by rw [Nat.zero_add], rfl, rfl, hd, rfl, rfl, rfl⟩
  | succ n ih =>
    intro fuel s hd hvac hle hcur
    have hlt : s.ch.active_table.oldest_cid < s.ch.active_table.current_cid := by omega
    have hv0 := hvac s.ch.active_table.oldest_cid (Nat.le_refl _) (by omega)
    have hinc : incr32 s.ch.active_table.oldest_cid = s.ch.active_table.oldest_cid + 1 :=
      incr32_of_lt _ _ hlt hcur
    have hbody : scan_body E sysnow store_handle s =
        ({ s with
           ati := (slot_of s.ch s.ch.active_table.oldest_cid : Int)
           sid := BP_SID_VACANT
           ch := with_oldest s.ch (s.ch.active_table.oldest_cid + 1) }, false) := by
      unfold scan_body
      dsimp only
      rw [if_pos hv0, hv0]
      simp only [incr_oldest, hinc, with_oldest]
    have e : n + 1 + fuel = (n + fuel) + 1 := by omega
    rw [e, scan_loop_step E sysnow store_handle (n + fuel) s hd hlt, hbody]
    dsimp only
    obtain ⟨s1, h1, h2, h3, h4, h5, h6, h7⟩ := ih fuel
      { s with
        ati := (slot_of s.ch s.ch.active_table.oldest_cid : Int)
        sid := BP_SID_VACANT
        ch := with_oldest s.ch (s.ch.active_table.oldest_cid + 1) } hd
      (fun c hc1 hc2 => hvac c (by
          have : (with_oldest s.ch (s.ch.active_table.oldest_cid + 1)).active_table.oldest_cid
            = s.ch.active_table.oldest_cid + 1 := rfl
          dsimp only at hc1
          rw [this] at hc1
          omega) (by
          have : (with_oldest s.ch (s.ch.active_table.oldest_cid + 1)).active_table.oldest_cid
            = s.ch.active_table.oldest_cid + 1 := rfl
          dsimp only at hc2
          rw [this] at hc2
          omega))
      (by
        show s.ch.active_table.oldest_cid + 1 + n ≤ s.ch.active_table.current_cid
        omega)
      hcur
    refine ⟨s1, ?_, ?_, h3, h4, h5, h6, h7⟩
    · rw [← h1]
      rfl
    · rw [h2]
      show with_oldest (with_oldest s.ch _) (s.ch.active_table.oldest_cid + 1 + n) = _
      rw [with_oldest_twice]
      have : s.ch.active_table.oldest_cid + 1 + n = s.ch.active_table.oldest_cid + (n + 1) := by
        omega
      rw [this]

/-- The scan of a call in which the slots of the custody ids below `k` are
vacant, the bundle of custody id `k` is still active and the slot of
`current_cid` is vacant: it ends at `oldest_cid = k` without a candidate. -/
theorem scan_skipped {σ : Type} (E : bp_env_t σ) (ch : bp_channel_t) (a : bp_load_args_t)
    (env1 : σ) (flags1 : Nat) (k sid : Nat) (env2 : σ) (dk : bp_bundle_data_t)
    (hok : ch.active_table.oldest_cid ≤ k)
    (hvac : ∀ c, ch.active_table.oldest_cid ≤ c → c < k →
      ch.active_table.sid (slot_of ch c) = BP_SID_VACANT)
    (hk : k < ch.active_table.current_cid)
    (hcur : ch.active_table.current_cid < UINT32_MOD)
    (hsid : ch.active_table.sid (slot_of ch k) = sid) (hocc : sid ≠ BP_SID_VACANT)
    (hret : E.retrieve env1 ch.bundle_store_handle sid BP_CHECK = (env2, some dk))
    (hexp : ¬ is_expired dk a.sysnow)
    (hto : ¬ is_timed_out ch (slot_of ch k) a.sysnow)
    (hfree : ch.active_table.sid (slot_of ch ch.active_table.current_cid) = BP_SID_VACANT)
    (hfuel : k - ch.active_table.oldest_cid + 1 ≤ a.fuel) :
    scan_loop E a.sysnow ch.bundle_store_handle a.fuel (scan_start ch env1 flags1)
      = some (skipped_state ch env2 flags1 k) := by
  obtain ⟨f, hf⟩ : ∃ f, a.fuel = (k - ch.active_table.oldest_cid) + (f + 1) :=
    ⟨a.fuel - (k - ch.active_table.oldest_cid) - 1, by omega⟩
  have hkn : ch.active_table.oldest_cid + (k - ch.active_table.oldest_cid) = k := by omega
  obtain ⟨s1, h1, h2, h3, h4, h5, h6, h7⟩ := scan_vacant_run E a.sysnow ch.bundle_store_handle
    (k - ch.active_table.oldest_cid) (f + 1) (scan_start ch env1 flags1) rfl
    (fun c hc1 hc2 => hvac c hc1 (by
      have : (scan_start ch env1 flags1 : bp_load_state_t σ).ch.active_table.oldest_cid
        = ch.active_table.oldest_cid := rfl
      rw [this] at hc2
      omega))
    (by
      show ch.active_table.oldest_cid + (k - ch.active_table.oldest_cid)
        ≤ ch.active_table.current_cid
      omega)
    hcur
  have h2k : s1.ch = with_oldest ch k := by
    rw [h2]
    show with_oldest ch (ch.active_table.oldest_cid + (k - ch.active_table.oldest_cid)) = _
    rw [hkn]
  have h3s : env1 = s1.env := h3.symm
  have h5s : true = s1.newcid := h5.symm
  have h6s : bp_status_t.BP_SUCCESS = s1.status := h6.symm
  have h7s : flags1 = s1.flags := h7.symm
  rw [hf, h1]
  obtain ⟨ch1, e1, d1, sd1, at1, nc1, st1, fl1⟩ := s1
  simp only at h2k h3s h4 h5s h6s h7s
  subst h2k h3s h4 h5s h6s h7s
  rw [scan_loop_step E a.sysnow ch.bundle_store_handle f _ rfl hk]
  have hbody : scan_body E a.sysnow ch.bundle_store_handle
      { ch := with_oldest ch k, env := env1, data := none, sid := sd1, ati := at1,
        newcid := true, status := bp_status_t.BP_SUCCESS, flags := flags1 }
      = (skipped_state ch env2 flags1 k, true) := by
    rw [scan_body_retrieved E a.sysnow ch.bundle_store_handle _ sid env2 dk hsid hocc hret]
    unfold scan_retrieved
    rw [if_neg hexp]
    have hto2 : ¬ is_timed_out (with_oldest ch k)
        ((slot_of (with_oldest ch k) (with_oldest ch k).active_table.oldest_cid : Int)).toNat
        a.sysnow := by
      rw [Int.toNat_natCast]; exact hto
    dsimp only
    rw [if_neg hto2]
    unfold still_active
    dsimp only
    have hfree2 : (with_oldest ch k).active_table.sid
        (slot_of (with_oldest ch k) (with_oldest ch k).active_table.current_cid)
        = BP_SID_VACANT := hfree
    rw [hfree2, if_neg (by simp)]
    rfl
  rw [hbody]
  rfl

/-- What the load section does with a bundle that has a CTEB when `newcid` is
set: the bundle is emitted with the custody id `current_cid`. -/
theorem load_bundle_new_cid {σ : Type} (E : bp_env_t σ) (a : bp_load_args_t)
    (store_handle : Int) (s : bp_load_state_t σ) (d : bp_bundle_data_t)
    (hnew : s.newcid = true)
    (hb : (load_bundle E a store_handle s).bundle = some d) (hc : d.cteboffset ≠ 0) :
    (load_bundle E a store_handle s).status = bp_status_t.BP_SUCCESS ∧
    d.cidsdnv.value = s.ch.active_table.current_cid ∧
    (load_bundle E a store_handle s).ch.active_table.current_cid
      = incr32 s.ch.active_table.current_cid ∧
    (load_bundle E a store_handle s).ch.active_table.sid
      (slot_of s.ch s.ch.active_table.current_cid) = s.sid := by
  unfold load_bundle at hb ⊢
  cases hd : s.data with
  | none =>
    rw [hd] at hb
    simp at hb
  | some d0 =>
    rw [hd] at hb
    dsimp only at hb ⊢
    split
    · rename_i h1
      rw [if_pos h1] at hb
      split
      · rename_i h2
        rw [if_pos h2] at hb
        by_cases hc0 : d0.cteboffset ≠ 0
        · rw [if_pos hc0] at hb ⊢
          unfold assign_custody at hb ⊢
          rw [if_pos hnew] at hb ⊢
          dsimp only at hb ⊢
          cases Option.some.inj hb
          refine ⟨rfl, rfl, rfl, ?_⟩
          simp [incr_transmitted, set_retx, incr_current, set_sid]
        · rw [if_neg hc0] at hb
          dsimp only at hb
          cases Option.some.inj hb
          exact absurd hc hc0
      · rename_i h2
        rw [if_neg h2] at hb
        simp at hb
    · rename_i h1
      rw [if_neg h1] at hb
      simp at hb

/-- The call whose scan skips vacant slots up to `k`: it is the load section
run on what the dequeue loop makes of `skipped_state`. -/
theorem load_skipped {σ : Type} (E : bp_env_t σ) (ch : bp_channel_t) (env : σ)
    (a : bp_load_args_t) (env1 : σ) (flags1 : Nat) (k sid : Nat) (env2 : σ)
    (dk : bp_bundle_data_t)
    (hd : no_dacs_ready E ch env a env1 flags1)
    (hok : ch.active_table.oldest_cid ≤ k)
    (hvac : ∀ c, ch.active_table.oldest_cid ≤ c → c < k →
      ch.active_table.sid (slot_of ch c) = BP_SID_VACANT)
    (hk : k < ch.active_table.current_cid)
    (hcur : ch.active_table.current_cid < UINT32_MOD)
    (hsid : ch.active_table.sid (slot_of ch k) = sid) (hocc : sid ≠ BP_SID_VACANT)
    (hret : E.retrieve env1 ch.bundle_store_handle sid BP_CHECK = (env2, some dk))
    (hexp : ¬ is_expired dk a.sysnow)
    (hto : ¬ is_timed_out ch (slot_of ch k) a.sysnow)
    (hfree : ch.active_table.sid (slot_of ch ch.active_table.current_cid) = BP_SID_VACANT)
    (hfuel : k - ch.active_table.oldest_cid + 1 ≤ a.fuel) :
    bplib_load E ch env a =
      (dequeue_loop E a.sysnow ch.bundle_store_handle a.timeout a.fuel
        (skipped_state ch env2 flags1 k)).map
        (fun s => update_active (load_bundle E a ch.bundle_store_handle s)) := by
  rw [load_no_dacs E ch env a env1 flags1 hd]
  have hscan := scan_skipped E ch a env1 flags1 k sid env2 dk hok hvac hk hcur hsid hocc hret
    hexp hto hfree hfuel
  unfold scan_start at hscan
  unfold load_data_bundle
  dsimp only
  rw [hscan]
  dsimp only
  cases dequeue_loop E a.sysnow ch.bundle_store_handle a.timeout a.fuel
    (skipped_state ch env2 flags1 k) <;> rfl

/-- C31: when no DACS record is ready, the slots of the custody ids from
`oldest_cid` up to `k - 1` are vacant, `k < current_cid`, the bundle of custody
id `k` is retrieved and is neither expired nor timed out, and the slot of
`current_cid` is vacant, then every call of `bplib_load` (with fuel for the
`k - oldest_cid + 1` passes of the scan) that returns leaves `oldest_cid = k`,
and a custody bundle it emits from the bundle store carries the pre-call
`current_cid` as its custody id; when the dequeue answers with a custody bundle
that is not expired and the buffer is adequate, the call returns `BP_SUCCESS`
with that bundle stamped with the pre-call `current_cid`; and the call returns
whenever its dequeue loop, started in the state the scan leaves, ends within
the fuel. -/
theorem C31_scan_skips_vacant_slots {σ : Type} (E : bp_env_t σ) (ch : bp_channel_t) (env : σ)
    (a : bp_load_args_t) (env1 : σ) (flags1 : Nat) (k sid : Nat) (env2 : σ)
    (dk : bp_bundle_data_t)
    (hd : no_dacs_ready E ch env a env1 flags1)
    (hok : ch.active_table.oldest_cid ≤ k)
    (hvac : ∀ c, ch.active_table.oldest_cid ≤ c → c < k →
      ch.active_table.sid (slot_of ch c) = BP_SID_VACANT)
    (hk : k < ch.active_table.current_cid)
    (hcur : ch.active_table.current_cid < UINT32_MOD)
    (hsid : ch.active_table.sid (slot_of ch k) = sid) (hocc : sid ≠ BP_SID_VACANT)
    (hret : E.retrieve env1 ch.bundle_store_handle sid BP_CHECK = (env2, some dk))
    (hexp : ¬ is_expired dk a.sysnow)
    (hto : ¬ is_timed_out ch (slot_of ch k) a.sysnow)
    (hfree : ch.active_table.sid (slot_of ch ch.active_table.current_cid) = BP_SID_VACANT)
    (hfuel : k - ch.active_table.oldest_cid + 1 ≤ a.fuel) :
    (∀ r, bplib_load E ch env a = some r →
      r.ch.active_table.oldest_cid = k ∧
      ∀ d, r.bundle = some d → d.cteboffset ≠ 0 →
        r.status = bp_status_t.BP_SUCCESS ∧
        d.cidsdnv.value = ch.active_table.current_cid ∧
        r.ch.active_table.current_cid = incr32 ch.active_table.current_cid) ∧
    (∀ env3 d sid1,
      E.dequeue env2 ch.bundle_store_handle a.timeout = (env3, bp_dequeue_t.ok d sid1) →
      ¬ is_expired d a.sysnow → d.cteboffset ≠ 0 → adequate_buffer a d.bundlesize →
      ∃ r, bplib_load E ch env a = some r ∧
        r.status = bp_status_t.BP_SUCCESS ∧
        r.bundle = some (stamp_cid E d ch.active_table.current_cid) ∧
        (stamp_cid E d ch.active_table.current_cid).cidsdnv.value
          = ch.active_table.current_cid ∧
        r.ch.active_table.oldest_cid = k ∧
        r.ch.active_table.sid (slot_of ch ch.active_table.current_cid) = sid1) ∧
    (∀ s3, dequeue_loop E a.sysnow ch.bundle_store_handle a.timeout a.fuel
        (skipped_state ch env2 flags1 k) = some s3 →
      ∃ r, bplib_load E ch env a = some r ∧ r.ch.active_table.oldest_cid = k) := by
  have hload := load_skipped E ch env a env1 flags1 k sid env2 dk hd hok hvac hk hcur hsid hocc
    hret hexp hto hfree hfuel
  refine ⟨?_, ?_, ?_⟩
  · intro r hr
    rw [hload] at hr
    cases hs : dequeue_loop E a.sysnow ch.bundle_store_handle a.timeout a.fuel
        (skipped_state ch env2 flags1 k) with
    | none =>
      rw [hs] at hr
      simp at hr
    | some s3 =>
      rw [hs] at hr
      have hr1 : r = update_active (load_bundle E a ch.bundle_store_handle s3) :=
        (Option.some.inj hr).symm
      obtain ⟨t1, _, t3⟩ := dequeue_loop_table E a.sysnow ch.bundle_store_handle a.timeout
        a.fuel _ s3 hs
      obtain ⟨c1, _⟩ := load_bundle_counters E a ch.bundle_store_handle s3
      refine ⟨?_, ?_⟩
      · rw [hr1]
        show (load_bundle E a ch.bundle_store_handle s3).ch.active_table.oldest_cid = k
        rw [c1, t1]
        rfl
      · intro d hb hc
        rw [hr1] at hb
        have hb1 : (load_bundle E a ch.bundle_store_handle s3).bundle = some d := hb
        obtain ⟨n1, n2, n3, _⟩ := load_bundle_new_cid E a ch.bundle_store_handle s3 d
          (by rw [t3]; rfl) hb1 hc
        rw [hr1]
        refine ⟨n1, ?_, ?_⟩
        · rw [n2, t1]
          rfl
        · show (load_bundle E a ch.bundle_store_handle s3).ch.active_table.current_cid = _
          rw [n3, t1]
          rfl
  · intro env3 d sid1 hdeq hnexp hcteb hbuf
    obtain ⟨f, hf⟩ : ∃ f, a.fuel = f + 1 := ⟨a.fuel - 1, by omega⟩
    have hbody : dequeue_body E a.sysnow ch.bundle_store_handle a.timeout
        (skipped_state ch env2 flags1 k)
        = (dequeued_state ch env3 flags1 k d sid1, false) := by
      unfold dequeue_body
      have hdeq2 : E.dequeue (skipped_state ch env2 flags1 k).env ch.bundle_store_handle
          a.timeout = (env3, bp_dequeue_t.ok d sid1) := hdeq
      rw [hdeq2]
      dsimp only
      rw [if_neg hnexp]
      rfl
    have hs : dequeue_loop E a.sysnow ch.bundle_store_handle a.timeout a.fuel
        (skipped_state ch env2 flags1 k)
        = some (dequeued_state ch env3 flags1 k d sid1) := by
      rw [hf, dequeue_loop_step E a.sysnow ch.bundle_store_handle a.timeout f _ rfl, hbody]
      exact dequeue_loop_data E a.sysnow _ a.timeout f _ d rfl
    rw [hload, hs]
    refine ⟨_, rfl, ?_⟩
    dsimp only
    rw [load_bundle_ok E a ch.bundle_store_handle (dequeued_state ch env3 flags1 k d sid1) d rfl
      hbuf]
    simp only [dequeued_state, with_oldest, if_pos hcteb, assign_custody, update_active,
      incr_transmitted, incr_current, set_retx, set_sid, slot_of, if_true, stamp_cid]
    exact ⟨trivial, trivial, trivial, trivial, trivial⟩
  · intro s3 hs
    rw [hload, hs]
    refine ⟨_, rfl, ?_⟩
    obtain ⟨t1, _, _⟩ := dequeue_loop_table E a.sysnow ch.bundle_store_handle a.timeout
      a.fuel _ s3 hs
    obtain ⟨c1, _⟩ := load_bundle_counters E a ch.bundle_store_handle s3
    show (load_bundle E a ch.bundle_store_handle s3).ch.active_table.oldest_cid = k
    rw [c1, t1]
    rfl

/-- C31 at the table of 4 slots after the custody ids 0, 1, 2 were loaded and
0 and 1 acknowledged: slots 0 and 1 are vacant, slot 2 holds the storage id 3,
`oldest_cid = 0` and `current_cid = 3`; the load leaves `oldest_cid = 2` and
emits the next bundle of the store with custody id 3. -/
theorem C31_witness :
    ∃ r, bplib_load ref_env (active_channel 4 10 bp_wrap_t.BP_WRAP_RESEND 0 [0, 0, 3] 0 3)
        ⟨[(4, custody_bundle 0)], [], [(3, custody_bundle 0)]⟩ (load_at 0).2 = some r ∧
      r.status = bp_status_t.BP_SUCCESS ∧
      r.bundle = some (stamp_cid ref_env (custody_bundle 0) 3) ∧
      (stamp_cid ref_env (custody_bundle 0) 3).cidsdnv.value = 3 ∧
      r.ch.active_table.oldest_cid = 2 ∧
      r.ch.active_table.sid 3 = 4 :=
  (C31_scan_skips_vacant_slots ref_env
    (active_channel 4 10 bp_wrap_t.BP_WRAP_RESEND 0 [0, 0, 3] 0 3)
    ⟨[(4, custody_bundle 0)], [], [(3, custody_bundle 0)]⟩ (load_at 0).2
    ⟨[(4, custody_bundle 0)], [], [(3, custody_bundle 0)]⟩ 0 2 3
    ⟨[(4, custody_bundle 0)], [], [(3, custody_bundle 0)]⟩ (custody_bundle 0)
    (no_dacs_ready_ref _ _ _ rfl rfl) (by decide)
    (fun c _ hc => by
      have h : c = 0 ∨ c = 1 := by omega
      rcases h with h | h <;> subst h <;> decide)
    (by decide) (by decide) rfl (by decide) rfl (by decide) (by decide) (by decide)
    (by decide)).2.1
    ⟨[], [], [(4, custody_bundle 0), (3, custody_bundle 0)]⟩ (custody_bundle 0) 4 rfl
    (by decide) (by decide) (by decide)

end Bplib

namespace Bplib

/-! ## bplib_init, bplib_open and bplib_close -/

/-- The loop of `bplib_open` passes over `n` elements that are in use. -/
theorem open_loop_skip (D : bp_defaults_t) (lib : bp_library_t) (env : bp_open_env_t)
    (attributes : Option bp_attr_t) :
    ∀ (n fuel i : Nat), (∀ j, i ≤ j → j < i + n → (lib.channels j).index ≠ BP_EMPTY) →
      open_loop D lib env attributes (n + fuel) i
        = open_loop D lib env attributes fuel (i + n) := by
  intro n
  induction n with
  | zero =>
    intro fuel i _
    rw [Nat.zero_add, Nat.add_zero]
  | succ n ih =>
    intro fuel i h
    have e : n + 1 + fuel = (n + fuel) + 1 := by omega
    rw [e, open_loop, if_neg (h i (Nat.le_refl i) (by omega))]
    rw [ih fuel (i + 1) (fun j h1 h2 => h j (by omega) (by omega))]
    have e2 : i + 1 + n = i + (n + 1) := by omega
    rw [e2]

/-- When every channel is in use `bplib_open` returns `BP_INVALID_HANDLE` and
leaves the file data as it is. -/
theorem open_full (D : bp_defaults_t) (lib : bp_library_t) (env : bp_open_env_t)
    (attributes : Option bp_attr_t)
    (h : ∀ j : Nat, (j : Int) < lib.channels_max → (lib.channels j).index ≠ BP_EMPTY) :
    bplib_open D lib env attributes = some (BP_INVALID_HANDLE, lib) := by
  unfold bplib_open
  have := open_loop_skip D lib env attributes lib.channels_max.toNat 0 0
    (fun j _ hj => h j (by omega))
  rw [Nat.add_zero] at this
  rw [this]
  rfl

/-- The body of the loop when every creation succeeds. -/
theorem open_slot_ok (D : bp_defaults_t) (lib : bp_library_t) (env : bp_open_env_t)
    (attr : bp_attr_t) (i : Nat) (hs : open_succeeds env) :
    ∃ c sid_mem retx_mem, open_slot D lib env (some attr) i
        = some ((i : Int), set_control lib i (control_opened D c sid_mem retx_mem)) ∧
      c.index = (i : Int) := by
  obtain ⟨h1, h2, h3, h4, h5, h6, h7⟩ := hs
  unfold open_slot
  dsimp only
  have hreg : control_registered env (control_with_assets env attr) i
      = some { control_with_assets env attr with index := (i : Int), ch :=
          { (control_with_assets env attr).ch with
            bundle_store_handle := env.bundle_store_handle } } := by
    unfold control_registered
    have a1 : ¬ ((control_with_assets env attr).dacs_bundle_lock < 0 ∨
        (control_with_assets env attr).active_table_signal < 0) := by
      show ¬ (env.dacs_bundle_lock < 0 ∨ env.active_table_signal < 0)
      omega
    have a2 : ¬ (control_with_assets env attr).ch.dacs_store_handle < 0 := by
      show ¬ env.dacs_store_handle < 0
      omega
    rw [if_neg a1, if_neg a2, if_neg (by simp [h4]), if_neg (by simp [h5])]
  rw [hreg]
  cases hsm : env.sid_malloc with
  | none => exact absurd hsm h6
  | some sid_mem =>
    cases hrm : env.retx_malloc with
    | none => exact absurd hrm h7
    | some retx_mem => exact ⟨_, sid_mem, retx_mem, rfl, rfl⟩

/-- When every creation succeeds and the attributes are given, `bplib_open`
returns the lowest index of an empty channel; the channel is registered under
that index with `oldest_cid = current_cid = 0` and every slot of its active
table vacant, and the other channels are as before. -/
theorem open_lowest_empty (D : bp_defaults_t) (lib : bp_library_t) (env : bp_open_env_t)
    (attr : bp_attr_t) (hs : open_succeeds env) (i : Nat)
    (hi : (i : Int) < lib.channels_max)
    (hempty : (lib.channels i).index = BP_EMPTY)
    (hlow : ∀ j, j < i → (lib.channels j).index ≠ BP_EMPTY) :
    ∃ lib1, bplib_open D lib env (some attr) = some ((i : Int), lib1) ∧
      (i : Int) ≠ BP_INVALID_HANDLE ∧
      lib1.channels_max = lib.channels_max ∧
      (lib1.channels i).index = (i : Int) ∧
      (lib1.channels i).ch.active_table.oldest_cid = 0 ∧
      (lib1.channels i).ch.active_table.current_cid = 0 ∧
      (∀ j : Nat, (j : Int) < (lib1.channels i).ch.active_table_size →
        (lib1.channels i).ch.active_table.sid j = BP_SID_VACANT) ∧
      (∀ j, j ≠ i → lib1.channels j = lib.channels j) := by
  obtain ⟨f, hf⟩ : ∃ f, lib.channels_max.toNat = i + (f + 1) :=
    ⟨lib.channels_max.toNat - i - 1, by omega⟩
  obtain ⟨c, sid_mem, retx_mem, hslot, hc⟩ := open_slot_ok D lib env attr i hs
  refine ⟨set_control lib i (control_opened D c sid_mem retx_mem), ?_, ?_, rfl, ?_, ?_, ?_,
    ?_, ?_⟩
  · unfold bplib_open
    rw [hf, open_loop_skip D lib env (some attr) i (f + 1) 0
      (fun j _ hj => hlow j (by omega)), Nat.zero_add, open_loop, if_pos hempty]
    exact hslot
  · unfold BP_INVALID_HANDLE
    omega
  · simp [set_control, control_opened, hc]
  · simp [set_control, control_opened]
  · simp [set_control, control_opened]
  · intro j hj
    simp only [set_control, control_opened, if_true] at hj ⊢
    rw [if_pos hj]
    rfl
  · intro j hj
    simp [set_control, hj]

/-- After `bplib_close` of a channel in use its element is empty, and the
other channels are as before. -/
theorem close_empties (lib : bp_library_t) (i : Nat) (hi : (i : Int) < lib.channels_max)
    (hopen : (lib.channels i).index ≠ BP_EMPTY) :
    ((bplib_close lib (i : Int)).channels i).index = BP_EMPTY ∧
    (bplib_close lib (i : Int)).channels_max = lib.channels_max ∧
    ∀ j, j ≠ i → (bplib_close lib (i : Int)).channels j = lib.channels j := by
  unfold bplib_close
  rw [if_pos ⟨by omega, hi, by simpa using hopen⟩]
  refine ⟨by simp [set_control], rfl, ?_⟩
  intro j hj
  simp [set_control, hj]

/-- C40, evaluated at its failing input: after `bplib_init(4)` every channel
is empty; `bplib_open` with a null `attributes` pointer, in a system in which
every creation succeeds, finds channel 0 empty and dereferences the null
pointer (the model has no result), where the same call with attributes
returns channel 0. -/
theorem C40_open_dereferences_null_attributes :
    ((bplib_init sample_defaults 4 zero_controls).channels 0).index = BP_EMPTY ∧
    (bplib_open sample_defaults (bplib_init sample_defaults 4 zero_controls) sample_open_env
      none).isNone = true ∧
    (bplib_open sample_defaults (bplib_init sample_defaults 4 zero_controls) sample_open_env
      (some ⟨0⟩)).map (fun r => (r.1, (r.2.channels 0).index,
        (r.2.channels 0).ch.active_table_size))
      = some (0, 0, 16384) := by
  refine ⟨by decide, by decide, by decide⟩

end Bplib

namespace Bplib

/-! ## The storage ids of the active table -/

theorem slots_hold_unique (N : Nat) (sid : Nat → Nat) (o c : Nat)
    (look : Nat → Option bp_bundle_data_t) (hh : slots_hold N sid o c look)
    (x y : Nat) (hx1 : o ≤ x) (hx2 : x < c) (hy1 : o ≤ y) (hy2 : y < c)
    (hocc : sid (x % N) ≠ BP_SID_VACANT) (he : sid (x % N) = sid (y % N)) : x = y := by
  obtain ⟨d, h1, h2, _⟩ := hh x hx1 hx2 hocc
  obtain ⟨d', h1', h2', _⟩ := hh y hy1 hy2 (he ▸ hocc)
  rw [he, h1'] at h1
  cases Option.some.inj h1
  rw [← h2, h2']

theorem slots_hold_mono (N : Nat) (sid sid' : Nat → Nat) (o c o' c' : Nat)
    (look look' : Nat → Option bp_bundle_data_t) (hh : slots_hold N sid o c look)
    (ho : o ≤ o') (hc : c' ≤ c)
    (hsame : ∀ x, o' ≤ x → x < c' → sid' (x % N) ≠ BP_SID_VACANT →
      sid' (x % N) = sid (x % N) ∧ look' (sid (x % N)) = look (sid (x % N))) :
    slots_hold N sid' o' c' look' := by
  intro x hx1 hx2 hocc
  obtain ⟨e1, e2⟩ := hsame x hx1 hx2 hocc
  rw [e1] at hocc ⊢
  rw [e2]
  exact hh x (by omega) (by omega) hocc

theorem sid_unused_mono (N : Nat) (sid sid' : Nat → Nat) (o c o' c' v : Nat)
    (hu : sid_unused N sid o c v) (ho : o ≤ o') (hc : c' ≤ c)
    (hsame : ∀ x, o' ≤ x → x < c' → sid' (x % N) ≠ BP_SID_VACANT →
      sid' (x % N) = sid (x % N)) :
    sid_unused N sid' o' c' v := by
  intro x hx1 hx2 hocc
  have e1 := hsame x hx1 hx2 hocc
  rw [e1] at hocc ⊢
  exact hu x (by omega) (by omega) hocc

/-- The storage id of the oldest slot is in no other slot of the window. -/
theorem oldest_sid_unused (N : Nat) (sid : Nat → Nat) (o c : Nat)
    (look : Nat → Option bp_bundle_data_t) (hh : slots_hold N sid o c look) (hlt : o < c) :
    sid_unused N sid (o + 1) c (sid (o % N)) := by
  intro x hx1 hx2 hocc he
  have := slots_hold_unique N sid o c look hh x o (by omega) hx2 (Nat.le_refl o) hlt hocc he
  omega

/-- A storage id that is not handed out is in no occupied slot of the
window. -/
theorem fresh_sid_unused (N : Nat) (sid : Nat → Nat) (o c : Nat)
    (look : Nat → Option bp_bundle_data_t) (hh : slots_hold N sid o c look) (v : Nat)
    (hv : look v = none) : sid_unused N sid o c v := by
  intro x hx1 hx2 hocc he
  obtain ⟨d, h1, _⟩ := hh x hx1 hx2 hocc
  rw [he, hv] at h1
  cases h1

theorem find_filter_ne (l : List (Nat × bp_bundle_data_t)) (sid s : Nat) (h : s ≠ sid) :
    (l.filter (fun x => x.1 ≠ sid)).find? (fun x => x.1 = s) = l.find? (fun x => x.1 = s) := by
  induction l with
  | nil => rfl
  | cons x xs ih =>
    by_cases h1 : x.1 = sid
    · have h2 : ¬ x.1 = s := fun e => h (e.symm.trans h1)
      rw [List.filter_cons_of_neg (by simp [h1]), List.find?_cons_of_neg _ (by simp [h2])]
      exact ih
    · rw [List.filter_cons_of_pos (by simp [h1])]
      by_cases h2 : x.1 = s
      · rw [List.find?_cons_of_pos _ (by simp [h2]), List.find?_cons_of_pos _ (by simp [h2])]
      · rw [List.find?_cons_of_neg _ (by simp [h2]), List.find?_cons_of_neg _ (by simp [h2])]
        exact ih

theorem find_map_written (l : List (Nat × bp_bundle_data_t)) (sid s : Nat)
    (d : bp_bundle_data_t) :
    ((l.map (fun x => if x.1 = sid then (x.1, d) else x)).find? (fun x => x.1 = s)).map
        Prod.snd
      = if s = sid then (l.find? (fun x => x.1 = s)).map (fun _ => d)
        else (l.find? (fun x => x.1 = s)).map Prod.snd := by
  induction l with
  | nil => simp
  | cons x xs ih =>
    by_cases h1 : x.1 = sid
    · by_cases h2 : x.1 = s
      · have h3 : s = sid := h2.symm.trans h1
        simp [List.find?_cons, h1, h3]
      · have h3 : ¬ s = sid := fun e => h2 (h1.trans e.symm)
        have h4 : ¬ sid = s := fun e => h3 e.symm
        simp only [List.map_cons, h1, if_true, List.find?_cons, h4, decide_False, h2]
        simpa [h3] using ih
    · by_cases h2 : x.1 = s
      · have h3 : ¬ s = sid := fun e => h1 (h2.trans e)
        simp [List.find?_cons, h1, h2, h3]
      · simp only [List.map_cons, h1, if_false, List.find?_cons, h2, decide_False]
        exact ih

theorem map_fst_written (l : List (Nat × bp_bundle_data_t)) (sid : Nat) (d : bp_bundle_data_t) :
    (l.map (fun x => if x.1 = sid then (x.1, d) else x)).map Prod.fst = l.map Prod.fst := by
  induction l with
  | nil => rfl
  | cons x xs ih =>
    simp only [List.map_cons, ih]
    by_cases h1 : x.1 = sid <;> simp [h1]

theorem ref_out_none_of_not_mem (kept : List (Nat × bp_bundle_data_t)) (sid : Nat)
    (h : sid ∉ kept.map Prod.fst) :
    (kept.find? (fun x => x.1 = sid)).map Prod.snd = none := by
  rw [Option.map_eq_none', List.find?_eq_none]
  intro y hy hys
  exact h (List.mem_map.mpr ⟨y, hy, by simpa using hys⟩)

/-- The simple storage service keeps the contract of the storage service, with
the DACS store under handle 1 and the bundle store under handle 2. -/
theorem ref_contract : store_contract ref_env 1 2 ref_ok ref_out := by
  refine ⟨?_, ?_, ?_, ?_, ?_, ?_, ?_⟩
  · intro env sid d _ h
    exact h
  · intro env sid h
    exact ⟨h, fun _ => rfl⟩
  · intro env handle sid h _
    refine ⟨⟨?_, h.2⟩, ?_⟩
    · refine h.1.sublist ?_
      refine List.Sublist.map _ ?_
      exact List.Sublist.append (List.Sublist.refl _) (List.filter_sublist _)
    · intro s hs
      show ((env.kept.filter (fun x => x.1 ≠ sid)).find? (fun x => x.1 = s)).map Prod.snd = _
      rw [find_filter_ne _ _ _ hs]
      rfl
  · intro env handle timeout h hh
    obtain ⟨hnd, hrec⟩ := h
    by_cases h1 : handle = 1
    · cases hr : env.records with
      | nil =>
        have e : ref_env.dequeue env handle timeout = (env, bp_dequeue_t.timeout) := by
          show ref_dequeue env handle timeout = _
          simp [ref_dequeue, h1, hr]
        rw [e]
        refine ⟨⟨hnd, hrec⟩, ?_, fun _ _ => rfl⟩
        intro d sid hd
        cases hd
      | cons x xs =>
        have e : ref_env.dequeue env handle timeout
            = ({ env with records := xs, kept := x :: env.kept }, bp_dequeue_t.ok x.2 x.1) := by
          show ref_dequeue env handle timeout = _
          simp [ref_dequeue, h1, hr]
        rw [e]
        rw [hr] at hnd hrec
        have hnd2 : (env.bundles.map Prod.fst ++ (x.1 :: xs.map Prod.fst)
            ++ env.kept.map Prod.fst).Nodup := by
          simpa using hnd
        have hx : x.1 ∉ env.kept.map Prod.fst := by
          intro hm
          rw [List.nodup_append] at hnd2
          exact hnd2.2.2 (List.mem_append_right _ (List.mem_cons_self _ _)) hm
        refine ⟨⟨?_, fun y hy => hrec y (List.mem_cons_of_mem _ hy)⟩, ?_, ?_⟩
        · show ((env.bundles ++ xs ++ x :: env.kept).map Prod.fst).Nodup
          have hp : (env.bundles ++ xs ++ x :: env.kept).Perm
              (env.bundles ++ x :: xs ++ env.kept) := by
            simp only [List.append_assoc]
            refine List.Perm.append_left _ ?_
            rw [List.cons_append]
            exact List.perm_middle
          exact (hp.map Prod.fst).nodup_iff.mpr hnd
        · intro d sid hd
          cases hd
          refine ⟨ref_out_none_of_not_mem _ _ hx, ?_, ?_⟩
          · show ((x :: env.kept).find? (fun y => y.1 = x.1)).map Prod.snd = some x.2
            simp [List.find?_cons]
          · intro s hs
            show ((x :: env.kept).find? (fun y => y.1 = s)).map Prod.snd = _
            have : ¬ x.1 = s := fun e => hs e.symm
            simp [List.find?_cons, this, ref_out]
        · intro hne
          exact absurd rfl (hne x.2 x.1)
    · cases hr : env.bundles with
      | nil =>
        have e : ref_env.dequeue env handle timeout = (env, bp_dequeue_t.timeout) := by
          show ref_dequeue env handle timeout = _
          simp [ref_dequeue, h1, hr]
        rw [e]
        refine ⟨⟨hnd, hrec⟩, ?_, fun _ _ => rfl⟩
        intro d sid hd
        cases hd
      | cons x xs =>
        have e : ref_env.dequeue env handle timeout
            = ({ env with bundles := xs, kept := x :: env.kept }, bp_dequeue_t.ok x.2 x.1) := by
          show ref_dequeue env handle timeout = _
          simp [ref_dequeue, h1, hr]
        rw [e]
        rw [hr] at hnd
        have hnd2 : ((x.1 :: xs.map Prod.fst) ++ env.records.map Prod.fst
            ++ env.kept.map Prod.fst).Nodup := by
          simpa using hnd
        have hx : x.1 ∉ env.kept.map Prod.fst := by
          intro hm
          rw [List.nodup_append] at hnd2
          exact hnd2.2.2 (List.mem_append_left _ (List.mem_cons_self _ _)) hm
        refine ⟨⟨?_, hrec⟩, ?_, ?_⟩
        · show ((xs ++ env.records ++ x :: env.kept).map Prod.fst).Nodup
          have hp : (xs ++ env.records ++ x :: env.kept).Perm
              (x :: xs ++ env.records ++ env.kept) := by
            rw [List.cons_append, List.cons_append]
            exact List.perm_middle
          exact (hp.map Prod.fst).nodup_iff.mpr hnd
        · intro d sid hd
          cases hd
          refine ⟨ref_out_none_of_not_mem _ _ hx, ?_, ?_⟩
          · show ((x :: env.kept).find? (fun y => y.1 = x.1)).map Prod.snd = some x.2
            simp [List.find?_cons]
          · intro s hs
            show ((x :: env.kept).find? (fun y => y.1 = s)).map Prod.snd = _
            have : ¬ x.1 = s := fun e => hs e.symm
            simp [List.find?_cons, this, ref_out]
        · intro hne
          exact absurd rfl (hne x.2 x.1)
  · intro env rate sysnow h
    exact ⟨h, fun _ => rfl⟩
  · intro env sid d h hout
    refine ⟨⟨?_, h.2⟩, ?_, ?_⟩
    · show ((env.bundles ++ env.records
          ++ env.kept.map (fun x => if x.1 = sid then (x.1, d) else x)).map Prod.fst).Nodup
      rw [List.map_append, map_fst_written, ← List.map_append]
      exact h.1
    · show ((env.kept.map (fun x => if x.1 = sid then (x.1, d) else x)).find?
        (fun x => x.1 = sid)).map Prod.snd = some d
      rw [find_map_written, if_pos rfl]
      cases hf : env.kept.find? (fun x => x.1 = sid) with
      | none =>
        exfalso
        apply hout
        show (env.kept.find? (fun x => x.1 = sid)).map Prod.snd = none
        rw [hf]
        rfl
      | some y => rfl
    · intro s hs
      show ((env.kept.map (fun x => if x.1 = sid then (x.1, d) else x)).find?
        (fun x => x.1 = s)).map Prod.snd = _
      rw [find_map_written, if_neg hs]
      rfl
  · intro env timeout d sid h hd
    cases hr : env.records with
    | nil =>
      have e : ref_env.dequeue env 1 timeout = (env, bp_dequeue_t.timeout) := by
        show ref_dequeue env 1 timeout = _
        simp [ref_dequeue, hr]
      rw [e] at hd
      cases hd
    | cons x xs =>
      have e : ref_env.dequeue env 1 timeout
          = ({ env with records := xs, kept := x :: env.kept }, bp_dequeue_t.ok x.2 x.1) := by
        show ref_dequeue env 1 timeout = _
        simp [ref_dequeue, hr]
      rw [e] at hd
      cases hd
      exact h.2 x (by rw [hr]; exact List.mem_cons_self _ _)

/-- The wrap response on a consistent table, other than BLOCK: the table is
full, the oldest slot is the slot of `current_cid`, and room is made. -/
theorem wrap_response_held {σ : Type} (E : bp_env_t σ) (ok : σ → Prop)
    (out : σ → Nat → Option bp_bundle_data_t) (ch0 : bp_channel_t)
    (s : bp_load_state_t σ)
    (hc : store_contract E ch0.dacs_store_handle ch0.bundle_store_handle ok out)
    (hwrap : ch0.wrap_response ≠ bp_wrap_t.BP_WRAP_BLOCK)
    (hc32 : ch0.active_table.current_cid < UINT32_MOD)
    (hcfg : same_config ch0 s.ch)
    (hcur : s.ch.active_table.current_cid = ch0.active_table.current_cid)
    (hnew : s.newcid = true)
    (htab : table_ok s.ch)
    (hhold : slots_hold s.ch.active_table_size.toNat s.ch.active_table.sid
      s.ch.active_table.oldest_cid s.ch.active_table.current_cid (out s.env))
    (hok : ok s.env)
    (hdata : s.data = none)
    (hlt : s.ch.active_table.oldest_cid < s.ch.active_table.current_cid)
    (hati : s.ati.toNat = s.ch.active_table.current_cid % s.ch.active_table_size.toNat)
    (hsid : s.sid = s.ch.active_table.sid
      (s.ch.active_table.current_cid % s.ch.active_table_size.toNat))
    (hocc : s.ch.active_table.sid
      (s.ch.active_table.current_cid % s.ch.active_table_size.toNat) ≠ BP_SID_VACANT) :
    load_held ok out ch0 (wrap_response E ch0.bundle_store_handle s) := by
  obtain ⟨cN, cD, cB, cT, cW, cR⟩ := hcfg
  have hfull := window_full_of_occupied _ _ _ _ htab hocc
  have hinc : incr32 s.ch.active_table.oldest_cid = s.ch.active_table.oldest_cid + 1 :=
    Nat.mod_eq_of_lt (by omega)
  have hslot : s.ch.active_table.current_cid % s.ch.active_table_size.toNat
      = s.ch.active_table.oldest_cid % s.ch.active_table_size.toNat := by
    rw [hfull, Nat.add_mod_right]
  have hsid2 : s.sid = s.ch.active_table.sid
      (s.ch.active_table.oldest_cid % s.ch.active_table_size.toNat) := by
    rw [hsid, hslot]
  have hocc2 : s.ch.active_table.sid
      (s.ch.active_table.oldest_cid % s.ch.active_table_size.toNat) ≠ BP_SID_VACANT := by
    rw [← hslot]; exact hocc
  obtain ⟨d0, hd0, hd0c, hd0t⟩ := hhold _ (Nat.le_refl _) hlt hocc2
  rw [← hsid2] at hd0
  have hunused := oldest_sid_unused _ _ _ _ _ hhold hlt
  rw [← hsid2] at hunused
  have hret := hc.retrieve_answers s.env s.sid d0 hok hd0
  have hkeep := hc.retrieve_keeps s.env s.sid hok
  have hrel := hc.relinquish_keeps s.env ch0.bundle_store_handle s.sid hok (Or.inr rfl)
  have hdrop : ∀ fl : Nat, load_held ok out ch0 { s with
        env := E.relinquish s.env ch0.bundle_store_handle s.sid
        ch := incr_lost (set_sid (incr_oldest s.ch) s.ati.toNat BP_SID_VACANT)
        flags := fl } := by
    intro fl
    refine ⟨⟨cN, cD, cB, cT, cW, cR⟩, hcur, hnew, ?_, ?_, ?_, ?_, hrel.1, ?_, ?_⟩
    · show incr32 s.ch.active_table.oldest_cid ≤ s.ch.active_table.current_cid
      omega
    · show s.ch.active_table.current_cid
        < incr32 s.ch.active_table.oldest_cid + s.ch.active_table_size.toNat
      omega
    · intro x hx1 hx2
      exfalso
      have hx3 : x < incr32 s.ch.active_table.oldest_cid + s.ch.active_table_size.toNat := hx2
      have hx4 : s.ch.active_table.current_cid < x := hx1
      omega
    · show slots_hold s.ch.active_table_size.toNat
        (fun i => if i = s.ati.toNat then BP_SID_VACANT else s.ch.active_table.sid i)
        (incr32 s.ch.active_table.oldest_cid) s.ch.active_table.current_cid
        (out (E.relinquish s.env ch0.bundle_store_handle s.sid))
      rw [hinc]
      refine slots_hold_mono _ _ _ _ _ _ _ _ _ hhold (Nat.le_succ _) (Nat.le_refl _) ?_
      intro x hx1 hx2 hx3
      have hx4 : ¬ x % s.ch.active_table_size.toNat = s.ati.toNat := by
        intro e
        apply hx3
        show (if _ = s.ati.toNat then BP_SID_VACANT else _) = BP_SID_VACANT
        rw [if_pos e]
      have hx5 : (if x % s.ch.active_table_size.toNat = s.ati.toNat then BP_SID_VACANT
          else s.ch.active_table.sid (x % s.ch.active_table_size.toNat))
          = s.ch.active_table.sid (x % s.ch.active_table_size.toNat) := if_neg hx4
      refine ⟨hx5, ?_⟩
      have hx6 : s.ch.active_table.sid (x % s.ch.active_table_size.toNat) ≠ BP_SID_VACANT := by
        rw [← hx5]; exact hx3
      exact hrel.2 _ (hunused x hx1 hx2 hx6)
    · intro d hd
      have hd' : s.data = some d := hd
      rw [hdata] at hd'
      cases hd'
    · left
      show (if s.ch.active_table.current_cid % s.ch.active_table_size.toNat = s.ati.toNat
        then BP_SID_VACANT else _) = BP_SID_VACANT
      rw [if_pos hati.symm]
  unfold wrap_response
  dsimp only
  split
  · rename_i hw
    split
    · rename_i env hr
      have := congrArg Prod.snd hr
      have h2 : (E.retrieve s.env ch0.bundle_store_handle s.sid BP_CHECK).2 = none := this
      rw [hret] at h2
      cases h2
    · rename_i env d hr
      have h1 : (E.retrieve s.env ch0.bundle_store_handle s.sid BP_CHECK).1 = env :=
        congrArg Prod.fst hr
      have h2 : (E.retrieve s.env ch0.bundle_store_handle s.sid BP_CHECK).2 = some d :=
        congrArg Prod.snd hr
      rw [hret] at h2
      cases Option.some.inj h2
      rw [h1] at hkeep
      refine ⟨⟨cN, cD, cB, cT, cW, cR⟩, hcur, hnew, ?_, ?_, ?_, ?_, hkeep.1, ?_, ?_⟩
      · show incr32 s.ch.active_table.oldest_cid ≤ s.ch.active_table.current_cid
        omega
      · show s.ch.active_table.current_cid
          < incr32 s.ch.active_table.oldest_cid + s.ch.active_table_size.toNat
        omega
      · intro x hx1 hx2
        exfalso
        have hx3 : x < incr32 s.ch.active_table.oldest_cid + s.ch.active_table_size.toNat := hx2
        have hx4 : s.ch.active_table.current_cid < x := hx1
        omega
      · show slots_hold s.ch.active_table_size.toNat s.ch.active_table.sid
          (incr32 s.ch.active_table.oldest_cid) s.ch.active_table.current_cid (out env)
        rw [hinc]
        refine slots_hold_mono _ _ _ _ _ _ _ _ _ hhold (Nat.le_succ _) (Nat.le_refl _) ?_
        intro x _ _ _
        exact ⟨rfl, hkeep.2 _⟩
      · intro d hd
        cases Option.some.inj hd
        refine ⟨?_, ?_⟩
        · show out env s.sid = some d0
          rw [hkeep.2]; exact hd0
        · show sid_unused s.ch.active_table_size.toNat s.ch.active_table.sid
            (incr32 s.ch.active_table.oldest_cid) s.ch.active_table.current_cid s.sid
          rw [hinc]
          exact hunused
      · right
        exact ⟨hw, hsid.symm, d0, rfl, hd0t⟩
  · rename_i hb
    exact absurd (cW ▸ hb) hwrap
  · exact hdrop _

/-- The still-active branch of the scan on a consistent table. -/
theorem still_active_held {σ : Type} (E : bp_env_t σ) (ok : σ → Prop)
    (out : σ → Nat → Option bp_bundle_data_t) (ch0 : bp_channel_t)
    (s : bp_load_state_t σ)
    (hc : store_contract E ch0.dacs_store_handle ch0.bundle_store_handle ok out)
    (hwrap : ch0.wrap_response ≠ bp_wrap_t.BP_WRAP_BLOCK)
    (hc32 : ch0.active_table.current_cid < UINT32_MOD)
    (hcfg : same_config ch0 s.ch)
    (hcur : s.ch.active_table.current_cid = ch0.active_table.current_cid)
    (hnew : s.newcid = true)
    (htab : table_ok s.ch)
    (hhold : slots_hold s.ch.active_table_size.toNat s.ch.active_table.sid
      s.ch.active_table.oldest_cid s.ch.active_table.current_cid (out s.env))
    (hok : ok s.env)
    (hlt : s.ch.active_table.oldest_cid < s.ch.active_table.current_cid)
    (hold : s.ch.active_table.sid
      (s.ch.active_table.oldest_cid % s.ch.active_table_size.toNat) ≠ BP_SID_VACANT) :
    load_held ok out ch0 (still_active E ch0.bundle_store_handle s) := by
  unfold still_active
  dsimp only
  split
  · rename_i hocc
    exact wrap_response_held E ok out ch0 _ hc hwrap hc32 hcfg hcur hnew htab hhold hok rfl hlt
      (Int.toNat_natCast _) rfl hocc
  · rename_i hvac
    have hvac2 : s.ch.active_table.sid
        (s.ch.active_table.current_cid % s.ch.active_table_size.toNat) = BP_SID_VACANT := by
      by_contra h
      exact hvac h
    refine ⟨hcfg, hcur, hnew, Nat.le_of_lt hlt,
      window_room_of_vacant _ _ _ _ htab hold hvac2, ?_, hhold, hok, ?_, Or.inl hvac2⟩
    · intro x hx1 hx2
      exact htab.2.2 x (Nat.le_of_lt hx1) hx2
    · intro d hd
      cases hd

/-- The scan after the bundle of the oldest slot was retrieved, on a
consistent table without reuse of custody ids. -/
theorem scan_retrieved_held {σ : Type} (E : bp_env_t σ) (ok : σ → Prop)
    (out : σ → Nat → Option bp_bundle_data_t) (ch0 : bp_channel_t) (sysnow : Nat)
    (s : bp_load_state_t σ) (data : bp_bundle_data_t)
    (hc : store_contract E ch0.dacs_store_handle ch0.bundle_store_handle ok out)
    (hwrap : ch0.wrap_response ≠ bp_wrap_t.BP_WRAP_BLOCK)
    (hreuse : ch0.cid_reuse = 0)
    (hc32 : ch0.active_table.current_cid < UINT32_MOD)
    (hcfg : same_config ch0 s.ch)
    (hcur : s.ch.active_table.current_cid = ch0.active_table.current_cid)
    (hnew : s.newcid = true)
    (htab : table_ok s.ch)
    (hhold : slots_hold s.ch.active_table_size.toNat s.ch.active_table.sid
      s.ch.active_table.oldest_cid s.ch.active_table.current_cid (out s.env))
    (hok : ok s.env)
    (hlt : s.ch.active_table.oldest_cid < s.ch.active_table.current_cid)
    (hati : s.ati.toNat = s.ch.active_table.oldest_cid % s.ch.active_table_size.toNat)
    (hsid : s.sid = s.ch.active_table.sid
      (s.ch.active_table.oldest_cid % s.ch.active_table_size.toNat))
    (hold : s.ch.active_table.sid
      (s.ch.active_table.oldest_cid % s.ch.active_table_size.toNat) ≠ BP_SID_VACANT)
    (hout : out s.env s.sid = some data) :
    ((scan_retrieved E sysnow ch0.bundle_store_handle s data).2 = true →
      load_held ok out ch0 (scan_retrieved E sysnow ch0.bundle_store_handle s data).1) ∧
    ((scan_retrieved E sysnow ch0.bundle_store_handle s data).2 = false →
      scan_held ok out ch0 (scan_retrieved E sysnow ch0.bundle_store_handle s data).1) := by
  have hinc : incr32 s.ch.active_table.oldest_cid = s.ch.active_table.oldest_cid + 1 :=
    Nat.mod_eq_of_lt (by omega)
  have hadv : window_ok s.ch.active_table_size.toNat
      (fun j => if j = s.ati.toNat then BP_SID_VACANT else s.ch.active_table.sid j)
      (incr32 s.ch.active_table.oldest_cid) s.ch.active_table.current_cid := by
    rw [hinc]
    refine window_advance _ _ _ _ _ htab hlt ?_ (vacate_sub _ _)
    show (if _ = s.ati.toNat then BP_SID_VACANT else _) = BP_SID_VACANT
    rw [if_pos hati.symm]
  have hunused := oldest_sid_unused _ _ _ _ _ hhold hlt
  rw [← hsid] at hunused
  have hvacated : ∀ x, s.ch.active_table.oldest_cid + 1 ≤ x →
      x < s.ch.active_table.current_cid →
      (fun j => if j = s.ati.toNat then BP_SID_VACANT else s.ch.active_table.sid j)
        (x % s.ch.active_table_size.toNat) ≠ BP_SID_VACANT →
      (fun j => if j = s.ati.toNat then BP_SID_VACANT else s.ch.active_table.sid j)
          (x % s.ch.active_table_size.toNat)
        = s.ch.active_table.sid (x % s.ch.active_table_size.toNat) ∧
      s.ch.active_table.sid (x % s.ch.active_table_size.toNat) ≠ s.sid := by
    intro x hx1 hx2 hx3
    have hx4 : ¬ x % s.ch.active_table_size.toNat = s.ati.toNat := by
      intro e
      apply hx3
      show (if _ = s.ati.toNat then BP_SID_VACANT else _) = BP_SID_VACANT
      rw [if_pos e]
    have hx5 : (if x % s.ch.active_table_size.toNat = s.ati.toNat then BP_SID_VACANT
        else s.ch.active_table.sid (x % s.ch.active_table_size.toNat))
        = s.ch.active_table.sid (x % s.ch.active_table_size.toNat) := if_neg hx4
    refine ⟨hx5, ?_⟩
    have hx6 : s.ch.active_table.sid (x % s.ch.active_table_size.toNat) ≠ BP_SID_VACANT := by
      rw [← hx5]; exact hx3
    exact hunused x hx1 hx2 hx6
  have hrel := hc.relinquish_keeps s.env ch0.bundle_store_handle s.sid hok (Or.inr rfl)
  unfold scan_retrieved
  split
  · refine ⟨fun h => Bool.noConfusion h, fun _ => ?_⟩
    refine ⟨hcfg, hcur, hnew, hadv, ?_, hrel.1, ?_⟩
    · show slots_hold s.ch.active_table_size.toNat
        (fun j => if j = s.ati.toNat then BP_SID_VACANT else s.ch.active_table.sid j)
        (incr32 s.ch.active_table.oldest_cid) s.ch.active_table.current_cid
        (out (E.relinquish s.env ch0.bundle_store_handle s.sid))
      rw [hinc]
      refine slots_hold_mono _ _ _ _ _ _ _ _ _ hhold (Nat.le_succ _) (Nat.le_refl _) ?_
      intro x hx1 hx2 hx3
      obtain ⟨e1, e2⟩ := hvacated x hx1 hx2 hx3
      exact ⟨e1, hrel.2 _ e2⟩
    · intro d hd
      cases hd
  · split
    · split
      · rename_i hr
        exact absurd (hcfg.2.2.2.2.2.trans hreuse) hr
      · refine ⟨fun h => Bool.noConfusion h, fun _ => ?_⟩
        refine ⟨hcfg, hcur, hnew, hadv, ?_, hok, ?_⟩
        · show slots_hold s.ch.active_table_size.toNat
            (fun j => if j = s.ati.toNat then BP_SID_VACANT else s.ch.active_table.sid j)
            (incr32 s.ch.active_table.oldest_cid) s.ch.active_table.current_cid (out s.env)
          rw [hinc]
          refine slots_hold_mono _ _ _ _ _ _ _ _ _ hhold (Nat.le_succ _) (Nat.le_refl _) ?_
          intro x hx1 hx2 hx3
          exact ⟨(hvacated x hx1 hx2 hx3).1, rfl⟩
        · intro d hd
          cases Option.some.inj hd
          refine ⟨?_, hout, ?_⟩
          · show s.ch.active_table.current_cid
              < incr32 s.ch.active_table.oldest_cid + s.ch.active_table_size.toNat
            have := htab.2.1
            omega
          · show sid_unused s.ch.active_table_size.toNat
              (fun j => if j = s.ati.toNat then BP_SID_VACANT else s.ch.active_table.sid j)
              (incr32 s.ch.active_table.oldest_cid) s.ch.active_table.current_cid s.sid
            rw [hinc]
            refine sid_unused_mono _ _ _ _ _ _ _ _ hunused (Nat.le_refl _) (Nat.le_refl _) ?_
            intro x hx1 hx2 hx3
            exact (hvacated x hx1 hx2 hx3).1
    · refine ⟨fun _ => ?_, fun h => Bool.noConfusion h⟩
      exact still_active_held E ok out ch0 s hc hwrap hc32 hcfg hcur hnew htab hhold hok hlt hold

/-- One pass of the scan on a consistent table without reuse of custody ids:
the loop goes on with a consistent table or is left with room in the table. -/
theorem scan_body_held {σ : Type} (E : bp_env_t σ) (ok : σ → Prop)
    (out : σ → Nat → Option bp_bundle_data_t) (ch0 : bp_channel_t) (sysnow : Nat)
    (s : bp_load_state_t σ)
    (hc : store_contract E ch0.dacs_store_handle ch0.bundle_store_handle ok out)
    (hwrap : ch0.wrap_response ≠ bp_wrap_t.BP_WRAP_BLOCK)
    (hreuse : ch0.cid_reuse = 0)
    (hc32 : ch0.active_table.current_cid < UINT32_MOD)
    (hinv : scan_held ok out ch0 s)
    (hdata : s.data = none)
    (hlt : s.ch.active_table.oldest_cid < s.ch.active_table.current_cid) :
    ((scan_body E sysnow ch0.bundle_store_handle s).2 = true →
      load_held ok out ch0 (scan_body E sysnow ch0.bundle_store_handle s).1) ∧
    ((scan_body E sysnow ch0.bundle_store_handle s).2 = false →
      scan_held ok out ch0 (scan_body E sysnow ch0.bundle_store_handle s).1) := by
  obtain ⟨hcfg, hcur, hnew, htab, hhold, hok, _⟩ := hinv
  have hinc : incr32 s.ch.active_table.oldest_cid = s.ch.active_table.oldest_cid + 1 :=
    Nat.mod_eq_of_lt (by omega)
  unfold scan_body
  dsimp only
  split
  · rename_i hvac
    refine ⟨fun h => Bool.noConfusion h, fun _ => ?_⟩
    refine ⟨hcfg, hcur, hnew, ?_, ?_, hok, ?_⟩
    · show window_ok s.ch.active_table_size.toNat s.ch.active_table.sid
        (incr32 s.ch.active_table.oldest_cid) s.ch.active_table.current_cid
      rw [hinc]
      exact window_advance _ _ _ _ _ htab hlt hvac (fun i => Or.inl rfl)
    · show slots_hold s.ch.active_table_size.toNat s.ch.active_table.sid
        (incr32 s.ch.active_table.oldest_cid) s.ch.active_table.current_cid (out s.env)
      rw [hinc]
      refine slots_hold_mono _ _ _ _ _ _ _ _ _ hhold (Nat.le_succ _) (Nat.le_refl _) ?_
      intro x _ _ _
      exact ⟨rfl, rfl⟩
    · intro d hd
      have hd' : s.data = some d := hd
      rw [hdata] at hd'
      cases hd'
  · rename_i hocc
    obtain ⟨d0, hd0, _, _⟩ := hhold _ (Nat.le_refl _) hlt hocc
    have hret := hc.retrieve_answers s.env _ d0 hok hd0
    have hkeep := hc.retrieve_keeps s.env
      (s.ch.active_table.sid (slot_of s.ch s.ch.active_table.oldest_cid)) hok
    split
    · rename_i env data hr
      have h1 : (E.retrieve s.env ch0.bundle_store_handle
          (s.ch.active_table.sid (slot_of s.ch s.ch.active_table.oldest_cid)) BP_CHECK).1
          = env := congrArg Prod.fst hr
      have h2 : (E.retrieve s.env ch0.bundle_store_handle
          (s.ch.active_table.sid (slot_of s.ch s.ch.active_table.oldest_cid)) BP_CHECK).2
          = some data := congrArg Prod.snd hr
      have h3 : (E.retrieve s.env ch0.bundle_store_handle
          (s.ch.active_table.sid (slot_of s.ch s.ch.active_table.oldest_cid)) BP_CHECK).2
          = some d0 := hret
      rw [h2] at h3
      cases Option.some.inj h3
      rw [h1] at hkeep
      refine scan_retrieved_held E ok out ch0 sysnow _ _ hc hwrap hreuse hc32 hcfg hcur hnew
        htab ?_ hkeep.1 hlt (Int.toNat_natCast _) rfl hocc ?_
      · show slots_hold s.ch.active_table_size.toNat s.ch.active_table.sid
          s.ch.active_table.oldest_cid s.ch.active_table.current_cid (out env)
        refine slots_hold_mono _ _ _ _ _ _ _ _ _ hhold (Nat.le_refl _) (Nat.le_refl _) ?_
        intro x _ _ _
        exact ⟨rfl, hkeep.2 _⟩
      · show out env _ = some _
        rw [hkeep.2]
        exact hd0
    · rename_i env hr
      have h2 : (E.retrieve s.env ch0.bundle_store_handle
          (s.ch.active_table.sid (slot_of s.ch s.ch.active_table.oldest_cid)) BP_CHECK).2
          = none := congrArg Prod.snd hr
      have h3 : (E.retrieve s.env ch0.bundle_store_handle
          (s.ch.active_table.sid (slot_of s.ch s.ch.active_table.oldest_cid)) BP_CHECK).2
          = some d0 := hret
      rw [h2] at h3
      cases h3

/-- The scan loop on a consistent table without reuse of custody ids ends with
room in the table. -/
theorem scan_loop_held {σ : Type} (E : bp_env_t σ) (ok : σ → Prop)
    (out : σ → Nat → Option bp_bundle_data_t) (ch0 : bp_channel_t) (sysnow : Nat)
    (fuel : Nat) (s s1 : bp_load_state_t σ)
    (hN : 0 < ch0.active_table_size)
    (hc : store_contract E ch0.dacs_store_handle ch0.bundle_store_handle ok out)
    (hwrap : ch0.wrap_response ≠ bp_wrap_t.BP_WRAP_BLOCK)
    (hreuse : ch0.cid_reuse = 0)
    (hc32 : ch0.active_table.current_cid < UINT32_MOD)
    (hinv : scan_held ok out ch0 s)
    (h : scan_loop E sysnow ch0.bundle_store_handle fuel s = some s1) :
    load_held ok out ch0 s1 := by
  refine scan_loop_post E sysnow ch0.bundle_store_handle (scan_held ok out ch0)
    (load_held ok out ch0)
    (fun t hi hd hlt => scan_body_held E ok out ch0 sysnow t hc hwrap hreuse hc32 hi hd hlt)
    ?_ fuel s s1 hinv h
  intro t hi hcond
  obtain ⟨hcfg, hcur, hnew, htab, hhold, hok, hcand⟩ := hi
  have hNt : 0 < t.ch.active_table_size.toNat := by
    rw [hcfg.1]; omega
  have hr : t.ch.active_table.current_cid
      < t.ch.active_table.oldest_cid + t.ch.active_table_size.toNat := by
    cases hd : t.data with
    | none =>
      have : ¬ t.ch.active_table.oldest_cid < t.ch.active_table.current_cid :=
        fun hlt => hcond ⟨hd, hlt⟩
      have := htab.1
      omega
    | some d => exact (hcand d hd).1
  refine ⟨hcfg, hcur, hnew, htab.1, hr, ?_, hhold, hok, ?_,
    Or.inl (htab.2.2 _ (Nat.le_refl _) hr)⟩
  · intro x hx1 hx2
    exact htab.2.2 x (Nat.le_of_lt hx1) hx2
  · intro d hd
    exact (hcand d hd).2

/-- One pass of the dequeue loop keeps the room that the scan has left, and
the bundle it hands on is under a storage id that no slot holds. -/
theorem dequeue_body_held {σ : Type} (E : bp_env_t σ) (ok : σ → Prop)
    (out : σ → Nat → Option bp_bundle_data_t) (ch0 : bp_channel_t) (sysnow : Nat)
    (timeout : Int) (s : bp_load_state_t σ)
    (hc : store_contract E ch0.dacs_store_handle ch0.bundle_store_handle ok out)
    (hpost : load_held ok out ch0 s) (hdata : s.data = none) :
    load_held ok out ch0 (dequeue_body E sysnow ch0.bundle_store_handle timeout s).1 := by
  obtain ⟨hcfg, hcur, hnew, h1, h2, h3, hhold, hok, _, h4⟩ := hpost
  have hvac : s.ch.active_table.sid
      (s.ch.active_table.current_cid % s.ch.active_table_size.toNat) = BP_SID_VACANT := by
    rcases h4 with h | ⟨_, _, d, hd, _⟩
    · exact h
    · rw [hdata] at hd; cases hd
  have hdq := hc.dequeue_hands_out s.env ch0.bundle_store_handle timeout hok (Or.inr rfl)
  unfold dequeue_body
  split
  · rename_i env data sid hr
    rw [hr] at hdq
    obtain ⟨hok1, hnew1, _⟩ := hdq
    obtain ⟨hfresh, hthere, hothers⟩ := hnew1 data sid rfl
    have hunused := fresh_sid_unused _ _ _ _ _ hhold sid hfresh
    have hhold1 : slots_hold s.ch.active_table_size.toNat s.ch.active_table.sid
        s.ch.active_table.oldest_cid s.ch.active_table.current_cid (out env) := by
      refine slots_hold_mono _ _ _ _ _ _ _ _ _ hhold (Nat.le_refl _) (Nat.le_refl _) ?_
      intro x hx1 hx2 hx3
      exact ⟨rfl, hothers _ (hunused x hx1 hx2 hx3)⟩
    split
    · have hrel := hc.relinquish_keeps env ch0.bundle_store_handle sid hok1 (Or.inr rfl)
      refine ⟨hcfg, hcur, hnew, h1, h2, h3, ?_, hrel.1, ?_, Or.inl hvac⟩
      · refine slots_hold_mono _ _ _ _ _ _ _ _ _ hhold1 (Nat.le_refl _) (Nat.le_refl _) ?_
        intro x hx1 hx2 hx3
        exact ⟨rfl, hrel.2 _ (hunused x hx1 hx2 hx3)⟩
      · intro d hd
        cases hd
    · refine ⟨hcfg, hcur, hnew, h1, h2, h3, hhold1, hok1, ?_, Or.inl hvac⟩
      intro d hd
      cases Option.some.inj hd
      exact ⟨hthere, hunused⟩
  · rename_i env hr
    rw [hr] at hdq
    obtain ⟨hok1, _, hsame⟩ := hdq
    have hs := hsame (fun d sid h => by cases h)
    refine ⟨hcfg, hcur, hnew, h1, h2, h3, ?_, hok1, ?_, Or.inl hvac⟩
    · refine slots_hold_mono _ _ _ _ _ _ _ _ _ hhold (Nat.le_refl _) (Nat.le_refl _) ?_
      intro x _ _ _
      exact ⟨rfl, hs _⟩
    · intro d hd
      have hd' : s.data = some d := hd
      rw [hdata] at hd'
      cases hd'
  · rename_i env hr
    rw [hr] at hdq
    obtain ⟨hok1, _, hsame⟩ := hdq
    have hs := hsame (fun d sid h => by cases h)
    refine ⟨hcfg, hcur, hnew, h1, h2, h3, ?_, hok1, ?_, Or.inl hvac⟩
    · refine slots_hold_mono _ _ _ _ _ _ _ _ _ hhold (Nat.le_refl _) (Nat.le_refl _) ?_
      intro x _ _ _
      exact ⟨rfl, hs _⟩
    · intro d hd
      have hd' : s.data = some d := hd
      rw [hdata] at hd'
      cases hd'

/-- The dequeue loop keeps the room that the scan has left. -/
theorem dequeue_loop_held {σ : Type} (E : bp_env_t σ) (ok : σ → Prop)
    (out : σ → Nat → Option bp_bundle_data_t) (ch0 : bp_channel_t) (sysnow : Nat)
    (timeout : Int)
    (hc : store_contract E ch0.dacs_store_handle ch0.bundle_store_handle ok out) :
    ∀ (fuel : Nat) (s s2 : bp_load_state_t σ), load_held ok out ch0 s →
      dequeue_loop E sysnow ch0.bundle_store_handle timeout fuel s = some s2 →
      load_held ok out ch0 s2 := by
  intro fuel
  induction fuel with
  | zero =>
    intro s s2 hp h
    unfold dequeue_loop at h
    split at h
    · simp at h
    · cases Option.some.inj h
      exact hp
  | succ f ih =>
    intro s s2 hp h
    unfold dequeue_loop at h
    split at h
    · rename_i hd
      have hb := dequeue_body_held E ok out ch0 sysnow timeout s hc hp hd
      dsimp only at h
      split at h
      · cases Option.some.inj h
        exact hb
      · exact ih _ _ hb h
    · cases Option.some.inj h
      exact hp

/-- Lines 781-790 of `bplib_load` when a new custody id is assigned: the slot
of `current_cid` takes the storage id, the bundle is stamped with
`current_cid`, which is then incremented, and the storage service has the
stamped bundle. -/
theorem assign_custody_new {σ : Type} (E : bp_env_t σ) (sysnow : Nat) (store_handle : Int)
    (s : bp_load_state_t σ) (data : bp_bundle_data_t) (hnew : s.newcid = true) :
    (assign_custody E sysnow store_handle s data).1.ch.active_table.sid
      = (fun i => if i = s.ch.active_table.current_cid % s.ch.active_table_size.toNat
          then s.sid else s.ch.active_table.sid i) ∧
    (assign_custody E sysnow store_handle s data).1.ch.active_table.oldest_cid
      = s.ch.active_table.oldest_cid ∧
    (assign_custody E sysnow store_handle s data).1.ch.active_table.current_cid
      = incr32 s.ch.active_table.current_cid ∧
    (assign_custody E sysnow store_handle s data).1.ch.active_table_size
      = s.ch.active_table_size ∧
    same_config s.ch (assign_custody E sysnow store_handle s data).1.ch ∧
    (assign_custody E sysnow store_handle s data).1.env
      = E.written s.env store_handle s.sid (stamp_cid E data s.ch.active_table.current_cid) ∧
    (assign_custody E sysnow store_handle s data).2
      = stamp_cid E data s.ch.active_table.current_cid := by
  unfold assign_custody
  rw [if_pos hnew]
  exact ⟨rfl, rfl, rfl, rfl, same_config_refl _, rfl, rfl⟩

/-- The load section after the loops: the table is consistent again and its
slots hold the storage ids of bundles with their custody ids, unless the call
gives up for the buffer on a bundle that the wrap response RESEND has left in
its slot. -/
theorem load_bundle_held {σ : Type} (E : bp_env_t σ) (ok : σ → Prop)
    (out : σ → Nat → Option bp_bundle_data_t) (a : bp_load_args_t)
    (ch0 : bp_channel_t) (s : bp_load_state_t σ)
    (hc : store_contract E ch0.dacs_store_handle ch0.bundle_store_handle ok out)
    (hc1 : ch0.active_table.current_cid + 1 < UINT32_MOD)
    (hpost : load_held ok out ch0 s)
    (hfail : ch0.wrap_response = bp_wrap_t.BP_WRAP_RESEND →
      (load_bundle E a ch0.bundle_store_handle s).status ≠ bp_status_t.BP_BUNDLETOOLARGE ∧
      (load_bundle E a ch0.bundle_store_handle s).status ≠ bp_status_t.BP_FAILEDMEM) :
    channel_held ok out (load_bundle E a ch0.bundle_store_handle s).ch
      (load_bundle E a ch0.bundle_store_handle s).env ∧
    same_config ch0 (load_bundle E a ch0.bundle_store_handle s).ch ∧
    (load_bundle E a ch0.bundle_store_handle s).ch.active_table.current_cid
      ≤ ch0.active_table.current_cid + 1 := by
  obtain ⟨hcfg, hcur, hnew, h1, h2, h3, hhold, hok, hcand, h4⟩ := hpost
  have hvacant : s.ch.active_table.sid
      (s.ch.active_table.current_cid % s.ch.active_table_size.toNat) = BP_SID_VACANT →
      table_ok s.ch := by
    intro hv
    refine ⟨h1, Nat.le_of_lt h2, ?_⟩
    intro x hx1 hx2
    by_cases hx : x = s.ch.active_table.current_cid
    · rw [hx]; exact hv
    · exact h3 x (by omega) hx2
  have hinc : incr32 s.ch.active_table.current_cid = s.ch.active_table.current_cid + 1 :=
    Nat.mod_eq_of_lt (by omega)
  -- the bundle is relinquished and the table is left as it is
  have hgiveup : ∀ d, s.data = some d →
      s.ch.active_table.sid
        (s.ch.active_table.current_cid % s.ch.active_table_size.toNat) = BP_SID_VACANT →
      table_ok s.ch ∧ ok (E.relinquish s.env ch0.bundle_store_handle s.sid) ∧
      slots_hold s.ch.active_table_size.toNat s.ch.active_table.sid
        s.ch.active_table.oldest_cid s.ch.active_table.current_cid
        (out (E.relinquish s.env ch0.bundle_store_handle s.sid)) := by
    intro d hd hv
    have hrel := hc.relinquish_keeps s.env ch0.bundle_store_handle s.sid hok (Or.inr rfl)
    refine ⟨hvacant hv, hrel.1, ?_⟩
    refine slots_hold_mono _ _ _ _ _ _ _ _ _ hhold (Nat.le_refl _) (Nat.le_refl _) ?_
    intro x hx1 hx2 hx3
    exact ⟨rfl, hrel.2 _ ((hcand d hd).2 x hx1 hx2 hx3)⟩
  have hresend : ¬ s.ch.active_table.sid
        (s.ch.active_table.current_cid % s.ch.active_table_size.toNat) = BP_SID_VACANT →
      ch0.wrap_response = bp_wrap_t.BP_WRAP_RESEND := by
    intro hv
    rcases h4 with h | ⟨hw, _, _⟩
    · exact absurd h hv
    · exact hcfg.2.2.2.2.1 ▸ hw
  unfold load_bundle at hfail ⊢
  cases hd : s.data with
  | none =>
    simp only [hd] at hfail ⊢
    rcases h4 with hv | ⟨_, _, d, hd2, _⟩
    · exact ⟨⟨hvacant hv, hok, hhold⟩, hcfg, by omega⟩
    · rw [hd] at hd2; cases hd2
  | some data =>
    simp only [hd] at hfail ⊢
    by_cases hbuf : a.buffer_null = true ∨ a.size ≥ data.bundlesize
    · rw [if_pos hbuf] at hfail ⊢
      by_cases hmem : a.buffer_null = false ∨ a.malloc_ok = true
      · rw [if_pos hmem]
        by_cases hct : data.cteboffset ≠ 0
        · have hct2 : ¬ data.cteboffset = 0 := hct
          have hw := hc.written_stores s.env s.sid
            (stamp_cid E data s.ch.active_table.current_cid)
            hok (by rw [(hcand data hd).1]; exact fun h => Option.noConfusion h)
          obtain ⟨e1, e2, e3, e4, e5, e6, _⟩ :=
            assign_custody_new E a.sysnow ch0.bundle_store_handle s data hnew
          simp only [if_pos hct, if_neg hct2]
          refine ⟨⟨?_, ?_, ?_⟩, ?_, ?_⟩
          · show window_ok
              (assign_custody E a.sysnow ch0.bundle_store_handle s
                data).1.ch.active_table_size.toNat
              (assign_custody E a.sysnow ch0.bundle_store_handle s data).1.ch.active_table.sid
              (assign_custody E a.sysnow ch0.bundle_store_handle s
                data).1.ch.active_table.oldest_cid
              (assign_custody E a.sysnow ch0.bundle_store_handle s
                data).1.ch.active_table.current_cid
            rw [e1, e2, e3, e4, hinc]
            exact window_assign _ _ _ _ _ h1 h2 h3
          · show ok (assign_custody E a.sysnow ch0.bundle_store_handle s data).1.env
            rw [e6]
            exact hw.1
          · show slots_hold
              (assign_custody E a.sysnow ch0.bundle_store_handle s
                data).1.ch.active_table_size.toNat
              (assign_custody E a.sysnow ch0.bundle_store_handle s data).1.ch.active_table.sid
              (assign_custody E a.sysnow ch0.bundle_store_handle s
                data).1.ch.active_table.oldest_cid
              (assign_custody E a.sysnow ch0.bundle_store_handle s
                data).1.ch.active_table.current_cid
              (out (assign_custody E a.sysnow ch0.bundle_store_handle s data).1.env)
            rw [e1, e2, e3, e4, e6, hinc]
            intro x hx1 hx2 hx3
            by_cases hx : x = s.ch.active_table.current_cid
            · subst hx
              refine ⟨stamp_cid E data s.ch.active_table.current_cid, ?_, rfl, hct⟩
              show out _ (if _ = _ then s.sid else _) = _
              rw [if_pos rfl]
              exact hw.2.1
            · have hne : x % s.ch.active_table_size.toNat
                  ≠ s.ch.active_table.current_cid % s.ch.active_table_size.toNat :=
                (mod_ne_of_lt_add _ x _ (by omega) (by omega)).symm
              have e : (fun i => if i = s.ch.active_table.current_cid
                    % s.ch.active_table_size.toNat
                  then s.sid else s.ch.active_table.sid i) (x % s.ch.active_table_size.toNat)
                  = s.ch.active_table.sid (x % s.ch.active_table_size.toNat) := if_neg hne
              rw [e] at hx3 ⊢
              obtain ⟨d1, k1, k2, k3⟩ := hhold x hx1 (by omega) hx3
              refine ⟨d1, ?_, k2, k3⟩
              rw [hw.2.2 _ ((hcand data hd).2 x hx1 (by omega) hx3)]
              exact k1
          · obtain ⟨cN, cD, cB, cT, cW, cR⟩ := hcfg
            obtain ⟨dN, dD, dB, dT, dW, dR⟩ := e5
            exact ⟨dN.trans cN, dD.trans cD, dB.trans cB, dT.trans cT, dW.trans cW,
              dR.trans cR⟩
          · show (assign_custody E a.sysnow ch0.bundle_store_handle s
            data).1.ch.active_table.current_cid
              ≤ _
            rw [e3]
            omega
        · have hc0 : data.cteboffset = 0 := by
            by_contra h
            exact hct h
          simp only [if_neg hct, if_pos hc0]
          have hv : s.ch.active_table.sid
              (s.ch.active_table.current_cid % s.ch.active_table_size.toNat)
              = BP_SID_VACANT := by
            rcases h4 with hv | ⟨_, _, d, hd2, hd3⟩
            · exact hv
            · rw [hd] at hd2
              cases Option.some.inj hd2
              exact absurd hc0 hd3
          obtain ⟨g1, g2, g3⟩ := hgiveup data hd hv
          exact ⟨⟨g1, g2, g3⟩, hcfg, by show s.ch.active_table.current_cid ≤ _; omega⟩
      · rw [if_neg hmem] at hfail ⊢
        have hv : s.ch.active_table.sid
            (s.ch.active_table.current_cid % s.ch.active_table_size.toNat)
            = BP_SID_VACANT := by
          by_contra hv
          exact (hfail (hresend hv)).2 rfl
        obtain ⟨g1, g2, g3⟩ := hgiveup data hd hv
        exact ⟨⟨g1, g2, g3⟩, hcfg, by show s.ch.active_table.current_cid ≤ _; omega⟩
    · rw [if_neg hbuf] at hfail ⊢
      have hv : s.ch.active_table.sid
          (s.ch.active_table.current_cid % s.ch.active_table_size.toNat)
          = BP_SID_VACANT := by
        by_contra hv
        exact (hfail (hresend hv)).1 rfl
      obtain ⟨g1, g2, g3⟩ := hgiveup data hd hv
      exact ⟨⟨g1, g2, g3⟩, hcfg, by show s.ch.active_table.current_cid ≤ _; omega⟩

/-- The load section of a bundle without CTEB relinquishes the bundle, whether
it is copied to the caller or not. -/
theorem load_bundle_plain {σ : Type} (E : bp_env_t σ) (a : bp_load_args_t)
    (store_handle : Int) (s : bp_load_state_t σ) (d : bp_bundle_data_t)
    (hd : s.data = some d) (hc : d.cteboffset = 0) :
    (load_bundle E a store_handle s).env = E.relinquish s.env store_handle s.sid := by
  have hc2 : ¬ d.cteboffset ≠ 0 := fun h => h hc
  unfold load_bundle
  simp only [hd]
  split
  · split
    · simp only [if_neg hc2, if_pos hc]
    · rfl
  · rfl

/-- The call when no DACS record is ready, on a consistent table and a storage
service that keeps its contract. -/
theorem load_data_held {σ : Type} (E : bp_env_t σ) (ok : σ → Prop)
    (out : σ → Nat → Option bp_bundle_data_t) (ch : bp_channel_t) (env : σ)
    (a : bp_load_args_t) (s : bp_load_state_t σ)
    (hN : 0 < ch.active_table_size)
    (hc : store_contract E ch.dacs_store_handle ch.bundle_store_handle ok out)
    (hwrap : ch.wrap_response ≠ bp_wrap_t.BP_WRAP_BLOCK)
    (hreuse : ch.cid_reuse = 0)
    (hc1 : ch.active_table.current_cid + 1 < UINT32_MOD)
    (hheld : channel_held ok out ch env)
    (hq : ∀ d sid, (check_dacs E ch env a).2 ≠ bp_dequeue_t.ok d sid)
    (h : load_data_bundle E a
      { ch := ch, env := (check_dacs E ch env a).1.1, data := none, sid := BP_SID_VACANT,
        ati := -1, newcid := true, status := bp_status_t.BP_SUCCESS,
        flags := (check_dacs E ch env a).1.2 } = some s)
    (hfail : ch.wrap_response = bp_wrap_t.BP_WRAP_RESEND →
      (load_bundle E a ch.bundle_store_handle s).status ≠ bp_status_t.BP_BUNDLETOOLARGE ∧
      (load_bundle E a ch.bundle_store_handle s).status ≠ bp_status_t.BP_FAILEDMEM) :
    channel_held ok out (load_bundle E a ch.bundle_store_handle s).ch
      (load_bundle E a ch.bundle_store_handle s).env ∧
    same_config ch (load_bundle E a ch.bundle_store_handle s).ch ∧
    (load_bundle E a ch.bundle_store_handle s).ch.active_table.current_cid
      ≤ ch.active_table.current_cid + 1 := by
  obtain ⟨htab, hok, hhold⟩ := hheld
  have hcheck := hc.dacs_check_keeps env ch.dacs_rate a.sysnow hok
  have hdq := hc.dequeue_hands_out
    (E.dacs_check env ch.dacs_rate a.sysnow ch.dacs_store_handle).1 ch.dacs_store_handle
    BP_CHECK hcheck.1 (Or.inl rfl)
  have hsame := hdq.2.2 hq
  unfold load_data_bundle at h
  dsimp only at h
  split at h
  · simp at h
  · rename_i s1 hs1
    have hinv : scan_held ok out ch
        ({ ch := ch, env := (check_dacs E ch env a).1.1, data := none,
           sid := BP_SID_VACANT, ati := -1, newcid := true,
           status := bp_status_t.BP_SUCCESS, flags := (check_dacs E ch env a).1.2 } :
          bp_load_state_t σ) := by
      refine ⟨same_config_refl ch, rfl, rfl, htab, ?_, hdq.1, ?_⟩
      · refine slots_hold_mono _ _ _ _ _ _ _ _ _ hhold (Nat.le_refl _) (Nat.le_refl _) ?_
        intro x _ _ _
        refine ⟨rfl, ?_⟩
        show out (E.dequeue (E.dacs_check env ch.dacs_rate a.sysnow ch.dacs_store_handle).1
          ch.dacs_store_handle BP_CHECK).1 _ = _
        rw [hsame, hcheck.2]
      · intro d hd
        cases hd
    have hp1 := scan_loop_held E ok out ch a.sysnow a.fuel _ s1 hN hc hwrap hreuse
      (by omega) hinv hs1
    have hp2 := dequeue_loop_held E ok out ch a.sysnow a.timeout hc a.fuel s1 s hp1 h
    exact load_bundle_held E ok out a ch s hc hc1 hp2 hfail

/-- One call of `bplib_load` keeps the active table consistent and its slots
hold the storage ids of bundles with their custody ids, when custody ids are
not reused, the wrap response is not BLOCK, and a call under the wrap response
RESEND does not give up for the buffer. -/
theorem load_held_ok {σ : Type} (E : bp_env_t σ) (ok : σ → Prop)
    (out : σ → Nat → Option bp_bundle_data_t) (ch : bp_channel_t) (env : σ)
    (a : bp_load_args_t) (r : bp_load_result_t σ)
    (hN : 0 < ch.active_table_size)
    (hc : store_contract E ch.dacs_store_handle ch.bundle_store_handle ok out)
    (hwrap : ch.wrap_response ≠ bp_wrap_t.BP_WRAP_BLOCK)
    (hreuse : ch.cid_reuse = 0)
    (hc1 : ch.active_table.current_cid + 1 < UINT32_MOD)
    (hheld : channel_held ok out ch env)
    (h : bplib_load E ch env a = some r)
    (hfail : ch.wrap_response = bp_wrap_t.BP_WRAP_RESEND →
      r.status ≠ bp_status_t.BP_BUNDLETOOLARGE ∧ r.status ≠ bp_status_t.BP_FAILEDMEM) :
    channel_held ok out r.ch r.env ∧ same_config ch r.ch ∧
    r.ch.active_table.current_cid ≤ ch.active_table.current_cid + 1 := by
  unfold bplib_load at h
  dsimp only at h
  cases hq : (check_dacs E ch env a).2 with
  | ok d sid =>
    rw [hq] at h
    dsimp only at h
    cases Option.some.inj h
    obtain ⟨htab, hok, hhold⟩ := hheld
    have hcheck := hc.dacs_check_keeps env ch.dacs_rate a.sysnow hok
    have hdq := hc.dequeue_hands_out
      (E.dacs_check env ch.dacs_rate a.sysnow ch.dacs_store_handle).1 ch.dacs_store_handle
      BP_CHECK hcheck.1 (Or.inl rfl)
    have hq2 : (E.dequeue (E.dacs_check env ch.dacs_rate a.sysnow ch.dacs_store_handle).1
        ch.dacs_store_handle BP_CHECK).2 = bp_dequeue_t.ok d sid := hq
    have hplain : d.cteboffset = 0 := hc.records_plain _ _ d sid hcheck.1 hq2
    obtain ⟨hfresh, _, hothers⟩ := hdq.2.1 d sid hq2
    have hrel := hc.relinquish_keeps
      (E.dequeue (E.dacs_check env ch.dacs_rate a.sysnow ch.dacs_store_handle).1
        ch.dacs_store_handle BP_CHECK).1 ch.dacs_store_handle sid hdq.1 (Or.inl rfl)
    have hholdA : slots_hold ch.active_table_size.toNat ch.active_table.sid
        ch.active_table.oldest_cid ch.active_table.current_cid
        (out (E.dacs_check env ch.dacs_rate a.sysnow ch.dacs_store_handle).1) := by
      refine slots_hold_mono _ _ _ _ _ _ _ _ _ hhold (Nat.le_refl _) (Nat.le_refl _) ?_
      intro x _ _ _
      exact ⟨rfl, hcheck.2 _⟩
    have hunused := fresh_sid_unused _ _ _ _ _ hholdA sid hfresh
    obtain ⟨l1, l2⟩ := load_bundle_no_custody E a ch.dacs_store_handle
      ({ ch := ch, env := (check_dacs E ch env a).1.1, data := some d, sid := sid, ati := -1,
         newcid := true, status := bp_status_t.BP_SUCCESS,
         flags := (check_dacs E ch env a).1.2 ||| BP_FLAG_ROUTENEEDED } : bp_load_state_t σ)
      d rfl hplain
    have l3 := load_bundle_plain E a ch.dacs_store_handle
      ({ ch := ch, env := (check_dacs E ch env a).1.1, data := some d, sid := sid, ati := -1,
         newcid := true, status := bp_status_t.BP_SUCCESS,
         flags := (check_dacs E ch env a).1.2 ||| BP_FLAG_ROUTENEEDED } : bp_load_state_t σ)
      d rfl hplain
    refine ⟨⟨?_, ?_, ?_⟩, l2, ?_⟩
    · exact table_ok_congr _ _ l1 l2.1 htab
    · show ok (load_bundle E a ch.dacs_store_handle _).env
      rw [l3]
      exact hrel.1
    · show slots_hold (load_bundle E a ch.dacs_store_handle _).ch.active_table_size.toNat
        (load_bundle E a ch.dacs_store_handle _).ch.active_table.sid
        (load_bundle E a ch.dacs_store_handle _).ch.active_table.oldest_cid
        (load_bundle E a ch.dacs_store_handle _).ch.active_table.current_cid
        (out (load_bundle E a ch.dacs_store_handle _).env)
      rw [l1, l2.1, l3]
      refine slots_hold_mono _ _ _ _ _ _ _ _ _ hholdA (Nat.le_refl _) (Nat.le_refl _) ?_
      intro x hx1 hx2 hx3
      refine ⟨rfl, ?_⟩
      have hne := hunused x hx1 hx2 hx3
      show out (E.relinquish (E.dequeue _ ch.dacs_store_handle BP_CHECK).1
        ch.dacs_store_handle sid) _ = _
      rw [hrel.2 _ hne, hothers _ hne]
    · show (load_bundle E a ch.dacs_store_handle _).ch.active_table.current_cid ≤ _
      rw [l1]
      exact Nat.le_succ _
  | timeout =>
    rw [hq] at h
    dsimp only at h
    split at h
    · simp at h
    · rename_i s hs
      cases Option.some.inj h
      exact load_data_held E ok out ch env a s hN hc hwrap hreuse hc1 hheld
        (fun d sid e => by rw [hq] at e; cases e) hs hfail
  | failed =>
    rw [hq] at h
    dsimp only at h
    split at h
    · simp at h
    · rename_i s hs
      cases Option.some.inj h
      exact load_data_held E ok out ch env a s hN hc hwrap hreuse hc1 hheld
        (fun d sid e => by rw [hq] at e; cases e) hs hfail

/-- Every sequence of calls keeps the active table consistent, with slots that
hold the storage ids of bundles with their custody ids, when custody ids are
not reused, the wrap response is not BLOCK, no call under the wrap response
RESEND gives up for the buffer, and the rest of the system leaves the objects
that are handed out. -/
theorem run_loads_held {σ : Type} (E : bp_env_t σ) (ok : σ → Prop)
    (out : σ → Nat → Option bp_bundle_data_t) :
    ∀ (cs : List ((σ → σ) × bp_load_args_t)) (ch : bp_channel_t) (env : σ)
      (r : List bp_status_t × bp_channel_t × σ),
      0 < ch.active_table_size →
      store_contract E ch.dacs_store_handle ch.bundle_store_handle ok out →
      ch.wrap_response ≠ bp_wrap_t.BP_WRAP_BLOCK →
      ch.cid_reuse = 0 →
      channel_held ok out ch env →
      (∀ c ∈ cs, ∀ e, ok e → ok (c.1 e) ∧ ∀ s, out (c.1 e) s = out e s) →
      ch.active_table.current_cid + cs.length < UINT32_MOD →
      run_loads E ch env cs = some r →
      (ch.wrap_response = bp_wrap_t.BP_WRAP_RESEND →
        ∀ st ∈ r.1, st ≠ bp_status_t.BP_BUNDLETOOLARGE ∧ st ≠ bp_status_t.BP_FAILEDMEM) →
      channel_held ok out r.2.1 r.2.2 ∧ same_config ch r.2.1 := by
  intro cs
  induction cs with
  | nil =>
    intro ch env r _ _ _ _ hheld _ _ h _
    unfold run_loads at h
    cases Option.some.inj h
    exact ⟨hheld, same_config_refl ch⟩
  | cons c cs ih =>
    intro ch env r hN hc hwrap hreuse hheld hbetween hlen h hfail
    rw [List.length_cons] at hlen
    unfold run_loads at h
    split at h
    · simp at h
    · rename_i r1 hr1
      split at h
      · simp at h
      · rename_i rs hrs
        cases Option.some.inj h
        obtain ⟨htab, hok, hhold⟩ := hheld
        have hb := hbetween c (List.mem_cons_self _ _) env hok
        have hheld1 : channel_held ok out ch (c.1 env) := by
          refine ⟨htab, hb.1, ?_⟩
          refine slots_hold_mono _ _ _ _ _ _ _ _ _ hhold (Nat.le_refl _) (Nat.le_refl _) ?_
          intro x _ _ _
          exact ⟨rfl, hb.2 _⟩
        obtain ⟨t1, t2, t3⟩ := load_held_ok E ok out ch (c.1 env) c.2 r1 hN hc hwrap hreuse
          (by omega) hheld1 hr1 (fun hw => hfail hw r1.status (List.mem_cons_self _ _))
        obtain ⟨cN, cD, cB, cT, cW, cR⟩ := t2
        obtain ⟨i1, i2⟩ := ih r1.ch r1.env rs (by rw [cN]; exact hN)
          (by rw [cD, cB]; exact hc) (by rw [cW]; exact hwrap) (by rw [cR]; exact hreuse)
          t1 (fun c' hc' => hbetween c' (List.mem_cons_of_mem _ hc')) (by omega) hrs
          (fun hw st hst => hfail (cW ▸ hw) st (List.mem_cons_of_mem _ hst))
        obtain ⟨dN, dD, dB, dT, dW, dR⟩ := i2
        exact ⟨i1, dN.trans cN, dD.trans cD, dB.trans cB, dT.trans cT, dW.trans cW,
          dR.trans cR⟩

/-- C14, without reuse of custody ids: after every sequence of fewer than
4294967296 calls of `bplib_load` on an opened channel with `cid_reuse = 0` and
the wrap response DROP, or RESEND when no call returns `BP_BUNDLETOOLARGE` or
`BP_FAILEDMEM`, on a storage service that keeps its contract (with DACS records
without CTEB) and is left alone between the calls as far as its handed-out
objects go, every non-vacant slot `i` of the table is the slot of exactly one
custody id `c` with `oldest_cid <= c < current_cid` and `c mod N = i`; the
storage id in the slot is that of a bundle that is handed out and not
relinquished, which `retrieve` returns, which has a CTEB and carries `c` as its
custody id; and no other slot holds that storage id. -/
theorem C14_occupied_slot_holds_one_bundle {σ : Type} (E : bp_env_t σ) (ok : σ → Prop)
    (out : σ → Nat → Option bp_bundle_data_t) (ch : bp_channel_t)
    (env : σ) (cs : List ((σ → σ) × bp_load_args_t))
    (r : List bp_status_t × bp_channel_t × σ)
    (hopen : Opened ch)
    (hreuse : ch.cid_reuse = 0)
    (hwrap : ch.wrap_response ≠ bp_wrap_t.BP_WRAP_BLOCK)
    (hstore : store_contract E ch.dacs_store_handle ch.bundle_store_handle ok out)
    (henv : ok env)
    (hrest : ∀ c ∈ cs, ∀ e, ok e → ok (c.1 e) ∧ ∀ s, out (c.1 e) s = out e s)
    (hlen : cs.length < UINT32_MOD)
    (h : run_loads E ch env cs = some r)
    (hfail : ch.wrap_response = bp_wrap_t.BP_WRAP_RESEND →
      ∀ st ∈ r.1, st ≠ bp_status_t.BP_BUNDLETOOLARGE ∧ st ≠ bp_status_t.BP_FAILEDMEM) :
    ∀ i, i < r.2.1.active_table_size.toNat →
      r.2.1.active_table.sid i ≠ BP_SID_VACANT →
      (∃! c, (r.2.1.active_table.oldest_cid ≤ c ∧ c < r.2.1.active_table.current_cid) ∧
        c % r.2.1.active_table_size.toNat = i) ∧
      (∃ c d, (r.2.1.active_table.oldest_cid ≤ c ∧ c < r.2.1.active_table.current_cid) ∧
        c % r.2.1.active_table_size.toNat = i ∧
        out r.2.2 (r.2.1.active_table.sid i) = some d ∧
        (E.retrieve r.2.2 r.2.1.bundle_store_handle (r.2.1.active_table.sid i) BP_CHECK).2
          = some d ∧
        d.cidsdnv.value = c ∧ d.cteboffset ≠ 0) ∧
      (∀ j, j < r.2.1.active_table_size.toNat →
        r.2.1.active_table.sid j = r.2.1.active_table.sid i → j = i) := by
  obtain ⟨hN, hvac, ho, hc⟩ := hopen
  have htab : table_ok ch := by
    refine ⟨by rw [ho, hc], by rw [ho, hc]; omega, fun x _ _ => hvac _⟩
  have hheld : channel_held ok out ch env := by
    refine ⟨htab, henv, ?_⟩
    intro x _ _ hocc
    exact absurd (hvac _) hocc
  obtain ⟨⟨t1, t2, t3⟩, cN, cD, cB, cT, cW, cR⟩ :=
    run_loads_held E ok out cs ch env r hN hstore hwrap hreuse hheld hrest
      (by rw [hc]; omega) h hfail
  have hNr : 0 < r.2.1.active_table_size.toNat := by rw [cN]; omega
  have hstore2 : store_contract E r.2.1.dacs_store_handle r.2.1.bundle_store_handle ok out := by
    rw [cD, cB]; exact hstore
  intro i hi hocc
  have huniq := window_unique _ _ _ _ hNr t1 i hi hocc
  obtain ⟨c, ⟨⟨hc1, hc2⟩, hc3⟩, hcu⟩ := huniq
  have hocc2 : r.2.1.active_table.sid (c % r.2.1.active_table_size.toNat)
      ≠ BP_SID_VACANT := by
    rw [hc3]; exact hocc
  obtain ⟨d, hd1, hd2, hd3⟩ := t3 c hc1 hc2 hocc2
  rw [hc3] at hd1
  refine ⟨⟨c, ⟨⟨hc1, hc2⟩, hc3⟩, hcu⟩, ⟨c, d, ⟨hc1, hc2⟩, hc3, hd1, ?_, hd2, hd3⟩, ?_⟩
  · exact hstore2.retrieve_answers _ _ d t2 hd1
  · intro j hj he
    have hoccj : r.2.1.active_table.sid j ≠ BP_SID_VACANT := by
      rw [he]; exact hocc
    obtain ⟨c', ⟨⟨hc1', hc2'⟩, hc3'⟩, _⟩ := window_unique _ _ _ _ hNr t1 j hj hoccj
    have hocc3 : r.2.1.active_table.sid (c' % r.2.1.active_table_size.toNat)
        ≠ BP_SID_VACANT := by
      rw [hc3']; exact hoccj
    have := slots_hold_unique _ _ _ _ _ t3 c' c hc1' hc2' hc1 hc2 hocc3
      (by rw [hc3', hc3]; exact he)
    rw [← hc3', ← hc3, this]

/-- C14 at four calls on an opened channel with two slots, the wrap response
RESEND and a retransmit timeout of 10, on the simple storage service with
three custody bundles under the storage ids 1, 2, 3: the bundles 1 and 2 are
loaded at time 0 with the custody ids 0 and 1, the load at time 5 finds the
table full and resends bundle 1 with custody id 2, and the load at time 10
resends the timed-out bundle 2 with custody id 3; afterwards slot 0 holds
storage id 1 and slot 1 holds storage id 2, with `oldest_cid = 2` and
`current_cid = 4`. -/
theorem C14_witness :
    (run_loads ref_env (opened_channel 2 10 bp_wrap_t.BP_WRAP_RESEND 0)
        ⟨[(1, custody_bundle 0), (2, custody_bundle 0), (3, custody_bundle 0)], [], []⟩
        [load_at 0, load_at 0, load_at 5, load_at 10]).map
      (fun r => (r.1, r.2.1.active_table.sid 0, r.2.1.active_table.sid 1,
        r.2.1.active_table.oldest_cid, r.2.1.active_table.current_cid))
    = some ([bp_status_t.BP_SUCCESS, bp_status_t.BP_SUCCESS, bp_status_t.BP_SUCCESS,
        bp_status_t.BP_SUCCESS], 1, 2, 2, 4) ∧
    ∃ r, run_loads ref_env (opened_channel 2 10 bp_wrap_t.BP_WRAP_RESEND 0)
        ⟨[(1, custody_bundle 0), (2, custody_bundle 0), (3, custody_bundle 0)], [], []⟩
        [load_at 0, load_at 0, load_at 5, load_at 10] = some r ∧
      ∀ i, i < r.2.1.active_table_size.toNat →
        r.2.1.active_table.sid i ≠ BP_SID_VACANT →
        (∃! c, (r.2.1.active_table.oldest_cid ≤ c ∧ c < r.2.1.active_table.current_cid) ∧
          c % r.2.1.active_table_size.toNat = i) ∧
        (∃ c d, (r.2.1.active_table.oldest_cid ≤ c ∧ c < r.2.1.active_table.current_cid) ∧
          c % r.2.1.active_table_size.toNat = i ∧
          ref_out r.2.2 (r.2.1.active_table.sid i) = some d ∧
          (ref_env.retrieve r.2.2 r.2.1.bundle_store_handle (r.2.1.active_table.sid i)
            BP_CHECK).2 = some d ∧
          d.cidsdnv.value = c ∧ d.cteboffset ≠ 0) ∧
        (∀ j, j < r.2.1.active_table_size.toNat →
          r.2.1.active_table.sid j = r.2.1.active_table.sid i → j = i) :=
  ⟨by decide,
    match h : run_loads ref_env (opened_channel 2 10 bp_wrap_t.BP_WRAP_RESEND 0)
        ⟨[(1, custody_bundle 0), (2, custody_bundle 0), (3, custody_bundle 0)], [], []⟩
        [load_at 0, load_at 0, load_at 5, load_at 10] with
    | some r => ⟨r, rfl, C14_occupied_slot_holds_one_bundle ref_env ref_ok ref_out
        (opened_channel 2 10 bp_wrap_t.BP_WRAP_RESEND 0)
        ⟨[(1, custody_bundle 0), (2, custody_bundle 0), (3, custody_bundle 0)], [], []⟩
        [load_at 0, load_at 0, load_at 5, load_at 10] r
        ⟨by decide, fun _ => rfl, rfl, rfl⟩ rfl (by decide) ref_contract (by decide)
        (fun c hc e he => by
          have hid : c.1 = id := by
            simp only [List.mem_cons, List.mem_singleton, List.not_mem_nil, or_false] at hc
            rcases hc with hc | hc | hc | hc <;> rw [hc] <;> rfl
          rw [hid]
          exact ⟨he, fun _ => rfl⟩)
        (by decide) h
        (fun _ => by
          have h1 : (run_loads ref_env (opened_channel 2 10 bp_wrap_t.BP_WRAP_RESEND 0)
              ⟨[(1, custody_bundle 0), (2, custody_bundle 0), (3, custody_bundle 0)], [], []⟩
              [load_at 0, load_at 0, load_at 5, load_at 10]).map (fun r => r.1)
              = some [bp_status_t.BP_SUCCESS, bp_status_t.BP_SUCCESS, bp_status_t.BP_SUCCESS,
                bp_status_t.BP_SUCCESS] := by
            decide
          rw [h] at h1
          simp only [Option.map_some', Option.some.injEq] at h1
          rw [h1]
          decide)⟩
    | none => absurd (show (run_loads ref_env
          (opened_channel 2 10 bp_wrap_t.BP_WRAP_RESEND 0)
          ⟨[(1, custody_bundle 0), (2, custody_bundle 0), (3, custody_bundle 0)], [], []⟩
          [load_at 0, load_at 0, load_at 5, load_at 10]).isSome = true
        by decide) (by rw [h]; decide)⟩

end Bplib
